import Mathlib

/-! # VeraCrypt volume formatter (`src/Common/Format.c`)

A shallow embedding of the volume formatter: the layout calculator
(`GetVolumeDataAreaSize`, the prologue of `TCFormatVolume`), the sector writer
(`WriteSector`, `FlushFormatWriteBuffer`), the fill engine (`FormatNoFs`) and the
orchestrator (`TCFormatVolume`).

Machine integers are natural numbers reduced modulo `2^64` where the C code computes in
64 bits.  Collaborators that live outside `Format.c` (device layer, header builder, cipher,
random number generator, external file-system formatter, user dialogs) are oracles of an
environment record; every call the orchestrator makes to them is recorded in a trace.
-/

namespace VeraCrypt

/-! ## Constants of the headers included by `Format.c` -/

/-- Modelled from the spec: the preprocessor constants of `Tcdefs.h`, `Volumes.h`,
`Crypto.h` and `Fat.h`, which `Format.c` uses and which are declared outside it.  They are
taken as a parameter of every definition. -/
structure Consts where
  TC_MIN_VOLUME_SECTOR_SIZE : Nat
  TC_MAX_VOLUME_SECTOR_SIZE : Nat
  ENCRYPTION_DATA_UNIT_SIZE : Nat
  TC_VOLUME_HEADER_EFFECTIVE_SIZE : Nat
  TC_VOLUME_HEADER_GROUP_SIZE : Nat
  TC_TOTAL_VOLUME_HEADERS_SIZE : Nat
  TC_VOLUME_DATA_OFFSET : Nat
  TC_HIDDEN_VOLUME_HEADER_OFFSET : Nat
  TC_HIDDEN_VOLUME_HOST_FS_RESERVED_END_AREA_SIZE : Nat
  TC_HIDDEN_VOLUME_HOST_FS_RESERVED_END_AREA_SIZE_HIGH : Nat
  TC_VOLUME_SMALL_SIZE_THRESHOLD : Nat
  TC_MIN_HIDDEN_VOLUME_HOST_SIZE : Nat
  TC_MAX_HIDDEN_VOLUME_HOST_SIZE : Nat
  TC_MAX_FAT_SECTOR_COUNT : Nat
  EXCL_ACCESS_MAX_AUTO_RETRIES : Nat
  MASTER_KEYDATA_SIZE : Nat
  deriving Repr, DecidableEq

/-- Modelled from the spec: the values the constants have in the VeraCrypt headers
(512-byte data unit, 64 KiB header, header group of two headers, four headers in total,
sector sizes from 512 to 4096 bytes).  Used for concrete runs only. -/
def veraCryptConsts : Consts where
  TC_MIN_VOLUME_SECTOR_SIZE := 512
  TC_MAX_VOLUME_SECTOR_SIZE := 4096
  ENCRYPTION_DATA_UNIT_SIZE := 512
  TC_VOLUME_HEADER_EFFECTIVE_SIZE := 512
  TC_VOLUME_HEADER_GROUP_SIZE := 131072
  TC_TOTAL_VOLUME_HEADERS_SIZE := 262144
  TC_VOLUME_DATA_OFFSET := 131072
  TC_HIDDEN_VOLUME_HEADER_OFFSET := 65536
  TC_HIDDEN_VOLUME_HOST_FS_RESERVED_END_AREA_SIZE := 4096
  TC_HIDDEN_VOLUME_HOST_FS_RESERVED_END_AREA_SIZE_HIGH := 131072
  TC_VOLUME_SMALL_SIZE_THRESHOLD := 2097152
  TC_MIN_HIDDEN_VOLUME_HOST_SIZE := 348160
  TC_MAX_HIDDEN_VOLUME_HOST_SIZE := 140737488093184
  TC_MAX_FAT_SECTOR_COUNT := 4294967296
  EXCL_ACCESS_MAX_AUTO_RETRIES := 500
  MASTER_KEYDATA_SIZE := 256

/-! ## 64-bit machine arithmetic -/

/-- The modulus of `uint64` / `unsigned __int64`. -/
def two64 : Nat := 2 ^ 64

/-- The `uint64` subtraction `a - b` (wraps around below zero). -/
def sub64 (a b : Nat) : Nat := (a % two64 + two64 - b % two64) % two64

/-- The `uint64` addition `a + b`. -/
def add64 (a b : Nat) : Nat := (a + b) % two64

/-- The `uint64` multiplication `a * b`. -/
def mul64 (a b : Nat) : Nat := (a * b) % two64

/-- The value of a 64-bit pattern read as a signed `__int64`. -/
def toInt64 (a : Nat) : Int :=
  if a % two64 < 2 ^ 63 then ((a % two64 : Nat) : Int) else ((a % two64 : Nat) : Int) - (two64 : Int)

/-- The 64-bit pattern of an integer (two's complement). -/
def ofInt64 (i : Int) : Nat := (i % (two64 : Int)).toNat

/-! ## `GetVolumeDataAreaSize` (lines 44-78) -/

/-- The reserved size selected by `GetVolumeDataAreaSize` (lines 48-72). -/
def reservedSize (c : Consts) (hiddenVolume : Bool) (volumeSize : Nat) : Nat :=
  if hiddenVolume then
    if volumeSize < c.TC_VOLUME_SMALL_SIZE_THRESHOLD then
      c.TC_HIDDEN_VOLUME_HOST_FS_RESERVED_END_AREA_SIZE
    else
      c.TC_HIDDEN_VOLUME_HOST_FS_RESERVED_END_AREA_SIZE_HIGH
  else
    c.TC_TOTAL_VOLUME_HEADERS_SIZE

/-- `uint64 GetVolumeDataAreaSize (BOOL hiddenVolume, uint64 volumeSize)`. -/
def GetVolumeDataAreaSize (c : Consts) (hiddenVolume : Bool) (volumeSize : Nat) : Nat :=
  let reservedSize := reservedSize c hiddenVolume volumeSize
  if volumeSize < reservedSize then 0
  else sub64 volumeSize reservedSize

/-! ## Status codes, crypto context, trace events -/

/-- The exit codes `Format.c` returns (`ERR_*` of `Tcdefs.h`); `other` stands for any
further code a collaborator may return. -/
inductive Status where
  | ERR_SUCCESS
  | ERR_OS_ERROR
  | ERR_OUTOFMEMORY
  | ERR_VOL_SIZE_WRONG
  | ERR_PARAMETER_INCORRECT
  | ERR_MODE_INIT_FAILED
  | ERR_VOL_MOUNT_FAILED
  | ERR_NO_FREE_DRIVES
  | ERR_DONT_REPORT
  | other (code : Nat)
  deriving Repr, DecidableEq

/-- The C test `nStatus != 0`. -/
def Status.failed (s : Status) : Bool := s != Status.ERR_SUCCESS

/-- The fields of `CRYPTO_INFO` that `Format.c` reads or writes.  `ks` and `ks2` record the
key bytes the primary and the secondary key schedule were last initialised from. -/
structure CRYPTO_INFO where
  ea : Nat
  ks : List Nat
  ks2 : List Nat
  k2 : List Nat
  master_keydata : List Nat
  hiddenVolumeOffset : Nat
  deriving Repr, DecidableEq

/-- Modelled from the spec: the cipher collaborator (`EncryptDataUnits` of `Crypto.c`), a
function applied per data unit with the absolute unit number as tweak, keyed by the two key
schedules of the crypto context; it encrypts in place, so it keeps the length. -/
structure Cipher where
  encUnit : List Nat → List Nat → Nat → List Nat → List Nat
  length_encUnit : ∀ ks ks2 u d, (encUnit ks ks2 u d).length = d.length

/-- The buffers `Format.c` locks, burns and unlocks. -/
inductive Buf where
  | header
  | temporaryKey
  | originalK2
  | tmpCI
  deriving Repr, DecidableEq

/-- The four places of `TCFormatVolume` that build a header and write it. -/
inductive HeaderSite where
  | primary
  | backup
  | decoy (bUpdateBackup : Bool)
  deriving Repr, DecidableEq

/-- The dialogs and error messages `Format.c` shows. -/
inductive Msg where
  | SECTOR_SIZE_UNSUPPORTED
  | FORMAT_CANT_DISMOUNT_FILESYS
  | DEVICE_IN_USE_FORMAT
  | CANT_ACCESS_VOL
  | ADMIN_PRIVILEGES_WARN_MANAGE_VOLUME
  | NO_FREE_DRIVES
  | FORMAT_NTFS_STOP
  | CANT_MOUNT_VOLUME
  | CANT_DISMOUNT_VOLUME
  | FORMAT_NTFS_FAILED_ASK_FAT
  | FORMAT_NTFS_FAILED
  deriving Repr, DecidableEq

/-- The file systems of `volParams->fileSystem`; `unknown` is any other value. -/
inductive FileSys where
  | FILESYS_NONE
  | FILESYS_FAT
  | FILESYS_NTFS
  | FILESYS_EXFAT
  | FILESYS_REFS
  | unknown
  deriving Repr, DecidableEq

set_option maxHeartbeats 1000000 in
/-- One observable step of the formatter: a call to a collaborator with its result, or an
operation on a key or header buffer. -/
inductive Event where
  | Error (m : Msg)
  | MessageBox (m : Msg) (yes : Bool)
  | VirtualLock (b : Buf)
  | burn (b : Buf)
  | VirtualUnlock (b : Buf)
  | CreateVolumeHeaderInMemory (site : HeaderSite) (presetMasterKey : Bool) (nullPassword : Bool)
      (status : Status)
  | crypto_close (dummy : Bool)
  | FakeDosNameForDevice (ok : Bool)
  | RemoveFakeDosName
  | DismountDrive (ok : Bool)
  | AllowExtendedDasdIo (ok : Bool)
  | AssignTemporaryDriveLetter
  | CreateFile (shared : Bool) (createAlways : Bool) (ok : Bool)
  | CloseHandle
  | FlushFileBuffers
  | IsVolumeMounted (yes : Bool)
  | GetFileTime (ok : Bool)
  | SetFileTime
  | DisableFileCompression
  | SetSparse (ok : Bool)
  | Preallocate (size : Nat) (ok : Bool)
  | SetPrivilege (ok : Bool)
  | SetFileValidData (size : Nat) (ok : Bool)
  | SetFilePointer (offset : Nat) (ok : Bool)
  | SetEndOfFile
  | WriteEffectiveVolumeHeader (site : HeaderSite) (offset : Nat) (ok : Bool)
  | WriteZeros (offset : Nat) (size : Nat) (ok : Bool)
  | StartFormatWriteThread (ok : Bool)
  | StopFormatWriteThread
  | FormatNoFs (startSector : Nat) (num_sectors : Nat) (quickFormat : Bool)
  | FormatFat (startSector : Nat) (num_sectors : Nat) (quickFormat : Bool) (status : Status)
  | GetFatParams (num_sectors : Nat) (sector_size : Nat) (cluster_size : Nat)
  | realClusterSize (bytes : Nat)
  | TCalloc (ok : Bool)
  | TCfree
  | RandgetBytes (len : Nat) (ok : Bool)
  | EAInit (key : List Nat) (status : Status)
  | EAInitMode (k2 : List Nat) (ok : Bool)
  | EncryptDataUnits (unitNo : Nat) (nUnits : Nat) (plain : List Nat) (ks ks2 : List Nat)
  | WriteFile (data : List Nat) (ok : Bool)
  | WorkerWrite (data : List Nat) (result : Nat)
  | UpdateProgressBar (bytes : Nat) (cancel : Bool)
  | WriteRandomDataToReservedHeaderAreas (status : Status)
  | Sleep
  | MountVolume (ok : Bool)
  | ExternalFormatFs (ok : Bool)
  | FormatFs (uac : Bool) (ok : Bool)
  | UnmountVolume (ok : Bool)
  | AskErrYesNo (m : Msg) (yes : Bool)
  deriving Repr, DecidableEq

/-! ## Sector writer (`WriteSector`, `FlushFormatWriteBuffer`, lines 1270-1294, 1410-1449) -/

/-- Oracles of the sector writer and of the fill engine: the device layer, the random
number generator, the key-schedule initialisation, the progress reporter and the
background writer.  Device and progress oracles are indexed by the number of the call. -/
structure FillEnv where
  FormatWriteBufferSize : Nat
  IsRamEncryptionEnabled : Bool
  VcUnprotectKeys : CRYPTO_INFO → CRYPTO_INFO
  VcProtectKeys : CRYPTO_INFO → CRYPTO_INFO
  SetFilePointerEx : Nat → Bool
  TCalloc : Bool
  RandgetBytes : Nat → Nat → Bool × List Nat
  EAGetKeySize : Nat → Nat
  EAInit : Nat → List Nat → Status
  EAInitMode : CRYPTO_INFO → List Nat → Bool
  timerElapsed : Nat → Bool
  UpdateProgressBar : Nat → Nat → Bool
  WriteFile : Nat → Bool
  waitEmptyOk : Nat → Bool
  workerWriteResult : Nat → Nat
  setFullOk : Nat → Bool
  uninitialised : List Nat

/-- The variables the sector writer works on: the write buffer and its fill count, the
running sector number (a 64-bit pattern), the state shared with the background writer, the
numbers of flushes and of `WriteSector` calls so far, and the trace.  `write_buf` holds the
bytes of the buffer up to the last byte copied into it; no code reads beyond
`write_buf_cnt`. -/
structure WriterState where
  write_buf : List Nat
  write_buf_cnt : Nat
  nSecNo : Nat
  WriteThreadRunning : Bool
  WriteRequestResult : Nat
  nFlush : Nat
  nCalls : Nat
  trace : List Event
  deriving Repr, DecidableEq

/-- An integer reduced to the range of `__int64`. -/
def wrap64 (i : Int) : Int := toInt64 (ofInt64 i)

/-- Line 1418: `(*nSecNo * FormatSectorSize - *write_buf_cnt) / ENCRYPTION_DATA_UNIT_SIZE`,
computed in `__int64` and stored into the unsigned `unitNo.Value`. -/
def flushUnitNo (c : Consts) (FormatSectorSize : Nat) (nSecNo write_buf_cnt : Nat) : Nat :=
  ofInt64 (Int.tdiv (wrap64 (wrap64 (toInt64 nSecNo * (FormatSectorSize : Int))
    - (write_buf_cnt : Int))) (c.ENCRYPTION_DATA_UNIT_SIZE : Int))

/-- The `i`-th data unit of a buffer. -/
def dataUnit (c : Consts) (buf : List Nat) (i : Nat) : List Nat :=
  (buf.drop (i * c.ENCRYPTION_DATA_UNIT_SIZE)).take c.ENCRYPTION_DATA_UNIT_SIZE

/-- Modelled from the spec: `EncryptDataUnits (buf, &unitNo, nUnits, cryptoInfo)` of
`Crypto.c`, which encrypts the first `nUnits` data units of the buffer in place, unit `i`
under the tweak `unitNo + i`. -/
def EncryptDataUnits (c : Consts) (cipher : Cipher) (ci : CRYPTO_INFO) (buf : List Nat)
    (unitNo nUnits : Nat) : List Nat :=
  ((List.range nUnits).map (fun i =>
      cipher.encUnit ci.ks ci.ks2 (add64 unitNo i) (dataUnit c buf i))).flatten
    ++ buf.drop (nUnits * c.ENCRYPTION_DATA_UNIT_SIZE)

/-- `BOOL FlushFormatWriteBuffer (dev, write_buf, write_buf_cnt, nSecNo, cryptoInfo)`. -/
def FlushFormatWriteBuffer (c : Consts) (cipher : Cipher) (env : FillEnv)
    (FormatSectorSize : Nat) (ci : CRYPTO_INFO) (s : WriterState) : Bool × WriterState :=
  if s.write_buf_cnt = 0 then (true, s)
  else
    let unitNo := flushUnitNo c FormatSectorSize s.nSecNo s.write_buf_cnt
    let nUnits := s.write_buf_cnt / c.ENCRYPTION_DATA_UNIT_SIZE
    let plain := s.write_buf.take s.write_buf_cnt
    let enc := EncryptDataUnits c cipher ci plain unitNo nUnits
    let s1 := { s with write_buf := enc,
                       trace := s.trace ++ [Event.EncryptDataUnits unitNo nUnits plain ci.ks ci.ks2] }
    if s.WriteThreadRunning then
      if !env.waitEmptyOk s.nFlush then (false, s1)
      else if s.WriteRequestResult ≠ 0 then (false, s1)
      else if !env.setFullOk s.nFlush then (false, s1)
      else
        (true, { s1 with write_buf_cnt := 0,
                         WriteRequestResult := env.workerWriteResult s.nFlush,
                         nFlush := s.nFlush + 1,
                         trace := s1.trace ++ [Event.WorkerWrite enc (env.workerWriteResult s.nFlush)] })
    else
      if !env.WriteFile s.nFlush then
        (false, { s1 with nFlush := s.nFlush + 1, trace := s1.trace ++ [Event.WriteFile enc false] })
      else
        (true, { s1 with write_buf_cnt := 0, nFlush := s.nFlush + 1,
                         trace := s1.trace ++ [Event.WriteFile enc true] })

/-- The value `nSecNo * FormatSectorSize` reported to the progress bar (lines 941, 1286). -/
def progressBytes (FormatSectorSize nSecNo : Nat) : Nat :=
  ofInt64 (toInt64 nSecNo * (FormatSectorSize : Int))

/-- `BOOL WriteSector (dev, sector, write_buf, write_buf_cnt, nSecNo, cryptoInfo)`.  The test
`GetTickCount () - updateTime > 25` is the oracle `timerElapsed`. -/
def WriteSector (c : Consts) (cipher : Cipher) (env : FillEnv) (FormatSectorSize : Nat)
    (ci : CRYPTO_INFO) (sector : List Nat) (s : WriterState) : Bool × WriterState :=
  let s1 := { s with nSecNo := add64 s.nSecNo 1,
                     write_buf := s.write_buf.take s.write_buf_cnt ++ sector.take FormatSectorSize,
                     write_buf_cnt := s.write_buf_cnt + FormatSectorSize,
                     nCalls := s.nCalls + 1 }
  let r := if s1.write_buf_cnt = env.FormatWriteBufferSize then
      FlushFormatWriteBuffer c cipher env FormatSectorSize ci s1
    else (true, s1)
  if !r.1 then (false, r.2)
  else if env.timerElapsed s.nCalls then
    let bytes := progressBytes FormatSectorSize r.2.nSecNo
    let cancel := env.UpdateProgressBar s.nCalls bytes
    (!cancel, { r.2 with trace := r.2.trace ++ [Event.UpdateProgressBar bytes cancel] })
  else (true, r.2)

/-! ## Fill engine (`FormatNoFs`, lines 850-989) -/

/-- A buffer of `n` zero bytes (`memset (.., 0, n)`, `burn`). -/
def zeros (n : Nat) : List Nat := List.replicate n 0

/-- The buffer after `len` bytes have been stored at its start. -/
def storeBytes (buf bytes : List Nat) (len : Nat) : List Nat :=
  bytes.take len ++ buf.drop (bytes.take len).length

/-- `burn (&tmpCI, sizeof (CRYPTO_INFO))`. -/
def burnCryptoInfo (ci : CRYPTO_INFO) : CRYPTO_INFO :=
  { ea := 0, ks := zeros ci.ks.length, ks2 := zeros ci.ks2.length, k2 := zeros ci.k2.length,
    master_keydata := zeros ci.master_keydata.length, hiddenVolumeOffset := 0 }

/-- What `FormatNoFs` leaves behind when it returns: the return value, the caller's crypto
context, the local copy `tmpCI` (used when RAM encryption is enabled), the local key
buffers `temporaryKey` and `originalK2`, the writer variables and the trace. -/
structure FormatNoFsResult where
  retVal : Status
  cryptoInfo : CRYPTO_INFO
  tmpCI : Option CRYPTO_INFO
  temporaryKey : List Nat
  originalK2 : List Nat
  write_buf_cnt : Nat
  nSecNo : Nat
  WriteRequestResult : Nat
  trace : List Event
  deriving Repr, DecidableEq

/-- The loop of lines 928-933: `while (num_sectors--) WriteSector (...)`. -/
def fillLoop (c : Consts) (cipher : Cipher) (env : FillEnv) (FormatSectorSize : Nat)
    (ci : CRYPTO_INFO) (sector : List Nat) : Nat → WriterState → Bool × WriterState
  | 0, s => (true, s)
  | n + 1, s =>
    let r := WriteSector c cipher env FormatSectorSize ci sector s
    if !r.1 then (false, r.2) else fillLoop c cipher env FormatSectorSize ci sector n r.2

/-- The common tail of the success exit (lines 956-969) and of `fail:` (lines 971-989): both
key buffers are burned and unlocked, the write buffer is freed, and with RAM encryption the
local context copy is burned.  `cryptoInfo` is the caller's context on entry, `ci` the
context the function worked on. -/
def formatNoFsExit (c : Consts) (env : FillEnv) (cryptoInfo ci : CRYPTO_INFO)
    (retVal : Status) (w : WriterState) : FormatNoFsResult :=
  { retVal := retVal,
    cryptoInfo := if env.IsRamEncryptionEnabled then cryptoInfo else ci,
    tmpCI := if env.IsRamEncryptionEnabled then some (burnCryptoInfo ci) else none,
    temporaryKey := zeros c.MASTER_KEYDATA_SIZE,
    originalK2 := zeros c.MASTER_KEYDATA_SIZE,
    write_buf_cnt := w.write_buf_cnt,
    nSecNo := w.nSecNo,
    WriteRequestResult := w.WriteRequestResult,
    trace := w.trace ++ [Event.burn Buf.temporaryKey, Event.burn Buf.originalK2,
        Event.VirtualUnlock Buf.temporaryKey, Event.VirtualUnlock Buf.originalK2, Event.TCfree]
      ++ (if env.IsRamEncryptionEnabled then [Event.burn Buf.tmpCI, Event.VirtualUnlock Buf.tmpCI]
          else []) }

/-- The value of `return (retVal ? retVal : ERR_OS_ERROR)` at `fail:`. -/
def failStatus (retVal : Status) : Status :=
  if retVal.failed then retVal else Status.ERR_OS_ERROR

/-- Lines 941-969: report the progress, restore the original secondary key, reinitialise the
cipher with the real master key, and leave. -/
def formatNoFsRestore (c : Consts) (env : FillEnv) (FormatSectorSize : Nat)
    (cryptoInfo ci : CRYPTO_INFO) (originalK2 : List Nat) (w : WriterState) : FormatNoFsResult :=
  if (env.EAInit ci.ea ci.master_keydata).failed then
    formatNoFsExit c env cryptoInfo { ci with k2 := originalK2 }
      (failStatus (env.EAInit ci.ea ci.master_keydata))
      { w with trace := w.trace ++
          [Event.UpdateProgressBar (progressBytes FormatSectorSize w.nSecNo)
             (env.UpdateProgressBar w.nCalls (progressBytes FormatSectorSize w.nSecNo)),
           Event.EAInit ci.master_keydata (env.EAInit ci.ea ci.master_keydata)] }
  else if !env.EAInitMode
      { ci with k2 := originalK2, ks := ci.master_keydata.take (env.EAGetKeySize ci.ea) }
      originalK2 then
    formatNoFsExit c env cryptoInfo
      { ci with k2 := originalK2, ks := ci.master_keydata.take (env.EAGetKeySize ci.ea) }
      Status.ERR_MODE_INIT_FAILED
      { w with trace := w.trace ++
          [Event.UpdateProgressBar (progressBytes FormatSectorSize w.nSecNo)
             (env.UpdateProgressBar w.nCalls (progressBytes FormatSectorSize w.nSecNo)),
           Event.EAInit ci.master_keydata Status.ERR_SUCCESS,
           Event.EAInitMode originalK2 false] }
  else
    formatNoFsExit c env cryptoInfo
      { ci with k2 := originalK2, ks := ci.master_keydata.take (env.EAGetKeySize ci.ea),
                ks2 := originalK2 }
      Status.ERR_SUCCESS
      { w with trace := w.trace ++
          [Event.UpdateProgressBar (progressBytes FormatSectorSize w.nSecNo)
             (env.UpdateProgressBar w.nCalls (progressBytes FormatSectorSize w.nSecNo)),
           Event.EAInit ci.master_keydata Status.ERR_SUCCESS,
           Event.EAInitMode originalK2 true] }

/-- Appends events to the trace of the writer. -/
def WriterState.emit (w : WriterState) (evs : List Event) : WriterState :=
  { w with trace := w.trace ++ evs }

/-- The buffer `temporaryKey` after line 906 has drawn the temporary master key. -/
def temporaryKeyOf (env : FillEnv) (ci : CRYPTO_INFO) : List Nat :=
  storeBytes env.uninitialised (env.RandgetBytes 0 (env.EAGetKeySize ci.ea)).2
    (env.EAGetKeySize ci.ea)

/-- The field `k2` after line 910 has drawn the temporary secondary key. -/
def temporaryK2Of (c : Consts) (env : FillEnv) (ci : CRYPTO_INFO) : List Nat :=
  storeBytes ci.k2 (env.RandgetBytes 1 c.MASTER_KEYDATA_SIZE).2 c.MASTER_KEYDATA_SIZE

/-- Lines 906-921: the temporary master key and the temporary secondary key are drawn and
the cipher is initialised with them.  Returns the value of `retVal` at a jump to `fail`
(`none` when the code falls through to line 923), the crypto context and the writer. -/
def installTemporaryKeys (c : Consts) (env : FillEnv) (ci : CRYPTO_INFO) (w : WriterState) :
    Option Status × CRYPTO_INFO × WriterState :=
  if !(env.RandgetBytes 0 (env.EAGetKeySize ci.ea)).1 then
    (some Status.ERR_SUCCESS, ci,
      w.emit [Event.RandgetBytes (env.EAGetKeySize ci.ea) false])
  else if !(env.RandgetBytes 1 c.MASTER_KEYDATA_SIZE).1 then
    (some Status.ERR_SUCCESS, { ci with k2 := temporaryK2Of c env ci },
      w.emit [Event.RandgetBytes (env.EAGetKeySize ci.ea) true,
        Event.RandgetBytes c.MASTER_KEYDATA_SIZE false])
  else if (env.EAInit ci.ea (temporaryKeyOf env ci)).failed then
    (some (env.EAInit ci.ea (temporaryKeyOf env ci)), { ci with k2 := temporaryK2Of c env ci },
      w.emit [Event.RandgetBytes (env.EAGetKeySize ci.ea) true,
        Event.RandgetBytes c.MASTER_KEYDATA_SIZE true,
        Event.EAInit (temporaryKeyOf env ci) (env.EAInit ci.ea (temporaryKeyOf env ci))])
  else if !env.EAInitMode
      { ci with k2 := temporaryK2Of c env ci,
                ks := (temporaryKeyOf env ci).take (env.EAGetKeySize ci.ea) }
      (temporaryK2Of c env ci) then
    (some Status.ERR_MODE_INIT_FAILED,
      { ci with k2 := temporaryK2Of c env ci,
                ks := (temporaryKeyOf env ci).take (env.EAGetKeySize ci.ea) },
      w.emit [Event.RandgetBytes (env.EAGetKeySize ci.ea) true,
        Event.RandgetBytes c.MASTER_KEYDATA_SIZE true,
        Event.EAInit (temporaryKeyOf env ci) Status.ERR_SUCCESS,
        Event.EAInitMode (temporaryK2Of c env ci) false])
  else
    (none,
      { ci with k2 := temporaryK2Of c env ci,
                ks := (temporaryKeyOf env ci).take (env.EAGetKeySize ci.ea),
                ks2 := temporaryK2Of c env ci },
      w.emit [Event.RandgetBytes (env.EAGetKeySize ci.ea) true,
        Event.RandgetBytes c.MASTER_KEYDATA_SIZE true,
        Event.EAInit (temporaryKeyOf env ci) Status.ERR_SUCCESS,
        Event.EAInitMode (temporaryK2Of c env ci) true])

/-- Lines 928-937 and the code after them: the fill loop, the flush of the residual buffer,
and the restoration of the real keys. -/
def fillAndRestore (c : Consts) (cipher : Cipher) (env : FillEnv) (FormatSectorSize : Nat)
    (num_sectors : Nat) (cryptoInfo ci : CRYPTO_INFO) (originalK2 : List Nat)
    (w : WriterState) : FormatNoFsResult :=
  if !(fillLoop c cipher env FormatSectorSize ci (zeros c.TC_MAX_VOLUME_SECTOR_SIZE)
      num_sectors w).1 then
    formatNoFsExit c env cryptoInfo ci Status.ERR_OS_ERROR
      (fillLoop c cipher env FormatSectorSize ci (zeros c.TC_MAX_VOLUME_SECTOR_SIZE)
        num_sectors w).2
  else if !(FlushFormatWriteBuffer c cipher env FormatSectorSize ci
      (fillLoop c cipher env FormatSectorSize ci (zeros c.TC_MAX_VOLUME_SECTOR_SIZE)
        num_sectors w).2).1 then
    formatNoFsExit c env cryptoInfo ci Status.ERR_OS_ERROR
      (FlushFormatWriteBuffer c cipher env FormatSectorSize ci
        (fillLoop c cipher env FormatSectorSize ci (zeros c.TC_MAX_VOLUME_SECTOR_SIZE)
          num_sectors w).2).2
  else
    formatNoFsRestore c env FormatSectorSize cryptoInfo ci originalK2
      (FlushFormatWriteBuffer c cipher env FormatSectorSize ci
        (fillLoop c cipher env FormatSectorSize ci (zeros c.TC_MAX_VOLUME_SECTOR_SIZE)
          num_sectors w).2).2

/-- Lines 899-937: the full fill under a temporary key set. -/
def formatNoFsFill (c : Consts) (cipher : Cipher) (env : FillEnv) (FormatSectorSize : Nat)
    (num_sectors : Nat) (cryptoInfo ci : CRYPTO_INFO) (originalK2 : List Nat)
    (w : WriterState) : FormatNoFsResult :=
  match (installTemporaryKeys c env ci w).1 with
  | some retVal =>
    formatNoFsExit c env cryptoInfo (installTemporaryKeys c env ci w).2.1 (failStatus retVal)
      (installTemporaryKeys c env ci w).2.2
  | none =>
    fillAndRestore c cipher env FormatSectorSize num_sectors cryptoInfo
      (if env.IsRamEncryptionEnabled then env.VcProtectKeys (installTemporaryKeys c env ci w).2.1
       else (installTemporaryKeys c env ci w).2.1)
      originalK2 (installTemporaryKeys c env ci w).2.2

/-- The writer variables at line 894, after the seek to the start sector and the
allocation of the write buffer; `nSecNo` is the initial sector number. -/
def fillStart (env : FillEnv) (FormatSectorSize : Nat) (WriteThreadRunning : Bool)
    (WriteRequestResult : Nat) (startSector nSecNo : Nat) : WriterState :=
  { write_buf := [], write_buf_cnt := 0, nSecNo := nSecNo,
    WriteThreadRunning := WriteThreadRunning, WriteRequestResult := WriteRequestResult,
    nFlush := 0, nCalls := 0,
    trace :=
      if env.IsRamEncryptionEnabled then
        [Event.SetFilePointer (mul64 startSector FormatSectorSize) true, Event.TCalloc true,
          Event.VirtualLock Buf.temporaryKey, Event.VirtualLock Buf.originalK2,
          Event.VirtualLock Buf.tmpCI]
      else
        [Event.SetFilePointer (mul64 startSector FormatSectorSize) true, Event.TCalloc true,
          Event.VirtualLock Buf.temporaryKey, Event.VirtualLock Buf.originalK2] }

/-- Lines 884-892: the context `FormatNoFs` works on, which is the local copy with
unprotected keys when RAM encryption is enabled and the caller's context otherwise. -/
def workingContext (env : FillEnv) (cryptoInfo : CRYPTO_INFO) : CRYPTO_INFO :=
  if env.IsRamEncryptionEnabled then env.VcUnprotectKeys cryptoInfo else cryptoInfo

/-- A return of `FormatNoFs` before any key buffer has been locked (lines 872, 877). -/
def formatNoFsEarly (env : FillEnv) (WriteRequestResult : Nat) (startSector : Nat)
    (cryptoInfo : CRYPTO_INFO) (retVal : Status) (t : List Event) : FormatNoFsResult :=
  { retVal := retVal, cryptoInfo := cryptoInfo, tmpCI := none,
    temporaryKey := env.uninitialised, originalK2 := env.uninitialised,
    write_buf_cnt := 0, nSecNo := startSector, WriteRequestResult := WriteRequestResult,
    trace := t }

/-- `int FormatNoFs (hwndDlg, startSector, num_sectors, dev, cryptoInfo, quickFormat)`.
`WriteThreadRunning` and `WriteRequestResult` are the globals of the background writer at the
time of the call.  The seek succeeds when `SetFilePointerEx` returns true and the new offset
is the requested one. -/
def FormatNoFs (c : Consts) (cipher : Cipher) (env : FillEnv) (FormatSectorSize : Nat)
    (WriteThreadRunning : Bool) (WriteRequestResult : Nat)
    (startSector num_sectors : Nat) (cryptoInfo : CRYPTO_INFO) (quickFormat : Bool) :
    FormatNoFsResult :=
  if !env.SetFilePointerEx (mul64 startSector FormatSectorSize) then
    formatNoFsEarly env WriteRequestResult startSector cryptoInfo Status.ERR_OS_ERROR
      [Event.SetFilePointer (mul64 startSector FormatSectorSize) false]
  else if !env.TCalloc then
    formatNoFsEarly env WriteRequestResult startSector cryptoInfo Status.ERR_OUTOFMEMORY
      [Event.SetFilePointer (mul64 startSector FormatSectorSize) true, Event.TCalloc false]
  else if !quickFormat then
    formatNoFsFill c cipher env FormatSectorSize num_sectors cryptoInfo
      (workingContext env cryptoInfo) (workingContext env cryptoInfo).k2
      (fillStart env FormatSectorSize WriteThreadRunning WriteRequestResult startSector startSector)
  else
    formatNoFsRestore c env FormatSectorSize cryptoInfo
      (workingContext env cryptoInfo) (workingContext env cryptoInfo).k2
      (fillStart env FormatSectorSize WriteThreadRunning WriteRequestResult startSector num_sectors)

/-! ## Orchestrator (`TCFormatVolume`, lines 81-847) -/

/-- The fields of `FORMAT_VOL_PARAMETERS` (declared in `Format.h`) that `TCFormatVolume`
reads.  `sectorSize` is the value stored into the `uint32` `FormatSectorSize`; `size` and
`hiddenVolHostSize` are 64-bit unsigned. -/
structure FORMAT_VOL_PARAMETERS where
  bDevice : Bool
  hiddenVol : Bool
  size : Nat
  hiddenVolHostSize : Nat
  fileSystem : FileSys
  quickFormat : Bool
  clusterSize : Nat
  sectorSize : Nat
  sparseFileSwitch : Bool
  fastCreateFile : Bool
  bForceOperation : Bool
  deriving Repr, DecidableEq

/-- Oracles of the orchestrator: globals set elsewhere (`Silent`, `bPreserveTimestamp`) and
the results of the collaborators.  The first argument of an indexed oracle is the number of
the pass (0 for the first attempt, 1 after the jump back to `begin_format`). -/
structure Env where
  fill : Nat → FillEnv
  Silent : Bool
  bPreserveTimestamp : Bool
  driveLetter : Int
  IsOSAtLeastVista : Bool
  IsAdmin : Bool
  IsUacSupported : Bool
  createPrimaryHeader : Status × Option CRYPTO_INFO
  VcProtectKeys : CRYPTO_INFO → CRYPTO_INFO
  createBackupHeader : Nat → Status
  createDecoyHeader : Nat → Bool → Status
  FakeDosNameForDevice : Nat → Bool
  IsDeviceMounted : Nat → Bool
  DismountDrive : Nat → Bool
  AllowExtendedDasdIo : Nat → Bool
  AllowExtendedDasdIoAgain : Nat → Bool
  exclusiveOpen : Nat → Nat → Nat → Bool
  sharedOpen : Nat → Nat → Bool
  deviceInUseAnswerNo : Nat → Nat → Bool
  pseudoQuickFormatWrite : Nat → Bool
  IsVolumeMounted : Nat → Bool
  CreateFile : Nat → Bool
  GetFileTime : Nat → Bool
  SetSparse : Nat → Bool
  Preallocate : Nat → Bool
  SetPrivilege : Nat → Bool
  manageVolumeAnswerNo : Nat → Bool
  SetFileValidData : Nat → Bool
  rewind : Nat → Bool
  SetFilePointerEx : Nat → Nat → Bool
  WriteEffectiveVolumeHeader : Nat → HeaderSite → Bool
  padWrite : Nat → Bool × Nat
  StartFormatWriteThread : Nat → Bool
  GetFatParams : Nat → Nat → Nat → Nat
  FormatFat : Nat → Status
  WriteRandomDataToReservedHeaderAreas : Nat → Status
  truncateSeek : Nat → Bool
  GetLastAvailableDrive : Nat → Int
  MountVolume : Nat → Bool
  ExternalFormatFs : Nat → Bool
  UacFormatFs : Nat → Bool
  FormatFs : Nat → Bool
  UnmountVolume : Nat → Bool
  AskErrYesNo : Nat → Bool

/-- The parameters that change only on the retry edge (lines 819-822): the file system, the
cluster size, the flag `bInstantRetryOtherFilesys`, and the number of the pass. -/
structure PassParams where
  pass : Nat
  fileSystem : FileSys
  clusterSize : Nat
  bInstantRetryOtherFilesys : Bool
  deriving Repr, DecidableEq

/-- The local variables of `TCFormatVolume` that change while a pass runs, with the trace
of the run so far.  `dev` says whether the handle is valid, `dosDev` whether `dosDev[0]` is
non-zero. -/
structure FormatState where
  nStatus : Status
  dev : Bool
  bTimeStampValid : Bool
  bFailedRequiredDASD : Bool
  dosDev : Bool
  quickFormat : Bool
  cryptoInfo : CRYPTO_INFO
  WriteRequestResult : Nat
  trace : List Event
  deriving Repr, DecidableEq

/-- Where control goes after a stage of a pass: on to the next statement, to the label
`error:`, or out of the function through a `return`. -/
inductive Flow where
  | next
  | gotoError
  | ret
  deriving Repr, DecidableEq

/-- Appends events to the trace. -/
def FormatState.emit (st : FormatState) (evs : List Event) : FormatState :=
  { st with trace := st.trace ++ evs }

/-- Sets `nStatus`, records the events and jumps to `error:`. -/
def FormatState.fail (st : FormatState) (nStatus : Status) (evs : List Event) :
    FormatState × Flow :=
  ({ st with nStatus := nStatus, trace := st.trace ++ evs }, Flow.gotoError)

/-- Runs `g` after `f` when `f` falls through to the next statement. -/
def andThen (f g : FormatState → FormatState × Flow) (st : FormatState) : FormatState × Flow :=
  if (f st).2 = Flow.next then g (f st).1 else f st

/-- Line 108: the sector-size test of lines 110-112 (true when the size is rejected). -/
def sectorSizeUnsupported (c : Consts) (FormatSectorSize : Nat) : Bool :=
  FormatSectorSize < c.TC_MIN_VOLUME_SECTOR_SIZE
    || FormatSectorSize > c.TC_MAX_VOLUME_SECTOR_SIZE
    || FormatSectorSize % c.ENCRYPTION_DATA_UNIT_SIZE != 0

/-- Lines 127-137: `dataOffset`. -/
def dataOffset (c : Consts) (p : FORMAT_VOL_PARAMETERS) : Nat :=
  if p.hiddenVol then sub64 (sub64 p.hiddenVolHostSize c.TC_VOLUME_HEADER_GROUP_SIZE) p.size
  else c.TC_VOLUME_DATA_OFFSET

/-- Line 139: `dataAreaSize`. -/
def dataAreaSize (c : Consts) (p : FORMAT_VOL_PARAMETERS) : Nat :=
  GetVolumeDataAreaSize c p.hiddenVol p.size

/-- Line 141: `num_sectors = dataAreaSize / FormatSectorSize`. -/
def numSectors (c : Consts) (p : FORMAT_VOL_PARAMETERS) : Nat :=
  dataAreaSize c p / p.sectorSize

/-- Line 524: `startSector = dataOffset / FormatSectorSize`. -/
def startSector (c : Consts) (p : FORMAT_VOL_PARAMETERS) : Nat :=
  dataOffset c p / p.sectorSize

/-- Line 590: the offset of the backup header. -/
def backupHeaderOffset (c : Consts) (p : FORMAT_VOL_PARAMETERS) : Nat :=
  if p.hiddenVol then sub64 p.hiddenVolHostSize c.TC_HIDDEN_VOLUME_HEADER_OFFSET
  else add64 (dataAreaSize c p) c.TC_VOLUME_HEADER_GROUP_SIZE

/-- Line 680: the offset of a decoy hidden-volume header. -/
def decoyHeaderOffset (c : Consts) (p : FORMAT_VOL_PARAMETERS) (bUpdateBackup : Bool) : Nat :=
  if bUpdateBackup then
    add64 (add64 (dataAreaSize c p) c.TC_VOLUME_HEADER_GROUP_SIZE) c.TC_HIDDEN_VOLUME_HEADER_OFFSET
  else c.TC_HIDDEN_VOLUME_HEADER_OFFSET

/-- The file position at which the primary header is written (line 481): the hidden header
slot after the seek of line 458, the start of a fresh or rewound handle otherwise. -/
def primaryHeaderOffset (c : Consts) (p : FORMAT_VOL_PARAMETERS) : Nat :=
  if p.hiddenVol then c.TC_HIDDEN_VOLUME_HEADER_OFFSET else 0

/-- Lines 284-290: the attempts to open the device exclusively; `n` attempts are left and
`k` have been made.  Returns whether the handle is valid afterwards, and the events. -/
def exclusiveOpenLoop (open_ : Nat → Bool) : Nat → Nat → Bool × List Event
  | 0, _ => (false, [])
  | n + 1, k =>
    if open_ k then (true, [Event.CreateFile false false true])
    else
      ((exclusiveOpenLoop open_ n (k + 1)).1,
        Event.CreateFile false false false :: (exclusiveOpenLoop open_ n (k + 1)).2)

/-- How one iteration of the loop of lines 276-335 ends. -/
inductive IterFlow where
  | continue_
  | break_
  | gotoError
  deriving Repr, DecidableEq

/-- Lines 280-290: when the handle is not valid, the attempts to open the device
exclusively. -/
def openExclusive (c : Consts) (env : Env) (pp : PassParams) (nPass : Nat)
    (st : FormatState) : FormatState :=
  if st.dev then st
  else
    { st with dev := (exclusiveOpenLoop (env.exclusiveOpen pp.pass nPass)
                        c.EXCL_ACCESS_MAX_AUTO_RETRIES 0).1,
              trace := st.trace ++ (exclusiveOpenLoop (env.exclusiveOpen pp.pass nPass)
                        c.EXCL_ACCESS_MAX_AUTO_RETRIES 0).2 }

/-- Lines 292-311: when exclusive access was denied, the attempt in shared mode, which the
user must confirm unless the operation is forced. -/
def openShared (env : Env) (p : FORMAT_VOL_PARAMETERS) (pp : PassParams) (nPass : Nat)
    (st : FormatState) : FormatState × Flow :=
  if st.dev then (st, Flow.next)
  else if !env.sharedOpen pp.pass nPass then
    st.fail Status.ERR_DONT_REPORT
      [Event.CreateFile true false false, Event.Error Msg.CANT_ACCESS_VOL]
  else if p.bForceOperation then
    ({ st with dev := true, trace := st.trace ++ [Event.CreateFile true false true] }, Flow.next)
  else if env.Silent then
    ({ st with dev := true, nStatus := Status.ERR_DONT_REPORT,
               trace := st.trace ++ [Event.CreateFile true false true] }, Flow.gotoError)
  else if env.deviceInUseAnswerNo pp.pass nPass then
    ({ st with dev := true, nStatus := Status.ERR_DONT_REPORT,
               trace := st.trace ++ [Event.CreateFile true false true,
                 Event.MessageBox Msg.DEVICE_IN_USE_FORMAT false] }, Flow.gotoError)
  else
    ({ st with dev := true,
               trace := st.trace ++ [Event.CreateFile true false true,
                 Event.MessageBox Msg.DEVICE_IN_USE_FORMAT true] }, Flow.next)

/-- Lines 313-334: the loop is left for a hidden volume and on a retry; otherwise the first
iteration performs the pseudo quick format (it zeroes the first `2 * TC_MAX_VOLUME_SECTOR_SIZE`
bytes) and closes the handle. -/
def pseudoQuickFormat (c : Consts) (env : Env) (p : FORMAT_VOL_PARAMETERS) (pp : PassParams)
    (nPass : Nat) (st : FormatState) : FormatState × IterFlow :=
  if p.hiddenVol || pp.bInstantRetryOtherFilesys then (st, IterFlow.break_)
  else if nPass = 0 then
    if !env.pseudoQuickFormatWrite pp.pass then
      ({ st with nStatus := Status.ERR_OS_ERROR,
                 trace := st.trace ++ [Event.WriteZeros 0 (2 * c.TC_MAX_VOLUME_SECTOR_SIZE) false] },
        IterFlow.gotoError)
    else
      ({ st with dev := false,
                 trace := st.trace ++ [Event.WriteZeros 0 (2 * c.TC_MAX_VOLUME_SECTOR_SIZE) true,
                   Event.FlushFileBuffers, Event.CloseHandle] }, IterFlow.continue_)
  else (st, IterFlow.continue_)

/-- One iteration of the loop of lines 276-335 for the given `nPass`. -/
def deviceOpenIter (c : Consts) (env : Env) (p : FORMAT_VOL_PARAMETERS) (pp : PassParams)
    (nPass : Nat) (st : FormatState) : FormatState × IterFlow :=
  if (openShared env p pp nPass (openExclusive c env pp nPass st)).2 = Flow.next then
    pseudoQuickFormat c env p pp nPass (openShared env p pp nPass (openExclusive c env pp nPass st)).1
  else ((openShared env p pp nPass (openExclusive c env pp nPass st)).1, IterFlow.gotoError)

/-- The iteration of the loop of lines 276-335 with `nPass == 1`, after which the loop
ends. -/
def deviceOpenLast (c : Consts) (env : Env) (p : FORMAT_VOL_PARAMETERS) (pp : PassParams)
    (st : FormatState) : FormatState × Flow :=
  if (deviceOpenIter c env p pp 1 st).2 = IterFlow.gotoError then
    ((deviceOpenIter c env p pp 1 st).1, Flow.gotoError)
  else ((deviceOpenIter c env p pp 1 st).1, Flow.next)

/-- The loop of lines 276-335: `for (nPass = (bFailedRequiredDASD ? 0 : 1); nPass < 2; nPass++)`. -/
def deviceOpenLoop (c : Consts) (env : Env) (p : FORMAT_VOL_PARAMETERS) (pp : PassParams)
    (st : FormatState) : FormatState × Flow :=
  if st.bFailedRequiredDASD then
    match (deviceOpenIter c env p pp 0 st).2 with
    | IterFlow.continue_ => deviceOpenLast c env p pp (deviceOpenIter c env p pp 0 st).1
    | IterFlow.break_ => ((deviceOpenIter c env p pp 0 st).1, Flow.next)
    | IterFlow.gotoError => ((deviceOpenIter c env p pp 0 st).1, Flow.gotoError)
  else deviceOpenLast c env p pp st

/-- Lines 194-271: the fake DOS name, the dismount of a mounted file system with the request
for raw access, the temporary drive letter, and the second request for raw access. -/
def devicePrepare (env : Env) (pp : PassParams) (st : FormatState) : FormatState × Flow :=
  if !env.FakeDosNameForDevice pp.pass then
    ({ st with nStatus := Status.ERR_OS_ERROR,
               trace := st.trace ++ [Event.FakeDosNameForDevice false] }, Flow.ret)
  else
    let st1 := { st with dosDev := true, trace := st.trace ++ [Event.FakeDosNameForDevice true] }
    if env.IsDeviceMounted pp.pass then
      if !env.DismountDrive pp.pass then
        st1.fail Status.ERR_DONT_REPORT
          [Event.DismountDrive false, Event.Error Msg.FORMAT_CANT_DISMOUNT_FILESYS]
      else
        ({ st1 with dev := true,
                    bFailedRequiredDASD :=
                      if !env.AllowExtendedDasdIo pp.pass then true else st1.bFailedRequiredDASD,
                    trace := st1.trace ++ [Event.DismountDrive true,
                      Event.AllowExtendedDasdIo (env.AllowExtendedDasdIo pp.pass),
                      Event.AllowExtendedDasdIo (env.AllowExtendedDasdIoAgain pp.pass)] }, Flow.next)
    else
      (st1.emit ((if env.IsOSAtLeastVista && env.driveLetter == -1
          then [Event.AssignTemporaryDriveLetter] else [])
        ++ [Event.AllowExtendedDasdIo (env.AllowExtendedDasdIoAgain pp.pass)]), Flow.next)

/-- Lines 337-342: the handle must not report a mounted volume. -/
def deviceCheckMounted (env : Env) (pp : PassParams) (st : FormatState) : FormatState × Flow :=
  if env.IsVolumeMounted pp.pass then
    st.fail Status.ERR_DONT_REPORT
      [Event.IsVolumeMounted true, Event.Error Msg.FORMAT_CANT_DISMOUNT_FILESYS]
  else (st.emit [Event.IsVolumeMounted false], Flow.next)

/-- Lines 187-343: acquisition of a device-hosted target. -/
def acquireDevice (c : Consts) (env : Env) (p : FORMAT_VOL_PARAMETERS) (pp : PassParams) :
    FormatState → FormatState × Flow :=
  andThen (devicePrepare env pp) (andThen (deviceOpenLoop c env p pp) (deviceCheckMounted env pp))

/-- Lines 383-392: a quick-formatted container may be created as a sparse file. -/
def fileSetSparse (env : Env) (p : FORMAT_VOL_PARAMETERS) (pp : PassParams)
    (st : FormatState) : FormatState × Flow :=
  if p.sparseFileSwitch && st.quickFormat then
    if !env.SetSparse pp.pass then st.fail Status.ERR_OS_ERROR [Event.SetSparse false]
    else (st.emit [Event.SetSparse true], Flow.next)
  else (st, Flow.next)

/-- Lines 394-400: the file is preallocated by a seek to
`dataAreaSize + TC_VOLUME_HEADER_GROUP_SIZE` followed by `SetEndOfFile`. -/
def fileSetSize (c : Consts) (env : Env) (p : FORMAT_VOL_PARAMETERS) (pp : PassParams)
    (st : FormatState) : FormatState × Flow :=
  if !env.Preallocate pp.pass then
    st.fail Status.ERR_OS_ERROR
      [Event.Preallocate (add64 (dataAreaSize c p) c.TC_VOLUME_HEADER_GROUP_SIZE) false]
  else
    (st.emit [Event.Preallocate (add64 (dataAreaSize c p) c.TC_VOLUME_HEADER_GROUP_SIZE) true],
      Flow.next)

/-- Lines 402-427: with quick format and `fastCreateFile`, the valid data length is set so
that the allocation is not filled with zeroes. -/
def fileValidData (c : Consts) (env : Env) (p : FORMAT_VOL_PARAMETERS) (pp : PassParams)
    (st : FormatState) : FormatState × Flow :=
  if st.quickFormat && p.fastCreateFile then
    if !env.SetPrivilege pp.pass then
      if env.Silent then st.fail Status.ERR_OS_ERROR [Event.SetPrivilege false]
      else if env.manageVolumeAnswerNo pp.pass then
        st.fail Status.ERR_OS_ERROR [Event.SetPrivilege false,
          Event.MessageBox Msg.ADMIN_PRIVILEGES_WARN_MANAGE_VOLUME false]
      else
        (st.emit [Event.SetPrivilege false,
          Event.MessageBox Msg.ADMIN_PRIVILEGES_WARN_MANAGE_VOLUME true], Flow.next)
    else if !env.SetFileValidData pp.pass then
      st.fail Status.ERR_OS_ERROR [Event.SetPrivilege true,
        Event.SetFileValidData (add64 (dataAreaSize c p) c.TC_VOLUME_HEADER_GROUP_SIZE) false]
    else
      (st.emit [Event.SetPrivilege true,
        Event.SetFileValidData (add64 (dataAreaSize c p) c.TC_VOLUME_HEADER_GROUP_SIZE) true],
        Flow.next)
  else (st, Flow.next)

/-- Lines 429-433: the file pointer is set back to the start of the file. -/
def fileRewind (env : Env) (pp : PassParams) (st : FormatState) : FormatState × Flow :=
  if !env.rewind pp.pass then st.fail Status.ERR_OS_ERROR [Event.SetFilePointer 0 false]
  else (st.emit [Event.SetFilePointer 0 true], Flow.next)

/-- Lines 373-435: preallocation of a new container file. -/
def filePreallocate (c : Consts) (env : Env) (p : FORMAT_VOL_PARAMETERS) (pp : PassParams) :
    FormatState → FormatState × Flow :=
  andThen (fileSetSparse env p pp)
    (andThen (fileSetSize c env p pp) (andThen (fileValidData c env p pp) (fileRewind env pp)))

/-- Lines 348-371: the container file is created, or opened when it exists already (hidden
volume, retry); the time stamps of the host of a hidden volume are remembered. -/
def fileOpen (env : Env) (p : FORMAT_VOL_PARAMETERS) (pp : PassParams)
    (st : FormatState) : FormatState × Flow :=
  if !env.CreateFile pp.pass then
    st.fail Status.ERR_OS_ERROR
      [Event.CreateFile (p.hiddenVol || pp.bInstantRetryOtherFilesys)
        (!(p.hiddenVol || pp.bInstantRetryOtherFilesys)) false]
  else if p.hiddenVol && env.bPreserveTimestamp then
    ({ st with dev := true, bTimeStampValid := env.GetFileTime pp.pass,
               trace := st.trace ++ [Event.CreateFile (p.hiddenVol || pp.bInstantRetryOtherFilesys)
                   (!(p.hiddenVol || pp.bInstantRetryOtherFilesys)) true,
                 Event.SetFileTime, Event.GetFileTime (env.GetFileTime pp.pass),
                 Event.DisableFileCompression] }, Flow.next)
  else
    ({ st with dev := true,
               trace := st.trace ++ [Event.CreateFile (p.hiddenVol || pp.bInstantRetryOtherFilesys)
                   (!(p.hiddenVol || pp.bInstantRetryOtherFilesys)) true,
                 Event.DisableFileCompression] }, Flow.next)

/-- Lines 346-436: acquisition of a file-hosted target. -/
def acquireFile (c : Consts) (env : Env) (p : FORMAT_VOL_PARAMETERS) (pp : PassParams) :
    FormatState → FormatState × Flow :=
  andThen (fileOpen env p pp)
    (if !p.hiddenVol && !pp.bInstantRetryOtherFilesys then filePreallocate c env p pp
     else fun st => (st, Flow.next))

/-- Lines 187-436: acquisition of the target. -/
def acquireTarget (c : Consts) (env : Env) (p : FORMAT_VOL_PARAMETERS) (pp : PassParams) :
    FormatState → FormatState × Flow :=
  if p.bDevice then acquireDevice c env p pp else acquireFile c env p pp

/-- Lines 443-476: the check of the hidden-volume host size with the seek to the hidden
header slot, or, on a retry, the seek to the byte after the header. -/
def headerSeek (c : Consts) (env : Env) (p : FORMAT_VOL_PARAMETERS) (pp : PassParams)
    (st : FormatState) : FormatState × Flow :=
  if p.hiddenVol then
    if p.hiddenVolHostSize < c.TC_MIN_HIDDEN_VOLUME_HOST_SIZE
        || p.hiddenVolHostSize > c.TC_MAX_HIDDEN_VOLUME_HOST_SIZE then
      st.fail Status.ERR_VOL_SIZE_WRONG []
    else if !env.SetFilePointerEx pp.pass c.TC_HIDDEN_VOLUME_HEADER_OFFSET then
      st.fail Status.ERR_OS_ERROR [Event.SetFilePointer c.TC_HIDDEN_VOLUME_HEADER_OFFSET false]
    else (st.emit [Event.SetFilePointer c.TC_HIDDEN_VOLUME_HEADER_OFFSET true], Flow.next)
  else if pp.bInstantRetryOtherFilesys then
    if !env.SetFilePointerEx pp.pass c.TC_VOLUME_DATA_OFFSET then
      st.fail Status.ERR_OS_ERROR [Event.SetFilePointer c.TC_VOLUME_DATA_OFFSET false]
    else (st.emit [Event.SetFilePointer c.TC_VOLUME_DATA_OFFSET true], Flow.next)
  else (st, Flow.next)

/-- Lines 478-506: the write of the primary header and, for a new container file, of the
zeroes behind it. -/
def writePrimaryHeader (c : Consts) (env : Env) (p : FORMAT_VOL_PARAMETERS) (pp : PassParams)
    (st : FormatState) : FormatState × Flow :=
  if pp.bInstantRetryOtherFilesys then (st, Flow.next)
  else if !env.WriteEffectiveVolumeHeader pp.pass HeaderSite.primary then
    st.fail Status.ERR_OS_ERROR
      [Event.WriteEffectiveVolumeHeader HeaderSite.primary (primaryHeaderOffset c p) false]
  else
    let st1 := st.emit
      [Event.WriteEffectiveVolumeHeader HeaderSite.primary (primaryHeaderOffset c p) true]
    if !p.bDevice && !p.hiddenVol then
      let size := c.TC_VOLUME_HEADER_GROUP_SIZE - c.TC_VOLUME_HEADER_EFFECTIVE_SIZE
      if !(env.padWrite pp.pass).1 then
        st1.fail Status.ERR_OS_ERROR [Event.WriteZeros c.TC_VOLUME_HEADER_EFFECTIVE_SIZE size false]
      else if (env.padWrite pp.pass).2 ≠ size then
        st1.fail Status.ERR_PARAMETER_INCORRECT
          [Event.WriteZeros c.TC_VOLUME_HEADER_EFFECTIVE_SIZE size true]
      else (st1.emit [Event.WriteZeros c.TC_VOLUME_HEADER_EFFECTIVE_SIZE size true], Flow.next)
    else (st1, Flow.next)

/-- Lines 508-521: for a hidden volume, store and validate the data offset and force the
quick format. -/
def hiddenSetup (c : Consts) (p : FORMAT_VOL_PARAMETERS) (st : FormatState) :
    FormatState × Flow :=
  if p.hiddenVol then
    let st1 := { st with cryptoInfo := { st.cryptoInfo with hiddenVolumeOffset := dataOffset c p } }
    if dataOffset c p % p.sectorSize ≠ 0 then st1.fail Status.ERR_VOL_SIZE_WRONG []
    else ({ st1 with quickFormat := true }, Flow.next)
  else (st, Flow.next)

/-- Lines 535-546: the data area without a file system (`FILESYS_NONE`, and the file
systems that are created later by the host). -/
def dataAreaNoFs (c : Consts) (cipher : Cipher) (env : Env) (p : FORMAT_VOL_PARAMETERS)
    (pp : PassParams) (st : FormatState) : FormatState × Flow :=
  if p.bDevice && !env.StartFormatWriteThread pp.pass then
    st.fail Status.ERR_OS_ERROR [Event.StartFormatWriteThread false]
  else
    let r := FormatNoFs c cipher (env.fill pp.pass) p.sectorSize p.bDevice 0
      (startSector c p) (numSectors c p) st.cryptoInfo st.quickFormat
    let st1 := { st with nStatus := r.retVal, cryptoInfo := r.cryptoInfo,
                         WriteRequestResult := r.WriteRequestResult,
                         trace := st.trace
                           ++ (if p.bDevice then [Event.StartFormatWriteThread true] else [])
                           ++ [Event.FormatNoFs (startSector c p) (numSectors c p) st.quickFormat]
                           ++ r.trace
                           ++ (if p.bDevice then [Event.StopFormatWriteThread] else []) }
    (st1, if r.retVal.failed then Flow.gotoError else Flow.next)

/-- Lines 557-566: the parameters handed to `GetFatParams` (`ft.num_sectors` is an
`unsigned int`, `ft.sector_size` a `uint16`, `ft.cluster_size` the cluster size of the
request), and the store of the resulting cluster size in bytes through `realClusterSize`,
taken modulo `2 ^ 32`.  `GetFatParams` lives in `Fat.c`; the cluster size it chooses is an
oracle. -/
def fatParamsEvents (c : Consts) (env : Env) (p : FORMAT_VOL_PARAMETERS) (pp : PassParams) :
    List Event :=
  [Event.GetFatParams (numSectors c p % 2 ^ 32) (p.sectorSize % 2 ^ 16) pp.clusterSize,
    Event.realClusterSize
      (env.GetFatParams (numSectors c p % 2 ^ 32) (p.sectorSize % 2 ^ 16) pp.clusterSize
        * p.sectorSize % 2 ^ 32)]

/-- Lines 548-579: the data area with a FAT file system.  `GetFatParams` and `FormatFat`
live in `Fat.c`; the cluster size chosen by `GetFatParams` and the status of `FormatFat` are
oracles, and what `FormatFat` writes is not part of the trace. -/
def dataAreaFat (c : Consts) (env : Env) (p : FORMAT_VOL_PARAMETERS) (pp : PassParams)
    (st : FormatState) : FormatState × Flow :=
  if numSectors c p > 0xFFFFFFFF then st.fail Status.ERR_VOL_SIZE_WRONG []
  else if p.bDevice && !env.StartFormatWriteThread pp.pass then
    st.fail Status.ERR_OS_ERROR (fatParamsEvents c env p pp ++ [Event.StartFormatWriteThread false])
  else
    let st1 := { st with nStatus := env.FormatFat pp.pass,
                         trace := st.trace
                           ++ fatParamsEvents c env p pp
                           ++ (if p.bDevice then [Event.StartFormatWriteThread true] else [])
                           ++ [Event.FormatFat (startSector c p) (numSectors c p) st.quickFormat
                                 (env.FormatFat pp.pass)]
                           ++ (if p.bDevice then [Event.StopFormatWriteThread] else []) }
    (st1, if (env.FormatFat pp.pass).failed then Flow.gotoError else Flow.next)

/-- Lines 523-587: the format of the data area. -/
def formatDataArea (c : Consts) (cipher : Cipher) (env : Env) (p : FORMAT_VOL_PARAMETERS)
    (pp : PassParams) (st : FormatState) : FormatState × Flow :=
  match pp.fileSystem with
  | FileSys.FILESYS_NONE => dataAreaNoFs c cipher env p pp st
  | FileSys.FILESYS_NTFS => dataAreaNoFs c cipher env p pp st
  | FileSys.FILESYS_EXFAT => dataAreaNoFs c cipher env p pp st
  | FileSys.FILESYS_REFS => dataAreaNoFs c cipher env p pp st
  | FileSys.FILESYS_FAT => dataAreaFat c env p pp st
  | FileSys.unknown => st.fail Status.ERR_PARAMETER_INCORRECT []

/-- The events around a header build when RAM encryption is enabled (lines 598-607 and
627-634): the context is copied into the locked `tmpCI`, which is burned afterwards. -/
def withTmpCI (env : Env) (pp : PassParams) (evs : List Event) : List Event :=
  if (env.fill pp.pass).IsRamEncryptionEnabled then
    [Event.VirtualLock Buf.tmpCI] ++ evs ++ [Event.burn Buf.tmpCI, Event.VirtualUnlock Buf.tmpCI]
  else evs

/-- Lines 589-640: the backup header.  The status of the header build is stored into
`nStatus` and the header buffer is written whatever that status is. -/
def writeBackupHeader (c : Consts) (env : Env) (p : FORMAT_VOL_PARAMETERS) (pp : PassParams)
    (st : FormatState) : FormatState × Flow :=
  if !env.SetFilePointerEx pp.pass (backupHeaderOffset c p) then
    st.fail Status.ERR_OS_ERROR [Event.SetFilePointer (backupHeaderOffset c p) false]
  else
    let st1 := { st with nStatus := env.createBackupHeader pp.pass,
                         trace := st.trace ++ [Event.SetFilePointer (backupHeaderOffset c p) true]
                           ++ withTmpCI env pp [Event.CreateVolumeHeaderInMemory HeaderSite.backup
                                true false (env.createBackupHeader pp.pass)] }
    if !env.WriteEffectiveVolumeHeader pp.pass HeaderSite.backup then
      st1.fail Status.ERR_OS_ERROR
        [Event.WriteEffectiveVolumeHeader HeaderSite.backup (backupHeaderOffset c p) false]
    else
      (st1.emit [Event.WriteEffectiveVolumeHeader HeaderSite.backup (backupHeaderOffset c p) true],
        Flow.next)

/-- One iteration of the loop of lines 675-721, which builds and writes a decoy
hidden-volume header.  Falls through to the next statement when the iteration reaches
line 717. -/
def decoyIter (c : Consts) (env : Env) (p : FORMAT_VOL_PARAMETERS) (pp : PassParams)
    (bUpdateBackup : Bool) (st : FormatState) : FormatState × Flow :=
  let site := HeaderSite.decoy bUpdateBackup
  let status := env.createDecoyHeader pp.pass bUpdateBackup
  let st1 := { st with nStatus := status,
                       trace := st.trace ++ [Event.CreateVolumeHeaderInMemory site false true status] }
  if status.failed then (st1, Flow.gotoError)
  else
    let st2 := st1.emit [Event.crypto_close true]
    if !env.SetFilePointerEx pp.pass (decoyHeaderOffset c p bUpdateBackup) then
      st2.fail Status.ERR_OS_ERROR [Event.SetFilePointer (decoyHeaderOffset c p bUpdateBackup) false]
    else
      let st3 := st2.emit [Event.SetFilePointer (decoyHeaderOffset c p bUpdateBackup) true]
      if !env.WriteEffectiveVolumeHeader pp.pass site then
        st3.fail Status.ERR_OS_ERROR
          [Event.WriteEffectiveVolumeHeader site (decoyHeaderOffset c p bUpdateBackup) false]
      else
        (st3.emit [Event.WriteEffectiveVolumeHeader site (decoyHeaderOffset c p bUpdateBackup) true],
          Flow.next)

/-- Lines 658-670: the random fill of the reserved header areas. -/
def fillReservedAreas (env : Env) (pp : PassParams) (st : FormatState) : FormatState × Flow :=
  let status := env.WriteRandomDataToReservedHeaderAreas pp.pass
  let st1 := { st with nStatus := status,
                       trace := st.trace
                         ++ withTmpCI env pp [Event.WriteRandomDataToReservedHeaderAreas status] }
  (st1, if status.failed then Flow.gotoError else Flow.next)

/-- Lines 642-722: for a standard volume, the random fill of the reserved header areas and
the loop `while (TRUE)` over `bUpdateBackup`, which starts with the flag clear, sets it at
line 720 and breaks at line 718 once it is set. -/
def writeDecoyHeaders (c : Consts) (env : Env) (p : FORMAT_VOL_PARAMETERS) (pp : PassParams) :
    FormatState → FormatState × Flow :=
  if p.hiddenVol then fun st => (st, Flow.next)
  else
    andThen (fillReservedAreas env pp)
      (andThen (decoyIter c env p pp false) (decoyIter c env p pp true))

/-- Lines 724-727: the pause of a quick format that is not followed by an external format. -/
def quickFormatPause (pp : PassParams) (st : FormatState) : FormatState × Flow :=
  if st.quickFormat && pp.fileSystem != FileSys.FILESYS_NTFS
      && pp.fileSystem != FileSys.FILESYS_EXFAT && pp.fileSystem != FileSys.FILESYS_REFS then
    (st.emit [Event.Sleep], Flow.next)
  else (st, Flow.next)

/-- Lines 187-727: a pass from `begin_format` down to the label `error:`. -/
def passBody (c : Consts) (cipher : Cipher) (env : Env) (p : FORMAT_VOL_PARAMETERS)
    (pp : PassParams) : FormatState → FormatState × Flow :=
  andThen (acquireTarget c env p pp)
    (andThen (headerSeek c env p pp)
      (andThen (writePrimaryHeader c env p pp)
        (andThen (hiddenSetup c p)
          (andThen (formatDataArea c cipher env p pp)
            (andThen (writeBackupHeader c env p pp)
              (andThen (writeDecoyHeaders c env p pp) (quickFormatPause pp)))))))

/-- Lines 729-751 at the label `error:`: the header buffer is burned and unlocked, a failed
new container file is truncated, and the handle is flushed and closed. -/
def cleanup (env : Env) (p : FORMAT_VOL_PARAMETERS) (pp : PassParams) (st : FormatState) :
    FormatState :=
  let st1 := st.emit [Event.burn Buf.header, Event.VirtualUnlock Buf.header]
  if st1.dev then
    { st1 with dev := false,
               trace := st1.trace
                 ++ (if !p.bDevice && !p.hiddenVol && st.nStatus.failed then
                       (if env.truncateSeek pp.pass then
                          [Event.SetFilePointer 0 true, Event.SetEndOfFile]
                        else [Event.SetFilePointer 0 false])
                     else [])
                 ++ [Event.FlushFileBuffers]
                 ++ (if st.bTimeStampValid then [Event.SetFileTime] else [])
                 ++ [Event.CloseHandle] }
  else st1

/-- How a pass ends after the label `error:`: at `fv_end`, or with the jump back to
`begin_format`. -/
inductive PassOutcome where
  | fv_end
  | begin_format
  deriving Repr, DecidableEq

/-- The file systems that the host creates after the container has been formatted
(line 759). -/
def FileSys.external (fs : FileSys) : Bool :=
  fs == FileSys.FILESYS_NTFS || fs == FileSys.FILESYS_EXFAT || fs == FileSys.FILESYS_REFS

/-- Lines 833-834 and 811-812: the dismount after the external format. -/
def unmountEvents (env : Env) (pp : PassParams) : List Event :=
  [Event.UnmountVolume (env.UnmountVolume pp.pass)]
    ++ (if !env.UnmountVolume pp.pass && !env.Silent
        then [Event.MessageBox Msg.CANT_DISMOUNT_VOLUME true] else [])

/-- Lines 799-807: the external format with its fallback; the result and the events. -/
def externalFormatCall (env : Env) (pp : PassParams) : Bool × List Event :=
  if env.ExternalFormatFs pp.pass then (true, [Event.ExternalFormatFs true])
  else if !env.Silent && !env.IsAdmin && env.IsUacSupported then
    (env.UacFormatFs pp.pass, [Event.ExternalFormatFs false, Event.FormatFs true (env.UacFormatFs pp.pass)])
  else
    (env.FormatFs pp.pass, [Event.ExternalFormatFs false, Event.FormatFs false (env.FormatFs pp.pass)])

/-- The events of lines 788-812 and 833-834 once the volume could be mounted: the mount, the
external format with its fallback, and the dismount. -/
def externalFormatEvents (env : Env) (pp : PassParams) : List Event :=
  [Event.MountVolume true] ++ (externalFormatCall env pp).2 ++ unmountEvents env pp

/-- Lines 809-831: the external format failed.  When the data area is small enough for FAT
and the user agrees, the parameters are changed and control jumps back to `begin_format`. -/
def externalFormatFailed (c : Consts) (env : Env) (p : FORMAT_VOL_PARAMETERS) (pp : PassParams)
    (st : FormatState) : FormatState × PassOutcome :=
  if dataAreaSize c p ≤ mul64 c.TC_MAX_FAT_SECTOR_COUNT p.sectorSize then
    if env.AskErrYesNo pp.pass then
      ({ st with quickFormat := true,
                 trace := st.trace ++ [Event.AskErrYesNo Msg.FORMAT_NTFS_FAILED_ASK_FAT true] },
        PassOutcome.begin_format)
    else
      ({ st with nStatus := Status.ERR_DONT_REPORT,
                 trace := st.trace ++ [Event.AskErrYesNo Msg.FORMAT_NTFS_FAILED_ASK_FAT false] },
        PassOutcome.fv_end)
  else
    ({ st with nStatus := Status.ERR_DONT_REPORT,
               trace := st.trace ++ [Event.Error Msg.FORMAT_NTFS_FAILED] }, PassOutcome.fv_end)

/-- Lines 759-835: the external format of an NTFS, exFAT or ReFS volume, entered with
`nStatus == 0`. -/
def externalFormat (c : Consts) (env : Env) (p : FORMAT_VOL_PARAMETERS) (pp : PassParams)
    (st : FormatState) : FormatState × PassOutcome :=
  if pp.fileSystem.external then
    if env.GetLastAvailableDrive pp.pass == -1 then
      ({ st with nStatus := Status.ERR_NO_FREE_DRIVES,
                 trace := st.trace ++ (if !env.Silent then
                   [Event.MessageBox Msg.NO_FREE_DRIVES true, Event.MessageBox Msg.FORMAT_NTFS_STOP true]
                   else []) }, PassOutcome.fv_end)
    else if !env.MountVolume pp.pass then
      ({ st with nStatus := Status.ERR_VOL_MOUNT_FAILED,
                 trace := st.trace ++ (if !env.Silent then
                   [Event.MountVolume false, Event.MessageBox Msg.CANT_MOUNT_VOLUME true,
                     Event.MessageBox Msg.FORMAT_NTFS_STOP true]
                   else [Event.MountVolume false]) }, PassOutcome.fv_end)
    else if (externalFormatCall env pp).1 then
      (st.emit (externalFormatEvents env pp), PassOutcome.fv_end)
    else externalFormatFailed c env p pp (st.emit (externalFormatEvents env pp))
  else (st, PassOutcome.fv_end)

/-- Lines 837-846 at the label `fv_end`: the fake DOS name is removed and the crypto context
is released. -/
def fvEnd (st : FormatState) : FormatState :=
  st.emit ((if st.dosDev then [Event.RemoveFakeDosName] else []) ++ [Event.crypto_close false])

/-- The parameters of the pass that follows the jump of line 823 (lines 819-822). -/
def retryParams (pp : PassParams) : PassParams :=
  { pass := pp.pass + 1, fileSystem := FileSys.FILESYS_FAT, clusterSize := 0,
    bInstantRetryOtherFilesys := true }

/-- The code from `begin_format` to the end of the function, with at most `fuel` passes;
`none` when the passes allowed are used up. -/
def formatLoop (c : Consts) (cipher : Cipher) (env : Env) (p : FORMAT_VOL_PARAMETERS) :
    Nat → PassParams → FormatState → Option FormatState
  | 0, _, _ => none
  | fuel + 1, pp, st =>
    let b := passBody c cipher env p pp st
    if b.2 = Flow.ret then some b.1
    else
      let st1 := cleanup env p pp b.1
      if st1.nStatus.failed then some (fvEnd st1)
      else
        let e := externalFormat c env p pp st1
        match e.2 with
        | PassOutcome.fv_end => some (fvEnd e.1)
        | PassOutcome.begin_format => formatLoop c cipher env p fuel (retryParams pp) e.1

/-- What `TCFormatVolume` returns, and the trace of the call. -/
structure FormatResult where
  nStatus : Status
  trace : List Event
  deriving Repr, DecidableEq

/-- The events of lines 150-168: the header buffer is locked and the primary header is
built with a null preset master key and the password of the request. -/
def buildPrimaryEvents (env : Env) : List Event :=
  [Event.VirtualLock Buf.header,
    Event.CreateVolumeHeaderInMemory HeaderSite.primary false false env.createPrimaryHeader.1]

/-- The parameters of the first pass. -/
def firstPass (p : FORMAT_VOL_PARAMETERS) : PassParams :=
  { pass := 0, fileSystem := p.fileSystem, clusterSize := p.clusterSize,
    bInstantRetryOtherFilesys := false }

/-- The local variables at the first arrival at `begin_format` (line 185), after the
primary header has been built and has returned the crypto context `cryptoInfo`. -/
def stateAtBeginFormat (env : Env) (p : FORMAT_VOL_PARAMETERS) (cryptoInfo : CRYPTO_INFO) :
    FormatState :=
  { nStatus := Status.ERR_SUCCESS, dev := false, bTimeStampValid := false,
    bFailedRequiredDASD := false, dosDev := false, quickFormat := p.quickFormat,
    cryptoInfo := if (env.fill 0).IsRamEncryptionEnabled then env.VcProtectKeys cryptoInfo
                  else cryptoInfo,
    WriteRequestResult := 0,
    trace := buildPrimaryEvents env }

/-- The result of a call that leaves in the state `st`. -/
def FormatState.result (st : FormatState) : FormatResult :=
  { nStatus := st.nStatus, trace := st.trace }

/-- `int TCFormatVolume (volatile FORMAT_VOL_PARAMETERS *volParams)`, with at most `fuel`
passes through the code below `begin_format`. -/
def TCFormatVolume (c : Consts) (cipher : Cipher) (env : Env) (fuel : Nat)
    (p : FORMAT_VOL_PARAMETERS) : Option FormatResult :=
  if sectorSizeUnsupported c p.sectorSize then
    some { nStatus := Status.ERR_DONT_REPORT, trace := [Event.Error Msg.SECTOR_SIZE_UNSUPPORTED] }
  else if !p.hiddenVol && p.size ≤ c.TC_TOTAL_VOLUME_HEADERS_SIZE then
    some { nStatus := Status.ERR_VOL_SIZE_WRONG, trace := [] }
  else
    match env.createPrimaryHeader.2 with
    | none =>
      some { nStatus := if env.createPrimaryHeader.1.failed then env.createPrimaryHeader.1
                        else Status.ERR_OUTOFMEMORY,
             trace := buildPrimaryEvents env ++ [Event.burn Buf.header, Event.VirtualUnlock Buf.header] }
    | some cryptoInfo =>
      if env.createPrimaryHeader.1.failed then
        some { nStatus := env.createPrimaryHeader.1,
               trace := buildPrimaryEvents env ++ [Event.burn Buf.header, Event.VirtualUnlock Buf.header] }
      else
        (formatLoop c cipher env p fuel (firstPass p) (stateAtBeginFormat env p cryptoInfo)).map
          FormatState.result

/-! ## Observations on a trace -/

/-- The (unit number, plaintext data unit) pairs handed to the cipher by one event. -/
def Event.units (c : Consts) : Event → List (Nat × List Nat)
  | Event.EncryptDataUnits unitNo nUnits plain _ _ =>
    (List.range nUnits).map (fun i => (add64 unitNo i, dataUnit c plain i))
  | _ => []

/-- The (unit number, plaintext data unit) pairs handed to the cipher, in the order of the
trace. -/
def encryptedUnits (c : Consts) (t : List Event) : List (Nat × List Nat) :=
  (t.map (Event.units c)).flatten

/-- The ciphertext one event produces: the data units of its buffer, each encrypted under
its unit number. -/
def Event.ciphertext (c : Consts) (cipher : Cipher) : Event → List Nat
  | Event.EncryptDataUnits unitNo nUnits plain ks ks2 =>
    ((List.range nUnits).map (fun i =>
      cipher.encUnit ks ks2 (add64 unitNo i) (dataUnit c plain i))).flatten
  | _ => []

/-- The ciphertext of all data units handed to the cipher, in the order of the trace. -/
def encryptedOutput (c : Consts) (cipher : Cipher) (t : List Event) : List Nat :=
  (t.map (Event.ciphertext c cipher)).flatten

/-- The bytes of the data area one event hands to the device. -/
def Event.deviceData : Event → List Nat
  | Event.WriteFile data _ => data
  | Event.WorkerWrite data _ => data
  | _ => []

/-- The bytes of the data area handed to the device, in the order of the trace. -/
def deviceBytes (t : List Event) : List Nat :=
  (t.map Event.deviceData).flatten

/-- An event of the sector writer: a call of the cipher or a write of the data buffer. -/
def Event.isSectorWrite : Event → Bool
  | Event.EncryptDataUnits _ _ _ _ _ => true
  | Event.WriteFile _ _ => true
  | Event.WorkerWrite _ _ => true
  | _ => false

/-- A write of zeroes by `TCFormatVolume` itself (the pseudo quick format of line 325 or the
padding of line 494). -/
def Event.isWriteZeros : Event → Bool
  | Event.WriteZeros _ _ _ => true
  | _ => false

/-- A write of the header buffer. -/
def Event.isHeaderWrite : Event → Bool
  | Event.WriteEffectiveVolumeHeader _ _ _ => true
  | _ => false

/-- A call that formats the data area. -/
def Event.isDataAreaFormat : Event → Bool
  | Event.FormatNoFs _ _ _ => true
  | Event.FormatFat _ _ _ _ => true
  | _ => false

/-- A call that formats the data area without the quick-format flag. -/
def Event.isFullFormat : Event → Bool
  | Event.FormatNoFs _ _ q => !q
  | Event.FormatFat _ _ q _ => !q
  | _ => false

/-- The value of the C expression `sector_size` being a power of two. -/
def isPowerOfTwo (n : Nat) : Prop := ∃ k, n = 2 ^ k

/-! ## Concrete environments for test runs -/

/-- A cipher for test runs: every byte is shifted by the unit number and by the first byte
of the primary key schedule, modulo 256. -/
def testCipher : Cipher where
  encUnit := fun ks _ u d => d.map (fun b => (b + u + ks.headD 0) % 256)
  length_encUnit := by intro ks ks2 u d; simp

/-- A crypto context for test runs, with a four-byte master key and secondary key. -/
def testCryptoInfo : CRYPTO_INFO :=
  { ea := 1, ks := [7, 7, 7, 7], ks2 := [9, 9, 9, 9], k2 := [9, 9, 9, 9],
    master_keydata := [7, 7, 7, 7], hiddenVolumeOffset := 0 }

/-- An environment of the fill engine in which every collaborator succeeds: the write
buffer has 1 MiB, the random number generator returns bytes of value 5, the key size is 4
bytes, the progress timer never elapses. -/
def okFillEnv : FillEnv where
  FormatWriteBufferSize := 1024 * 1024
  IsRamEncryptionEnabled := false
  VcUnprotectKeys := id
  VcProtectKeys := id
  SetFilePointerEx := fun _ => true
  TCalloc := true
  RandgetBytes := fun _ len => (true, List.replicate len 5)
  EAGetKeySize := fun _ => 4
  EAInit := fun _ _ => Status.ERR_SUCCESS
  EAInitMode := fun _ _ => true
  timerElapsed := fun _ => false
  UpdateProgressBar := fun _ _ => false
  WriteFile := fun _ => true
  waitEmptyOk := fun _ => true
  workerWriteResult := fun _ => 0
  setFullOk := fun _ => true
  uninitialised := [1, 2, 3, 4]

/-- An environment of the orchestrator in which every collaborator succeeds and the user
confirms every dialog. -/
def okEnv : Env where
  fill := fun _ => okFillEnv
  Silent := false
  bPreserveTimestamp := false
  driveLetter := 3
  IsOSAtLeastVista := true
  IsAdmin := true
  IsUacSupported := true
  createPrimaryHeader := (Status.ERR_SUCCESS, some testCryptoInfo)
  VcProtectKeys := id
  createBackupHeader := fun _ => Status.ERR_SUCCESS
  createDecoyHeader := fun _ _ => Status.ERR_SUCCESS
  FakeDosNameForDevice := fun _ => true
  IsDeviceMounted := fun _ => false
  DismountDrive := fun _ => true
  AllowExtendedDasdIo := fun _ => true
  AllowExtendedDasdIoAgain := fun _ => true
  exclusiveOpen := fun _ _ _ => true
  sharedOpen := fun _ _ => true
  deviceInUseAnswerNo := fun _ _ => false
  pseudoQuickFormatWrite := fun _ => true
  IsVolumeMounted := fun _ => false
  CreateFile := fun _ => true
  GetFileTime := fun _ => true
  SetSparse := fun _ => true
  Preallocate := fun _ => true
  SetPrivilege := fun _ => true
  manageVolumeAnswerNo := fun _ => false
  SetFileValidData := fun _ => true
  rewind := fun _ => true
  SetFilePointerEx := fun _ _ => true
  WriteEffectiveVolumeHeader := fun _ _ => true
  padWrite := fun _ => (true, 130560)
  StartFormatWriteThread := fun _ => true
  GetFatParams := fun _ _ cluster_size => if cluster_size = 0 then 1 else cluster_size
  FormatFat := fun _ => Status.ERR_SUCCESS
  WriteRandomDataToReservedHeaderAreas := fun _ => Status.ERR_SUCCESS
  truncateSeek := fun _ => true
  GetLastAvailableDrive := fun _ => 25
  MountVolume := fun _ => true
  ExternalFormatFs := fun _ => true
  UacFormatFs := fun _ => true
  FormatFs := fun _ => true
  UnmountVolume := fun _ => true
  AskErrYesNo := fun _ => true

/-- A request for test runs: a standard container file of 1 MiB with 512-byte sectors, quick
format, no file system. -/
def testParams : FORMAT_VOL_PARAMETERS :=
  { bDevice := false, hiddenVol := false, size := 1048576, hiddenVolHostSize := 0,
    fileSystem := FileSys.FILESYS_NONE, quickFormat := true, clusterSize := 0, sectorSize := 512,
    sparseFileSwitch := false, fastCreateFile := false, bForceOperation := false }

/-! ## Events of the stages of a pass, and assertions on stages -/

/-- The events `FormatNoFs` can add to the trace; the random number generator, the cipher
and the writes of the data buffer occur only without the quick-format flag. -/
def fillEvent (quickFormat : Bool) : Event → Prop
  | Event.SetFilePointer _ _ => True
  | Event.TCalloc _ => True
  | Event.TCfree => True
  | Event.UpdateProgressBar _ _ => True
  | Event.EAInit _ _ => True
  | Event.EAInitMode _ _ => True
  | Event.VirtualLock b => b ≠ Buf.header
  | Event.burn b => b ≠ Buf.header
  | Event.VirtualUnlock b => b ≠ Buf.header
  | Event.RandgetBytes _ _ => quickFormat = false
  | Event.EncryptDataUnits _ _ _ _ _ => quickFormat = false
  | Event.WriteFile _ _ => quickFormat = false
  | Event.WorkerWrite _ _ => quickFormat = false
  | _ => False

/-- The events the acquisition of the target (lines 187-436) can add. -/
def acquireEvent (c : Consts) (p : FORMAT_VOL_PARAMETERS) (pp : PassParams) : Event → Prop
  | Event.FakeDosNameForDevice _ => p.bDevice
  | Event.DismountDrive _ => p.bDevice
  | Event.Error _ => p.bDevice
  | Event.AllowExtendedDasdIo _ => p.bDevice
  | Event.AssignTemporaryDriveLetter => p.bDevice
  | Event.MessageBox _ _ => True
  | Event.CreateFile _ _ _ => True
  | Event.FlushFileBuffers => p.bDevice
  | Event.CloseHandle => p.bDevice
  | Event.IsVolumeMounted _ => p.bDevice
  | Event.SetFileTime => ¬ p.bDevice
  | Event.GetFileTime _ => ¬ p.bDevice
  | Event.DisableFileCompression => ¬ p.bDevice
  | Event.SetSparse _ => ¬ p.bDevice
  | Event.Preallocate _ _ => ¬ p.bDevice ∧ ¬ p.hiddenVol ∧ ¬ pp.bInstantRetryOtherFilesys
  | Event.SetPrivilege _ => ¬ p.bDevice
  | Event.SetFileValidData _ _ => ¬ p.bDevice
  | Event.SetFilePointer off _ => off = 0
  | Event.WriteZeros off size _ =>
    off = 0 ∧ size = 2 * c.TC_MAX_VOLUME_SECTOR_SIZE ∧ p.bDevice ∧ ¬ p.hiddenVol
      ∧ ¬ pp.bInstantRetryOtherFilesys
  | _ => False

/-- The events of the seek before the primary header (lines 443-476). -/
def headerSeekEvent : Event → Prop
  | Event.SetFilePointer _ _ => True
  | _ => False

/-- The events of the write of the primary header (lines 478-506). -/
def primaryEvent (c : Consts) (p : FORMAT_VOL_PARAMETERS) (pp : PassParams) : Event → Prop
  | Event.WriteEffectiveVolumeHeader site off _ =>
    site = HeaderSite.primary ∧ off = primaryHeaderOffset c p ∧ ¬ pp.bInstantRetryOtherFilesys
  | Event.WriteZeros off size _ =>
    off = c.TC_VOLUME_HEADER_EFFECTIVE_SIZE
      ∧ size = c.TC_VOLUME_HEADER_GROUP_SIZE - c.TC_VOLUME_HEADER_EFFECTIVE_SIZE
      ∧ ¬ p.bDevice ∧ ¬ p.hiddenVol ∧ ¬ pp.bInstantRetryOtherFilesys
  | _ => False

/-- The events of the format of the data area (lines 523-587) when it is entered with the
quick-format flag `quickFormat`. -/
def dataAreaEvent (c : Consts) (p : FORMAT_VOL_PARAMETERS) (pp : PassParams)
    (quickFormat : Bool) : Event → Prop
  | Event.StartFormatWriteThread _ => p.bDevice
  | Event.StopFormatWriteThread => p.bDevice
  | Event.FormatNoFs s n q =>
    s = startSector c p ∧ n = numSectors c p ∧ q = quickFormat
      ∧ pp.fileSystem ≠ FileSys.FILESYS_FAT
  | Event.FormatFat s n q _ =>
    s = startSector c p ∧ n = numSectors c p ∧ q = quickFormat
      ∧ pp.fileSystem = FileSys.FILESYS_FAT
  | Event.GetFatParams n ss cs =>
    n = numSectors c p % 2 ^ 32 ∧ ss = p.sectorSize % 2 ^ 16 ∧ cs = pp.clusterSize
      ∧ pp.fileSystem = FileSys.FILESYS_FAT
  | Event.realClusterSize _ => pp.fileSystem = FileSys.FILESYS_FAT
  | e => fillEvent quickFormat e

/-- The events of the backup header (lines 589-640). -/
def backupEvent (c : Consts) (p : FORMAT_VOL_PARAMETERS) : Event → Prop
  | Event.SetFilePointer off _ => off = backupHeaderOffset c p
  | Event.CreateVolumeHeaderInMemory site preset nullPassword _ =>
    site = HeaderSite.backup ∧ preset = true ∧ nullPassword = false
  | Event.WriteEffectiveVolumeHeader site off _ =>
    site = HeaderSite.backup ∧ off = backupHeaderOffset c p
  | Event.VirtualLock b => b = Buf.tmpCI
  | Event.burn b => b = Buf.tmpCI
  | Event.VirtualUnlock b => b = Buf.tmpCI
  | _ => False

/-- The events of the decoy hidden-volume headers (lines 642-722). -/
def decoyEvent (c : Consts) (p : FORMAT_VOL_PARAMETERS) : Event → Prop
  | Event.WriteRandomDataToReservedHeaderAreas _ => ¬ p.hiddenVol
  | Event.SetFilePointer off _ => ¬ p.hiddenVol ∧ ∃ b, off = decoyHeaderOffset c p b
  | Event.CreateVolumeHeaderInMemory site preset nullPassword _ =>
    ¬ p.hiddenVol ∧ (∃ b, site = HeaderSite.decoy b) ∧ preset = false ∧ nullPassword = true
  | Event.crypto_close dummy => ¬ p.hiddenVol ∧ dummy = true
  | Event.WriteEffectiveVolumeHeader site off _ =>
    ¬ p.hiddenVol ∧ ∃ b, site = HeaderSite.decoy b ∧ off = decoyHeaderOffset c p b
  | Event.VirtualLock b => b = Buf.tmpCI
  | Event.burn b => b = Buf.tmpCI
  | Event.VirtualUnlock b => b = Buf.tmpCI
  | _ => False

/-- The events between the label `error:` and the end of the function (lines 729-846). -/
def epilogueEvent : Event → Prop
  | Event.burn b => b = Buf.header
  | Event.VirtualUnlock b => b = Buf.header
  | Event.SetFilePointer off _ => off = 0
  | Event.SetEndOfFile => True
  | Event.FlushFileBuffers => True
  | Event.SetFileTime => True
  | Event.CloseHandle => True
  | Event.MessageBox _ _ => True
  | Event.MountVolume _ => True
  | Event.ExternalFormatFs _ => True
  | Event.FormatFs _ _ => True
  | Event.UnmountVolume _ => True
  | Event.AskErrYesNo _ _ => True
  | Event.Error _ => True
  | Event.RemoveFakeDosName => True
  | Event.crypto_close dummy => dummy = false
  | _ => False

/-- The stage `f` only appends to the trace, appends only events that satisfy `P`, and does
not clear the quick-format flag. -/
def Frame (P : Event → Prop) (f : FormatState → FormatState) : Prop :=
  ∀ st, (st.quickFormat = true → (f st).quickFormat = true)
    ∧ ∃ evs, (f st).trace = st.trace ++ evs ∧ ∀ e ∈ evs, P e

/-- From a state that satisfies `Pre`, the stage `f` leaves a state that satisfies `Next`
when it falls through to the next statement, and one that satisfies `Exit` when it jumps to
`error:` or returns. -/
def Hoare (Pre : FormatState → Prop) (f : FormatState → FormatState × Flow)
    (Exit Next : FormatState → Prop) : Prop :=
  ∀ st, Pre st → ((f st).2 ≠ Flow.next → Exit (f st).1) ∧ ((f st).2 = Flow.next → Next (f st).1)

/-- A stage that leaves through `goto error` or `return` has set a failure status. -/
def ExitFails (f : FormatState → FormatState × Flow) : Prop :=
  ∀ st, (f st).2 ≠ Flow.next → (f st).1.nStatus.failed = true

/-- A write of the header buffer to the backup header slot (line 636). -/
def Event.isBackupWrite : Event → Bool
  | Event.WriteEffectiveVolumeHeader HeaderSite.backup _ _ => true
  | _ => false

/-- An environment in which the seek of `FormatNoFs` to the start of the data area fails and
every other collaborator succeeds. -/
def seekFailsEnv : Env :=
  { okEnv with fill := fun _ => { okFillEnv with SetFilePointerEx := fun _ => false } }

/-- The data-area format calls in the trace start at `startSector`, and for a hidden volume
the data offset is a multiple of the sector size. -/
def alignedDataArea (c : Consts) (p : FORMAT_VOL_PARAMETERS) : Event → Prop
  | Event.FormatNoFs s _ _ =>
    s = startSector c p ∧ (p.hiddenVol = true → dataOffset c p % p.sectorSize = 0)
  | Event.FormatFat s _ _ _ =>
    s = startSector c p ∧ (p.hiddenVol = true → dataOffset c p % p.sectorSize = 0)
  | _ => True

/-- A request for test runs: a hidden volume of 5 MiB inside a host file of 20 MiB, with
512-byte sectors and a full format requested. -/
def hiddenTestParams : FORMAT_VOL_PARAMETERS :=
  { testParams with hiddenVol := true, size := 5242880, hiddenVolHostSize := 20971520,
                    quickFormat := false }

/-- An environment in which `FakeDosNameForDevice` fails and every other collaborator
succeeds. -/
def fakeDosNameFailsEnv : Env :=
  { okEnv with FakeDosNameForDevice := fun _ => false }

/-- An environment of the fill engine in which every write of the data buffer fails and every
other collaborator succeeds. -/
def writeFailsFillEnv : FillEnv := { okFillEnv with WriteFile := fun _ => false }

/-- The local key buffers of `FormatNoFs` are zero at the return; with RAM encryption the
local context copy is burned and the context of the caller is the one it passed in. -/
def keysBurned (c : Consts) (env : FillEnv) (cryptoInfo : CRYPTO_INFO)
    (r : FormatNoFsResult) : Prop :=
  r.temporaryKey = zeros c.MASTER_KEYDATA_SIZE ∧ r.originalK2 = zeros c.MASTER_KEYDATA_SIZE
    ∧ (env.IsRamEncryptionEnabled = true →
        r.cryptoInfo = cryptoInfo ∧ ∃ w, r.tmpCI = some (burnCryptoInfo w))

/-- No write of the data buffer fails: the direct write, and with the background writer the
wait for the empty buffer, the hand-over of the full buffer and the write of the worker. -/
def noWriteFails (env : FillEnv) : Prop :=
  (∀ n, env.WriteFile n = true) ∧ (∀ n, env.waitEmptyOk n = true)
    ∧ (∀ n, env.setFullOk n = true) ∧ (∀ n, env.workerWriteResult n = 0)

/-- The progress reporter never asks to cancel. -/
def neverCancels (env : FillEnv) : Prop := ∀ n bytes, env.UpdateProgressBar n bytes = false

/-- An event that hands nothing to the cipher and nothing to the device. -/
def Event.silent (c : Consts) (cipher : Cipher) (e : Event) : Prop :=
  Event.units c e = [] ∧ Event.ciphertext c cipher e = [] ∧ Event.deviceData e = []

/-- The state of the sector writer after `k` sectors of a fill that started at sector
`start`, when `F` bytes have been flushed: the buffer holds the other `k * ss - F` bytes, all
zero; the `F / unit` data units encrypted so far are zero units numbered consecutively from
`start * ss / unit`; the device has received their ciphertext, `F` bytes. -/
def fillInvariant (c : Consts) (cipher : Cipher) (ss start k F : Nat) (s : WriterState) : Prop :=
  s.nSecNo = start + k
    ∧ F + s.write_buf_cnt = k * ss
    ∧ ss ∣ s.write_buf_cnt
    ∧ c.ENCRYPTION_DATA_UNIT_SIZE ∣ F
    ∧ s.write_buf.take s.write_buf_cnt = zeros s.write_buf_cnt
    ∧ s.WriteRequestResult = 0
    ∧ encryptedUnits c s.trace
        = (List.range (F / c.ENCRYPTION_DATA_UNIT_SIZE)).map (fun j =>
            (start * ss / c.ENCRYPTION_DATA_UNIT_SIZE + j, zeros c.ENCRYPTION_DATA_UNIT_SIZE))
    ∧ deviceBytes s.trace = encryptedOutput c cipher s.trace
    ∧ (deviceBytes s.trace).length = F

/-- The key setup of the fill succeeds: the random number generator delivers its bytes and
the cipher and its mode initialise. -/
def keySetupSucceeds (env : FillEnv) : Prop :=
  (∀ n len, (env.RandgetBytes n len).1 = true)
    ∧ (∀ ea key, env.EAInit ea key = Status.ERR_SUCCESS)
    ∧ (∀ ci k2, env.EAInitMode ci k2 = true)

/-- An environment in which the build of the backup header (the second call of
`CreateVolumeHeaderInMemory`) fails with `ERR_OUTOFMEMORY` and every other collaborator
succeeds. -/
def backupBuildFailsEnv : Env :=
  { okEnv with createBackupHeader := fun _ => Status.ERR_OUTOFMEMORY }

/-- An environment in which every write of the background writer fails with the system error
code 5 and every other collaborator succeeds. -/
def workerWriteFailsEnv : Env :=
  { okEnv with fill := fun _ => { okFillEnv with workerWriteResult := fun _ => 5 } }

/-- A request for test runs: a standard volume on a device with a data area of one 512-byte
sector, no file system, full format. -/
def oneSectorDeviceParams : FORMAT_VOL_PARAMETERS :=
  { testParams with bDevice := true, size := 262656, quickFormat := false }

/-- A write of the background writer that failed. -/
def Event.isFailedWorkerWrite : Event → Bool
  | Event.WorkerWrite _ result => result != 0
  | _ => false

/-- A request for test runs: a hidden volume of 5 MiB for a host of the minimum size, which
is too small to hold it. -/
def oversizedHiddenParams : FORMAT_VOL_PARAMETERS :=
  { hiddenTestParams with hiddenVolHostSize := 348160 }

/-- A caller of the sector writer that hands the sectors of a list to `WriteSector` in order
and stops at the first call that returns `FALSE`, as the loop of lines 928-933 does with its
zero sector. -/
def writeSectors (c : Consts) (cipher : Cipher) (env : FillEnv) (FormatSectorSize : Nat)
    (ci : CRYPTO_INFO) : List (List Nat) → WriterState → Bool × WriterState
  | [], s => (true, s)
  | sector :: rest, s =>
    if !(WriteSector c cipher env FormatSectorSize ci sector s).1 then
      (false, (WriteSector c cipher env FormatSectorSize ci sector s).2)
    else writeSectors c cipher env FormatSectorSize ci rest
      (WriteSector c cipher env FormatSectorSize ci sector s).2

/-- The sectors of a list written through `WriteSector`, followed by the flush of the
residual buffer (line 936). -/
def writeSectorsAndFlush (c : Consts) (cipher : Cipher) (env : FillEnv) (FormatSectorSize : Nat)
    (ci : CRYPTO_INFO) (sectors : List (List Nat)) (s : WriterState) : Bool × WriterState :=
  if !(writeSectors c cipher env FormatSectorSize ci sectors s).1 then
    (false, (writeSectors c cipher env FormatSectorSize ci sectors s).2)
  else FlushFormatWriteBuffer c cipher env FormatSectorSize ci
    (writeSectors c cipher env FormatSectorSize ci sectors s).2

/-- The variables of the sector writer before the first sector (lines 852-854): an empty
buffer, `nSecNo = startSector`, and an empty trace. -/
def writerStart (startSector : Nat) (WriteThreadRunning : Bool) : WriterState :=
  { write_buf := [], write_buf_cnt := 0, nSecNo := startSector,
    WriteThreadRunning := WriteThreadRunning, WriteRequestResult := 0, nFlush := 0, nCalls := 0,
    trace := [] }

/-- The data units of a byte sequence, numbered consecutively from `unitNo`. -/
def unitsOf (c : Consts) (unitNo : Nat) (bytes : List Nat) : List (Nat × List Nat) :=
  (List.range (bytes.length / c.ENCRYPTION_DATA_UNIT_SIZE)).map
    (fun j => (unitNo + j, dataUnit c bytes j))

/-- The ciphertext of a sequence of numbered data units: each unit is encrypted under its
number. -/
def encryptUnits (cipher : Cipher) (ks ks2 : List Nat) (units : List (Nat × List Nat)) :
    List Nat :=
  (units.map (fun ud => cipher.encUnit ks ks2 ud.1 ud.2)).flatten

/-- The state of the sector writer after `k` sectors, with plaintext `P`, of a run that
started at sector `start`, when `F` bytes have been flushed: the buffer holds the rest of
`P`; the units encrypted so far are the units of the first `F` bytes of `P`, numbered from
`start * ss / unit`; the device has received their ciphertext. -/
def writerInvariant (c : Consts) (cipher : Cipher) (ci : CRYPTO_INFO) (ss start k : Nat)
    (P : List Nat) (F : Nat) (s : WriterState) : Prop :=
  s.nSecNo = start + k
    ∧ P.length = k * ss
    ∧ F + s.write_buf_cnt = k * ss
    ∧ ss ∣ s.write_buf_cnt
    ∧ c.ENCRYPTION_DATA_UNIT_SIZE ∣ F
    ∧ s.write_buf.take s.write_buf_cnt = P.drop F
    ∧ s.WriteRequestResult = 0
    ∧ encryptedUnits c s.trace = unitsOf c (start * ss / c.ENCRYPTION_DATA_UNIT_SIZE) (P.take F)
    ∧ deviceBytes s.trace = encryptUnits cipher ci.ks ci.ks2 (encryptedUnits c s.trace)

/-- An environment of the fill engine in which every collaborator succeeds, with a write
buffer of `size` bytes. -/
def bufferEnv (size : Nat) : FillEnv := { okFillEnv with FormatWriteBufferSize := size }

/-- The confirmation of the retry with FAT (line 816) as it appears in the trace; it is the
mark of the retry edge. -/
def retryConfirmed : Event := Event.AskErrYesNo Msg.FORMAT_NTFS_FAILED_ASK_FAT true

/-- A pass that is not followed by the external format: the code from `begin_format` to the
return of line 195 or, through `error:` and `fv_end`, to the return of line 846. -/
def lastPass (c : Consts) (cipher : Cipher) (env : Env) (p : FORMAT_VOL_PARAMETERS)
    (pp : PassParams) (st : FormatState) : FormatState :=
  if (passBody c cipher env p pp st).2 = Flow.ret then (passBody c cipher env p pp st).1
  else fvEnd (cleanup env p pp (passBody c cipher env p pp st).1)

/-- The events between the label `error:` and the end of the function (lines 729-846), apart
from the confirmation of the retry: the truncation occurs only for a container file of a
standard volume. -/
def tailEvent (p : FORMAT_VOL_PARAMETERS) : Event → Prop
  | Event.burn b => b = Buf.header
  | Event.VirtualUnlock b => b = Buf.header
  | Event.SetFilePointer off _ => off = 0 ∧ ¬ p.bDevice ∧ ¬ p.hiddenVol
  | Event.SetEndOfFile => ¬ p.bDevice ∧ ¬ p.hiddenVol
  | Event.FlushFileBuffers => True
  | Event.SetFileTime => True
  | Event.CloseHandle => True
  | Event.MessageBox _ _ => True
  | Event.MountVolume _ => True
  | Event.ExternalFormatFs _ => True
  | Event.FormatFs _ _ => True
  | Event.UnmountVolume _ => True
  | Event.AskErrYesNo _ yes => yes = false
  | Event.Error _ => True
  | Event.RemoveFakeDosName => True
  | Event.crypto_close dummy => dummy = false
  | _ => False

/-- The events of a pass from `begin_format` to the label `error:`, whatever the stage. -/
def passEvent (c : Consts) (p : FORMAT_VOL_PARAMETERS) (pp : PassParams) (e : Event) : Prop :=
  acquireEvent c p pp e ∨ headerSeekEvent e ∨ primaryEvent c p pp e
    ∨ (∃ q, dataAreaEvent c p pp q e) ∨ backupEvent c p e ∨ decoyEvent c p e
    ∨ e = Event.Sleep

/-- A write of the header buffer to the primary header slot (line 481). -/
def Event.isPrimaryWrite : Event → Bool
  | Event.WriteEffectiveVolumeHeader HeaderSite.primary _ _ => true
  | _ => false

/-- The successful write of the backup header, as it appears in the trace. -/
def backupWritten (c : Consts) (p : FORMAT_VOL_PARAMETERS) : Event :=
  Event.WriteEffectiveVolumeHeader HeaderSite.backup (backupHeaderOffset c p) true

/-- The build of a decoy header, the release of its crypto context and the write of the
decoy header (lines 684-716). -/
def Event.isDecoy : Event → Bool
  | Event.CreateVolumeHeaderInMemory (HeaderSite.decoy _) _ _ _ => true
  | Event.crypto_close true => true
  | Event.WriteEffectiveVolumeHeader (HeaderSite.decoy _) _ _ => true
  | _ => false

/-- The decoy events of one iteration of the loop of lines 675-721 that reaches line 717:
the header is built with no preset master key and a null password, its crypto context is
closed, and the header is written at the offset of line 680. -/
def decoyEvents (c : Consts) (p : FORMAT_VOL_PARAMETERS) (bUpdateBackup : Bool) : List Event :=
  [Event.CreateVolumeHeaderInMemory (HeaderSite.decoy bUpdateBackup) false true Status.ERR_SUCCESS,
    Event.crypto_close true,
    Event.WriteEffectiveVolumeHeader (HeaderSite.decoy bUpdateBackup)
      (decoyHeaderOffset c p bUpdateBackup) true]

/-- The decoy events of a pass that completes the loop of lines 675-721: one iteration with
`bUpdateBackup` clear, one with it set. -/
def decoyBlock (c : Consts) (p : FORMAT_VOL_PARAMETERS) : List Event :=
  decoyEvents c p false ++ decoyEvents c p true

/-- An environment in which the external format and its fallback fail, the user confirms the
retry with FAT, and every other collaborator succeeds. -/
def retryEnv : Env :=
  { okEnv with ExternalFormatFs := fun _ => false, FormatFs := fun _ => false }

/-- A request for a file-hosted standard volume of 1 MiB with an NTFS file system. -/
def ntfsParams : FORMAT_VOL_PARAMETERS :=
  { testParams with fileSystem := FileSys.FILESYS_NTFS }

/-- The events of a trace before the first confirmation of the retry. -/
def beforeRetry (t : List Event) : List Event :=
  t.takeWhile (fun e => e != retryConfirmed)

/-- The events of a trace after the first confirmation of the retry. -/
def afterRetry (t : List Event) : List Event :=
  (t.dropWhile (fun e => e != retryConfirmed)).tail

/-- A write of a decoy header (line 708). -/
def Event.isDecoyWrite : Event → Bool
  | Event.WriteEffectiveVolumeHeader (HeaderSite.decoy _) _ _ => true
  | _ => false

/-- The events the acquisition of the target (lines 187-436) can add on a retry: the file is
opened, not created, and the steps of lines 313-334 and 373-435 are skipped. -/
def retryAcquireEvent (p : FORMAT_VOL_PARAMETERS) : Event → Prop
  | Event.FakeDosNameForDevice _ => p.bDevice
  | Event.DismountDrive _ => p.bDevice
  | Event.Error _ => p.bDevice
  | Event.AllowExtendedDasdIo _ => p.bDevice
  | Event.AssignTemporaryDriveLetter => p.bDevice
  | Event.MessageBox _ _ => p.bDevice
  | Event.CreateFile shared createAlways _ => createAlways = false ∧ (¬ p.bDevice → shared = true)
  | Event.IsVolumeMounted _ => p.bDevice
  | Event.SetFileTime => ¬ p.bDevice
  | Event.GetFileTime _ => ¬ p.bDevice
  | Event.DisableFileCompression => ¬ p.bDevice
  | _ => False

/-- The steps the claim lists as skipped on a retry: the write of the primary header, a
write of zeroes, the creation of the file (`CREATE_ALWAYS`), the preallocation of lines
383-427, a format of the data area without a file system or without the quick-format flag,
and the work of the sector writer. -/
def Event.isSkippedOnRetry : Event → Bool
  | Event.WriteEffectiveVolumeHeader HeaderSite.primary _ _ => true
  | Event.WriteZeros _ _ _ => true
  | Event.CreateFile _ createAlways _ => createAlways
  | Event.SetSparse _ => true
  | Event.Preallocate _ _ => true
  | Event.SetPrivilege _ => true
  | Event.SetFileValidData _ _ => true
  | Event.FormatNoFs _ _ _ => true
  | Event.FormatFat _ _ q _ => !q
  | Event.RandgetBytes _ _ => true
  | Event.EncryptDataUnits _ _ _ _ _ => true
  | Event.WriteFile _ _ => true
  | Event.WorkerWrite _ _ => true
  | _ => false

/-- Since the trace was `t0`, the quick-format flag is set and only events with the property
`G` have been added. -/
def Since (t0 : List Event) (G : Event → Prop) (st : FormatState) : Prop :=
  st.quickFormat = true ∧ ∃ evs, st.trace = t0 ++ evs ∧ ∀ e ∈ evs, G e

/-- The stage `f` does not touch the handle, the fake DOS name or the time-stamp flag, and it
does not return from the function. -/
def KeepsHandle (f : FormatState → FormatState × Flow) : Prop :=
  ∀ st, (f st).1.dev = st.dev ∧ (f st).1.dosDev = st.dosDev
    ∧ (f st).1.bTimeStampValid = st.bTimeStampValid ∧ (f st).2 ≠ Flow.ret

/-- The end of the trace of a failed pass over the container file of a standard volume: the
file is truncated (lines 738-739), flushed and closed, and the crypto context is released at
`fv_end`. -/
def truncatedAndClosed : List Event :=
  [Event.SetFilePointer 0 true, Event.SetEndOfFile, Event.FlushFileBuffers, Event.CloseHandle,
    Event.crypto_close false]

/-- The end of the trace of a failed pass over the container file of a standard volume when
the seek of line 738 does not return 0: the file is closed without `SetEndOfFile`. -/
def closedAfterFailedSeek : List Event :=
  [Event.SetFilePointer 0 false, Event.FlushFileBuffers, Event.CloseHandle,
    Event.crypto_close false]

/-- The end of the trace of a pass that could not open the container file: there is no
handle to truncate or close. -/
def notOpened (shared createAlways : Bool) : List Event :=
  [Event.CreateFile shared createAlways false, Event.burn Buf.header,
    Event.VirtualUnlock Buf.header, Event.crypto_close false]

/-- The statuses set by the external-format stage (lines 777, 795 and 829), after the handle
has been closed. -/
def Status.isExternalFormatFailure (s : Status) : Bool :=
  s == Status.ERR_NO_FREE_DRIVES || s == Status.ERR_VOL_MOUNT_FAILED
    || s == Status.ERR_DONT_REPORT

/-- An environment in which the external format and its fallback fail, the user declines the
retry with FAT, and every other collaborator succeeds. -/
def declinedRetryEnv : Env :=
  { retryEnv with AskErrYesNo := fun _ => false }

/-- The calls of the FAT path on a retry: `GetFatParams` receives the sector count, the sector
size and the cluster size 0 of line 822, and `FormatFat` starts at `startSector`, covers
`num_sectors` sectors and carries the quick-format flag. -/
def retryFatCall (c : Consts) (p : FORMAT_VOL_PARAMETERS) : Event → Prop
  | Event.GetFatParams n ss cs =>
    cs = 0 ∧ n = numSectors c p % 2 ^ 32 ∧ ss = p.sectorSize % 2 ^ 16
  | Event.FormatFat s n q _ => s = startSector c p ∧ n = numSectors c p ∧ q = true
  | _ => True

/-! # Theorems -/

/-! ## 64-bit arithmetic -/

theorem two64_pos : 0 < two64 := by unfold two64; positivity

theorem sub64_of_le {a b : Nat} (hb : b ≤ a) (ha : a < two64) : sub64 a b = a - b := by
  unfold sub64
  have hb' : b < two64 := lt_of_le_of_lt hb ha
  rw [Nat.mod_eq_of_lt ha, Nat.mod_eq_of_lt hb']
  have : a + two64 - b = (a - b) + two64 := by omega
  rw [this, Nat.add_mod_right, Nat.mod_eq_of_lt (by omega)]

theorem sub64_lt (a b : Nat) : sub64 a b < two64 := Nat.mod_lt _ two64_pos

theorem add64_of_lt {a b : Nat} (h : a + b < two64) : add64 a b = a + b :=
  Nat.mod_eq_of_lt h

theorem mul64_of_lt {a b : Nat} (h : a * b < two64) : mul64 a b = a * b :=
  Nat.mod_eq_of_lt h

theorem toInt64_of_lt {a : Nat} (h : a < 2 ^ 63) : toInt64 a = (a : Int) := by
  have h2 : a < two64 := by unfold two64; omega
  unfold toInt64
  rw [Nat.mod_eq_of_lt h2, if_pos h]

theorem ofInt64_natCast {a : Nat} (h : a < two64) : ofInt64 (a : Int) = a := by
  unfold ofInt64
  rw [← Int.natCast_mod, Int.toNat_natCast, Nat.mod_eq_of_lt h]

theorem wrap64_natCast {a : Nat} (h : a < 2 ^ 63) : wrap64 (a : Int) = (a : Int) := by
  have h2 : a < two64 := by unfold two64; omega
  unfold wrap64
  rw [ofInt64_natCast h2, toInt64_of_lt h]

/-! ## The data-area size -/

/-- The value of `GetVolumeDataAreaSize` in terms of the reserved size it selects: the
64-bit subtraction is taken only when it does not wrap around. -/
theorem GetVolumeDataAreaSize_eq (c : Consts) (hiddenVolume : Bool) (volumeSize : Nat)
    (h : volumeSize < 2 ^ 64) :
    GetVolumeDataAreaSize c hiddenVolume volumeSize =
      if reservedSize c hiddenVolume volumeSize ≤ volumeSize
      then volumeSize - reservedSize c hiddenVolume volumeSize else 0 := by
  have h64 : volumeSize < two64 := h
  simp only [GetVolumeDataAreaSize]
  by_cases hr : reservedSize c hiddenVolume volumeSize ≤ volumeSize
  · rw [if_neg (by omega), if_pos hr, sub64_of_le hr h64]
  · rw [if_pos (by omega), if_neg hr]

/-- C2: for every 64-bit `volumeSize`, `GetVolumeDataAreaSize` returns
`volumeSize - RESERVED` when `volumeSize >= RESERVED` and 0 otherwise, where `RESERVED` is
`TC_TOTAL_VOLUME_HEADERS_SIZE` for a standard volume,
`TC_HIDDEN_VOLUME_HOST_FS_RESERVED_END_AREA_SIZE` for a hidden volume below
`TC_VOLUME_SMALL_SIZE_THRESHOLD` and `TC_HIDDEN_VOLUME_HOST_FS_RESERVED_END_AREA_SIZE_HIGH`
for a hidden volume at or above it; the 64-bit subtraction never wraps around, so the
result is at most `volumeSize`. -/
theorem GetVolumeDataAreaSize_spec (c : Consts) (hiddenVolume : Bool) (volumeSize : Nat)
    (h : volumeSize < 2 ^ 64) :
    (¬ hiddenVolume →
      GetVolumeDataAreaSize c hiddenVolume volumeSize =
        if c.TC_TOTAL_VOLUME_HEADERS_SIZE ≤ volumeSize
        then volumeSize - c.TC_TOTAL_VOLUME_HEADERS_SIZE else 0) ∧
    (hiddenVolume → volumeSize < c.TC_VOLUME_SMALL_SIZE_THRESHOLD →
      GetVolumeDataAreaSize c hiddenVolume volumeSize =
        if c.TC_HIDDEN_VOLUME_HOST_FS_RESERVED_END_AREA_SIZE ≤ volumeSize
        then volumeSize - c.TC_HIDDEN_VOLUME_HOST_FS_RESERVED_END_AREA_SIZE else 0) ∧
    (hiddenVolume → c.TC_VOLUME_SMALL_SIZE_THRESHOLD ≤ volumeSize →
      GetVolumeDataAreaSize c hiddenVolume volumeSize =
        if c.TC_HIDDEN_VOLUME_HOST_FS_RESERVED_END_AREA_SIZE_HIGH ≤ volumeSize
        then volumeSize - c.TC_HIDDEN_VOLUME_HOST_FS_RESERVED_END_AREA_SIZE_HIGH else 0) ∧
    GetVolumeDataAreaSize c hiddenVolume volumeSize ≤ volumeSize := by
  have key := GetVolumeDataAreaSize_eq c hiddenVolume volumeSize h
  refine ⟨?_, ?_, ?_, ?_⟩
  · intro hh
    rw [key]
    simp only [reservedSize, hh, Bool.false_eq_true, if_false]
  · intro hh hs
    rw [key]
    simp only [reservedSize, hh, hs, if_true]
  · intro hh hs
    rw [key]
    simp only [reservedSize, hh, if_true, if_neg (not_lt.mpr hs)]
  · rw [key]
    split <;> omega

/-- Witness of C2: a hidden volume of 5 MiB with the constants of VeraCrypt. -/
theorem GetVolumeDataAreaSize_spec_witness :
    (5242880 < 2 ^ 64) ∧ GetVolumeDataAreaSize veraCryptConsts true 5242880 ≤ 5242880 :=
  ⟨by norm_num, (GetVolumeDataAreaSize_spec veraCryptConsts true 5242880 (by norm_num)).2.2.2⟩

/-! ## Frames of the stages -/

theorem Frame.comp {P : Event → Prop} {f g : FormatState → FormatState}
    (hf : Frame P f) (hg : Frame P g) : Frame P (fun st => g (f st)) := by
  intro st
  obtain ⟨q1, e1, h1, p1⟩ := hf st
  obtain ⟨q2, e2, h2, p2⟩ := hg (f st)
  refine ⟨fun h => q2 (q1 h), e1 ++ e2, by rw [h2, h1, List.append_assoc], ?_⟩
  intro e he
  rcases List.mem_append.mp he with h | h
  · exact p1 e h
  · exact p2 e h

theorem Frame.andThen {P : Event → Prop} {f g : FormatState → FormatState × Flow}
    (hf : Frame P (fun st => (f st).1)) (hg : Frame P (fun st => (g st).1)) :
    Frame P (fun st => (andThen f g st).1) := by
  have h := Frame.comp hf hg
  intro st
  simp only [VeraCrypt.andThen]
  split
  · exact h st
  · exact hf st

theorem Frame.mono {P Q : Event → Prop} {f : FormatState → FormatState}
    (hf : Frame P f) (h : ∀ e, P e → Q e) : Frame Q f := by
  intro st
  obtain ⟨q1, e1, h1, p1⟩ := hf st
  exact ⟨q1, e1, h1, fun e he => h e (p1 e he)⟩

theorem Frame.skip (P : Event → Prop) : Frame P (fun st => ((st, Flow.next) : FormatState × Flow).1) :=
  fun st => ⟨fun h => h, [], (List.append_nil _).symm, by simp⟩

theorem exclusiveOpenLoop_events (o : Nat → Bool) (n k : Nat) :
    ∀ e ∈ (exclusiveOpenLoop o n k).2, ∃ ok, e = Event.CreateFile false false ok := by
  induction n generalizing k with
  | zero => simp [exclusiveOpenLoop]
  | succ n ih =>
    intro e he
    simp only [exclusiveOpenLoop] at he
    split at he
    · simp only [List.mem_singleton] at he
      exact ⟨true, he⟩
    · rcases List.mem_cons.mp he with h | h
      · exact ⟨false, h⟩
      · exact ih (k + 1) e h

theorem openExclusive_frame (c : Consts) (env : Env) (p : FORMAT_VOL_PARAMETERS) (pp : PassParams)
    (nPass : Nat) : Frame (acquireEvent c p pp) (openExclusive c env pp nPass) := by
  intro st
  have hx := exclusiveOpenLoop_events (env.exclusiveOpen pp.pass nPass)
    c.EXCL_ACCESS_MAX_AUTO_RETRIES 0
  simp only [openExclusive]
  split_ifs
  · exact ⟨fun h => h, [], (List.append_nil _).symm, by simp⟩
  · refine ⟨fun h => h, _, rfl, ?_⟩
    intro e he
    obtain ⟨ok, rfl⟩ := hx e he
    simp [acquireEvent]

theorem devicePrepare_frame (c : Consts) (env : Env) (p : FORMAT_VOL_PARAMETERS) (pp : PassParams) (hd : p.bDevice = true) :
    Frame (acquireEvent c p pp) (fun st => (devicePrepare env pp st).1) := by
  intro st
  simp only [devicePrepare, FormatState.fail, FormatState.emit]
  split_ifs <;> refine ⟨fun h => by simpa using h, ?_⟩ <;>
  first
    | exact ⟨[], (List.append_nil _).symm, by simp⟩
    | (try simp only [List.append_assoc]
       exact ⟨_, rfl, by simp_all [acquireEvent]⟩)

theorem openShared_frame (c : Consts) (env : Env) (p : FORMAT_VOL_PARAMETERS) (pp : PassParams) (hd : p.bDevice = true) (nPass : Nat) :
    Frame (acquireEvent c p pp) (fun st => (openShared env p pp nPass st).1) := by
  intro st
  simp only [openShared, FormatState.fail, FormatState.emit]
  split_ifs <;> refine ⟨fun h => by simpa using h, ?_⟩ <;>
  first
    | exact ⟨[], (List.append_nil _).symm, by simp⟩
    | (try simp only [List.append_assoc]
       exact ⟨_, rfl, by simp_all [acquireEvent]⟩)

theorem pseudoQuickFormat_frame (c : Consts) (env : Env) (p : FORMAT_VOL_PARAMETERS) (pp : PassParams) (hd : p.bDevice = true) (nPass : Nat) :
    Frame (acquireEvent c p pp) (fun st => (pseudoQuickFormat c env p pp nPass st).1) := by
  intro st
  simp only [pseudoQuickFormat, FormatState.fail, FormatState.emit]
  split_ifs <;> refine ⟨fun h => by simpa using h, ?_⟩ <;>
  first
    | exact ⟨[], (List.append_nil _).symm, by simp⟩
    | (try simp only [List.append_assoc]
       exact ⟨_, rfl, by simp_all [acquireEvent]⟩)

theorem deviceCheckMounted_frame (c : Consts) (env : Env) (p : FORMAT_VOL_PARAMETERS) (pp : PassParams) (hd : p.bDevice = true) :
    Frame (acquireEvent c p pp) (fun st => (deviceCheckMounted env pp st).1) := by
  intro st
  simp only [deviceCheckMounted, FormatState.fail, FormatState.emit]
  split_ifs <;> refine ⟨fun h => by simpa using h, ?_⟩ <;>
  first
    | exact ⟨[], (List.append_nil _).symm, by simp⟩
    | (try simp only [List.append_assoc]
       exact ⟨_, rfl, by simp_all [acquireEvent]⟩)

theorem fileSetSparse_frame (c : Consts) (env : Env) (p : FORMAT_VOL_PARAMETERS) (pp : PassParams) (hd : p.bDevice = false) :
    Frame (acquireEvent c p pp) (fun st => (fileSetSparse env p pp st).1) := by
  intro st
  simp only [fileSetSparse, FormatState.fail, FormatState.emit]
  split_ifs <;> refine ⟨fun h => by simpa using h, ?_⟩ <;>
  first
    | exact ⟨[], (List.append_nil _).symm, by simp⟩
    | (try simp only [List.append_assoc]
       exact ⟨_, rfl, by simp_all [acquireEvent]⟩)

theorem fileSetSize_frame (c : Consts) (env : Env) (p : FORMAT_VOL_PARAMETERS) (pp : PassParams) (hd : p.bDevice = false) (hh : p.hiddenVol = false) (hr : pp.bInstantRetryOtherFilesys = false) :
    Frame (acquireEvent c p pp) (fun st => (fileSetSize c env p pp st).1) := by
  intro st
  simp only [fileSetSize, FormatState.fail, FormatState.emit]
  split_ifs <;> refine ⟨fun h => by simpa using h, ?_⟩ <;>
  first
    | exact ⟨[], (List.append_nil _).symm, by simp⟩
    | (try simp only [List.append_assoc]
       exact ⟨_, rfl, by simp_all [acquireEvent]⟩)

theorem fileValidData_frame (c : Consts) (env : Env) (p : FORMAT_VOL_PARAMETERS) (pp : PassParams) (hd : p.bDevice = false) :
    Frame (acquireEvent c p pp) (fun st => (fileValidData c env p pp st).1) := by
  intro st
  simp only [fileValidData, FormatState.fail, FormatState.emit]
  split_ifs <;> refine ⟨fun h => by simpa using h, ?_⟩ <;>
  first
    | exact ⟨[], (List.append_nil _).symm, by simp⟩
    | (try simp only [List.append_assoc]
       exact ⟨_, rfl, by simp_all [acquireEvent]⟩)

theorem fileRewind_frame (c : Consts) (env : Env) (p : FORMAT_VOL_PARAMETERS) (pp : PassParams) (hd : p.bDevice = false) :
    Frame (acquireEvent c p pp) (fun st => (fileRewind env pp st).1) := by
  intro st
  simp only [fileRewind, FormatState.fail, FormatState.emit]
  split_ifs <;> refine ⟨fun h => by simpa using h, ?_⟩ <;>
  first
    | exact ⟨[], (List.append_nil _).symm, by simp⟩
    | (try simp only [List.append_assoc]
       exact ⟨_, rfl, by simp_all [acquireEvent]⟩)

theorem fileOpen_frame (c : Consts) (env : Env) (p : FORMAT_VOL_PARAMETERS) (pp : PassParams) (hd : p.bDevice = false) :
    Frame (acquireEvent c p pp) (fun st => (fileOpen env p pp st).1) := by
  intro st
  simp only [fileOpen, FormatState.fail, FormatState.emit]
  split_ifs <;> refine ⟨fun h => by simpa using h, ?_⟩ <;>
  first
    | exact ⟨[], (List.append_nil _).symm, by simp⟩
    | (try simp only [List.append_assoc]
       exact ⟨_, rfl, by simp_all [acquireEvent]⟩)

theorem deviceOpenIter_frame (c : Consts) (env : Env) (p : FORMAT_VOL_PARAMETERS) (pp : PassParams)
    (hd : p.bDevice = true) (nPass : Nat) :
    Frame (acquireEvent c p pp) (fun st => (deviceOpenIter c env p pp nPass st).1) := by
  have h1 := Frame.comp (openExclusive_frame c env p pp nPass)
    (openShared_frame c env p pp hd nPass)
  have h2 := Frame.comp h1 (pseudoQuickFormat_frame c env p pp hd nPass)
  intro st
  simp only [deviceOpenIter]
  split_ifs
  · exact h2 st
  · exact h1 st

theorem deviceOpenLast_frame (c : Consts) (env : Env) (p : FORMAT_VOL_PARAMETERS) (pp : PassParams)
    (hd : p.bDevice = true) :
    Frame (acquireEvent c p pp) (fun st => (deviceOpenLast c env p pp st).1) := by
  intro st
  simp only [deviceOpenLast]
  split_ifs <;> exact deviceOpenIter_frame c env p pp hd 1 st

theorem deviceOpenLoop_frame (c : Consts) (env : Env) (p : FORMAT_VOL_PARAMETERS) (pp : PassParams)
    (hd : p.bDevice = true) :
    Frame (acquireEvent c p pp) (fun st => (deviceOpenLoop c env p pp st).1) := by
  have h0 := deviceOpenIter_frame c env p pp hd 0
  have h1 := deviceOpenLast_frame c env p pp hd
  have h01 := Frame.comp h0 h1
  intro st
  simp only [deviceOpenLoop]
  split_ifs
  · split
    · exact h01 st
    · exact h0 st
    · exact h0 st
  · exact h1 st

theorem acquireTarget_frame (c : Consts) (env : Env) (p : FORMAT_VOL_PARAMETERS)
    (pp : PassParams) :
    Frame (acquireEvent c p pp) (fun st => (acquireTarget c env p pp st).1) := by
  unfold acquireTarget
  by_cases hd : p.bDevice = true
  · simp only [hd, if_true]
    unfold acquireDevice
    exact Frame.andThen (devicePrepare_frame c env p pp hd)
      (Frame.andThen (deviceOpenLoop_frame c env p pp hd) (deviceCheckMounted_frame c env p pp hd))
  · have hf : p.bDevice = false := by simpa using hd
    simp only [hd]
    unfold acquireFile
    refine Frame.andThen (fileOpen_frame c env p pp hf) ?_
    split_ifs with h3
    · simp only [Bool.and_eq_true, Bool.not_eq_true', Bool.not_eq_eq_eq_not, Bool.not_true] at h3
      unfold filePreallocate
      exact Frame.andThen (fileSetSparse_frame c env p pp hf)
        (Frame.andThen (fileSetSize_frame c env p pp hf h3.1 h3.2)
          (Frame.andThen (fileValidData_frame c env p pp hf) (fileRewind_frame c env p pp hf)))
    · exact Frame.skip _

theorem headerSeek_frame (c : Consts) (env : Env) (p : FORMAT_VOL_PARAMETERS) (pp : PassParams) :
    Frame (headerSeekEvent ) (fun st => (headerSeek c env p pp st).1) := by
  intro st
  simp only [headerSeek, FormatState.fail, FormatState.emit]
  split_ifs <;> refine ⟨fun h => by simpa using h, ?_⟩ <;>
  first
    | exact ⟨[], (List.append_nil _).symm, by simp⟩
    | (try simp only [List.append_assoc]
       exact ⟨_, rfl, by simp_all [headerSeekEvent]⟩)

theorem writePrimaryHeader_frame (c : Consts) (env : Env) (p : FORMAT_VOL_PARAMETERS) (pp : PassParams) :
    Frame (primaryEvent c p pp) (fun st => (writePrimaryHeader c env p pp st).1) := by
  intro st
  simp only [writePrimaryHeader, FormatState.fail, FormatState.emit]
  split_ifs <;> refine ⟨fun h => by simpa using h, ?_⟩ <;>
  first
    | exact ⟨[], (List.append_nil _).symm, by simp⟩
    | (try simp only [List.append_assoc]
       exact ⟨_, rfl, by simp_all [primaryEvent]⟩)

theorem hiddenSetup_frame (c : Consts) (p : FORMAT_VOL_PARAMETERS) :
    Frame (headerSeekEvent ) (fun st => (hiddenSetup c p st).1) := by
  intro st
  simp only [hiddenSetup, FormatState.fail, FormatState.emit]
  split_ifs <;> refine ⟨fun h => by simpa using h, ?_⟩ <;>
  first
    | exact ⟨[], (List.append_nil _).symm, by simp⟩
    | (try simp only [List.append_assoc]
       exact ⟨_, rfl, by simp_all [headerSeekEvent]⟩)

theorem writeBackupHeader_frame (c : Consts) (env : Env) (p : FORMAT_VOL_PARAMETERS) (pp : PassParams) :
    Frame (backupEvent c p) (fun st => (writeBackupHeader c env p pp st).1) := by
  intro st
  simp only [writeBackupHeader, withTmpCI, FormatState.fail, FormatState.emit]
  split_ifs <;> refine ⟨fun h => by simpa using h, ?_⟩ <;>
  first
    | exact ⟨[], (List.append_nil _).symm, by simp⟩
    | (try simp only [List.append_assoc]
       exact ⟨_, rfl, by simp_all [backupEvent]⟩)

theorem decoyIter_false_frame (c : Consts) (env : Env) (p : FORMAT_VOL_PARAMETERS) (pp : PassParams) (hh : p.hiddenVol = false) :
    Frame (decoyEvent c p) (fun st => (decoyIter c env p pp false st).1) := by
  intro st
  simp only [decoyIter, FormatState.fail, FormatState.emit]
  split_ifs <;> refine ⟨fun h => by simpa using h, ?_⟩ <;>
  first
    | exact ⟨[], (List.append_nil _).symm, by simp⟩
    | (try simp only [List.append_assoc]
       exact ⟨_, rfl, by simp_all [decoyEvent]⟩)

theorem decoyIter_true_frame (c : Consts) (env : Env) (p : FORMAT_VOL_PARAMETERS) (pp : PassParams) (hh : p.hiddenVol = false) :
    Frame (decoyEvent c p) (fun st => (decoyIter c env p pp true st).1) := by
  intro st
  simp only [decoyIter, FormatState.fail, FormatState.emit]
  split_ifs <;> refine ⟨fun h => by simpa using h, ?_⟩ <;>
  first
    | exact ⟨[], (List.append_nil _).symm, by simp⟩
    | (try simp only [List.append_assoc]
       exact ⟨_, rfl, by simp_all [decoyEvent]⟩)

theorem fillReservedAreas_frame (c : Consts) (env : Env) (p : FORMAT_VOL_PARAMETERS) (pp : PassParams) (hh : p.hiddenVol = false) :
    Frame (decoyEvent c p) (fun st => (fillReservedAreas env pp st).1) := by
  intro st
  simp only [fillReservedAreas, withTmpCI, FormatState.fail, FormatState.emit]
  split_ifs <;> refine ⟨fun h => by simpa using h, ?_⟩ <;>
  first
    | exact ⟨[], (List.append_nil _).symm, by simp⟩
    | (try simp only [List.append_assoc]
       exact ⟨_, rfl, by simp_all [decoyEvent]⟩)

theorem writeDecoyHeaders_frame (c : Consts) (env : Env) (p : FORMAT_VOL_PARAMETERS)
    (pp : PassParams) :
    Frame (decoyEvent c p) (fun st => (writeDecoyHeaders c env p pp st).1) := by
  unfold writeDecoyHeaders
  split_ifs with hh
  · exact Frame.skip _
  · have hf : p.hiddenVol = false := by simpa using hh
    exact Frame.andThen (fillReservedAreas_frame c env p pp hf)
      (Frame.andThen (decoyIter_false_frame c env p pp hf) (decoyIter_true_frame c env p pp hf))


/-! ## Events of the sector writer and of the fill engine -/

theorem FlushFormatWriteBuffer_events (c : Consts) (cipher : Cipher) (env : FillEnv) (ss : Nat)
    (ci : CRYPTO_INFO) (s : WriterState) :
    ∃ evs, (FlushFormatWriteBuffer c cipher env ss ci s).2.trace = s.trace ++ evs
      ∧ ∀ e ∈ evs, fillEvent false e := by
  simp only [FlushFormatWriteBuffer]
  split_ifs <;>
  first
    | exact ⟨[], (List.append_nil _).symm, by simp⟩
    | (try simp only [List.append_assoc]
       exact ⟨_, rfl, by simp [fillEvent]⟩)

theorem WriteSector_events (c : Consts) (cipher : Cipher) (env : FillEnv) (ss : Nat)
    (ci : CRYPTO_INFO) (sector : List Nat) (s : WriterState) :
    ∃ evs, (WriteSector c cipher env ss ci sector s).2.trace = s.trace ++ evs
      ∧ ∀ e ∈ evs, fillEvent false e := by
  have hf := FlushFormatWriteBuffer_events c cipher env ss ci
    { s with nSecNo := add64 s.nSecNo 1,
             write_buf := s.write_buf.take s.write_buf_cnt ++ sector.take ss,
             write_buf_cnt := s.write_buf_cnt + ss, nCalls := s.nCalls + 1 }
  obtain ⟨evs, h1, h2⟩ := hf
  simp only [WriteSector]
  split_ifs <;> simp only [] at h1 ⊢ <;>
  first
    | exact ⟨[], (List.append_nil _).symm, by simp⟩
    | exact ⟨evs, h1, h2⟩
    | (rw [h1, List.append_assoc]
       refine ⟨_, rfl, ?_⟩
       intro e he
       rcases List.mem_append.mp he with h | h
       · exact h2 e h
       · simp only [List.mem_singleton] at h
         subst h
         simp [fillEvent])
    | exact ⟨_, rfl, by simp [fillEvent]⟩

theorem fillLoop_events (c : Consts) (cipher : Cipher) (env : FillEnv) (ss : Nat)
    (ci : CRYPTO_INFO) (sector : List Nat) (n : Nat) (s : WriterState) :
    ∃ evs, (fillLoop c cipher env ss ci sector n s).2.trace = s.trace ++ evs
      ∧ ∀ e ∈ evs, fillEvent false e := by
  induction n generalizing s with
  | zero => exact ⟨[], (List.append_nil _).symm, by simp⟩
  | succ n ih =>
    obtain ⟨e1, h1, p1⟩ := WriteSector_events c cipher env ss ci sector s
    simp only [fillLoop]
    split_ifs
    · exact ⟨e1, h1, p1⟩
    · obtain ⟨e2, h2, p2⟩ := ih (WriteSector c cipher env ss ci sector s).2
      refine ⟨e1 ++ e2, by rw [h2, h1, List.append_assoc], ?_⟩
      intro e he
      rcases List.mem_append.mp he with h | h
      · exact p1 e h
      · exact p2 e h

theorem fillEvent_of_quick {q : Bool} {e : Event} (h : fillEvent true e) : fillEvent q e := by
  cases e <;> simp_all [fillEvent]

theorem formatNoFsExit_events (c : Consts) (env : FillEnv) (cryptoInfo ci : CRYPTO_INFO)
    (retVal : Status) (w : WriterState) :
    ∃ evs, (formatNoFsExit c env cryptoInfo ci retVal w).trace = w.trace ++ evs
      ∧ ∀ e ∈ evs, fillEvent true e := by
  simp only [formatNoFsExit]
  split_ifs <;>
    (try simp only [List.append_assoc]
     exact ⟨_, rfl, by simp [fillEvent]⟩)

theorem events_prepend {P : Event → Prop} (t pre : List Event) {t1 : List Event}
    (hpre : ∀ e ∈ pre, P e) (h : ∃ evs, t1 = (t ++ pre) ++ evs ∧ ∀ e ∈ evs, P e) :
    ∃ evs, t1 = t ++ evs ∧ ∀ e ∈ evs, P e := by
  obtain ⟨evs, h1, h2⟩ := h
  refine ⟨pre ++ evs, by rw [h1, List.append_assoc], ?_⟩
  intro e he
  rcases List.mem_append.mp he with h | h
  · exact hpre e h
  · exact h2 e h

theorem events_mono {P Q : Event → Prop} {t t1 : List Event} (hPQ : ∀ e, P e → Q e)
    (h : ∃ evs, t1 = t ++ evs ∧ ∀ e ∈ evs, P e) : ∃ evs, t1 = t ++ evs ∧ ∀ e ∈ evs, Q e := by
  obtain ⟨evs, h1, h2⟩ := h
  exact ⟨evs, h1, fun e he => hPQ e (h2 e he)⟩

theorem events_trans {P : Event → Prop} {t t1 t2 : List Event}
    (h1 : ∃ evs, t1 = t ++ evs ∧ ∀ e ∈ evs, P e) (h2 : ∃ evs, t2 = t1 ++ evs ∧ ∀ e ∈ evs, P e) :
    ∃ evs, t2 = t ++ evs ∧ ∀ e ∈ evs, P e := by
  obtain ⟨e1, a1, b1⟩ := h1
  obtain ⟨e2, a2, b2⟩ := h2
  refine ⟨e1 ++ e2, by rw [a2, a1, List.append_assoc], ?_⟩
  intro e he
  rcases List.mem_append.mp he with h | h
  · exact b1 e h
  · exact b2 e h

theorem formatNoFsRestore_events (c : Consts) (env : FillEnv) (ss : Nat)
    (cryptoInfo ci : CRYPTO_INFO) (originalK2 : List Nat) (w : WriterState) :
    ∃ evs, (formatNoFsRestore c env ss cryptoInfo ci originalK2 w).trace = w.trace ++ evs
      ∧ ∀ e ∈ evs, fillEvent true e := by
  simp only [formatNoFsRestore]
  split_ifs <;>
    exact events_prepend _ _ (by simp [fillEvent]) (formatNoFsExit_events _ _ _ _ _ _)

theorem installTemporaryKeys_events (c : Consts) (env : FillEnv) (ci : CRYPTO_INFO)
    (w : WriterState) :
    ∃ evs, (installTemporaryKeys c env ci w).2.2.trace = w.trace ++ evs
      ∧ ∀ e ∈ evs, fillEvent false e := by
  simp only [installTemporaryKeys, WriterState.emit]
  split_ifs <;> exact ⟨_, rfl, by simp [fillEvent]⟩

theorem fillAndRestore_events (c : Consts) (cipher : Cipher) (env : FillEnv) (ss : Nat)
    (num_sectors : Nat) (cryptoInfo ci : CRYPTO_INFO) (originalK2 : List Nat) (w : WriterState) :
    ∃ evs, (fillAndRestore c cipher env ss num_sectors cryptoInfo ci originalK2 w).trace
        = w.trace ++ evs ∧ ∀ e ∈ evs, fillEvent false e := by
  have hx : ∀ cryptoInfo ci retVal w, ∃ evs,
      (formatNoFsExit c env cryptoInfo ci retVal w).trace = w.trace ++ evs
        ∧ ∀ e ∈ evs, fillEvent false e :=
    fun a b d e => events_mono (fun _ h => fillEvent_of_quick h) (formatNoFsExit_events c env a b d e)
  have hr : ∀ cryptoInfo ci k w, ∃ evs,
      (formatNoFsRestore c env ss cryptoInfo ci k w).trace = w.trace ++ evs
        ∧ ∀ e ∈ evs, fillEvent false e :=
    fun a b d e => events_mono (fun _ h => fillEvent_of_quick h)
      (formatNoFsRestore_events c env ss a b d e)
  simp only [fillAndRestore]
  split_ifs
  · exact events_trans (fillLoop_events _ _ _ _ _ _ _ _) (hx _ _ _ _)
  · exact events_trans (fillLoop_events _ _ _ _ _ _ _ _)
      (events_trans (FlushFormatWriteBuffer_events _ _ _ _ _ _) (hx _ _ _ _))
  · exact events_trans (fillLoop_events _ _ _ _ _ _ _ _)
      (events_trans (FlushFormatWriteBuffer_events _ _ _ _ _ _) (hr _ _ _ _))

theorem formatNoFsFill_events (c : Consts) (cipher : Cipher) (env : FillEnv) (ss : Nat)
    (num_sectors : Nat) (cryptoInfo ci : CRYPTO_INFO) (originalK2 : List Nat) (w : WriterState) :
    ∃ evs, (formatNoFsFill c cipher env ss num_sectors cryptoInfo ci originalK2 w).trace
        = w.trace ++ evs ∧ ∀ e ∈ evs, fillEvent false e := by
  simp only [formatNoFsFill]
  split
  · exact events_trans (installTemporaryKeys_events c env ci w)
      (events_mono (fun _ h => fillEvent_of_quick h) (formatNoFsExit_events _ _ _ _ _ _))
  · exact events_trans (installTemporaryKeys_events c env ci w)
      (fillAndRestore_events _ _ _ _ _ _ _ _ _)

theorem fillStart_events (env : FillEnv) (ss : Nat) (running : Bool) (result : Nat)
    (startSector nSecNo : Nat) :
    ∃ evs, (fillStart env ss running result startSector nSecNo).trace = [] ++ evs
      ∧ ∀ e ∈ evs, fillEvent true e := by
  simp only [fillStart]
  split_ifs <;> exact ⟨_, (List.nil_append _).symm, by simp [fillEvent]⟩

theorem FormatNoFs_events (c : Consts) (cipher : Cipher) (env : FillEnv) (ss : Nat)
    (running : Bool) (result : Nat) (startSector num_sectors : Nat) (cryptoInfo : CRYPTO_INFO)
    (quickFormat : Bool) :
    ∀ e ∈ (FormatNoFs c cipher env ss running result startSector num_sectors cryptoInfo
      quickFormat).trace, fillEvent quickFormat e := by
  have key : ∀ {t : List Event} {q : Bool}, (∃ evs, t = [] ++ evs ∧ ∀ e ∈ evs, fillEvent q e)
      → ∀ e ∈ t, fillEvent q e := by
    rintro t q ⟨evs, h1, h2⟩ e he
    rw [h1, List.nil_append] at he
    exact h2 e he
  cases quickFormat
  · simp only [FormatNoFs, formatNoFsEarly]
    split_ifs
    · simp [fillEvent]
    · simp [fillEvent]
    · exact key (events_trans
        (events_mono (fun _ h => fillEvent_of_quick h) (fillStart_events _ _ _ _ _ _))
        (formatNoFsFill_events _ _ _ _ _ _ _ _ _))
    · simp_all
  · simp only [FormatNoFs, formatNoFsEarly]
    split_ifs
    · simp [fillEvent]
    · simp [fillEvent]
    · simp_all
    · exact key (events_trans (fillStart_events _ _ _ _ _ _)
        (formatNoFsRestore_events _ _ _ _ _ _ _))

/-! ## The data area, the epilogue and the loop over the passes -/

theorem dataAreaEvent_of_fillEvent (c : Consts) (p : FORMAT_VOL_PARAMETERS) (pp : PassParams)
    {q : Bool} {e : Event} (h : fillEvent q e) : dataAreaEvent c p pp q e := by
  cases e <;> simp_all [fillEvent, dataAreaEvent]

theorem dataAreaNoFs_events (c : Consts) (cipher : Cipher) (env : Env)
    (p : FORMAT_VOL_PARAMETERS) (pp : PassParams) (hfs : pp.fileSystem ≠ FileSys.FILESYS_FAT)
    (st : FormatState) :
    (dataAreaNoFs c cipher env p pp st).1.quickFormat = st.quickFormat
      ∧ ∃ evs, (dataAreaNoFs c cipher env p pp st).1.trace = st.trace ++ evs
        ∧ ∀ e ∈ evs, dataAreaEvent c p pp st.quickFormat e := by
  have hr : ∀ e ∈ (FormatNoFs c cipher (env.fill pp.pass) p.sectorSize p.bDevice 0
      (startSector c p) (numSectors c p) st.cryptoInfo st.quickFormat).trace,
      dataAreaEvent c p pp st.quickFormat e :=
    fun e he => dataAreaEvent_of_fillEvent c p pp
      (FormatNoFs_events c cipher (env.fill pp.pass) p.sectorSize p.bDevice 0
        (startSector c p) (numSectors c p) st.cryptoInfo st.quickFormat e he)
  simp only [dataAreaNoFs, FormatState.fail]
  split_ifs <;> refine ⟨rfl, ?_⟩ <;> (try simp only [List.append_assoc]) <;>
    refine ⟨_, rfl, ?_⟩ <;>
    simp only [List.forall_mem_append, List.forall_mem_singleton] <;>
    simp_all [dataAreaEvent]

theorem dataAreaFat_events (c : Consts) (env : Env)
    (p : FORMAT_VOL_PARAMETERS) (pp : PassParams) (hfs : pp.fileSystem = FileSys.FILESYS_FAT)
    (st : FormatState) :
    (dataAreaFat c env p pp st).1.quickFormat = st.quickFormat
      ∧ ∃ evs, (dataAreaFat c env p pp st).1.trace = st.trace ++ evs
        ∧ ∀ e ∈ evs, dataAreaEvent c p pp st.quickFormat e := by
  simp only [dataAreaFat, FormatState.fail]
  split_ifs with h0 h1 h2 <;> refine ⟨rfl, ?_⟩ <;>
  first
    | exact ⟨[], (List.append_nil _).symm, by simp⟩
    | (try simp only [List.append_assoc]
       exact ⟨_, rfl, by simp_all [dataAreaEvent, fillEvent, fatParamsEvents]⟩)

theorem formatDataArea_events (c : Consts) (cipher : Cipher) (env : Env)
    (p : FORMAT_VOL_PARAMETERS) (pp : PassParams) (st : FormatState) :
    (formatDataArea c cipher env p pp st).1.quickFormat = st.quickFormat
      ∧ ∃ evs, (formatDataArea c cipher env p pp st).1.trace = st.trace ++ evs
        ∧ ∀ e ∈ evs, dataAreaEvent c p pp st.quickFormat e := by
  unfold formatDataArea
  split
  · exact dataAreaNoFs_events c cipher env p pp (by simp_all) st
  · exact dataAreaNoFs_events c cipher env p pp (by simp_all) st
  · exact dataAreaNoFs_events c cipher env p pp (by simp_all) st
  · exact dataAreaNoFs_events c cipher env p pp (by simp_all) st
  · exact dataAreaFat_events c env p pp (by simp_all) st
  · exact ⟨rfl, [], by simp [FormatState.fail], by simp⟩

theorem quickFormatPause_frame (pp : PassParams) :
    Frame (fun e => e = Event.Sleep) (fun st => (quickFormatPause pp st).1) := by
  intro st
  simp only [quickFormatPause, FormatState.emit]
  split_ifs <;> refine ⟨fun h => by simpa using h, ?_⟩ <;>
  first
    | exact ⟨[], (List.append_nil _).symm, by simp⟩
    | exact ⟨_, rfl, by simp⟩

theorem cleanup_frame (env : Env) (p : FORMAT_VOL_PARAMETERS) (pp : PassParams) :
    Frame epilogueEvent (cleanup env p pp) := by
  intro st
  simp only [cleanup, FormatState.emit]
  split_ifs <;> refine ⟨fun h => by simpa using h, ?_⟩ <;>
    (try simp only [List.append_assoc]
     exact ⟨_, rfl, by simp [epilogueEvent]⟩)

theorem fvEnd_frame : Frame epilogueEvent fvEnd := by
  intro st
  simp only [fvEnd, FormatState.emit]
  split_ifs <;> refine ⟨fun h => by simpa using h, ?_⟩ <;>
    (try simp only [List.append_assoc]
     exact ⟨_, rfl, by simp [epilogueEvent]⟩)

theorem externalFormatEvents_epilogue (env : Env) (pp : PassParams) :
    ∀ e ∈ externalFormatEvents env pp, epilogueEvent e := by
  simp only [externalFormatEvents, externalFormatCall, unmountEvents]
  split_ifs <;> simp [epilogueEvent]

theorem externalFormatFailed_frame (c : Consts) (env : Env) (p : FORMAT_VOL_PARAMETERS)
    (pp : PassParams) :
    Frame epilogueEvent (fun st => (externalFormatFailed c env p pp st).1) := by
  intro st
  simp only [externalFormatFailed]
  split_ifs <;> refine ⟨fun h => by simp_all, ?_⟩ <;> exact ⟨_, rfl, by simp [epilogueEvent]⟩

theorem externalFormat_frame (c : Consts) (env : Env) (p : FORMAT_VOL_PARAMETERS)
    (pp : PassParams) :
    Frame epilogueEvent (fun st => (externalFormat c env p pp st).1) := by
  have h1 : Frame epilogueEvent (fun st => st.emit (externalFormatEvents env pp)) :=
    fun st => ⟨fun h => h, _, rfl, externalFormatEvents_epilogue env pp⟩
  have h2 := Frame.comp h1 (externalFormatFailed_frame c env p pp)
  intro st
  simp only [externalFormat]
  split_ifs <;>
  first
    | exact h1 st
    | exact h2 st
    | exact ⟨fun h => h, _, rfl, by simp [epilogueEvent]⟩
    | exact ⟨fun h => h, [], (List.append_nil _).symm, by simp⟩

/-! ## Every jump to `error:` carries a failure status -/

theorem ExitFails.chain {f g : FormatState → FormatState × Flow}
    (hf : ExitFails f) (hg : ExitFails g) : ExitFails (andThen f g) := by
  intro st
  simp only [VeraCrypt.andThen]
  split_ifs with h
  · exact hg _
  · exact hf st

theorem ExitFails.pass : ExitFails (fun st => (st, Flow.next)) := by
  intro st h
  simp at h

theorem devicePrepare_exitFails (env : Env) (pp : PassParams) :
    ExitFails (devicePrepare env pp) := by
  intro st
  simp only [devicePrepare, FormatState.fail, FormatState.emit]
  split_ifs <;> simp_all [Status.failed]

theorem openShared_exitFails (env : Env) (p : FORMAT_VOL_PARAMETERS) (pp : PassParams) (nPass : Nat) :
    ExitFails (openShared env p pp nPass) := by
  intro st
  simp only [openShared, FormatState.fail, FormatState.emit]
  split_ifs <;> simp_all [Status.failed]

theorem deviceCheckMounted_exitFails (env : Env) (pp : PassParams) :
    ExitFails (deviceCheckMounted env pp) := by
  intro st
  simp only [deviceCheckMounted, FormatState.fail, FormatState.emit]
  split_ifs <;> simp_all [Status.failed]

theorem fileSetSparse_exitFails (env : Env) (p : FORMAT_VOL_PARAMETERS) (pp : PassParams) :
    ExitFails (fileSetSparse env p pp) := by
  intro st
  simp only [fileSetSparse, FormatState.fail, FormatState.emit]
  split_ifs <;> simp_all [Status.failed]

theorem fileSetSize_exitFails (c : Consts) (env : Env) (p : FORMAT_VOL_PARAMETERS) (pp : PassParams) :
    ExitFails (fileSetSize c env p pp) := by
  intro st
  simp only [fileSetSize, FormatState.fail, FormatState.emit]
  split_ifs <;> simp_all [Status.failed]

theorem fileValidData_exitFails (c : Consts) (env : Env) (p : FORMAT_VOL_PARAMETERS) (pp : PassParams) :
    ExitFails (fileValidData c env p pp) := by
  intro st
  simp only [fileValidData, FormatState.fail, FormatState.emit]
  split_ifs <;> simp_all [Status.failed]

theorem fileRewind_exitFails (env : Env) (pp : PassParams) :
    ExitFails (fileRewind env pp) := by
  intro st
  simp only [fileRewind, FormatState.fail, FormatState.emit]
  split_ifs <;> simp_all [Status.failed]

theorem fileOpen_exitFails (env : Env) (p : FORMAT_VOL_PARAMETERS) (pp : PassParams) :
    ExitFails (fileOpen env p pp) := by
  intro st
  simp only [fileOpen, FormatState.fail, FormatState.emit]
  split_ifs <;> simp_all [Status.failed]

theorem headerSeek_exitFails (c : Consts) (env : Env) (p : FORMAT_VOL_PARAMETERS) (pp : PassParams) :
    ExitFails (headerSeek c env p pp) := by
  intro st
  simp only [headerSeek, FormatState.fail, FormatState.emit]
  split_ifs <;> simp_all [Status.failed]

theorem writePrimaryHeader_exitFails (c : Consts) (env : Env) (p : FORMAT_VOL_PARAMETERS) (pp : PassParams) :
    ExitFails (writePrimaryHeader c env p pp) := by
  intro st
  simp only [writePrimaryHeader, FormatState.fail, FormatState.emit]
  split_ifs <;> simp_all [Status.failed]

theorem hiddenSetup_exitFails (c : Consts) (p : FORMAT_VOL_PARAMETERS) :
    ExitFails (hiddenSetup c p) := by
  intro st
  simp only [hiddenSetup, FormatState.fail, FormatState.emit]
  split_ifs <;> simp_all [Status.failed]

theorem dataAreaNoFs_exitFails (c : Consts) (cipher : Cipher) (env : Env) (p : FORMAT_VOL_PARAMETERS) (pp : PassParams) :
    ExitFails (dataAreaNoFs c cipher env p pp) := by
  intro st
  simp only [dataAreaNoFs, FormatState.fail, FormatState.emit]
  split_ifs <;> simp_all [Status.failed]

theorem dataAreaFat_exitFails (c : Consts) (env : Env) (p : FORMAT_VOL_PARAMETERS) (pp : PassParams) :
    ExitFails (dataAreaFat c env p pp) := by
  intro st
  simp only [dataAreaFat, FormatState.fail, FormatState.emit]
  split_ifs <;> simp_all [Status.failed]

theorem writeBackupHeader_exitFails (c : Consts) (env : Env) (p : FORMAT_VOL_PARAMETERS) (pp : PassParams) :
    ExitFails (writeBackupHeader c env p pp) := by
  intro st
  simp only [writeBackupHeader, FormatState.fail, FormatState.emit]
  split_ifs <;> simp_all [Status.failed]

theorem decoyIter_exitFails (c : Consts) (env : Env) (p : FORMAT_VOL_PARAMETERS) (pp : PassParams) (b : Bool) :
    ExitFails (decoyIter c env p pp b) := by
  intro st
  simp only [decoyIter, FormatState.fail, FormatState.emit]
  split_ifs <;> simp_all [Status.failed]

theorem fillReservedAreas_exitFails (env : Env) (pp : PassParams) :
    ExitFails (fillReservedAreas env pp) := by
  intro st
  simp only [fillReservedAreas, FormatState.fail, FormatState.emit]
  split_ifs <;> simp_all [Status.failed]

theorem quickFormatPause_exitFails (pp : PassParams) :
    ExitFails (quickFormatPause pp) := by
  intro st
  simp only [quickFormatPause, FormatState.fail, FormatState.emit]
  split_ifs <;> simp_all [Status.failed]

theorem pseudoQuickFormat_fails (c : Consts) (env : Env) (p : FORMAT_VOL_PARAMETERS)
    (pp : PassParams) (nPass : Nat) (st : FormatState)
    (h : (pseudoQuickFormat c env p pp nPass st).2 = IterFlow.gotoError) :
    (pseudoQuickFormat c env p pp nPass st).1.nStatus.failed = true := by
  simp only [pseudoQuickFormat] at h ⊢
  split_ifs at h ⊢ <;> simp_all [Status.failed]

theorem deviceOpenIter_fails (c : Consts) (env : Env) (p : FORMAT_VOL_PARAMETERS)
    (pp : PassParams) (nPass : Nat) (st : FormatState)
    (h : (deviceOpenIter c env p pp nPass st).2 = IterFlow.gotoError) :
    (deviceOpenIter c env p pp nPass st).1.nStatus.failed = true := by
  simp only [deviceOpenIter] at h ⊢
  split_ifs at h ⊢ with h1
  · exact pseudoQuickFormat_fails c env p pp nPass _ h
  · exact openShared_exitFails env p pp nPass _ h1

theorem deviceOpenLast_exitFails (c : Consts) (env : Env) (p : FORMAT_VOL_PARAMETERS)
    (pp : PassParams) : ExitFails (deviceOpenLast c env p pp) := by
  intro st
  simp only [deviceOpenLast]
  split_ifs with h1
  · intro _
    exact deviceOpenIter_fails c env p pp 1 _ h1
  · simp

theorem deviceOpenLoop_exitFails (c : Consts) (env : Env) (p : FORMAT_VOL_PARAMETERS)
    (pp : PassParams) : ExitFails (deviceOpenLoop c env p pp) := by
  intro st
  simp only [deviceOpenLoop]
  split_ifs
  · split
    · exact deviceOpenLast_exitFails c env p pp _
    · simp
    · rename_i h1
      intro _
      exact deviceOpenIter_fails c env p pp 0 _ h1
  · exact deviceOpenLast_exitFails c env p pp _

theorem acquireTarget_exitFails (c : Consts) (env : Env) (p : FORMAT_VOL_PARAMETERS)
    (pp : PassParams) : ExitFails (acquireTarget c env p pp) := by
  unfold acquireTarget
  split_ifs
  · unfold acquireDevice
    exact ExitFails.chain (devicePrepare_exitFails env pp)
      (ExitFails.chain (deviceOpenLoop_exitFails c env p pp) (deviceCheckMounted_exitFails env pp))
  · unfold acquireFile
    refine ExitFails.chain (fileOpen_exitFails env p pp) ?_
    split_ifs
    · unfold filePreallocate
      exact ExitFails.chain (fileSetSparse_exitFails env p pp)
        (ExitFails.chain (fileSetSize_exitFails c env p pp)
          (ExitFails.chain (fileValidData_exitFails c env p pp) (fileRewind_exitFails env pp)))
    · exact ExitFails.pass

theorem formatDataArea_exitFails (c : Consts) (cipher : Cipher) (env : Env)
    (p : FORMAT_VOL_PARAMETERS) (pp : PassParams) : ExitFails (formatDataArea c cipher env p pp) := by
  intro st
  unfold formatDataArea
  split
  · exact dataAreaNoFs_exitFails c cipher env p pp st
  · exact dataAreaNoFs_exitFails c cipher env p pp st
  · exact dataAreaNoFs_exitFails c cipher env p pp st
  · exact dataAreaNoFs_exitFails c cipher env p pp st
  · exact dataAreaFat_exitFails c env p pp st
  · simp [FormatState.fail, Status.failed]

theorem writeDecoyHeaders_exitFails (c : Consts) (env : Env) (p : FORMAT_VOL_PARAMETERS)
    (pp : PassParams) : ExitFails (writeDecoyHeaders c env p pp) := by
  unfold writeDecoyHeaders
  split_ifs
  · exact ExitFails.pass
  · exact ExitFails.chain (fillReservedAreas_exitFails env pp)
      (ExitFails.chain (decoyIter_exitFails c env p pp false) (decoyIter_exitFails c env p pp true))

theorem passBody_exitFails (c : Consts) (cipher : Cipher) (env : Env)
    (p : FORMAT_VOL_PARAMETERS) (pp : PassParams) : ExitFails (passBody c cipher env p pp) := by
  unfold passBody
  exact ExitFails.chain (acquireTarget_exitFails c env p pp)
    (ExitFails.chain (headerSeek_exitFails c env p pp)
      (ExitFails.chain (writePrimaryHeader_exitFails c env p pp)
        (ExitFails.chain (hiddenSetup_exitFails c p)
          (ExitFails.chain (formatDataArea_exitFails c cipher env p pp)
            (ExitFails.chain (writeBackupHeader_exitFails c env p pp)
              (ExitFails.chain (writeDecoyHeaders_exitFails c env p pp)
                (quickFormatPause_exitFails pp)))))))

theorem cleanup_nStatus (env : Env) (p : FORMAT_VOL_PARAMETERS) (pp : PassParams)
    (st : FormatState) : (cleanup env p pp st).nStatus = st.nStatus := by
  simp only [cleanup, FormatState.emit]
  split_ifs <;> rfl

/-! ## The loop over the passes -/

/-- After the jump back to `begin_format` the file system is FAT, so the pass that follows
ends at `fv_end`. -/
theorem externalFormat_retryParams (c : Consts) (env : Env) (p : FORMAT_VOL_PARAMETERS)
    (pp : PassParams) (st : FormatState) :
    externalFormat c env p (retryParams pp) st = (st, PassOutcome.fv_end) := by
  simp [externalFormat, retryParams, FileSys.external]

/-- The pass after the jump back to `begin_format` is the last one. -/
theorem formatLoop_retry_total (c : Consts) (cipher : Cipher) (env : Env)
    (p : FORMAT_VOL_PARAMETERS) (fuel : Nat) (pp : PassParams) (st : FormatState) :
    ∃ r, formatLoop c cipher env p (fuel + 1) (retryParams pp) st = some r := by
  rw [formatLoop]
  simp only [externalFormat_retryParams]
  split_ifs <;> exact ⟨_, rfl⟩

/-- Two passes are enough: `formatLoop` returns a result for every fuel of at least 2. -/
theorem formatLoop_total (c : Consts) (cipher : Cipher) (env : Env) (p : FORMAT_VOL_PARAMETERS)
    (fuel : Nat) (pp : PassParams) (st : FormatState) :
    ∃ r, formatLoop c cipher env p (fuel + 2) pp st = some r := by
  rw [formatLoop]
  simp only []
  split_ifs
  · exact ⟨_, rfl⟩
  · exact ⟨_, rfl⟩
  · split
    · exact ⟨_, rfl⟩
    · exact formatLoop_retry_total c cipher env p fuel pp _

/-- An invariant of the passes holds for the result of the loop. -/
theorem formatLoop_induct (c : Consts) (cipher : Cipher) (env : Env) (p : FORMAT_VOL_PARAMETERS)
    (Inv : PassParams → FormatState → Prop) (Fin : FormatState → Prop)
    (hret : ∀ pp st, Inv pp st → (passBody c cipher env p pp st).2 = Flow.ret →
      Fin (passBody c cipher env p pp st).1)
    (hfail : ∀ pp st, Inv pp st →
      Fin (fvEnd (cleanup env p pp (passBody c cipher env p pp st).1)))
    (hend : ∀ pp st, Inv pp st → (passBody c cipher env p pp st).2 = Flow.next →
      Fin (fvEnd (externalFormat c env p pp
        (cleanup env p pp (passBody c cipher env p pp st).1)).1))
    (hretry : ∀ pp st, Inv pp st → (passBody c cipher env p pp st).2 = Flow.next →
      (externalFormat c env p pp (cleanup env p pp (passBody c cipher env p pp st).1)).2
        = PassOutcome.begin_format →
      Inv (retryParams pp) (externalFormat c env p pp
        (cleanup env p pp (passBody c cipher env p pp st).1)).1) :
    ∀ fuel pp st r, Inv pp st → formatLoop c cipher env p fuel pp st = some r → Fin r := by
  intro fuel
  induction fuel with
  | zero => intro pp st r _ h; simp [formatLoop] at h
  | succ n ih =>
    intro pp st r hinv h
    simp only [formatLoop] at h
    split_ifs at h with h1 h2
    · cases h
      exact hret pp st hinv h1
    · cases h
      exact hfail pp st hinv
    · have hnext : (passBody c cipher env p pp st).2 = Flow.next := by
        by_contra hne
        have := passBody_exitFails c cipher env p pp st hne
        rw [cleanup_nStatus] at h2
        exact h2 this
      split at h
      · cases h
        exact hend pp st hinv hnext
      · rename_i hb
        exact ih _ _ r (hretry pp st hinv hnext hb) h

/-! ## Assertions on the stages of a pass -/

theorem Hoare.seq {Pre Mid Exit Next : FormatState → Prop}
    {f g : FormatState → FormatState × Flow}
    (hf : Hoare Pre f Exit Mid) (hg : Hoare Mid g Exit Next) :
    Hoare Pre (andThen f g) Exit Next := by
  intro st hpre
  obtain ⟨h1, h2⟩ := hf st hpre
  simp only [VeraCrypt.andThen]
  split_ifs with h
  · exact hg _ (h2 h)
  · exact ⟨fun _ => h1 h, fun h' => absurd h' h⟩

theorem Frame.hoare {P : Event → Prop} {f : FormatState → FormatState × Flow}
    (hf : Frame P (fun st => (f st).1)) {Pre Exit Next : FormatState → Prop}
    (h : ∀ st st' evs, Pre st → st'.trace = st.trace ++ evs → (∀ e ∈ evs, P e)
      → (st.quickFormat = true → st'.quickFormat = true) → Exit st' ∧ Next st') :
    Hoare Pre f Exit Next := by
  intro st hpre
  obtain ⟨q, evs, h1, h2⟩ := hf st
  have := h st (f st).1 evs hpre h1 h2 q
  exact ⟨fun _ => this.1, fun _ => this.2⟩

theorem formatDataArea_frame (c : Consts) (cipher : Cipher) (env : Env)
    (p : FORMAT_VOL_PARAMETERS) (pp : PassParams) :
    Frame (fun e => ∃ q, dataAreaEvent c p pp q e)
      (fun st => (formatDataArea c cipher env p pp st).1) := by
  intro st
  obtain ⟨h1, evs, h2, h3⟩ := formatDataArea_events c cipher env p pp st
  exact ⟨fun h => by rw [h1]; exact h, evs, h2, fun e he => ⟨_, h3 e he⟩⟩

/-- The events of a pass from `begin_format` to the label `error:`. -/
theorem passBody_frame (c : Consts) (cipher : Cipher) (env : Env)
    (p : FORMAT_VOL_PARAMETERS) (pp : PassParams) :
    Frame (fun e => acquireEvent c p pp e ∨ headerSeekEvent e ∨ primaryEvent c p pp e
        ∨ (∃ q, dataAreaEvent c p pp q e) ∨ backupEvent c p e ∨ decoyEvent c p e
        ∨ e = Event.Sleep)
      (fun st => (passBody c cipher env p pp st).1) := by
  unfold passBody
  refine Frame.andThen ((acquireTarget_frame c env p pp).mono (fun e h => Or.inl h)) ?_
  refine Frame.andThen ((headerSeek_frame c env p pp).mono (fun e h => Or.inr (Or.inl h))) ?_
  refine Frame.andThen ((writePrimaryHeader_frame c env p pp).mono
    (fun e h => Or.inr (Or.inr (Or.inl h)))) ?_
  refine Frame.andThen ((hiddenSetup_frame c p).mono (fun e h => Or.inr (Or.inl h))) ?_
  refine Frame.andThen ((formatDataArea_frame c cipher env p pp).mono
    (fun e h => Or.inr (Or.inr (Or.inr (Or.inl h))))) ?_
  refine Frame.andThen ((writeBackupHeader_frame c env p pp).mono
    (fun e h => Or.inr (Or.inr (Or.inr (Or.inr (Or.inl h)))))) ?_
  refine Frame.andThen ((writeDecoyHeaders_frame c env p pp).mono
    (fun e h => Or.inr (Or.inr (Or.inr (Or.inr (Or.inr (Or.inl h))))))) ?_
  exact (quickFormatPause_frame pp).mono
    (fun e h => Or.inr (Or.inr (Or.inr (Or.inr (Or.inr (Or.inr h))))))

/-- The events between the label `error:` and the end of a pass. -/
theorem epilogue_frames (c : Consts) (env : Env) (p : FORMAT_VOL_PARAMETERS) (pp : PassParams) :
    Frame epilogueEvent (fun st => fvEnd (cleanup env p pp st))
      ∧ Frame epilogueEvent (fun st => fvEnd (externalFormat c env p pp (cleanup env p pp st)).1)
      ∧ Frame epilogueEvent (fun st => (externalFormat c env p pp (cleanup env p pp st)).1) :=
  ⟨Frame.comp (cleanup_frame env p pp) fvEnd_frame,
    Frame.comp (Frame.comp (cleanup_frame env p pp) (externalFormat_frame c env p pp)) fvEnd_frame,
    Frame.comp (cleanup_frame env p pp) (externalFormat_frame c env p pp)⟩

/-! ## The sector-size check -/

theorem acquireEvent_not_headerWrite {c : Consts} {p : FORMAT_VOL_PARAMETERS} {pp : PassParams}
    {e : Event} (h : acquireEvent c p pp e) : e.isHeaderWrite = false := by
  cases e <;> simp_all [acquireEvent, Event.isHeaderWrite]

theorem epilogueEvent_not_headerWrite {e : Event} (h : epilogueEvent e) :
    e.isHeaderWrite = false := by
  cases e <;> simp_all [epilogueEvent, Event.isHeaderWrite]

/-- C6: for a supported sector size, a standard volume with
`size <= TC_TOTAL_VOLUME_HEADERS_SIZE` returns `ERR_VOL_SIZE_WRONG` with an empty trace, and a
hidden volume whose host size is below `TC_MIN_HIDDEN_VOLUME_HOST_SIZE` or above
`TC_MAX_HIDDEN_VOLUME_HOST_SIZE` returns `ERR_VOL_SIZE_WRONG` when the header build and the
acquisition of the target succeed; in both cases no header is written. -/
theorem size_check (c : Consts) (cipher : Cipher) (env : Env) (fuel : Nat)
    (p : FORMAT_VOL_PARAMETERS) (hs : sectorSizeUnsupported c p.sectorSize = false) :
    (p.hiddenVol = false → p.size ≤ c.TC_TOTAL_VOLUME_HEADERS_SIZE →
      TCFormatVolume c cipher env fuel p
        = some { nStatus := Status.ERR_VOL_SIZE_WRONG, trace := [] })
    ∧ (p.hiddenVol = true →
        (p.hiddenVolHostSize < c.TC_MIN_HIDDEN_VOLUME_HOST_SIZE
          ∨ c.TC_MAX_HIDDEN_VOLUME_HOST_SIZE < p.hiddenVolHostSize) →
        ∀ cryptoInfo, env.createPrimaryHeader = (Status.ERR_SUCCESS, some cryptoInfo) →
        (acquireTarget c env p (firstPass p) (stateAtBeginFormat env p cryptoInfo)).2 = Flow.next →
        ∃ r, TCFormatVolume c cipher env (fuel + 1) p = some r
          ∧ r.nStatus = Status.ERR_VOL_SIZE_WRONG
          ∧ ∀ e ∈ r.trace, e.isHeaderWrite = false) := by
  constructor
  · intro hh hsz
    simp [TCFormatVolume, hs, hh, hsz]
  · intro hh hhost cryptoInfo hci hacq
    have hseek : ∀ st, headerSeek c env p (firstPass p) st
        = st.fail Status.ERR_VOL_SIZE_WRONG [] := by
      intro st
      simp only [headerSeek, hh, if_true]
      rw [if_pos]
      rcases hhost with h | h <;> simp [h]
    have hbody : passBody c cipher env p (firstPass p) (stateAtBeginFormat env p cryptoInfo)
        = ((acquireTarget c env p (firstPass p) (stateAtBeginFormat env p cryptoInfo)).1).fail
            Status.ERR_VOL_SIZE_WRONG [] := by
      unfold passBody
      rw [VeraCrypt.andThen, if_pos hacq, VeraCrypt.andThen, hseek]
      simp [FormatState.fail]
    obtain ⟨_, e1, ht1, hp1⟩ := acquireTarget_frame c env p (firstPass p)
      (stateAtBeginFormat env p cryptoInfo)
    obtain ⟨_, e2, ht2, hp2⟩ := (epilogue_frames c env p (firstPass p)).1
      (((acquireTarget c env p (firstPass p) (stateAtBeginFormat env p cryptoInfo)).1).fail
            Status.ERR_VOL_SIZE_WRONG []).1
    refine ⟨(fvEnd (cleanup env p (firstPass p)
      (((acquireTarget c env p (firstPass p) (stateAtBeginFormat env p cryptoInfo)).1).fail
            Status.ERR_VOL_SIZE_WRONG []).1)).result, ?_, ?_, ?_⟩
    · simp only [TCFormatVolume, hs, hh, hci]
      rw [formatLoop, hbody]
      simp [FormatState.fail, cleanup_nStatus, Status.failed]
    · simp [FormatState.result, fvEnd, FormatState.emit, cleanup_nStatus, FormatState.fail]
    · intro e he
      simp only [FormatState.result] at he
      simp only at ht1 ht2
      rw [ht2] at he
      simp only [FormatState.fail, List.append_nil] at he
      rw [ht1] at he
      simp only [List.mem_append] at he
      rcases he with (he | he) | he
      · simp only [stateAtBeginFormat, buildPrimaryEvents, List.mem_cons, List.mem_singleton,
          List.not_mem_nil, or_false] at he
        rcases he with he | he <;> subst he <;> rfl
      · exact acquireEvent_not_headerWrite (hp1 e he)
      · exact epilogueEvent_not_headerWrite (hp2 e he)

/-- Witness of C6: a hidden volume in a host of 1000 bytes, with the constants of VeraCrypt
and collaborators that all succeed. -/
theorem size_check_witness :
    ∃ r, TCFormatVolume veraCryptConsts testCipher okEnv 1
        { testParams with hiddenVol := true, hiddenVolHostSize := 1000 } = some r
      ∧ r.nStatus = Status.ERR_VOL_SIZE_WRONG
      ∧ ∀ e ∈ r.trace, e.isHeaderWrite = false :=
  (size_check veraCryptConsts testCipher okEnv 0
    { testParams with hiddenVol := true, hiddenVolHostSize := 1000 } (by decide)).2
    (by decide) (Or.inl (by decide)) testCryptoInfo (by decide) (by decide)

/-! ## The shape of a call of `TCFormatVolume` -/

/-- A property of the result of `TCFormatVolume` follows from the property at the returns of
the prologue (lines 115, 134, 175) and at the results of the loop over the passes. -/
theorem TCFormatVolume_cases (c : Consts) (cipher : Cipher) (env : Env) (fuel : Nat)
    (p : FORMAT_VOL_PARAMETERS) (Q : Option FormatResult → Prop)
    (h1 : Q (some (FormatResult.mk Status.ERR_DONT_REPORT
      [Event.Error Msg.SECTOR_SIZE_UNSUPPORTED])))
    (h2 : Q (some (FormatResult.mk Status.ERR_VOL_SIZE_WRONG [])))
    (h3 : ∀ s, Q (some (FormatResult.mk s
      (buildPrimaryEvents env ++ [Event.burn Buf.header, Event.VirtualUnlock Buf.header]))))
    (h4 : ∀ cryptoInfo, sectorSizeUnsupported c p.sectorSize = false →
      (p.hiddenVol = false → c.TC_TOTAL_VOLUME_HEADERS_SIZE < p.size) →
      env.createPrimaryHeader.2 = some cryptoInfo →
      env.createPrimaryHeader.1.failed = false →
      Q ((formatLoop c cipher env p fuel (firstPass p)
        (stateAtBeginFormat env p cryptoInfo)).map FormatState.result)) :
    Q (TCFormatVolume c cipher env fuel p) := by
  unfold TCFormatVolume
  by_cases ha : sectorSizeUnsupported c p.sectorSize = true
  · rw [if_pos ha]; exact h1
  rw [if_neg ha]
  by_cases hb : (!p.hiddenVol && decide (p.size ≤ c.TC_TOTAL_VOLUME_HEADERS_SIZE)) = true
  · rw [if_pos hb]; exact h2
  rw [if_neg hb]
  cases hc : env.createPrimaryHeader.2 with
  | none => exact h3 _
  | some cryptoInfo =>
    simp only []
    by_cases hd : env.createPrimaryHeader.1.failed = true
    · rw [if_pos hd]; exact h3 _
    · rw [if_neg hd]
      refine h4 cryptoInfo (by simpa using ha) ?_ hc (by simpa using hd)
      intro hh
      simp only [hh, Bool.not_false, Bool.true_and, decide_eq_true_eq, not_le] at hb
      exact hb

/-- `TCFormatVolume` returns for every fuel of at least 2. -/
theorem TCFormatVolume_total (c : Consts) (cipher : Cipher) (env : Env) (fuel : Nat)
    (p : FORMAT_VOL_PARAMETERS) : ∃ r, TCFormatVolume c cipher env (fuel + 2) p = some r := by
  refine TCFormatVolume_cases c cipher env (fuel + 2) p (fun o => ∃ r, o = some r)
    ⟨_, rfl⟩ ⟨_, rfl⟩ (fun s => ⟨_, rfl⟩) ?_
  intro cryptoInfo _ _ _ _
  obtain ⟨r, hr⟩ := formatLoop_total c cipher env p fuel (firstPass p)
    (stateAtBeginFormat env p cryptoInfo)
  exact ⟨r.result, by rw [hr]; rfl⟩

/-- A property of the trace holds for the result of `TCFormatVolume` when it holds at the
returns of the prologue and at the results of the loop over the passes. -/
theorem TCFormatVolume_result (c : Consts) (cipher : Cipher) (env : Env) (fuel : Nat)
    (p : FORMAT_VOL_PARAMETERS) (Q : FormatResult → Prop)
    (h1 : Q (FormatResult.mk Status.ERR_DONT_REPORT [Event.Error Msg.SECTOR_SIZE_UNSUPPORTED]))
    (h2 : Q (FormatResult.mk Status.ERR_VOL_SIZE_WRONG []))
    (h3 : ∀ s, Q (FormatResult.mk s
      (buildPrimaryEvents env ++ [Event.burn Buf.header, Event.VirtualUnlock Buf.header])))
    (h4 : ∀ cryptoInfo st, sectorSizeUnsupported c p.sectorSize = false →
      (p.hiddenVol = false → c.TC_TOTAL_VOLUME_HEADERS_SIZE < p.size) →
      formatLoop c cipher env p (fuel + 2) (firstPass p) (stateAtBeginFormat env p cryptoInfo)
        = some st → Q st.result) :
    ∃ r, TCFormatVolume c cipher env (fuel + 2) p = some r ∧ Q r := by
  refine TCFormatVolume_cases c cipher env (fuel + 2) p (fun o => ∃ r, o = some r ∧ Q r)
    ⟨_, rfl, h1⟩ ⟨_, rfl, h2⟩ (fun s => ⟨_, rfl, h3 s⟩) ?_
  intro cryptoInfo hs hz _ _
  obtain ⟨r, hr⟩ := formatLoop_total c cipher env p fuel (firstPass p)
    (stateAtBeginFormat env p cryptoInfo)
  exact ⟨r.result, by rw [hr]; rfl, h4 cryptoInfo r hs hz hr⟩

/-! ## The backup header -/

theorem Frame.hoare_all {P G : Event → Prop} {f : FormatState → FormatState × Flow}
    (hf : Frame P (fun st => (f st).1)) (hP : ∀ e, P e → G e) :
    Hoare (fun st => ∀ e ∈ st.trace, G e) f (fun st => ∀ e ∈ st.trace, G e)
      (fun st => ∀ e ∈ st.trace, G e) := by
  refine Frame.hoare hf ?_
  intro st st' evs hpre ht hev _
  have : ∀ e ∈ st'.trace, G e := by
    intro e he
    rw [ht] at he
    rcases List.mem_append.mp he with h | h
    · exact hpre e h
    · exact hP e (hev e h)
  exact ⟨this, this⟩

theorem Frame.all {P G : Event → Prop} {f : FormatState → FormatState}
    (hf : Frame P f) (hP : ∀ e, P e → G e) (st : FormatState)
    (h : ∀ e ∈ st.trace, G e) : ∀ e ∈ (f st).trace, G e := by
  obtain ⟨_, evs, ht, hev⟩ := hf st
  intro e he
  rw [ht] at he
  rcases List.mem_append.mp he with h1 | h1
  · exact h e h1
  · exact hP e (hev e h1)

/-- A property of events holds throughout the trace of a pass when every stage adds only
events with the property; the events of the data area may rely on an assertion `K` that
`hiddenSetup` establishes when it falls through. -/
theorem passBody_all (c : Consts) (cipher : Cipher) (env : Env) (p : FORMAT_VOL_PARAMETERS)
    (pp : PassParams) (G : Event → Prop) (K : FormatState → Prop)
    (hA : ∀ e, acquireEvent c p pp e → G e) (hH : ∀ e, headerSeekEvent e → G e)
    (hW : ∀ e, primaryEvent c p pp e → G e) (hB : ∀ e, backupEvent c p e → G e)
    (hX : ∀ e, decoyEvent c p e → G e) (hZ : G Event.Sleep)
    (hS : ∀ st, (hiddenSetup c p st).2 = Flow.next → K (hiddenSetup c p st).1)
    (hD : ∀ st, K st → ∀ e, dataAreaEvent c p pp st.quickFormat e → G e)
    (st : FormatState) (h : ∀ e ∈ st.trace, G e) :
    ∀ e ∈ (passBody c cipher env p pp st).1.trace, G e := by
  have key : Hoare (fun st => ∀ e ∈ st.trace, G e) (passBody c cipher env p pp)
      (fun st => ∀ e ∈ st.trace, G e) (fun st => ∀ e ∈ st.trace, G e) := by
    unfold passBody
    refine Hoare.seq ((acquireTarget_frame c env p pp).hoare_all hA) ?_
    refine Hoare.seq ((headerSeek_frame c env p pp).hoare_all hH) ?_
    refine Hoare.seq ((writePrimaryHeader_frame c env p pp).hoare_all hW) ?_
    refine @Hoare.seq _ (fun st => (∀ e ∈ st.trace, G e) ∧ K st) _ _ _ _ ?_ ?_
    · intro st hpre
      have h1 := ((hiddenSetup_frame c p).hoare_all hH) st hpre
      exact ⟨h1.1, fun hn => ⟨h1.2 hn, hS st hn⟩⟩
    refine @Hoare.seq _ (fun st => ∀ e ∈ st.trace, G e) _ _ _ _ ?_ ?_
    · intro st hpre
      obtain ⟨_, evs, ht, hev⟩ := formatDataArea_events c cipher env p pp st
      have : ∀ e ∈ (formatDataArea c cipher env p pp st).1.trace, G e := by
        intro e he
        rw [ht] at he
        rcases List.mem_append.mp he with h1 | h1
        · exact hpre.1 e h1
        · exact hD st hpre.2 e (hev e h1)
      exact ⟨fun _ => this, fun _ => this⟩
    refine Hoare.seq ((writeBackupHeader_frame c env p pp).hoare_all hB) ?_
    refine Hoare.seq ((writeDecoyHeaders_frame c env p pp).hoare_all hX) ?_
    exact (quickFormatPause_frame pp).hoare_all (fun e he => by rw [he]; exact hZ)
  by_cases hn : (passBody c cipher env p pp st).2 = Flow.next
  · exact (key st h).2 hn
  · exact (key st h).1 hn

/-- A property of events holds throughout the trace of a run of the loop when every stage of
every pass adds only events with the property. -/
theorem formatLoop_all (c : Consts) (cipher : Cipher) (env : Env) (p : FORMAT_VOL_PARAMETERS)
    (G : Event → Prop) (K : PassParams → FormatState → Prop)
    (hA : ∀ pp e, acquireEvent c p pp e → G e) (hH : ∀ e, headerSeekEvent e → G e)
    (hW : ∀ pp e, primaryEvent c p pp e → G e) (hB : ∀ e, backupEvent c p e → G e)
    (hX : ∀ e, decoyEvent c p e → G e) (hZ : G Event.Sleep)
    (hE : ∀ e, epilogueEvent e → G e)
    (hS : ∀ pp st, (hiddenSetup c p st).2 = Flow.next → K pp (hiddenSetup c p st).1)
    (hD : ∀ pp st, K pp st → ∀ e, dataAreaEvent c p pp st.quickFormat e → G e) :
    ∀ fuel pp st r, (∀ e ∈ st.trace, G e) → formatLoop c cipher env p fuel pp st = some r →
      ∀ e ∈ r.trace, G e := by
  have hbody : ∀ pp st, (∀ e ∈ st.trace, G e) →
      ∀ e ∈ (passBody c cipher env p pp st).1.trace, G e :=
    fun pp st h => passBody_all c cipher env p pp G (K pp) (hA pp) hH (hW pp) hB hX hZ
      (hS pp) (hD pp) st h
  refine formatLoop_induct c cipher env p (fun _ st => ∀ e ∈ st.trace, G e)
    (fun st => ∀ e ∈ st.trace, G e) ?_ ?_ ?_ ?_
  · intro pp st hinv _
    exact hbody pp st hinv
  · intro pp st hinv
    exact (epilogue_frames c env p pp).1.all hE _ (hbody pp st hinv)
  · intro pp st hinv _
    exact (epilogue_frames c env p pp).2.1.all hE _ (hbody pp st hinv)
  · intro pp st hinv _ _
    exact (epilogue_frames c env p pp).2.2.all hE _ (hbody pp st hinv)

/-! ## Hidden volumes are never filled -/

/-- C7: for every request with `hiddenVol` set, every call that formats the data area
carries `quickFormat = TRUE`, the sector writer is never used (no call of the cipher, no
write of the data buffer), and `TCFormatVolume` writes no zeroes itself: the pseudo quick
format of the first `2 * TC_MAX_VOLUME_SECTOR_SIZE` bytes is skipped. -/
theorem hidden_never_zero_fills (c : Consts) (cipher : Cipher) (env : Env) (fuel : Nat)
    (p : FORMAT_VOL_PARAMETERS) (hh : p.hiddenVol = true) :
    ∃ r, TCFormatVolume c cipher env (fuel + 2) p = some r
      ∧ ∀ e ∈ r.trace, e.isFullFormat = false ∧ e.isSectorWrite = false
          ∧ e.isWriteZeros = false := by
  refine TCFormatVolume_result c cipher env fuel p (fun r => ∀ e ∈ r.trace,
    e.isFullFormat = false ∧ e.isSectorWrite = false ∧ e.isWriteZeros = false) ?_ ?_ ?_ ?_
  · intro e he
    simp only [List.mem_singleton] at he
    subst he; exact ⟨rfl, rfl, rfl⟩
  · intro e he; simp at he
  · intro s e he
    simp only [buildPrimaryEvents, List.mem_append, List.mem_cons, List.mem_singleton,
      List.not_mem_nil, or_false] at he
    rcases he with (he | he) | he | he <;> subst he <;> exact ⟨rfl, rfl, rfl⟩
  · intro cryptoInfo st _ _ hst
    refine formatLoop_all c cipher env p _ (fun _ st => st.quickFormat = true)
      ?_ ?_ ?_ ?_ ?_ ?_ ?_ ?_ ?_ _ _ _ st ?_ hst
    · intro pp e he
      cases e <;> simp_all [acquireEvent, Event.isFullFormat, Event.isSectorWrite,
        Event.isWriteZeros]
    · intro e he
      cases e <;> simp_all [headerSeekEvent, Event.isFullFormat, Event.isSectorWrite,
        Event.isWriteZeros]
    · intro pp e he
      cases e <;> simp_all [primaryEvent, Event.isFullFormat, Event.isSectorWrite,
        Event.isWriteZeros]
    · intro e he
      cases e <;> simp_all [backupEvent, Event.isFullFormat, Event.isSectorWrite,
        Event.isWriteZeros]
    · intro e he
      cases e <;> simp_all [decoyEvent, Event.isFullFormat, Event.isSectorWrite,
        Event.isWriteZeros]
    · exact ⟨rfl, rfl, rfl⟩
    · intro e he
      cases e <;> simp_all [epilogueEvent, Event.isFullFormat, Event.isSectorWrite,
        Event.isWriteZeros]
    · intro pp st
      simp only [hiddenSetup, hh, if_true, FormatState.fail]
      split_ifs <;> simp
    · intro pp st hq e he
      rw [hq] at he
      cases e <;> simp_all [dataAreaEvent, fillEvent, Event.isFullFormat, Event.isSectorWrite,
        Event.isWriteZeros]
    · intro e he
      simp only [stateAtBeginFormat, buildPrimaryEvents, List.mem_cons, List.mem_singleton,
        List.not_mem_nil, or_false] at he
      rcases he with he | he <;> subst he <;> exact ⟨rfl, rfl, rfl⟩

/-- Witness of C7: a hidden volume of 5 MiB in a host of 20 MiB for which a full format was
requested. -/
theorem hidden_never_zero_fills_witness :
    ∃ r, TCFormatVolume veraCryptConsts testCipher okEnv 2 hiddenTestParams = some r
      ∧ ∀ e ∈ r.trace, e.isFullFormat = false ∧ e.isSectorWrite = false
          ∧ e.isWriteZeros = false :=
  hidden_never_zero_fills veraCryptConsts testCipher okEnv 0 hiddenTestParams rfl

/-! ## The cleanup on the exit paths -/

/-- C8 (the code at the failing input): on a device-hosted target whose
`FakeDosNameForDevice` fails, `TCFormatVolume` returns `ERR_OS_ERROR` at line 195 right after
the primary header has been built into the locked header buffer: the trace ends there, with
no `burn` and no `VirtualUnlock` of the header buffer and no `crypto_close`. -/
theorem fake_dos_name_failure_skips_cleanup :
    TCFormatVolume veraCryptConsts testCipher fakeDosNameFailsEnv 2
        { testParams with bDevice := true }
      = some { nStatus := Status.ERR_OS_ERROR,
               trace := [Event.VirtualLock Buf.header,
                 Event.CreateVolumeHeaderInMemory HeaderSite.primary false false
                   Status.ERR_SUCCESS,
                 Event.FakeDosNameForDevice false] } := by
  decide

/-! ## The layout -/

/-- In every run the calls that format the data area start at `startSector`, and for a hidden
volume they are reached only when the data offset is a multiple of the sector size. -/
theorem TCFormatVolume_alignedDataArea (c : Consts) (cipher : Cipher) (env : Env) (fuel : Nat)
    (p : FORMAT_VOL_PARAMETERS) :
    ∃ r, TCFormatVolume c cipher env (fuel + 2) p = some r
      ∧ ∀ e ∈ r.trace, alignedDataArea c p e := by
  refine TCFormatVolume_result c cipher env fuel p
    (fun r => ∀ e ∈ r.trace, alignedDataArea c p e) ?_ ?_ ?_ ?_
  · intro e he
    simp only [List.mem_singleton] at he
    subst he; trivial
  · intro e he; simp at he
  · intro s e he
    simp only [buildPrimaryEvents, List.mem_append, List.mem_cons, List.mem_singleton,
      List.not_mem_nil, or_false] at he
    rcases he with (he | he) | he | he <;> subst he <;> trivial
  · intro cryptoInfo st _ _ hst
    refine formatLoop_all c cipher env p _
      (fun _ _ => p.hiddenVol = true → dataOffset c p % p.sectorSize = 0)
      ?_ ?_ ?_ ?_ ?_ ?_ ?_ ?_ ?_ _ _ _ st ?_ hst
    · intro pp e he
      cases e <;> simp_all [acquireEvent, alignedDataArea]
    · intro e he
      cases e <;> simp_all [headerSeekEvent, alignedDataArea]
    · intro pp e he
      cases e <;> simp_all [primaryEvent, alignedDataArea]
    · intro e he
      cases e <;> simp_all [backupEvent, alignedDataArea]
    · intro e he
      cases e <;> simp_all [decoyEvent, alignedDataArea]
    · trivial
    · intro e he
      cases e <;> simp_all [epilogueEvent, alignedDataArea]
    · intro pp st
      simp only [hiddenSetup, FormatState.fail]
      split_ifs <;> simp_all
    · intro pp st hq e he
      cases e <;> simp_all [dataAreaEvent, fillEvent, alignedDataArea]
    · intro e he
      simp only [stateAtBeginFormat, buildPrimaryEvents, List.mem_cons, List.mem_singleton,
        List.not_mem_nil, or_false] at he
      rcases he with he | he <;> subst he <;> trivial

/-- Counterexample to C3: a standard container of 1 MiB with the sector size 1536, which the
validation accepts; the data area is formatted from sector 85, but the data offset 131072 is
not a multiple of 1536 and `startSector * sectorSize` is 130560. -/
theorem data_offset_unaligned_1536 :
    (TCFormatVolume veraCryptConsts testCipher okEnv 2
        { testParams with sectorSize := 1536 }).map
      (fun r => (r.nStatus, decide (Event.FormatNoFs 85 512 true ∈ r.trace)))
      = some (Status.ERR_SUCCESS, true)
    ∧ dataOffset veraCryptConsts { testParams with sectorSize := 1536 } = 131072
    ∧ dataOffset veraCryptConsts { testParams with sectorSize := 1536 } % 1536 = 512
    ∧ startSector veraCryptConsts { testParams with sectorSize := 1536 } * 1536 = 130560 := by
  decide

/-- A call that formats the data area is in the trace only when the sector size has passed
the check of lines 110-112. -/
theorem TCFormatVolume_validated (c : Consts) (cipher : Cipher) (env : Env) (fuel : Nat)
    (p : FORMAT_VOL_PARAMETERS) (r : FormatResult)
    (hr : TCFormatVolume c cipher env fuel p = some r) (e : Event) (he : e ∈ r.trace)
    (hf : e.isDataAreaFormat = true) : sectorSizeUnsupported c p.sectorSize = false := by
  by_contra hs
  have hs' : sectorSizeUnsupported c p.sectorSize = true := by simpa using hs
  unfold TCFormatVolume at hr
  rw [if_pos hs'] at hr
  cases hr
  simp only [List.mem_singleton] at he
  subst he
  simp [Event.isDataAreaFormat] at hf

/-- C3 (amended): with a data offset of the standard layout that is a power of two and not
below the largest sector size (`TC_VOLUME_DATA_OFFSET = 131072`,
`TC_MAX_VOLUME_SECTOR_SIZE = 4096`), in every run of `TCFormatVolume` every call that formats
the data area starts at `startSector = dataOffset / sectorSize`; and when the volume is
hidden (line 514), or the sector size, which has passed the check of lines 110-112, is a
power of two, the data offset is a multiple of the sector size and
`startSector * sectorSize` equals the data offset. -/
theorem data_offset_aligned (c : Consts) (cipher : Cipher) (env : Env) (fuel : Nat)
    (p : FORMAT_VOL_PARAMETERS) (hoff : isPowerOfTwo c.TC_VOLUME_DATA_OFFSET)
    (hmax : c.TC_MAX_VOLUME_SECTOR_SIZE ≤ c.TC_VOLUME_DATA_OFFSET) :
    ∃ r, TCFormatVolume c cipher env (fuel + 2) p = some r
      ∧ ∀ s n q, (Event.FormatNoFs s n q ∈ r.trace ∨ ∃ status, Event.FormatFat s n q status ∈ r.trace) →
          s = startSector c p
            ∧ ((p.hiddenVol = true ∨ isPowerOfTwo p.sectorSize) →
                dataOffset c p % p.sectorSize = 0 ∧ s * p.sectorSize = dataOffset c p) := by
  have key := TCFormatVolume_alignedDataArea c cipher env fuel p
  obtain ⟨r, hr, hall⟩ := key
  refine ⟨r, hr, ?_⟩
  intro s n q hev
  have hal : s = startSector c p ∧ (p.hiddenVol = true → dataOffset c p % p.sectorSize = 0) := by
    rcases hev with h | ⟨status, h⟩
    · exact hall _ h
    · exact hall _ h
  have hv : sectorSizeUnsupported c p.sectorSize = false := by
    rcases hev with h | ⟨status, h⟩
    · exact TCFormatVolume_validated c cipher env _ p r hr _ h rfl
    · exact TCFormatVolume_validated c cipher env _ p r hr _ h rfl
  refine ⟨hal.1, fun hcase => ?_⟩
  have hz : dataOffset c p % p.sectorSize = 0 := by
    by_cases hh : p.hiddenVol = true
    · exact hal.2 hh
    · rcases hcase with hh' | ⟨k, hk⟩
      · exact absurd hh' hh
      · obtain ⟨m, hm⟩ := hoff
        have hle : p.sectorSize ≤ c.TC_MAX_VOLUME_SECTOR_SIZE := by
          simp only [sectorSizeUnsupported, Bool.or_eq_false_iff, decide_eq_false_iff_not,
            not_lt] at hv
          omega
        have hkm : k ≤ m := by
          have : 2 ^ k ≤ 2 ^ m := by rw [← hk, ← hm]; exact hle.trans hmax
          exact (Nat.pow_le_pow_iff_right (by norm_num)).1 this
        simp only [dataOffset, hh]
        rw [hk, hm]
        exact Nat.mod_eq_zero_of_dvd (pow_dvd_pow 2 hkm)
  refine ⟨hz, ?_⟩
  rw [hal.1, startSector]
  exact Nat.div_mul_cancel (Nat.dvd_of_mod_eq_zero hz)

/-- Witness for C3: with the constants of VeraCrypt, the request for a standard container of
1 MiB with 512-byte sectors is formatted from sector 256, and `256 * 512` is the data offset
131072. -/
theorem data_offset_aligned_witness :
    isPowerOfTwo veraCryptConsts.TC_VOLUME_DATA_OFFSET
      ∧ veraCryptConsts.TC_MAX_VOLUME_SECTOR_SIZE ≤ veraCryptConsts.TC_VOLUME_DATA_OFFSET
      ∧ ∃ r, TCFormatVolume veraCryptConsts testCipher okEnv 2 testParams = some r
        ∧ Event.FormatNoFs 256 1536 true ∈ r.trace
        ∧ dataOffset veraCryptConsts testParams % testParams.sectorSize = 0
        ∧ 256 * testParams.sectorSize = dataOffset veraCryptConsts testParams := by
  have h17 : isPowerOfTwo veraCryptConsts.TC_VOLUME_DATA_OFFSET := ⟨17, by decide⟩
  obtain ⟨r, hr, h⟩ := data_offset_aligned veraCryptConsts testCipher okEnv 0 testParams
    h17 (by decide)
  have hx : (TCFormatVolume veraCryptConsts testCipher okEnv 2 testParams).map
      (fun r => decide (Event.FormatNoFs 256 1536 true ∈ r.trace)) = some true := by decide
  rw [hr] at hx
  simp only [Option.map_some', Option.some.injEq, decide_eq_true_eq] at hx
  have h2 := (h 256 1536 true (Or.inl hx)).2 (Or.inr ⟨9, by decide⟩)
  exact ⟨h17, by decide, r, hr, hx, h2.1, h2.2⟩

/-- Counterexample to C4: a hidden volume of 5 MiB in a host of 20 MiB, which the validation
accepts and whose data area is formatted; `dataOffset + dataAreaSize` is 20709376, above the
requested size 5242880. -/
theorem hidden_layout_exceeds_size :
    (TCFormatVolume veraCryptConsts testCipher okEnv 2 hiddenTestParams).map
      (fun r => (r.nStatus, r.trace.any Event.isDataAreaFormat))
      = some (Status.ERR_SUCCESS, true)
    ∧ dataOffset veraCryptConsts hiddenTestParams
        + dataAreaSize veraCryptConsts hiddenTestParams = 20709376
    ∧ hiddenTestParams.size = 5242880 := by
  decide

/-- C4 (amended): for a standard volume that passes the size check of line 133,
`dataOffset + dataAreaSize <= size` (the data offset being at most
`TC_TOTAL_VOLUME_HEADERS_SIZE`); for a hidden volume whose host holds the header group and
the volume, `dataOffset + dataAreaSize <= hiddenVolHostSize - TC_VOLUME_HEADER_GROUP_SIZE`,
so the data area ends inside the host, before its backup header group. -/
theorem layout_within_container (c : Consts) (p : FORMAT_VOL_PARAMETERS)
    (hsize : p.size < 2 ^ 64) (hhost : p.hiddenVolHostSize < 2 ^ 64)
    (hstd : p.hiddenVol = false →
      c.TC_TOTAL_VOLUME_HEADERS_SIZE < p.size
        ∧ c.TC_VOLUME_DATA_OFFSET ≤ c.TC_TOTAL_VOLUME_HEADERS_SIZE)
    (hhid : p.hiddenVol = true → c.TC_VOLUME_HEADER_GROUP_SIZE + p.size ≤ p.hiddenVolHostSize) :
    (p.hiddenVol = false → dataOffset c p + dataAreaSize c p ≤ p.size)
    ∧ (p.hiddenVol = true →
        dataOffset c p + dataAreaSize c p ≤ p.hiddenVolHostSize - c.TC_VOLUME_HEADER_GROUP_SIZE
          ∧ dataOffset c p = p.hiddenVolHostSize - c.TC_VOLUME_HEADER_GROUP_SIZE - p.size) := by
  have hda := GetVolumeDataAreaSize_eq c p.hiddenVol p.size hsize
  constructor
  · intro hh
    obtain ⟨h1, h2⟩ := hstd hh
    have h3 : GetVolumeDataAreaSize c false p.size = p.size - c.TC_TOTAL_VOLUME_HEADERS_SIZE := by
      rw [hh] at hda
      rw [hda]
      simp only [reservedSize, Bool.false_eq_true, if_false]
      rw [if_pos (le_of_lt h1)]
    simp only [dataOffset, dataAreaSize, hh, h3, Bool.false_eq_true, if_false]
    omega
  · intro hh
    have h1 := hhid hh
    have h2 : dataAreaSize c p ≤ p.size := by
      simp only [dataAreaSize]
      rw [hda]
      split <;> omega
    have hhost' : p.hiddenVolHostSize < two64 := hhost
    have h3 : dataOffset c p = p.hiddenVolHostSize - c.TC_VOLUME_HEADER_GROUP_SIZE - p.size := by
      simp only [dataOffset, hh, if_true]
      rw [sub64_of_le (by omega) hhost', sub64_of_le (by omega) (by omega)]
    refine ⟨?_, h3⟩
    rw [h3]
    omega

/-- Witness of C4: the hidden volume of 5 MiB in a host of 20 MiB. -/
theorem layout_within_container_witness :
    dataOffset veraCryptConsts hiddenTestParams + dataAreaSize veraCryptConsts hiddenTestParams
      ≤ hiddenTestParams.hiddenVolHostSize - veraCryptConsts.TC_VOLUME_HEADER_GROUP_SIZE :=
  ((layout_within_container veraCryptConsts hiddenTestParams (by decide) (by decide)
    (by decide) (by decide)).2 rfl).1

/-! ## The temporary keys of the fill engine -/

theorem formatNoFsExit_keysBurned (c : Consts) (env : FillEnv) (cryptoInfo ci : CRYPTO_INFO)
    (retVal : Status) (w : WriterState) :
    keysBurned c env cryptoInfo (formatNoFsExit c env cryptoInfo ci retVal w) := by
  refine ⟨rfl, rfl, fun h => ?_⟩
  exact ⟨by simp [formatNoFsExit, h], ci, by simp [formatNoFsExit, h]⟩

theorem formatNoFsRestore_keysBurned (c : Consts) (env : FillEnv) (ss : Nat)
    (cryptoInfo ci : CRYPTO_INFO) (originalK2 : List Nat) (w : WriterState) :
    keysBurned c env cryptoInfo (formatNoFsRestore c env ss cryptoInfo ci originalK2 w) := by
  simp only [formatNoFsRestore]
  split_ifs <;> exact formatNoFsExit_keysBurned _ _ _ _ _ _

theorem fillAndRestore_keysBurned (c : Consts) (cipher : Cipher) (env : FillEnv) (ss : Nat)
    (num_sectors : Nat) (cryptoInfo ci : CRYPTO_INFO) (originalK2 : List Nat)
    (w : WriterState) :
    keysBurned c env cryptoInfo
      (fillAndRestore c cipher env ss num_sectors cryptoInfo ci originalK2 w) := by
  simp only [fillAndRestore]
  split_ifs
  · exact formatNoFsExit_keysBurned _ _ _ _ _ _
  · exact formatNoFsExit_keysBurned _ _ _ _ _ _
  · exact formatNoFsRestore_keysBurned _ _ _ _ _ _ _

theorem formatNoFsFill_keysBurned (c : Consts) (cipher : Cipher) (env : FillEnv) (ss : Nat)
    (num_sectors : Nat) (cryptoInfo ci : CRYPTO_INFO) (originalK2 : List Nat)
    (w : WriterState) :
    keysBurned c env cryptoInfo
      (formatNoFsFill c cipher env ss num_sectors cryptoInfo ci originalK2 w) := by
  simp only [formatNoFsFill]
  split
  · exact formatNoFsExit_keysBurned _ _ _ _ _ _
  · exact fillAndRestore_keysBurned _ _ _ _ _ _ _ _ _

theorem burnCryptoInfo_zero (w : CRYPTO_INFO) :
    (∀ b ∈ (burnCryptoInfo w).k2, b = 0) ∧ (∀ b ∈ (burnCryptoInfo w).ks, b = 0)
      ∧ (∀ b ∈ (burnCryptoInfo w).ks2, b = 0) := by
  simp only [burnCryptoInfo, zeros]
  exact ⟨fun b hb => List.eq_of_mem_replicate hb, fun b hb => List.eq_of_mem_replicate hb,
    fun b hb => List.eq_of_mem_replicate hb⟩

set_option maxRecDepth 100000 in
/-- Counterexample to C10: a full format of one sector in which the write of the data buffer
fails and RAM encryption is off.  `FormatNoFs` returns `ERR_OS_ERROR`, and the `k2` field of
the crypto context of the caller still holds the 256 bytes of the temporary secondary key
(all of value 5 in this run), none of them zero. -/
theorem temporary_k2_survives_failure :
    (FormatNoFs veraCryptConsts testCipher writeFailsFillEnv 512 false 0 0 1
        testCryptoInfo false).retVal = Status.ERR_OS_ERROR
      ∧ (writeFailsFillEnv.RandgetBytes 1 256).2 = List.replicate 256 5
      ∧ (FormatNoFs veraCryptConsts testCipher writeFailsFillEnv 512 false 0 0 1
        testCryptoInfo false).cryptoInfo.k2 = List.replicate 256 5 := by
  decide

/-- C10 (amended): on every failing return of `FormatNoFs` in full-format mode that happens
after the key buffers have been locked (the seek and the allocation of the write buffer
succeeded), the local buffers `temporaryKey` and `originalK2` are zeroed; with RAM encryption
the temporary keys were installed in the local copy `tmpCI`, which is burned at the return,
and the crypto context of the caller is unchanged. -/
theorem FormatNoFs_failure_burns_local_keys (c : Consts) (cipher : Cipher) (env : FillEnv)
    (FormatSectorSize : Nat) (WriteThreadRunning : Bool) (WriteRequestResult : Nat)
    (startSector num_sectors : Nat) (cryptoInfo : CRYPTO_INFO)
    (hseek : env.SetFilePointerEx (mul64 startSector FormatSectorSize) = true)
    (halloc : env.TCalloc = true)
    (_hfail : (FormatNoFs c cipher env FormatSectorSize WriteThreadRunning WriteRequestResult
      startSector num_sectors cryptoInfo false).retVal ≠ Status.ERR_SUCCESS) :
    (FormatNoFs c cipher env FormatSectorSize WriteThreadRunning WriteRequestResult
        startSector num_sectors cryptoInfo false).temporaryKey = zeros c.MASTER_KEYDATA_SIZE
    ∧ (FormatNoFs c cipher env FormatSectorSize WriteThreadRunning WriteRequestResult
        startSector num_sectors cryptoInfo false).originalK2 = zeros c.MASTER_KEYDATA_SIZE
    ∧ (env.IsRamEncryptionEnabled = true →
        (FormatNoFs c cipher env FormatSectorSize WriteThreadRunning WriteRequestResult
          startSector num_sectors cryptoInfo false).cryptoInfo = cryptoInfo
        ∧ ∃ w, (FormatNoFs c cipher env FormatSectorSize WriteThreadRunning WriteRequestResult
            startSector num_sectors cryptoInfo false).tmpCI = some (burnCryptoInfo w)) := by
  have h : FormatNoFs c cipher env FormatSectorSize WriteThreadRunning WriteRequestResult
      startSector num_sectors cryptoInfo false
      = formatNoFsFill c cipher env FormatSectorSize num_sectors cryptoInfo
          (workingContext env cryptoInfo) (workingContext env cryptoInfo).k2
          (fillStart env FormatSectorSize WriteThreadRunning WriteRequestResult startSector
            startSector) := by
    simp [FormatNoFs, hseek, halloc]
  rw [h]
  exact formatNoFsFill_keysBurned c cipher env FormatSectorSize num_sectors
    cryptoInfo (workingContext env cryptoInfo) (workingContext env cryptoInfo).k2
    (fillStart env FormatSectorSize WriteThreadRunning WriteRequestResult startSector startSector)

set_option maxRecDepth 100000 in
/-- Witness of C10: the full format of one sector in which the write of the data buffer
fails. -/
theorem FormatNoFs_failure_burns_local_keys_witness :
    (FormatNoFs veraCryptConsts testCipher writeFailsFillEnv 512 false 0 0 1
        testCryptoInfo false).temporaryKey = zeros 256
    ∧ (FormatNoFs veraCryptConsts testCipher writeFailsFillEnv 512 false 0 0 1
        testCryptoInfo false).originalK2 = zeros 256 :=
  have h := FormatNoFs_failure_burns_local_keys veraCryptConsts testCipher writeFailsFillEnv 512
    false 0 0 1 testCryptoInfo (by decide) (by decide) (by decide)
  ⟨h.1, h.2.1⟩

/-! ## The full fill -/

theorem flushUnitNo_eq (c : Consts) (ss nSecNo cnt : Nat) (hss : 0 < ss)
    (hrange : nSecNo * ss < 2 ^ 63) (hcnt : cnt ≤ nSecNo * ss) :
    flushUnitNo c ss nSecNo cnt = (nSecNo * ss - cnt) / c.ENCRYPTION_DATA_UNIT_SIZE := by
  have h1 : nSecNo < 2 ^ 63 := lt_of_le_of_lt (Nat.le_mul_of_pos_right _ hss) hrange
  have h2 : (nSecNo * ss - cnt) / c.ENCRYPTION_DATA_UNIT_SIZE < two64 := by
    have : (nSecNo * ss - cnt) / c.ENCRYPTION_DATA_UNIT_SIZE ≤ nSecNo * ss :=
      le_trans (Nat.div_le_self _ _) (Nat.sub_le _ _)
    unfold two64
    omega
  unfold flushUnitNo
  rw [toInt64_of_lt h1]
  have e1 : ((nSecNo : Int) * (ss : Int)) = ((nSecNo * ss : Nat) : Int) := by push_cast; ring
  rw [e1, wrap64_natCast hrange]
  have e2 : (((nSecNo * ss : Nat) : Int) - (cnt : Int)) = ((nSecNo * ss - cnt : Nat) : Int) := by
    omega
  rw [e2, wrap64_natCast (by omega), ← Int.ofNat_tdiv, ofInt64_natCast h2]

theorem encryptedUnits_append (c : Consts) (a b : List Event) :
    encryptedUnits c (a ++ b) = encryptedUnits c a ++ encryptedUnits c b := by
  simp [encryptedUnits]

theorem encryptedOutput_append (c : Consts) (cipher : Cipher) (a b : List Event) :
    encryptedOutput c cipher (a ++ b) = encryptedOutput c cipher a ++ encryptedOutput c cipher b := by
  simp [encryptedOutput]

theorem deviceBytes_append (a b : List Event) :
    deviceBytes (a ++ b) = deviceBytes a ++ deviceBytes b := by
  simp [deviceBytes]

theorem silent_trace (c : Consts) (cipher : Cipher) (evs : List Event)
    (h : ∀ e ∈ evs, Event.silent c cipher e) :
    encryptedUnits c evs = [] ∧ encryptedOutput c cipher evs = [] ∧ deviceBytes evs = [] := by
  induction evs with
  | nil => exact ⟨rfl, rfl, rfl⟩
  | cons e t ih =>
    obtain ⟨h1, h2, h3⟩ := h e (List.mem_cons_self _ _)
    obtain ⟨i1, i2, i3⟩ := ih (fun x hx => h x (List.mem_cons_of_mem _ hx))
    refine ⟨?_, ?_, ?_⟩
    · show Event.units c e ++ encryptedUnits c t = []
      rw [h1, i1]; rfl
    · show Event.ciphertext c cipher e ++ encryptedOutput c cipher t = []
      rw [h2, i2]; rfl
    · show Event.deviceData e ++ deviceBytes t = []
      rw [h3, i3]; rfl

theorem silent_of_fillEvent (c : Consts) (cipher : Cipher) (e : Event) (h : fillEvent true e) :
    Event.silent c cipher e := by
  cases e <;> first
    | exact ⟨rfl, rfl, rfl⟩
    | (simp [fillEvent] at h)

theorem dataUnit_zeros (c : Consts) (cnt i : Nat)
    (h : (i + 1) * c.ENCRYPTION_DATA_UNIT_SIZE ≤ cnt) :
    dataUnit c (zeros cnt) i = zeros c.ENCRYPTION_DATA_UNIT_SIZE := by
  unfold dataUnit zeros
  rw [List.drop_replicate, List.take_replicate]
  congr 1
  have : (i + 1) * c.ENCRYPTION_DATA_UNIT_SIZE
      = i * c.ENCRYPTION_DATA_UNIT_SIZE + c.ENCRYPTION_DATA_UNIT_SIZE := by ring
  omega

theorem EncryptDataUnits_exact (c : Consts) (cipher : Cipher) (ci : CRYPTO_INFO)
    (buf : List Nat) (unitNo nUnits : Nat)
    (h : buf.length ≤ nUnits * c.ENCRYPTION_DATA_UNIT_SIZE) :
    EncryptDataUnits c cipher ci buf unitNo nUnits
      = Event.ciphertext c cipher (Event.EncryptDataUnits unitNo nUnits buf ci.ks ci.ks2) := by
  simp only [EncryptDataUnits, Event.ciphertext]
  rw [List.drop_of_length_le h, List.append_nil]

theorem ciphertext_length (c : Consts) (cipher : Cipher) (ks ks2 : List Nat)
    (unitNo cnt : Nat) (n : Nat) (h : n * c.ENCRYPTION_DATA_UNIT_SIZE ≤ cnt) :
    (Event.ciphertext c cipher (Event.EncryptDataUnits unitNo n (zeros cnt) ks ks2)).length
      = n * c.ENCRYPTION_DATA_UNIT_SIZE := by
  simp only [Event.ciphertext]
  induction n with
  | zero => simp
  | succ m ih =>
    have hm : m * c.ENCRYPTION_DATA_UNIT_SIZE ≤ cnt := by
      have : (m + 1) * c.ENCRYPTION_DATA_UNIT_SIZE
        = m * c.ENCRYPTION_DATA_UNIT_SIZE + c.ENCRYPTION_DATA_UNIT_SIZE := by ring
      omega
    rw [List.range_succ, List.map_append, List.flatten_append, List.length_append, ih hm]
    simp only [List.map_cons, List.map_nil, List.flatten_cons, List.flatten_nil,
      List.append_nil, cipher.length_encUnit]
    rw [dataUnit_zeros c cnt m h]
    simp only [zeros, List.length_replicate]
    ring

theorem units_zeros (c : Consts) (u n cnt : Nat) (ks ks2 : List Nat)
    (hcnt : n * c.ENCRYPTION_DATA_UNIT_SIZE ≤ cnt) (hu : u + n < two64) :
    Event.units c (Event.EncryptDataUnits u n (zeros cnt) ks ks2)
      = (List.range n).map (fun i => (u + i, zeros c.ENCRYPTION_DATA_UNIT_SIZE)) := by
  simp only [Event.units]
  apply List.map_congr_left
  intro i hi
  have hi' : i < n := List.mem_range.mp hi
  have h1 : (i + 1) * c.ENCRYPTION_DATA_UNIT_SIZE ≤ n * c.ENCRYPTION_DATA_UNIT_SIZE :=
    Nat.mul_le_mul_right _ hi'
  rw [dataUnit_zeros c cnt i (le_trans h1 hcnt), add64_of_lt (by omega)]

/-- One flush extends the observations of the trace: the units of the buffer follow the
units encrypted so far, and the device receives their ciphertext. -/
theorem fill_trace_step (c : Consts) (cipher : Cipher) (ci : CRYPTO_INFO) (t : List Event)
    (u0 F cnt : Nat) (W : Event)
    (hU : 0 < c.ENCRYPTION_DATA_UNIT_SIZE) (hUF : c.ENCRYPTION_DATA_UNIT_SIZE ∣ F)
    (hUc : c.ENCRYPTION_DATA_UNIT_SIZE ∣ cnt)
    (hbound : u0 + (F + cnt) / c.ENCRYPTION_DATA_UNIT_SIZE < two64)
    (hunits : encryptedUnits c t = (List.range (F / c.ENCRYPTION_DATA_UNIT_SIZE)).map
      (fun j => (u0 + j, zeros c.ENCRYPTION_DATA_UNIT_SIZE)))
    (hdev : deviceBytes t = encryptedOutput c cipher t)
    (hlen : (deviceBytes t).length = F)
    (hW1 : Event.units c W = []) (hW2 : Event.ciphertext c cipher W = [])
    (hW3 : Event.deviceData W = EncryptDataUnits c cipher ci (zeros cnt)
      (u0 + F / c.ENCRYPTION_DATA_UNIT_SIZE) (cnt / c.ENCRYPTION_DATA_UNIT_SIZE)) :
    encryptedUnits c
        (t ++ [Event.EncryptDataUnits (u0 + F / c.ENCRYPTION_DATA_UNIT_SIZE)
          (cnt / c.ENCRYPTION_DATA_UNIT_SIZE) (zeros cnt) ci.ks ci.ks2] ++ [W])
      = (List.range ((F + cnt) / c.ENCRYPTION_DATA_UNIT_SIZE)).map
          (fun j => (u0 + j, zeros c.ENCRYPTION_DATA_UNIT_SIZE))
    ∧ deviceBytes
        (t ++ [Event.EncryptDataUnits (u0 + F / c.ENCRYPTION_DATA_UNIT_SIZE)
          (cnt / c.ENCRYPTION_DATA_UNIT_SIZE) (zeros cnt) ci.ks ci.ks2] ++ [W])
      = encryptedOutput c cipher
        (t ++ [Event.EncryptDataUnits (u0 + F / c.ENCRYPTION_DATA_UNIT_SIZE)
          (cnt / c.ENCRYPTION_DATA_UNIT_SIZE) (zeros cnt) ci.ks ci.ks2] ++ [W])
    ∧ (deviceBytes
        (t ++ [Event.EncryptDataUnits (u0 + F / c.ENCRYPTION_DATA_UNIT_SIZE)
          (cnt / c.ENCRYPTION_DATA_UNIT_SIZE) (zeros cnt) ci.ks ci.ks2] ++ [W])).length
      = F + cnt := by
  have hdiv : (F + cnt) / c.ENCRYPTION_DATA_UNIT_SIZE
      = F / c.ENCRYPTION_DATA_UNIT_SIZE + cnt / c.ENCRYPTION_DATA_UNIT_SIZE :=
    Nat.add_div_of_dvd_right hUF
  have hmul : cnt / c.ENCRYPTION_DATA_UNIT_SIZE * c.ENCRYPTION_DATA_UNIT_SIZE = cnt :=
    Nat.div_mul_cancel hUc
  have hzl : (zeros cnt).length = cnt := by simp [zeros]
  have henc := EncryptDataUnits_exact c cipher ci (zeros cnt)
    (u0 + F / c.ENCRYPTION_DATA_UNIT_SIZE) (cnt / c.ENCRYPTION_DATA_UNIT_SIZE)
    (by rw [hzl, hmul])
  have hclen := ciphertext_length c cipher ci.ks ci.ks2
    (u0 + F / c.ENCRYPTION_DATA_UNIT_SIZE) cnt (cnt / c.ENCRYPTION_DATA_UNIT_SIZE)
    (by rw [hmul])
  have hE1 : encryptedUnits c [Event.EncryptDataUnits (u0 + F / c.ENCRYPTION_DATA_UNIT_SIZE)
      (cnt / c.ENCRYPTION_DATA_UNIT_SIZE) (zeros cnt) ci.ks ci.ks2]
      = (List.range (cnt / c.ENCRYPTION_DATA_UNIT_SIZE)).map
        (fun i => (u0 + F / c.ENCRYPTION_DATA_UNIT_SIZE + i,
          zeros c.ENCRYPTION_DATA_UNIT_SIZE)) := by
    show _ ++ [] = _
    rw [List.append_nil]
    exact units_zeros c _ _ cnt ci.ks ci.ks2 (by rw [hmul]) (by omega)
  have hE2 : encryptedOutput c cipher
      [Event.EncryptDataUnits (u0 + F / c.ENCRYPTION_DATA_UNIT_SIZE)
      (cnt / c.ENCRYPTION_DATA_UNIT_SIZE) (zeros cnt) ci.ks ci.ks2]
      = Event.ciphertext c cipher (Event.EncryptDataUnits (u0 + F / c.ENCRYPTION_DATA_UNIT_SIZE)
      (cnt / c.ENCRYPTION_DATA_UNIT_SIZE) (zeros cnt) ci.ks ci.ks2) := by
    show _ ++ [] = _
    rw [List.append_nil]
  have hE3 : deviceBytes [Event.EncryptDataUnits (u0 + F / c.ENCRYPTION_DATA_UNIT_SIZE)
      (cnt / c.ENCRYPTION_DATA_UNIT_SIZE) (zeros cnt) ci.ks ci.ks2] = [] := rfl
  have hWa : encryptedUnits c [W] = [] := by
    show Event.units c W ++ [] = []
    rw [hW1]; rfl
  have hWb : encryptedOutput c cipher [W] = [] := by
    show Event.ciphertext c cipher W ++ [] = []
    rw [hW2]; rfl
  have hWc : deviceBytes [W] = Event.deviceData W := by
    show Event.deviceData W ++ [] = _
    rw [List.append_nil]
  refine ⟨?_, ?_, ?_⟩
  · rw [encryptedUnits_append, encryptedUnits_append, hunits, hE1, hWa, List.append_nil, hdiv,
      List.range_add, List.map_append, List.map_map]
    congr 1
    apply List.map_congr_left
    intro i _
    simp only [Function.comp, Nat.add_assoc]
  · rw [deviceBytes_append, deviceBytes_append, encryptedOutput_append, encryptedOutput_append,
      hdev, hE2, hE3, hWb, hWc, hW3, henc]
    simp
  · rw [deviceBytes_append, deviceBytes_append, hE3, hWc, hW3, henc, List.length_append,
      List.length_append, hlen, hclen, hmul]
    simp

theorem fillInvariant_emit (c : Consts) (cipher : Cipher) (ss start k F : Nat)
    (s : WriterState) (e : Event) (he : Event.silent c cipher e)
    (h : fillInvariant c cipher ss start k F s) :
    fillInvariant c cipher ss start k F { s with trace := s.trace ++ [e] } := by
  obtain ⟨h1, h2, h3, h4, h5, h6, h7, h8, h9⟩ := h
  obtain ⟨s1, s2, s3⟩ := silent_trace c cipher [e] (by simpa using he)
  refine ⟨h1, h2, h3, h4, h5, h6, ?_, ?_, ?_⟩
  · show encryptedUnits c (s.trace ++ [e]) = _
    rw [encryptedUnits_append, s1, List.append_nil, h7]
  · show deviceBytes (s.trace ++ [e]) = encryptedOutput c cipher (s.trace ++ [e])
    rw [deviceBytes_append, encryptedOutput_append, s2, s3, h8]
  · show (deviceBytes (s.trace ++ [e])).length = F
    rw [deviceBytes_append, s3, List.append_nil, h9]

/-- A flush in a run in which no write fails succeeds, empties the buffer and keeps the
invariant of the fill: all `k * ss` bytes are flushed. -/
theorem FlushFormatWriteBuffer_fill (c : Consts) (cipher : Cipher) (env : FillEnv)
    (ss start k F : Nat) (ci : CRYPTO_INFO) (s : WriterState)
    (hU : 0 < c.ENCRYPTION_DATA_UNIT_SIZE) (hUss : c.ENCRYPTION_DATA_UNIT_SIZE ∣ ss)
    (hss : 0 < ss) (hrange : (start + k) * ss < 2 ^ 63) (hw : noWriteFails env)
    (hinv : fillInvariant c cipher ss start k F s) :
    (FlushFormatWriteBuffer c cipher env ss ci s).1 = true
      ∧ fillInvariant c cipher ss start k (k * ss) (FlushFormatWriteBuffer c cipher env ss ci s).2
      ∧ (FlushFormatWriteBuffer c cipher env ss ci s).2.write_buf_cnt = 0 := by
  obtain ⟨h1, h2, h3, h4, h5, h6, h7, h8, h9⟩ := hinv
  obtain ⟨w1, w2, w3, w4⟩ := hw
  by_cases h0 : s.write_buf_cnt = 0
  · have hF : F = k * ss := by omega
    simp only [FlushFormatWriteBuffer, if_pos h0]
    subst hF
    exact ⟨trivial, ⟨h1, h2, h3, h4, h5, h6, h7, h8, h9⟩, h0⟩
  · have hUc : c.ENCRYPTION_DATA_UNIT_SIZE ∣ s.write_buf_cnt := dvd_trans hUss h3
    have hUs : c.ENCRYPTION_DATA_UNIT_SIZE ∣ start * ss := Dvd.dvd.mul_left hUss start
    have hexp : (start + k) * ss = start * ss + k * ss := by ring
    have hu : flushUnitNo c ss s.nSecNo s.write_buf_cnt
        = start * ss / c.ENCRYPTION_DATA_UNIT_SIZE + F / c.ENCRYPTION_DATA_UNIT_SIZE := by
      rw [h1, flushUnitNo_eq c ss (start + k) s.write_buf_cnt hss hrange (by omega),
        ← Nat.add_div_of_dvd_right hUs]
      congr 1
      omega
    have hbound : start * ss / c.ENCRYPTION_DATA_UNIT_SIZE
        + (F + s.write_buf_cnt) / c.ENCRYPTION_DATA_UNIT_SIZE < two64 := by
      have a1 : start * ss / c.ENCRYPTION_DATA_UNIT_SIZE ≤ start * ss := Nat.div_le_self _ _
      have a2 : (F + s.write_buf_cnt) / c.ENCRYPTION_DATA_UNIT_SIZE ≤ F + s.write_buf_cnt :=
        Nat.div_le_self _ _
      unfold two64
      omega
    have step := fun W hW1 hW2 hW3 => fill_trace_step c cipher ci s.trace
      (start * ss / c.ENCRYPTION_DATA_UNIT_SIZE) F s.write_buf_cnt W hU h4 hUc hbound h7 h8 h9
      hW1 hW2 hW3
    have hFk : F + s.write_buf_cnt = k * ss := h2
    simp only [FlushFormatWriteBuffer, if_neg h0, hu, h5, h6, w1, w2, w3, w4]
    cases hr : s.WriteThreadRunning
    · simp only [Bool.false_eq_true, if_false, Bool.not_true]
      obtain ⟨q1, q2, q3⟩ := step (Event.WriteFile _ true) rfl rfl rfl
      rw [hFk] at q1 q3
      refine ⟨trivial, ⟨h1, by simp, by simp, ?_, by simp [zeros], rfl, q1, q2, q3⟩, trivial⟩
      exact Dvd.dvd.mul_left hUss k
    · simp only [if_true, Bool.false_eq_true, if_false, Bool.not_true, ne_eq, not_true_eq_false]
      obtain ⟨q1, q2, q3⟩ := step (Event.WorkerWrite _ 0) rfl rfl rfl
      rw [hFk] at q1 q3
      refine ⟨trivial, ⟨h1, by simp, by simp, ?_, by simp [zeros], rfl, q1, q2, q3⟩, trivial⟩
      exact Dvd.dvd.mul_left hUss k

/-- One call of `WriteSector` with a zero sector, in a run in which no write fails and the
progress never cancels, succeeds and keeps the invariant of the fill; the buffer is never
left full. -/
theorem WriteSector_fill (c : Consts) (cipher : Cipher) (env : FillEnv)
    (ss start k F : Nat) (ci : CRYPTO_INFO) (s : WriterState)
    (hU : 0 < c.ENCRYPTION_DATA_UNIT_SIZE) (hUss : c.ENCRYPTION_DATA_UNIT_SIZE ∣ ss)
    (hB : ss ∣ env.FormatWriteBufferSize) (hB0 : 0 < env.FormatWriteBufferSize)
    (hmax : ss ≤ c.TC_MAX_VOLUME_SECTOR_SIZE)
    (hrange : (start + (k + 1)) * ss < 2 ^ 63) (hw : noWriteFails env)
    (hp : neverCancels env) (hcnt : s.write_buf_cnt < env.FormatWriteBufferSize)
    (hinv : fillInvariant c cipher ss start k F s) :
    (WriteSector c cipher env ss ci (zeros c.TC_MAX_VOLUME_SECTOR_SIZE) s).1 = true
      ∧ ∃ F', fillInvariant c cipher ss start (k + 1) F'
            (WriteSector c cipher env ss ci (zeros c.TC_MAX_VOLUME_SECTOR_SIZE) s).2
          ∧ (WriteSector c cipher env ss ci (zeros c.TC_MAX_VOLUME_SECTOR_SIZE) s).2.write_buf_cnt
              < env.FormatWriteBufferSize := by
  have hss : 0 < ss := by
    rcases Nat.eq_zero_or_pos ss with h | h
    · subst h
      have := Nat.eq_zero_of_zero_dvd hB
      omega
    · exact h
  obtain ⟨h1, h2, h3, h4, h5, h6, h7, h8, h9⟩ := hinv
  have hlt : start + (k + 1) < two64 := by
    have : start + (k + 1) ≤ (start + (k + 1)) * ss := Nat.le_mul_of_pos_right _ hss
    unfold two64
    omega
  have hs1 : fillInvariant c cipher ss start (k + 1) F
      { s with nSecNo := add64 s.nSecNo 1,
               write_buf := s.write_buf.take s.write_buf_cnt
                 ++ (zeros c.TC_MAX_VOLUME_SECTOR_SIZE).take ss,
               write_buf_cnt := s.write_buf_cnt + ss,
               nCalls := s.nCalls + 1 } := by
    refine ⟨?_, ?_, ?_, h4, ?_, h6, h7, h8, h9⟩
    · show add64 s.nSecNo 1 = start + (k + 1)
      rw [h1, add64_of_lt (by omega)]
      omega
    · show F + (s.write_buf_cnt + ss) = (k + 1) * ss
      have : (k + 1) * ss = k * ss + ss := by ring
      omega
    · exact Dvd.dvd.add h3 (dvd_refl ss)
    · show (s.write_buf.take s.write_buf_cnt ++ (zeros c.TC_MAX_VOLUME_SECTOR_SIZE).take ss).take
        (s.write_buf_cnt + ss) = zeros (s.write_buf_cnt + ss)
      rw [h5]
      simp only [zeros, List.take_replicate, Nat.min_eq_left hmax]
      rw [← List.replicate_add]
      exact List.take_of_length_le (by simp)
  have hstep : ∀ r : Bool × WriterState,
      r = (if s.write_buf_cnt + ss = env.FormatWriteBufferSize then
            FlushFormatWriteBuffer c cipher env ss ci
              { s with nSecNo := add64 s.nSecNo 1,
                       write_buf := s.write_buf.take s.write_buf_cnt
                         ++ (zeros c.TC_MAX_VOLUME_SECTOR_SIZE).take ss,
                       write_buf_cnt := s.write_buf_cnt + ss,
                       nCalls := s.nCalls + 1 }
          else (true,
              { s with nSecNo := add64 s.nSecNo 1,
                       write_buf := s.write_buf.take s.write_buf_cnt
                         ++ (zeros c.TC_MAX_VOLUME_SECTOR_SIZE).take ss,
                       write_buf_cnt := s.write_buf_cnt + ss,
                       nCalls := s.nCalls + 1 })) →
      r.1 = true ∧ ∃ F', fillInvariant c cipher ss start (k + 1) F' r.2
        ∧ r.2.write_buf_cnt < env.FormatWriteBufferSize := by
    intro r hr
    by_cases hfull : s.write_buf_cnt + ss = env.FormatWriteBufferSize
    · rw [if_pos hfull] at hr
      obtain ⟨f1, f2, f3⟩ := FlushFormatWriteBuffer_fill c cipher env ss start (k + 1) F ci _
        hU hUss hss hrange hw hs1
      rw [hr]
      exact ⟨f1, _, f2, by rw [f3]; exact hB0⟩
    · rw [if_neg hfull] at hr
      rw [hr]
      refine ⟨rfl, F, hs1, ?_⟩
      show s.write_buf_cnt + ss < env.FormatWriteBufferSize
      obtain ⟨a, ha⟩ := h3
      obtain ⟨b, hb⟩ := hB
      rw [ha, hb] at hcnt
      have hab : a < b := lt_of_mul_lt_mul_left hcnt (Nat.zero_le _)
      have : ss * a + ss ≤ ss * b := by
        have : ss * (a + 1) ≤ ss * b := Nat.mul_le_mul_left _ hab
        rw [Nat.mul_add, Nat.mul_one] at this
        exact this
      rw [ha, hb] at hfull ⊢
      omega
  have key : ∀ r : Bool × WriterState,
      (r.1 = true ∧ ∃ F', fillInvariant c cipher ss start (k + 1) F' r.2
        ∧ r.2.write_buf_cnt < env.FormatWriteBufferSize) →
      (if !r.1 then (false, r.2)
        else if env.timerElapsed s.nCalls then
          (!env.UpdateProgressBar s.nCalls (progressBytes ss r.2.nSecNo),
            { r.2 with trace := r.2.trace ++ [Event.UpdateProgressBar
                (progressBytes ss r.2.nSecNo)
                (env.UpdateProgressBar s.nCalls (progressBytes ss r.2.nSecNo))] })
        else (true, r.2)).1 = true
      ∧ ∃ F', fillInvariant c cipher ss start (k + 1) F'
          (if !r.1 then (false, r.2)
            else if env.timerElapsed s.nCalls then
              (!env.UpdateProgressBar s.nCalls (progressBytes ss r.2.nSecNo),
                { r.2 with trace := r.2.trace ++ [Event.UpdateProgressBar
                    (progressBytes ss r.2.nSecNo)
                    (env.UpdateProgressBar s.nCalls (progressBytes ss r.2.nSecNo))] })
            else (true, r.2)).2
        ∧ (if !r.1 then (false, r.2)
            else if env.timerElapsed s.nCalls then
              (!env.UpdateProgressBar s.nCalls (progressBytes ss r.2.nSecNo),
                { r.2 with trace := r.2.trace ++ [Event.UpdateProgressBar
                    (progressBytes ss r.2.nSecNo)
                    (env.UpdateProgressBar s.nCalls (progressBytes ss r.2.nSecNo))] })
            else (true, r.2)).2.write_buf_cnt < env.FormatWriteBufferSize := by
    rintro r ⟨r1, F', r2, r3⟩
    rw [r1]
    simp only [Bool.not_true, Bool.false_eq_true, if_false]
    by_cases ht : env.timerElapsed s.nCalls = true
    · rw [if_pos ht, hp]
      exact ⟨rfl, F', fillInvariant_emit c cipher ss start (k + 1) F' r.2 _ ⟨rfl, rfl, rfl⟩ r2, r3⟩
    · rw [if_neg ht]
      exact ⟨rfl, F', r2, r3⟩
  exact key _ (hstep _ rfl)

/-- The loop of the fill, in a run in which no write fails and the progress never cancels,
completes all its iterations and keeps the invariant of the fill. -/
theorem fillLoop_fill (c : Consts) (cipher : Cipher) (env : FillEnv) (ss start : Nat)
    (ci : CRYPTO_INFO)
    (hU : 0 < c.ENCRYPTION_DATA_UNIT_SIZE) (hUss : c.ENCRYPTION_DATA_UNIT_SIZE ∣ ss)
    (hB : ss ∣ env.FormatWriteBufferSize) (hB0 : 0 < env.FormatWriteBufferSize)
    (hmax : ss ≤ c.TC_MAX_VOLUME_SECTOR_SIZE) (hw : noWriteFails env) (hp : neverCancels env) :
    ∀ (n k F : Nat) (s : WriterState), (start + (k + n)) * ss < 2 ^ 63 →
      s.write_buf_cnt < env.FormatWriteBufferSize → fillInvariant c cipher ss start k F s →
      (fillLoop c cipher env ss ci (zeros c.TC_MAX_VOLUME_SECTOR_SIZE) n s).1 = true
        ∧ ∃ F', fillInvariant c cipher ss start (k + n) F'
            (fillLoop c cipher env ss ci (zeros c.TC_MAX_VOLUME_SECTOR_SIZE) n s).2 := by
  intro n
  induction n with
  | zero =>
    intro k F s _ _ hinv
    exact ⟨rfl, F, hinv⟩
  | succ m ih =>
    intro k F s hrange hcnt hinv
    have hr1 : (start + (k + 1)) * ss < 2 ^ 63 := by
      have : (start + (k + 1)) * ss ≤ (start + (k + (m + 1))) * ss :=
        Nat.mul_le_mul_right _ (by omega)
      omega
    obtain ⟨a1, F1, a2, a3⟩ := WriteSector_fill c cipher env ss start k F ci s hU hUss hB hB0
      hmax hr1 hw hp hcnt hinv
    have hr2 : (start + (k + 1 + m)) * ss < 2 ^ 63 := by
      have : k + 1 + m = k + (m + 1) := by omega
      rw [this]
      exact hrange
    obtain ⟨b1, F2, b2⟩ := ih (k + 1) F1 _ hr2 a3 a2
    have hk : k + (m + 1) = k + 1 + m := by omega
    rw [fillLoop, hk]
    simp only [a1, Bool.not_true, Bool.false_eq_true, if_false]
    exact ⟨b1, F2, b2⟩

theorem installTemporaryKeys_writer (c : Consts) (cipher : Cipher) (env : FillEnv)
    (ci : CRYPTO_INFO) (w : WriterState) :
    ∃ evs, (installTemporaryKeys c env ci w).2.2 = { w with trace := w.trace ++ evs }
      ∧ ∀ e ∈ evs, Event.silent c cipher e := by
  simp only [installTemporaryKeys, WriterState.emit]
  split_ifs <;> refine ⟨_, rfl, ?_⟩ <;>
    simp [Event.silent, Event.units, Event.ciphertext, Event.deviceData]

theorem fillStart_silent (c : Consts) (cipher : Cipher) (env : FillEnv) (ss : Nat)
    (running : Bool) (result start nSecNo : Nat) :
    ∀ e ∈ (fillStart env ss running result start nSecNo).trace, Event.silent c cipher e := by
  simp only [fillStart]
  split_ifs <;> simp [Event.silent, Event.units, Event.ciphertext, Event.deviceData]

theorem formatNoFsRestore_observed (c : Consts) (cipher : Cipher) (env : FillEnv) (ss : Nat)
    (cryptoInfo ci : CRYPTO_INFO) (originalK2 : List Nat) (w : WriterState) :
    (formatNoFsRestore c env ss cryptoInfo ci originalK2 w).write_buf_cnt = w.write_buf_cnt
      ∧ encryptedUnits c (formatNoFsRestore c env ss cryptoInfo ci originalK2 w).trace
          = encryptedUnits c w.trace
      ∧ encryptedOutput c cipher (formatNoFsRestore c env ss cryptoInfo ci originalK2 w).trace
          = encryptedOutput c cipher w.trace
      ∧ deviceBytes (formatNoFsRestore c env ss cryptoInfo ci originalK2 w).trace
          = deviceBytes w.trace := by
  obtain ⟨evs, h1, h2⟩ := formatNoFsRestore_events c env ss cryptoInfo ci originalK2 w
  obtain ⟨s1, s2, s3⟩ := silent_trace c cipher evs
    (fun e he => silent_of_fillEvent c cipher e (h2 e he))
  refine ⟨?_, ?_, ?_, ?_⟩
  · simp only [formatNoFsRestore, formatNoFsExit]
    split_ifs <;> rfl
  · rw [h1, encryptedUnits_append, s1, List.append_nil]
  · rw [h1, encryptedOutput_append, s2, List.append_nil]
  · rw [h1, deviceBytes_append, s3, List.append_nil]

theorem installTemporaryKeys_succeeds (c : Consts) (env : FillEnv) (ci : CRYPTO_INFO)
    (w : WriterState) (hk : keySetupSucceeds env) :
    (installTemporaryKeys c env ci w).1 = none := by
  obtain ⟨k1, k2, k3⟩ := hk
  simp [installTemporaryKeys, k1, k2, k3, Status.failed]

theorem formatNoFsRestore_succeeds (c : Consts) (env : FillEnv) (ss : Nat)
    (cryptoInfo ci : CRYPTO_INFO) (originalK2 : List Nat) (w : WriterState)
    (hk : keySetupSucceeds env) :
    (formatNoFsRestore c env ss cryptoInfo ci originalK2 w).retVal = Status.ERR_SUCCESS := by
  obtain ⟨k1, k2, k3⟩ := hk
  simp [formatNoFsRestore, formatNoFsExit, k2, k3, Status.failed]

/-- Counterexample to C1: a full fill of two sectors of 512 bytes that starts at sector
`2 ^ 54 - 1`, with a write buffer of 512 bytes and every collaborator succeeding.  The seek
goes to the byte offset `2 ^ 63 - 512`, which is a valid non-negative offset.  The buffer is
flushed after each sector; at the second flush the signed 64-bit computation of line 1418
yields `((2 ^ 54 + 1) * 512 - 512) / 512 = - 2 ^ 54`, so the second zero unit is encrypted
under the unit number `2 ^ 64 - 2 ^ 54` and not under `2 ^ 54`, the successor of the first:
the unit numbers are not consecutive. -/
theorem full_fill_unit_number_wraps :
    (encryptedUnits veraCryptConsts
        (FormatNoFs veraCryptConsts testCipher (bufferEnv 512) 512 false 0 (2 ^ 54 - 1) 2
          testCryptoInfo false).trace).map Prod.fst
      = [2 ^ 54 - 1, 2 ^ 64 - 2 ^ 54]
    ∧ (FormatNoFs veraCryptConsts testCipher (bufferEnv 512) 512 false 0 (2 ^ 54 - 1) 2
          testCryptoInfo false).retVal = Status.ERR_SUCCESS
    ∧ (2 ^ 54 - 1) * 512 / 512 = 2 ^ 54 - 1
    ∧ mul64 (2 ^ 54 - 1) 512 = 2 ^ 63 - 512 := by
  decide

/-- C1 (amended): for every sector size that is a multiple of the data unit, is at most
`TC_MAX_VOLUME_SECTOR_SIZE` and divides the (positive) `FormatWriteBufferSize`, and every
start sector and sector count with `(start_sector + num_sectors) * sector_size < 2 ^ 63`, a
`FormatNoFs` run with `quickFormat = FALSE` in which the seek, the allocation and the key
setup succeed, no write fails and the progress never cancels returns `ERR_SUCCESS` after it
has encrypted exactly `num_sectors * sector_size / unit` data units, all of zero plaintext,
numbered consecutively from `start_sector * sector_size / unit`; the device has received the
ciphertext of these units in that order, `num_sectors * sector_size` bytes in all, and the
residual buffer count is 0. -/
theorem FormatNoFs_full_fill (c : Consts) (cipher : Cipher) (env : FillEnv)
    (FormatSectorSize : Nat) (WriteThreadRunning : Bool) (startSector num_sectors : Nat)
    (cryptoInfo : CRYPTO_INFO)
    (hU : 0 < c.ENCRYPTION_DATA_UNIT_SIZE)
    (hUss : c.ENCRYPTION_DATA_UNIT_SIZE ∣ FormatSectorSize)
    (hB : FormatSectorSize ∣ env.FormatWriteBufferSize) (hB0 : 0 < env.FormatWriteBufferSize)
    (hmax : FormatSectorSize ≤ c.TC_MAX_VOLUME_SECTOR_SIZE)
    (hrange : (startSector + num_sectors) * FormatSectorSize < 2 ^ 63)
    (hseek : env.SetFilePointerEx (mul64 startSector FormatSectorSize) = true)
    (halloc : env.TCalloc = true)
    (hk : keySetupSucceeds env) (hw : noWriteFails env) (hp : neverCancels env) :
    (FormatNoFs c cipher env FormatSectorSize WriteThreadRunning 0 startSector num_sectors
        cryptoInfo false).retVal = Status.ERR_SUCCESS
    ∧ encryptedUnits c (FormatNoFs c cipher env FormatSectorSize WriteThreadRunning 0
        startSector num_sectors cryptoInfo false).trace
      = (List.range (num_sectors * FormatSectorSize / c.ENCRYPTION_DATA_UNIT_SIZE)).map
          (fun j => (startSector * FormatSectorSize / c.ENCRYPTION_DATA_UNIT_SIZE + j,
            zeros c.ENCRYPTION_DATA_UNIT_SIZE))
    ∧ deviceBytes (FormatNoFs c cipher env FormatSectorSize WriteThreadRunning 0
        startSector num_sectors cryptoInfo false).trace
      = encryptedOutput c cipher (FormatNoFs c cipher env FormatSectorSize WriteThreadRunning 0
        startSector num_sectors cryptoInfo false).trace
    ∧ (deviceBytes (FormatNoFs c cipher env FormatSectorSize WriteThreadRunning 0
        startSector num_sectors cryptoInfo false).trace).length = num_sectors * FormatSectorSize
    ∧ (FormatNoFs c cipher env FormatSectorSize WriteThreadRunning 0 startSector num_sectors
        cryptoInfo false).write_buf_cnt = 0 := by
  have hss : 0 < FormatSectorSize := by
    rcases Nat.eq_zero_or_pos FormatSectorSize with h | h
    · subst h
      have := Nat.eq_zero_of_zero_dvd hB
      omega
    · exact h
  -- the writer at the entry of the loop
  obtain ⟨evs, hw0, hsil⟩ := installTemporaryKeys_writer c cipher env
    (workingContext env cryptoInfo)
    (fillStart env FormatSectorSize WriteThreadRunning 0 startSector startSector)
  have hnone := installTemporaryKeys_succeeds c env (workingContext env cryptoInfo)
    (fillStart env FormatSectorSize WriteThreadRunning 0 startSector startSector) hk
  obtain ⟨t1, t2, t3⟩ := silent_trace c cipher
    ((fillStart env FormatSectorSize WriteThreadRunning 0 startSector startSector).trace ++ evs)
    (by
      intro e he
      rcases List.mem_append.mp he with h | h
      · exact fillStart_silent c cipher env _ _ _ _ _ e h
      · exact hsil e h)
  have hinv0 : fillInvariant c cipher FormatSectorSize startSector 0 0
      (installTemporaryKeys c env (workingContext env cryptoInfo)
        (fillStart env FormatSectorSize WriteThreadRunning 0 startSector startSector)).2.2 := by
    rw [hw0]
    refine ⟨rfl, by simp [fillStart], by simp [fillStart], dvd_zero _, ?_, rfl, ?_, ?_, ?_⟩
    · simp [fillStart, zeros]
    · show encryptedUnits c _ = _
      rw [t1]; simp
    · show deviceBytes _ = encryptedOutput c cipher _
      rw [t2, t3]
    · show (deviceBytes _).length = 0
      rw [t3]; rfl
  have hcnt0 : (installTemporaryKeys c env (workingContext env cryptoInfo)
        (fillStart env FormatSectorSize WriteThreadRunning 0 startSector startSector)).2.2.write_buf_cnt
      < env.FormatWriteBufferSize := by
    rw [hw0]
    exact hB0
  have hrange0 : (startSector + (0 + num_sectors)) * FormatSectorSize < 2 ^ 63 := by
    rw [Nat.zero_add]; exact hrange
  -- the loop and the flush of the residual buffer
  have hloop := fun ci => fillLoop_fill c cipher env FormatSectorSize startSector ci hU hUss hB
    hB0 hmax hw hp num_sectors 0 0 _ hrange0 hcnt0 hinv0
  have hflush := fun ci => FlushFormatWriteBuffer_fill c cipher env FormatSectorSize startSector
    (0 + num_sectors) (hloop ci).2.choose ci _ hU hUss hss hrange0 hw (hloop ci).2.choose_spec
  -- the run
  have hrun : FormatNoFs c cipher env FormatSectorSize WriteThreadRunning 0 startSector
        num_sectors cryptoInfo false
      = formatNoFsFill c cipher env FormatSectorSize num_sectors cryptoInfo
          (workingContext env cryptoInfo) (workingContext env cryptoInfo).k2
          (fillStart env FormatSectorSize WriteThreadRunning 0 startSector startSector) := by
    simp [FormatNoFs, hseek, halloc]
  rw [hrun]
  simp only [formatNoFsFill, hnone, fillAndRestore, (hloop _).1, (hflush _).1, Bool.not_true,
    Bool.false_eq_true, if_false]
  obtain ⟨r1, r2, r3, r4⟩ := formatNoFsRestore_observed c cipher env FormatSectorSize cryptoInfo
    (if env.IsRamEncryptionEnabled = true then
      env.VcProtectKeys (installTemporaryKeys c env (workingContext env cryptoInfo)
        (fillStart env FormatSectorSize WriteThreadRunning 0 startSector startSector)).2.1
     else (installTemporaryKeys c env (workingContext env cryptoInfo)
        (fillStart env FormatSectorSize WriteThreadRunning 0 startSector startSector)).2.1)
    (workingContext env cryptoInfo).k2
    (FlushFormatWriteBuffer c cipher env FormatSectorSize
      (if env.IsRamEncryptionEnabled = true then
        env.VcProtectKeys (installTemporaryKeys c env (workingContext env cryptoInfo)
          (fillStart env FormatSectorSize WriteThreadRunning 0 startSector startSector)).2.1
       else (installTemporaryKeys c env (workingContext env cryptoInfo)
          (fillStart env FormatSectorSize WriteThreadRunning 0 startSector startSector)).2.1)
      (fillLoop c cipher env FormatSectorSize
        (if env.IsRamEncryptionEnabled = true then
          env.VcProtectKeys (installTemporaryKeys c env (workingContext env cryptoInfo)
            (fillStart env FormatSectorSize WriteThreadRunning 0 startSector startSector)).2.1
         else (installTemporaryKeys c env (workingContext env cryptoInfo)
            (fillStart env FormatSectorSize WriteThreadRunning 0 startSector startSector)).2.1)
        (zeros c.TC_MAX_VOLUME_SECTOR_SIZE) num_sectors
        (installTemporaryKeys c env (workingContext env cryptoInfo)
          (fillStart env FormatSectorSize WriteThreadRunning 0 startSector startSector)).2.2).2).2
  obtain ⟨_, ⟨_, _, _, _, _, _, f7, f8, f9⟩, f0⟩ := hflush
    (if env.IsRamEncryptionEnabled = true then
      env.VcProtectKeys (installTemporaryKeys c env (workingContext env cryptoInfo)
        (fillStart env FormatSectorSize WriteThreadRunning 0 startSector startSector)).2.1
     else (installTemporaryKeys c env (workingContext env cryptoInfo)
        (fillStart env FormatSectorSize WriteThreadRunning 0 startSector startSector)).2.1)
  rw [Nat.zero_add] at f7 f9
  refine ⟨formatNoFsRestore_succeeds _ _ _ _ _ _ _ hk, ?_, ?_, ?_, ?_⟩
  · rw [r2, f7]
  · rw [r4, r3, f8]
  · rw [r4, f9]
  · rw [r1, f0]

/-- Witness of C1: a full fill of 4096 sectors of 512 bytes from sector 256, with the write
buffer of 1 MiB, so that the buffer is flushed twice. -/
theorem FormatNoFs_full_fill_witness :
    (deviceBytes (FormatNoFs veraCryptConsts testCipher okFillEnv 512 false 0 256 4096
        testCryptoInfo false).trace).length = 4096 * 512
    ∧ (FormatNoFs veraCryptConsts testCipher okFillEnv 512 false 0 256 4096
        testCryptoInfo false).write_buf_cnt = 0 :=
  have h := FormatNoFs_full_fill veraCryptConsts testCipher okFillEnv 512 false 256 4096
    testCryptoInfo (by decide) (by decide) (by decide) (by decide) (by decide) (by decide)
    rfl rfl ⟨fun _ _ => rfl, fun _ _ => rfl, fun _ _ => rfl⟩
    ⟨fun _ => rfl, fun _ => rfl, fun _ => rfl, fun _ => rfl⟩ (fun _ _ => rfl)
  ⟨h.2.2.2.1, h.2.2.2.2⟩

/-! ## Failures that are not reported -/

/-- C17 (the code at the failing input): a standard container file for which the build of the
backup header fails with `ERR_OUTOFMEMORY`.  The status is stored at line 609 and never tested:
the header buffer is written to the backup header slot at line 636, the status is overwritten
at line 658, and `TCFormatVolume` returns `ERR_SUCCESS`. -/
theorem failed_backup_build_is_written :
    (TCFormatVolume veraCryptConsts testCipher backupBuildFailsEnv 2 testParams).map
      (fun r => (r.nStatus,
        decide (Event.CreateVolumeHeaderInMemory HeaderSite.backup true false
          Status.ERR_OUTOFMEMORY ∈ r.trace),
        decide (Event.WriteEffectiveVolumeHeader HeaderSite.backup
          (backupHeaderOffset veraCryptConsts testParams) true ∈ r.trace)))
      = some (Status.ERR_SUCCESS, true, true) := by
  decide

set_option maxRecDepth 100000 in
/-- C19 (the code at the failing input): a full format of a device whose data area is one
sector.  The only buffer of the fill is handed to the background writer by the last flush of
`FormatNoFs`; the write of the worker fails, `StopFormatWriteThread` does not look at
`WriteRequestResult`, and `TCFormatVolume` returns `ERR_SUCCESS`. -/
theorem last_worker_write_failure_is_lost :
    (TCFormatVolume veraCryptConsts testCipher workerWriteFailsEnv 2 oneSectorDeviceParams).map
      (fun r => (r.nStatus, r.trace.any Event.isFailedWorkerWrite))
      = some (Status.ERR_SUCCESS, true) := by
  decide

/-! ## The data offset of a hidden volume -/

/-- Counterexample to C20: a hidden volume of 5 MiB for a host of 348160 bytes (the minimum
host size), with 512-byte sectors.  The host is smaller than the header group and the
volume, the subtraction of line 129 wraps around to `2 ^ 64 - 5025792`, which is a multiple
of 512; the request is not rejected: the data area is formatted from sector
`(2 ^ 64 - 5025792) / 512` and `TCFormatVolume` returns `ERR_SUCCESS`. -/
theorem hidden_data_offset_wraps :
    oversizedHiddenParams.hiddenVolHostSize
        < veraCryptConsts.TC_VOLUME_HEADER_GROUP_SIZE + oversizedHiddenParams.size
    ∧ dataOffset veraCryptConsts oversizedHiddenParams = 2 ^ 64 - 5025792
    ∧ (TCFormatVolume veraCryptConsts testCipher okEnv 2 oversizedHiddenParams).map
        (fun r => (r.nStatus,
          decide (Event.FormatNoFs ((2 ^ 64 - 5025792) / 512) 9984 true ∈ r.trace)))
        = some (Status.ERR_SUCCESS, true) := by
  decide

/-- C20 (amended): for every hidden-volume request whose host holds the header group and the
volume (`hiddenVolHostSize >= TC_VOLUME_HEADER_GROUP_SIZE + size`, which `TCFormatVolume`
does not check), the 64-bit value `dataOffset` equals
`hiddenVolHostSize - TC_VOLUME_HEADER_GROUP_SIZE - size` computed over the integers; this is
the value stored into `hiddenVolumeOffset`, and every call that formats the data area starts
at the sector `s` with `s * sectorSize` equal to it. -/
theorem hidden_data_offset_exact (c : Consts) (cipher : Cipher) (env : Env) (fuel : Nat)
    (p : FORMAT_VOL_PARAMETERS) (hh : p.hiddenVol = true) (hhost : p.hiddenVolHostSize < 2 ^ 64)
    (hfit : c.TC_VOLUME_HEADER_GROUP_SIZE + p.size ≤ p.hiddenVolHostSize) :
    dataOffset c p + p.size + c.TC_VOLUME_HEADER_GROUP_SIZE = p.hiddenVolHostSize
    ∧ (∀ st, (hiddenSetup c p st).1.cryptoInfo.hiddenVolumeOffset
        = p.hiddenVolHostSize - c.TC_VOLUME_HEADER_GROUP_SIZE - p.size)
    ∧ ∃ r, TCFormatVolume c cipher env (fuel + 2) p = some r
        ∧ ∀ s n q, (Event.FormatNoFs s n q ∈ r.trace
            ∨ ∃ status, Event.FormatFat s n q status ∈ r.trace) →
          s * p.sectorSize = p.hiddenVolHostSize - c.TC_VOLUME_HEADER_GROUP_SIZE - p.size := by
  have hhost' : p.hiddenVolHostSize < two64 := hhost
  have hoff : dataOffset c p = p.hiddenVolHostSize - c.TC_VOLUME_HEADER_GROUP_SIZE - p.size := by
    simp only [dataOffset, hh, if_true]
    rw [sub64_of_le (by omega) hhost', sub64_of_le (by omega) (by omega)]
  refine ⟨by omega, ?_, ?_⟩
  · intro st
    simp only [hiddenSetup, hh, if_true, FormatState.fail]
    split_ifs <;> exact hoff
  · obtain ⟨r, hr, hall⟩ := TCFormatVolume_alignedDataArea c cipher env fuel p
    refine ⟨r, hr, ?_⟩
    intro s n q hev
    have hal : s = startSector c p
        ∧ (p.hiddenVol = true → dataOffset c p % p.sectorSize = 0) := by
      rcases hev with h | ⟨status, h⟩
      · exact hall _ h
      · exact hall _ h
    rw [hal.1, startSector, Nat.div_mul_cancel (Nat.dvd_of_mod_eq_zero (hal.2 hh)), hoff]

/-- Witness of C20: the hidden volume of 5 MiB in a host of 20 MiB. -/
theorem hidden_data_offset_exact_witness :
    dataOffset veraCryptConsts hiddenTestParams + hiddenTestParams.size
      + veraCryptConsts.TC_VOLUME_HEADER_GROUP_SIZE = hiddenTestParams.hiddenVolHostSize :=
  (hidden_data_offset_exact veraCryptConsts testCipher okEnv 0 hiddenTestParams rfl
    (by decide) (by decide)).1

/-! ## The keys after a successful `FormatNoFs` -/

/-- A call of `WriteSector` that returns `TRUE` from a buffer whose fill count is a multiple
of the sector size below the buffer size leaves such a buffer: the buffer was flushed if the
append filled it. -/
theorem WriteSector_count (c : Consts) (cipher : Cipher) (env : FillEnv) (ss : Nat)
    (ci : CRYPTO_INFO) (sector : List Nat) (s : WriterState)
    (hB : ss ∣ env.FormatWriteBufferSize) (hB0 : 0 < env.FormatWriteBufferSize)
    (hd : ss ∣ s.write_buf_cnt) (hlt : s.write_buf_cnt < env.FormatWriteBufferSize)
    (hok : (WriteSector c cipher env ss ci sector s).1 = true) :
    s.write_buf_cnt + ss ≤ env.FormatWriteBufferSize
      ∧ (WriteSector c cipher env ss ci sector s).2.write_buf_cnt
          = (if s.write_buf_cnt + ss = env.FormatWriteBufferSize then 0
             else s.write_buf_cnt + ss)
      ∧ ss ∣ (WriteSector c cipher env ss ci sector s).2.write_buf_cnt
      ∧ (WriteSector c cipher env ss ci sector s).2.write_buf_cnt < env.FormatWriteBufferSize := by
  have hfit : s.write_buf_cnt + ss ≤ env.FormatWriteBufferSize := by
    obtain ⟨a, ha⟩ := hd
    obtain ⟨b, hb⟩ := hB
    rw [ha, hb] at hlt
    have hab : a < b := lt_of_mul_lt_mul_left hlt (Nat.zero_le _)
    have : ss * (a + 1) ≤ ss * b := Nat.mul_le_mul_left _ hab
    rw [Nat.mul_add, Nat.mul_one] at this
    rw [ha, hb]
    exact this
  refine ⟨hfit, ?_⟩
  have hflush : ∀ s1 : WriterState, s1.write_buf_cnt = env.FormatWriteBufferSize →
      (FlushFormatWriteBuffer c cipher env ss ci s1).1 = true →
      (FlushFormatWriteBuffer c cipher env ss ci s1).2.write_buf_cnt = 0 := by
    intro s1 h1 h2
    have h0 : s1.write_buf_cnt ≠ 0 := by omega
    simp only [FlushFormatWriteBuffer, if_neg h0] at h2 ⊢
    split_ifs at h2 ⊢ <;> first | rfl | (simp at h2)
  have hstep : ∀ r : Bool × WriterState,
      r = (if s.write_buf_cnt + ss = env.FormatWriteBufferSize then
            FlushFormatWriteBuffer c cipher env ss ci
              { s with nSecNo := add64 s.nSecNo 1,
                       write_buf := s.write_buf.take s.write_buf_cnt ++ sector.take ss,
                       write_buf_cnt := s.write_buf_cnt + ss,
                       nCalls := s.nCalls + 1 }
          else (true,
              { s with nSecNo := add64 s.nSecNo 1,
                       write_buf := s.write_buf.take s.write_buf_cnt ++ sector.take ss,
                       write_buf_cnt := s.write_buf_cnt + ss,
                       nCalls := s.nCalls + 1 })) →
      r.1 = true → r.2.write_buf_cnt
        = (if s.write_buf_cnt + ss = env.FormatWriteBufferSize then 0
           else s.write_buf_cnt + ss) := by
    intro r hr h1
    by_cases hfull : s.write_buf_cnt + ss = env.FormatWriteBufferSize
    · rw [if_pos hfull] at hr
      rw [hr] at h1 ⊢
      rw [hflush _ hfull h1, if_pos hfull]
    · rw [if_neg hfull] at hr
      rw [hr, if_neg hfull]
  have key : ∀ r : Bool × WriterState,
      (r.1 = true → r.2.write_buf_cnt
        = (if s.write_buf_cnt + ss = env.FormatWriteBufferSize then 0
           else s.write_buf_cnt + ss)) →
      (if !r.1 then (false, r.2)
        else if env.timerElapsed s.nCalls then
          (!env.UpdateProgressBar s.nCalls (progressBytes ss r.2.nSecNo),
            { r.2 with trace := r.2.trace ++ [Event.UpdateProgressBar
                (progressBytes ss r.2.nSecNo)
                (env.UpdateProgressBar s.nCalls (progressBytes ss r.2.nSecNo))] })
        else (true, r.2)).1 = true →
      (if !r.1 then (false, r.2)
            else if env.timerElapsed s.nCalls then
              (!env.UpdateProgressBar s.nCalls (progressBytes ss r.2.nSecNo),
                { r.2 with trace := r.2.trace ++ [Event.UpdateProgressBar
                    (progressBytes ss r.2.nSecNo)
                    (env.UpdateProgressBar s.nCalls (progressBytes ss r.2.nSecNo))] })
            else (true, r.2)).2.write_buf_cnt
        = (if s.write_buf_cnt + ss = env.FormatWriteBufferSize then 0
           else s.write_buf_cnt + ss) := by
    intro r hr
    cases h1 : r.1
    · simp
    · simp only [Bool.not_true, Bool.false_eq_true, if_false]
      intro _
      split_ifs <;> simp_all
  have hexact : (WriteSector c cipher env ss ci sector s).2.write_buf_cnt
      = (if s.write_buf_cnt + ss = env.FormatWriteBufferSize then 0
         else s.write_buf_cnt + ss) := key _ (hstep _ rfl) hok
  refine ⟨hexact, ?_, ?_⟩
  · rw [hexact]
    split_ifs
    · exact dvd_zero _
    · exact Dvd.dvd.add hd (dvd_refl ss)
  · rw [hexact]
    split_ifs with hfull
    · exact hB0
    · exact lt_of_le_of_ne hfit hfull

/-- While every call returns `TRUE`, the fill count stays a multiple of the sector size below
the buffer size. -/
theorem fillLoop_count (c : Consts) (cipher : Cipher) (env : FillEnv) (ss : Nat)
    (ci : CRYPTO_INFO) (sector : List Nat)
    (hB : ss ∣ env.FormatWriteBufferSize) (hB0 : 0 < env.FormatWriteBufferSize) :
    ∀ (k : Nat) (s : WriterState), ss ∣ s.write_buf_cnt →
      s.write_buf_cnt < env.FormatWriteBufferSize →
      (fillLoop c cipher env ss ci sector k s).1 = true →
      ss ∣ (fillLoop c cipher env ss ci sector k s).2.write_buf_cnt
        ∧ (fillLoop c cipher env ss ci sector k s).2.write_buf_cnt
            < env.FormatWriteBufferSize := by
  intro k
  induction k with
  | zero => intro s hd hlt _; exact ⟨hd, hlt⟩
  | succ m ih =>
    intro s hd hlt hok
    rw [fillLoop] at hok ⊢
    cases h1 : (WriteSector c cipher env ss ci sector s).1
    · simp [h1] at hok
    · simp only [h1, Bool.not_true, Bool.false_eq_true, if_false] at hok ⊢
      obtain ⟨_, _, a2, a3⟩ := WriteSector_count c cipher env ss ci sector s hB hB0 hd hlt h1
      exact ih _ a2 a3 hok

/-- While the buffer is never exactly full after an append, no call flushes: after `k`
calls that the progress reporter does not cancel, the fill count has grown by `k` sectors,
whatever the size of the buffer. -/
theorem fillLoop_no_flush (c : Consts) (cipher : Cipher) (env : FillEnv) (ss : Nat)
    (ci : CRYPTO_INFO) (sector : List Nat) (hp : neverCancels env) :
    ∀ (k : Nat) (s : WriterState),
      (∀ j, 1 ≤ j → j ≤ k → s.write_buf_cnt + j * ss ≠ env.FormatWriteBufferSize) →
      (fillLoop c cipher env ss ci sector k s).1 = true
        ∧ (fillLoop c cipher env ss ci sector k s).2.write_buf_cnt = s.write_buf_cnt + k * ss := by
  intro k
  induction k with
  | zero => intro s _; exact ⟨rfl, by simp [fillLoop]⟩
  | succ m ih =>
    intro s hne
    have h1 : s.write_buf_cnt + ss ≠ env.FormatWriteBufferSize := by
      have := hne 1 (le_refl 1) (by omega)
      simpa using this
    have hw : (WriteSector c cipher env ss ci sector s).1 = true
        ∧ (WriteSector c cipher env ss ci sector s).2.write_buf_cnt = s.write_buf_cnt + ss := by
      have hp' : ∀ n b, env.UpdateProgressBar n b = false := hp
      simp only [WriteSector, if_neg h1, Bool.not_true, Bool.false_eq_true, if_false, hp',
        Bool.not_false]
      split_ifs <;> exact ⟨rfl, rfl⟩
    rw [fillLoop]
    simp only [hw.1, Bool.not_true, Bool.false_eq_true, if_false]
    obtain ⟨i1, i2⟩ := ih (WriteSector c cipher env ss ci sector s).2 (by
      intro j hj1 hj2
      rw [hw.2]
      have := hne (j + 1) (by omega) (by omega)
      have e : (j + 1) * ss = j * ss + ss := by ring
      omega)
    refine ⟨i1, ?_⟩
    rw [i2, hw.2]
    ring

/-- C18 (code bug): the sector size 1536 passes the check of lines 110-112, and 1536 does not
divide the buffer size `1024 * 1024`.  In a fill that starts with an empty buffer the first
682 calls of `WriteSector` leave 1047552 bytes in the buffer, so the append of the next call
ends at byte 1049088, beyond the buffer: `WriteSector` flushes only when the count equals
`FormatWriteBufferSize` (line 1281), the count steps over that value, no call flushes, and
after 683 calls the fill count is above the buffer size. -/
theorem write_buffer_overrun_1536 :
    sectorSizeUnsupported veraCryptConsts 1536 = false
    ∧ okFillEnv.FormatWriteBufferSize = 1024 * 1024
    ∧ (fillLoop veraCryptConsts testCipher okFillEnv 1536 testCryptoInfo
        (zeros veraCryptConsts.TC_MAX_VOLUME_SECTOR_SIZE) 682
        (fillStart okFillEnv 1536 false 0 0 0)).1 = true
    ∧ (fillLoop veraCryptConsts testCipher okFillEnv 1536 testCryptoInfo
        (zeros veraCryptConsts.TC_MAX_VOLUME_SECTOR_SIZE) 682
        (fillStart okFillEnv 1536 false 0 0 0)).2.write_buf_cnt + 1536 = 1049088
    ∧ (fillLoop veraCryptConsts testCipher okFillEnv 1536 testCryptoInfo
        (zeros veraCryptConsts.TC_MAX_VOLUME_SECTOR_SIZE) 683
        (fillStart okFillEnv 1536 false 0 0 0)).2.write_buf_cnt = 1049088 := by
  have hne : ∀ k j, 1 ≤ j → j ≤ k →
      (fillStart okFillEnv 1536 false 0 0 0).write_buf_cnt + j * 1536
        ≠ okFillEnv.FormatWriteBufferSize := by
    intro k j _ _
    show 0 + j * 1536 ≠ 1024 * 1024
    omega
  have h682 := fillLoop_no_flush veraCryptConsts testCipher okFillEnv 1536 testCryptoInfo
    (zeros veraCryptConsts.TC_MAX_VOLUME_SECTOR_SIZE) (fun _ _ => rfl) 682
    (fillStart okFillEnv 1536 false 0 0 0) (hne 682)
  have h683 := fillLoop_no_flush veraCryptConsts testCipher okFillEnv 1536 testCryptoInfo
    (zeros veraCryptConsts.TC_MAX_VOLUME_SECTOR_SIZE) (fun _ _ => rfl) 683
    (fillStart okFillEnv 1536 false 0 0 0) (hne 683)
  refine ⟨by decide, rfl, h682.1, ?_, ?_⟩
  · rw [h682.2]; rfl
  · rw [h683.2]; rfl

/-- For every sector size that divides `FormatWriteBufferSize` (of the sizes that pass the
check of lines 110-112, the powers of two), in a fill that starts with an empty buffer,
before the append of every call of `WriteSector` that follows calls that returned
`TRUE`, `write_buf_cnt + sector_size <= FormatWriteBufferSize`; a call that returns `TRUE`
leaves the count 0 if the append filled the buffer and `write_buf_cnt + sector_size`
otherwise, so after every such call `write_buf_cnt < FormatWriteBufferSize`. -/
theorem write_buffer_never_overrun (c : Consts) (cipher : Cipher) (env : FillEnv)
    (FormatSectorSize : Nat) (ci : CRYPTO_INFO) (sector : List Nat) (s : WriterState)
    (hB : FormatSectorSize ∣ env.FormatWriteBufferSize) (hB0 : 0 < env.FormatWriteBufferSize)
    (hs : s.write_buf_cnt = 0) (k : Nat)
    (hok : (fillLoop c cipher env FormatSectorSize ci sector k s).1 = true) :
    (fillLoop c cipher env FormatSectorSize ci sector k s).2.write_buf_cnt + FormatSectorSize
        ≤ env.FormatWriteBufferSize
    ∧ (fillLoop c cipher env FormatSectorSize ci sector k s).2.write_buf_cnt
        < env.FormatWriteBufferSize
    ∧ ((WriteSector c cipher env FormatSectorSize ci sector
          (fillLoop c cipher env FormatSectorSize ci sector k s).2).1 = true →
        (WriteSector c cipher env FormatSectorSize ci sector
          (fillLoop c cipher env FormatSectorSize ci sector k s).2).2.write_buf_cnt
          = (if (fillLoop c cipher env FormatSectorSize ci sector k s).2.write_buf_cnt
                + FormatSectorSize = env.FormatWriteBufferSize then 0
             else (fillLoop c cipher env FormatSectorSize ci sector k s).2.write_buf_cnt
                + FormatSectorSize)) := by
  obtain ⟨h1, h2⟩ := fillLoop_count c cipher env FormatSectorSize ci sector hB hB0 k s
    (by rw [hs]; exact dvd_zero _) (by rw [hs]; exact hB0) hok
  have hfit : (fillLoop c cipher env FormatSectorSize ci sector k s).2.write_buf_cnt
      + FormatSectorSize ≤ env.FormatWriteBufferSize := by
    obtain ⟨a, ha⟩ := h1
    obtain ⟨b, hb⟩ := hB
    rw [ha, hb] at h2
    have hab : a < b := lt_of_mul_lt_mul_left h2 (Nat.zero_le _)
    have : FormatSectorSize * (a + 1) ≤ FormatSectorSize * b := Nat.mul_le_mul_left _ hab
    rw [Nat.mul_add, Nat.mul_one] at this
    rw [ha, hb]
    exact this
  refine ⟨hfit, h2, fun hw => ?_⟩
  exact (WriteSector_count c cipher env FormatSectorSize ci sector _ hB hB0 h1 h2 hw).2.1

/-- Witness of the bound on the fill count: a fill with 512-byte sectors and a buffer of 1024
bytes, after three calls of `WriteSector`, the second of which filled and flushed the
buffer; the count is 512 and the next append fits. -/
theorem write_buffer_never_overrun_witness :
    (fillLoop veraCryptConsts testCipher (bufferEnv 1024) 512 testCryptoInfo (zeros 512) 3
        (fillStart (bufferEnv 1024) 512 false 0 0 0)).2.write_buf_cnt = 512
    ∧ (fillLoop veraCryptConsts testCipher (bufferEnv 1024) 512 testCryptoInfo (zeros 512) 3
        (fillStart (bufferEnv 1024) 512 false 0 0 0)).2.write_buf_cnt + 512
      ≤ (bufferEnv 1024).FormatWriteBufferSize :=
  ⟨by decide,
    (write_buffer_never_overrun veraCryptConsts testCipher (bufferEnv 1024) 512 testCryptoInfo
      (zeros 512) (fillStart (bufferEnv 1024) 512 false 0 0 0) (by decide) (by decide) rfl 3
      (by decide)).1⟩

/-! ## The sector writer and the size of its buffer -/

theorem dataUnit_append_left (c : Consts) (A B : List Nat) (j : Nat)
    (h : (j + 1) * c.ENCRYPTION_DATA_UNIT_SIZE ≤ A.length) :
    dataUnit c (A ++ B) j = dataUnit c A j := by
  have e : (j + 1) * c.ENCRYPTION_DATA_UNIT_SIZE
      = j * c.ENCRYPTION_DATA_UNIT_SIZE + c.ENCRYPTION_DATA_UNIT_SIZE := by ring
  unfold dataUnit
  rw [List.drop_append_of_le_length (by omega), List.take_append_of_le_length]
  rw [List.length_drop]
  omega

theorem dataUnit_append_right (c : Consts) (A B : List Nat) (a i : Nat)
    (h : A.length = a * c.ENCRYPTION_DATA_UNIT_SIZE) :
    dataUnit c (A ++ B) (a + i) = dataUnit c B i := by
  unfold dataUnit
  have e : (a + i) * c.ENCRYPTION_DATA_UNIT_SIZE = A.length + i * c.ENCRYPTION_DATA_UNIT_SIZE := by
    rw [h]; ring
  rw [e, List.drop_append]

theorem unitsOf_append (c : Consts) (u : Nat) (A B : List Nat)
    (hA : c.ENCRYPTION_DATA_UNIT_SIZE ∣ A.length) :
    unitsOf c u (A ++ B)
      = unitsOf c u A ++ unitsOf c (u + A.length / c.ENCRYPTION_DATA_UNIT_SIZE) B := by
  have hmul : A.length / c.ENCRYPTION_DATA_UNIT_SIZE * c.ENCRYPTION_DATA_UNIT_SIZE = A.length :=
    Nat.div_mul_cancel hA
  unfold unitsOf
  rw [List.length_append, Nat.add_div_of_dvd_right hA, List.range_add, List.map_append,
    List.map_map]
  congr 1
  · apply List.map_congr_left
    intro j hj
    have hj' : j < A.length / c.ENCRYPTION_DATA_UNIT_SIZE := List.mem_range.mp hj
    have : (j + 1) * c.ENCRYPTION_DATA_UNIT_SIZE ≤ A.length := by
      rw [← hmul]
      exact Nat.mul_le_mul_right _ hj'
    rw [dataUnit_append_left c A B j this]
  · apply List.map_congr_left
    intro i _
    simp only [Function.comp]
    rw [dataUnit_append_right c A B _ i hmul.symm, Nat.add_assoc]

theorem units_eq_unitsOf (c : Consts) (u : Nat) (plain ks ks2 : List Nat)
    (hu : u + plain.length / c.ENCRYPTION_DATA_UNIT_SIZE < two64) :
    Event.units c
        (Event.EncryptDataUnits u (plain.length / c.ENCRYPTION_DATA_UNIT_SIZE) plain ks ks2)
      = unitsOf c u plain := by
  simp only [Event.units, unitsOf]
  apply List.map_congr_left
  intro i hi
  have hi' : i < plain.length / c.ENCRYPTION_DATA_UNIT_SIZE := List.mem_range.mp hi
  rw [add64_of_lt (by omega)]

theorem EncryptDataUnits_eq_encryptUnits (c : Consts) (cipher : Cipher) (ci : CRYPTO_INFO)
    (plain : List Nat) (u n : Nat) (h : plain.length ≤ n * c.ENCRYPTION_DATA_UNIT_SIZE) :
    EncryptDataUnits c cipher ci plain u n
      = encryptUnits cipher ci.ks ci.ks2
          (Event.units c (Event.EncryptDataUnits u n plain ci.ks ci.ks2)) := by
  simp only [EncryptDataUnits, encryptUnits, Event.units, List.map_map]
  rw [List.drop_of_length_le h, List.append_nil]
  rfl

theorem encryptUnits_append (cipher : Cipher) (ks ks2 : List Nat)
    (a b : List (Nat × List Nat)) :
    encryptUnits cipher ks ks2 (a ++ b)
      = encryptUnits cipher ks ks2 a ++ encryptUnits cipher ks ks2 b := by
  simp [encryptUnits]

/-- Appending an event that hands nothing to the cipher and nothing to the device keeps the
invariant of the sector writer. -/
theorem writerInvariant_emit (c : Consts) (cipher : Cipher) (ci : CRYPTO_INFO)
    (ss start k : Nat) (P : List Nat) (F : Nat) (s : WriterState) (e : Event)
    (he : Event.silent c cipher e) (h : writerInvariant c cipher ci ss start k P F s) :
    writerInvariant c cipher ci ss start k P F { s with trace := s.trace ++ [e] } := by
  obtain ⟨h1, h2, h3, h4, h5, h6, h7, h8, h9⟩ := h
  obtain ⟨s1, _, s3⟩ := silent_trace c cipher [e] (by simpa using he)
  have hu : encryptedUnits c (s.trace ++ [e]) = encryptedUnits c s.trace := by
    rw [encryptedUnits_append, s1, List.append_nil]
  refine ⟨h1, h2, h3, h4, h5, h6, h7, ?_, ?_⟩
  · show encryptedUnits c (s.trace ++ [e]) = _
    rw [hu, h8]
  · show deviceBytes (s.trace ++ [e]) = encryptUnits cipher ci.ks ci.ks2
      (encryptedUnits c (s.trace ++ [e]))
    rw [hu, deviceBytes_append, s3, List.append_nil, h9]

/-- A flush in a run in which no write fails succeeds, empties the buffer and keeps the
invariant of the sector writer: all `k * ss` bytes are flushed. -/
theorem FlushFormatWriteBuffer_inv (c : Consts) (cipher : Cipher) (env : FillEnv)
    (ss start k : Nat) (P : List Nat) (F : Nat) (ci : CRYPTO_INFO) (s : WriterState)
    (hUss : c.ENCRYPTION_DATA_UNIT_SIZE ∣ ss)
    (hss : 0 < ss) (hrange : (start + k) * ss < 2 ^ 63) (hw : noWriteFails env)
    (hinv : writerInvariant c cipher ci ss start k P F s) :
    (FlushFormatWriteBuffer c cipher env ss ci s).1 = true
      ∧ writerInvariant c cipher ci ss start k P (k * ss)
          (FlushFormatWriteBuffer c cipher env ss ci s).2
      ∧ (FlushFormatWriteBuffer c cipher env ss ci s).2.write_buf_cnt = 0 := by
  obtain ⟨h1, h2, h3, h4, h5, h6, h7, h8, h9⟩ := hinv
  obtain ⟨w1, w2, w3, w4⟩ := hw
  by_cases h0 : s.write_buf_cnt = 0
  · have hF : F = k * ss := by omega
    simp only [FlushFormatWriteBuffer, if_pos h0]
    subst hF
    exact ⟨trivial, ⟨h1, h2, h3, h4, h5, h6, h7, h8, h9⟩, h0⟩
  · have hUc : c.ENCRYPTION_DATA_UNIT_SIZE ∣ s.write_buf_cnt := dvd_trans hUss h4
    have hUs : c.ENCRYPTION_DATA_UNIT_SIZE ∣ start * ss := Dvd.dvd.mul_left hUss start
    have hexp : (start + k) * ss = start * ss + k * ss := by ring
    have hu : flushUnitNo c ss s.nSecNo s.write_buf_cnt
        = start * ss / c.ENCRYPTION_DATA_UNIT_SIZE + F / c.ENCRYPTION_DATA_UNIT_SIZE := by
      rw [h1, flushUnitNo_eq c ss (start + k) s.write_buf_cnt hss hrange (by omega),
        ← Nat.add_div_of_dvd_right hUs]
      congr 1
      omega
    have hFle : F ≤ P.length := by omega
    have hplen : (P.drop F).length = s.write_buf_cnt := by
      rw [List.length_drop]; omega
    have htake : (P.take F).length = F := by
      rw [List.length_take]; omega
    have hbound : start * ss / c.ENCRYPTION_DATA_UNIT_SIZE + F / c.ENCRYPTION_DATA_UNIT_SIZE
        + (P.drop F).length / c.ENCRYPTION_DATA_UNIT_SIZE < two64 := by
      have a1 : start * ss / c.ENCRYPTION_DATA_UNIT_SIZE ≤ start * ss := Nat.div_le_self _ _
      have a2 : F / c.ENCRYPTION_DATA_UNIT_SIZE ≤ F := Nat.div_le_self _ _
      have a3 : (P.drop F).length / c.ENCRYPTION_DATA_UNIT_SIZE ≤ (P.drop F).length :=
        Nat.div_le_self _ _
      unfold two64
      omega
    -- the units of the event of this flush
    have hE : Event.units c (Event.EncryptDataUnits
        (start * ss / c.ENCRYPTION_DATA_UNIT_SIZE + F / c.ENCRYPTION_DATA_UNIT_SIZE)
        (s.write_buf_cnt / c.ENCRYPTION_DATA_UNIT_SIZE) (P.drop F) ci.ks ci.ks2)
        = unitsOf c (start * ss / c.ENCRYPTION_DATA_UNIT_SIZE + F / c.ENCRYPTION_DATA_UNIT_SIZE)
            (P.drop F) := by
      rw [← hplen]
      exact units_eq_unitsOf c _ (P.drop F) ci.ks ci.ks2 hbound
    have hunits : unitsOf c (start * ss / c.ENCRYPTION_DATA_UNIT_SIZE) (P.take F)
        ++ unitsOf c (start * ss / c.ENCRYPTION_DATA_UNIT_SIZE + F / c.ENCRYPTION_DATA_UNIT_SIZE)
            (P.drop F)
        = unitsOf c (start * ss / c.ENCRYPTION_DATA_UNIT_SIZE) (P.take (k * ss)) := by
      have := unitsOf_append c (start * ss / c.ENCRYPTION_DATA_UNIT_SIZE) (P.take F) (P.drop F)
        (by rw [htake]; exact h5)
      rw [htake, List.take_append_drop] at this
      rw [← this, List.take_of_length_le (by omega)]
    have henc := EncryptDataUnits_eq_encryptUnits c cipher ci (P.drop F)
      (start * ss / c.ENCRYPTION_DATA_UNIT_SIZE + F / c.ENCRYPTION_DATA_UNIT_SIZE)
      (s.write_buf_cnt / c.ENCRYPTION_DATA_UNIT_SIZE)
      (by rw [hplen, Nat.div_mul_cancel hUc])
    -- the observations after the two events of the flush
    have step : ∀ W : Event, Event.units c W = [] →
        Event.deviceData W = EncryptDataUnits c cipher ci (P.drop F)
          (start * ss / c.ENCRYPTION_DATA_UNIT_SIZE + F / c.ENCRYPTION_DATA_UNIT_SIZE)
          (s.write_buf_cnt / c.ENCRYPTION_DATA_UNIT_SIZE) →
        encryptedUnits c (s.trace ++ [Event.EncryptDataUnits
            (start * ss / c.ENCRYPTION_DATA_UNIT_SIZE + F / c.ENCRYPTION_DATA_UNIT_SIZE)
            (s.write_buf_cnt / c.ENCRYPTION_DATA_UNIT_SIZE) (P.drop F) ci.ks ci.ks2] ++ [W])
          = unitsOf c (start * ss / c.ENCRYPTION_DATA_UNIT_SIZE) (P.take (k * ss))
        ∧ deviceBytes (s.trace ++ [Event.EncryptDataUnits
            (start * ss / c.ENCRYPTION_DATA_UNIT_SIZE + F / c.ENCRYPTION_DATA_UNIT_SIZE)
            (s.write_buf_cnt / c.ENCRYPTION_DATA_UNIT_SIZE) (P.drop F) ci.ks ci.ks2] ++ [W])
          = encryptUnits cipher ci.ks ci.ks2 (encryptedUnits c (s.trace ++ [Event.EncryptDataUnits
            (start * ss / c.ENCRYPTION_DATA_UNIT_SIZE + F / c.ENCRYPTION_DATA_UNIT_SIZE)
            (s.write_buf_cnt / c.ENCRYPTION_DATA_UNIT_SIZE) (P.drop F) ci.ks ci.ks2] ++ [W])) := by
      intro W hW1 hW3
      have hWa : encryptedUnits c [W] = [] := by
        show Event.units c W ++ [] = []
        rw [hW1]; rfl
      have hWc : deviceBytes [W] = Event.deviceData W := by
        show Event.deviceData W ++ [] = _
        rw [List.append_nil]
      have hEa : encryptedUnits c [Event.EncryptDataUnits
          (start * ss / c.ENCRYPTION_DATA_UNIT_SIZE + F / c.ENCRYPTION_DATA_UNIT_SIZE)
          (s.write_buf_cnt / c.ENCRYPTION_DATA_UNIT_SIZE) (P.drop F) ci.ks ci.ks2]
          = Event.units c (Event.EncryptDataUnits
          (start * ss / c.ENCRYPTION_DATA_UNIT_SIZE + F / c.ENCRYPTION_DATA_UNIT_SIZE)
          (s.write_buf_cnt / c.ENCRYPTION_DATA_UNIT_SIZE) (P.drop F) ci.ks ci.ks2) := by
        show _ ++ [] = _
        rw [List.append_nil]
      have hEc : deviceBytes [Event.EncryptDataUnits
          (start * ss / c.ENCRYPTION_DATA_UNIT_SIZE + F / c.ENCRYPTION_DATA_UNIT_SIZE)
          (s.write_buf_cnt / c.ENCRYPTION_DATA_UNIT_SIZE) (P.drop F) ci.ks ci.ks2] = [] := rfl
      have hU : encryptedUnits c (s.trace ++ [Event.EncryptDataUnits
            (start * ss / c.ENCRYPTION_DATA_UNIT_SIZE + F / c.ENCRYPTION_DATA_UNIT_SIZE)
            (s.write_buf_cnt / c.ENCRYPTION_DATA_UNIT_SIZE) (P.drop F) ci.ks ci.ks2] ++ [W])
          = encryptedUnits c s.trace ++ Event.units c (Event.EncryptDataUnits
            (start * ss / c.ENCRYPTION_DATA_UNIT_SIZE + F / c.ENCRYPTION_DATA_UNIT_SIZE)
            (s.write_buf_cnt / c.ENCRYPTION_DATA_UNIT_SIZE) (P.drop F) ci.ks ci.ks2) := by
        rw [encryptedUnits_append, encryptedUnits_append, hEa, hWa, List.append_nil]
      refine ⟨?_, ?_⟩
      · rw [hU, h8, hE, hunits]
      · rw [hU, deviceBytes_append, deviceBytes_append, hEc, List.append_nil, hWc, hW3, henc,
          encryptUnits_append, h9]
    have hFk : F + s.write_buf_cnt = k * ss := h3
    simp only [FlushFormatWriteBuffer, if_neg h0, hu, h6, h7, w1, w2, w3, w4]
    cases hr : s.WriteThreadRunning
    · simp only [Bool.false_eq_true, if_false, Bool.not_true]
      obtain ⟨q1, q2⟩ := step (Event.WriteFile _ true) rfl rfl
      refine ⟨trivial, ⟨h1, h2, by simp, by simp, ?_, ?_, rfl, q1, q2⟩, trivial⟩
      · exact Dvd.dvd.mul_left hUss k
      · show List.take 0 _ = P.drop (k * ss)
        rw [List.drop_of_length_le (show P.length ≤ k * ss by omega)]; rfl
    · simp only [if_true, Bool.false_eq_true, if_false, Bool.not_true, ne_eq, not_true_eq_false]
      obtain ⟨q1, q2⟩ := step (Event.WorkerWrite _ 0) rfl rfl
      refine ⟨trivial, ⟨h1, h2, by simp, by simp, ?_, ?_, rfl, q1, q2⟩, trivial⟩
      · exact Dvd.dvd.mul_left hUss k
      · show List.take 0 _ = P.drop (k * ss)
        rw [List.drop_of_length_le (show P.length ≤ k * ss by omega)]; rfl

/-- One call of `WriteSector` in a run in which no write fails and the progress never
cancels succeeds and keeps the invariant of the sector writer, with the sector appended to
the plaintext. -/
theorem WriteSector_inv (c : Consts) (cipher : Cipher) (env : FillEnv)
    (ss start k : Nat) (P : List Nat) (F : Nat) (ci : CRYPTO_INFO) (sector : List Nat)
    (s : WriterState)
    (hUss : c.ENCRYPTION_DATA_UNIT_SIZE ∣ ss)
    (hB : ss ∣ env.FormatWriteBufferSize) (hB0 : 0 < env.FormatWriteBufferSize)
    (hsec : sector.length = ss)
    (hrange : (start + (k + 1)) * ss < 2 ^ 63) (hw : noWriteFails env)
    (hp : neverCancels env) (hcnt : s.write_buf_cnt < env.FormatWriteBufferSize)
    (hinv : writerInvariant c cipher ci ss start k P F s) :
    (WriteSector c cipher env ss ci sector s).1 = true
      ∧ ∃ F', writerInvariant c cipher ci ss start (k + 1) (P ++ sector) F'
            (WriteSector c cipher env ss ci sector s).2
          ∧ (WriteSector c cipher env ss ci sector s).2.write_buf_cnt
              < env.FormatWriteBufferSize := by
  have hss : 0 < ss := by
    rcases Nat.eq_zero_or_pos ss with h | h
    · subst h
      have := Nat.eq_zero_of_zero_dvd hB
      omega
    · exact h
  obtain ⟨h1, h2, h3, h4, h5, h6, h7, h8, h9⟩ := hinv
  have hlt : start + (k + 1) < two64 := by
    have : start + (k + 1) ≤ (start + (k + 1)) * ss := Nat.le_mul_of_pos_right _ hss
    unfold two64
    omega
  have hFle : F ≤ P.length := by omega
  have hs1 : writerInvariant c cipher ci ss start (k + 1) (P ++ sector) F
      { s with nSecNo := add64 s.nSecNo 1,
               write_buf := s.write_buf.take s.write_buf_cnt ++ sector.take ss,
               write_buf_cnt := s.write_buf_cnt + ss,
               nCalls := s.nCalls + 1 } := by
    refine ⟨?_, ?_, ?_, ?_, h5, ?_, h7, ?_, h9⟩
    · show add64 s.nSecNo 1 = start + (k + 1)
      rw [h1, add64_of_lt (by omega)]
      omega
    · rw [List.length_append, h2, hsec]; ring
    · show F + (s.write_buf_cnt + ss) = (k + 1) * ss
      have : (k + 1) * ss = k * ss + ss := by ring
      omega
    · exact Dvd.dvd.add h4 (dvd_refl ss)
    · show (s.write_buf.take s.write_buf_cnt ++ sector.take ss).take (s.write_buf_cnt + ss)
        = (P ++ sector).drop F
      rw [h6, List.take_of_length_le (show sector.length ≤ ss by omega),
        List.drop_append_of_le_length hFle]
      apply List.take_of_length_le
      rw [List.length_append, List.length_drop, hsec]
      omega
    · show encryptedUnits c s.trace = _
      rw [h8, List.take_append_of_le_length hFle]
  have hstep : ∀ r : Bool × WriterState,
      r = (if s.write_buf_cnt + ss = env.FormatWriteBufferSize then
            FlushFormatWriteBuffer c cipher env ss ci
              { s with nSecNo := add64 s.nSecNo 1,
                       write_buf := s.write_buf.take s.write_buf_cnt ++ sector.take ss,
                       write_buf_cnt := s.write_buf_cnt + ss,
                       nCalls := s.nCalls + 1 }
          else (true,
              { s with nSecNo := add64 s.nSecNo 1,
                       write_buf := s.write_buf.take s.write_buf_cnt ++ sector.take ss,
                       write_buf_cnt := s.write_buf_cnt + ss,
                       nCalls := s.nCalls + 1 })) →
      r.1 = true ∧ ∃ F', writerInvariant c cipher ci ss start (k + 1) (P ++ sector) F' r.2
        ∧ r.2.write_buf_cnt < env.FormatWriteBufferSize := by
    intro r hr
    by_cases hfull : s.write_buf_cnt + ss = env.FormatWriteBufferSize
    · rw [if_pos hfull] at hr
      obtain ⟨f1, f2, f3⟩ := FlushFormatWriteBuffer_inv c cipher env ss start (k + 1)
        (P ++ sector) F ci _ hUss hss hrange hw hs1
      rw [hr]
      exact ⟨f1, _, f2, by rw [f3]; exact hB0⟩
    · rw [if_neg hfull] at hr
      rw [hr]
      refine ⟨rfl, F, hs1, ?_⟩
      show s.write_buf_cnt + ss < env.FormatWriteBufferSize
      obtain ⟨a, ha⟩ := h4
      obtain ⟨b, hb⟩ := hB
      rw [ha, hb] at hcnt
      have hab : a < b := lt_of_mul_lt_mul_left hcnt (Nat.zero_le _)
      have : ss * a + ss ≤ ss * b := by
        have : ss * (a + 1) ≤ ss * b := Nat.mul_le_mul_left _ hab
        rw [Nat.mul_add, Nat.mul_one] at this
        exact this
      rw [ha, hb] at hfull ⊢
      omega
  have key : ∀ r : Bool × WriterState,
      (r.1 = true ∧ ∃ F', writerInvariant c cipher ci ss start (k + 1) (P ++ sector) F' r.2
        ∧ r.2.write_buf_cnt < env.FormatWriteBufferSize) →
      (if !r.1 then (false, r.2)
        else if env.timerElapsed s.nCalls then
          (!env.UpdateProgressBar s.nCalls (progressBytes ss r.2.nSecNo),
            { r.2 with trace := r.2.trace ++ [Event.UpdateProgressBar
                (progressBytes ss r.2.nSecNo)
                (env.UpdateProgressBar s.nCalls (progressBytes ss r.2.nSecNo))] })
        else (true, r.2)).1 = true
      ∧ ∃ F', writerInvariant c cipher ci ss start (k + 1) (P ++ sector) F'
          (if !r.1 then (false, r.2)
            else if env.timerElapsed s.nCalls then
              (!env.UpdateProgressBar s.nCalls (progressBytes ss r.2.nSecNo),
                { r.2 with trace := r.2.trace ++ [Event.UpdateProgressBar
                    (progressBytes ss r.2.nSecNo)
                    (env.UpdateProgressBar s.nCalls (progressBytes ss r.2.nSecNo))] })
            else (true, r.2)).2
        ∧ (if !r.1 then (false, r.2)
            else if env.timerElapsed s.nCalls then
              (!env.UpdateProgressBar s.nCalls (progressBytes ss r.2.nSecNo),
                { r.2 with trace := r.2.trace ++ [Event.UpdateProgressBar
                    (progressBytes ss r.2.nSecNo)
                    (env.UpdateProgressBar s.nCalls (progressBytes ss r.2.nSecNo))] })
            else (true, r.2)).2.write_buf_cnt < env.FormatWriteBufferSize := by
    rintro r ⟨r1, F', r2, r3⟩
    rw [r1]
    simp only [Bool.not_true, Bool.false_eq_true, if_false]
    by_cases ht : env.timerElapsed s.nCalls = true
    · rw [if_pos ht, hp]
      exact ⟨rfl, F', writerInvariant_emit c cipher ci ss start (k + 1) (P ++ sector) F' r.2 _
        ⟨rfl, rfl, rfl⟩ r2, r3⟩
    · rw [if_neg ht]
      exact ⟨rfl, F', r2, r3⟩
  exact key _ (hstep _ rfl)

/-- The sectors of a list written through `WriteSector`, in a run in which no write fails and
the progress never cancels: every call succeeds and the invariant holds for the whole
plaintext. -/
theorem writeSectors_inv (c : Consts) (cipher : Cipher) (env : FillEnv) (ss start : Nat)
    (ci : CRYPTO_INFO)
    (hUss : c.ENCRYPTION_DATA_UNIT_SIZE ∣ ss)
    (hB : ss ∣ env.FormatWriteBufferSize) (hB0 : 0 < env.FormatWriteBufferSize)
    (hw : noWriteFails env) (hp : neverCancels env) :
    ∀ (sectors : List (List Nat)) (k : Nat) (P : List Nat) (F : Nat) (s : WriterState),
      (∀ sec ∈ sectors, sec.length = ss) → (start + (k + sectors.length)) * ss < 2 ^ 63 →
      s.write_buf_cnt < env.FormatWriteBufferSize →
      writerInvariant c cipher ci ss start k P F s →
      (writeSectors c cipher env ss ci sectors s).1 = true
        ∧ ∃ F', writerInvariant c cipher ci ss start (k + sectors.length)
            (P ++ sectors.flatten) F' (writeSectors c cipher env ss ci sectors s).2 := by
  intro sectors
  induction sectors with
  | nil =>
    intro k P F s _ _ _ hinv
    exact ⟨rfl, F, by simpa using hinv⟩
  | cons sec rest ih =>
    intro k P F s hlen hrange hcnt hinv
    have hl : (sec :: rest).length = rest.length + 1 := rfl
    rw [hl] at hrange
    have hr1 : (start + (k + 1)) * ss < 2 ^ 63 := by
      have : (start + (k + 1)) * ss ≤ (start + (k + (rest.length + 1))) * ss :=
        Nat.mul_le_mul_right _ (by omega)
      omega
    obtain ⟨a1, F1, a2, a3⟩ := WriteSector_inv c cipher env ss start k P F ci sec s hUss hB hB0
      (hlen sec (List.mem_cons_self _ _)) hr1 hw hp hcnt hinv
    have hr2 : (start + (k + 1 + rest.length)) * ss < 2 ^ 63 := by
      have : k + 1 + rest.length = k + (rest.length + 1) := by omega
      rw [this]
      exact hrange
    obtain ⟨b1, F2, b2⟩ := ih (k + 1) (P ++ sec) F1 _
      (fun x hx => hlen x (List.mem_cons_of_mem _ hx)) hr2 a3 a2
    have hk : k + (rest.length + 1) = k + 1 + rest.length := by omega
    have hP : P ++ (sec :: rest).flatten = P ++ sec ++ rest.flatten := by
      simp
    rw [writeSectors, hl, hk, hP]
    simp only [a1, Bool.not_true, Bool.false_eq_true, if_false]
    exact ⟨b1, F2, b2⟩

/-- The sector writer run over a list of sectors, followed by the last flush: every data
unit of the plaintext is handed to the cipher once, in order, under its absolute unit
number, and the device receives the ciphertext of these units; the size of the buffer does
not appear in the result. -/
theorem writeSectorsAndFlush_spec (c : Consts) (cipher : Cipher) (env : FillEnv)
    (ss start : Nat) (running : Bool) (ci : CRYPTO_INFO) (sectors : List (List Nat))
    (hUss : c.ENCRYPTION_DATA_UNIT_SIZE ∣ ss)
    (hB : ss ∣ env.FormatWriteBufferSize) (hB0 : 0 < env.FormatWriteBufferSize)
    (hlen : ∀ sec ∈ sectors, sec.length = ss)
    (hrange : (start + sectors.length) * ss < 2 ^ 63)
    (hw : noWriteFails env) (hp : neverCancels env) :
    (writeSectorsAndFlush c cipher env ss ci sectors (writerStart start running)).1 = true
    ∧ encryptedUnits c
        (writeSectorsAndFlush c cipher env ss ci sectors (writerStart start running)).2.trace
      = unitsOf c (start * ss / c.ENCRYPTION_DATA_UNIT_SIZE) sectors.flatten
    ∧ deviceBytes
        (writeSectorsAndFlush c cipher env ss ci sectors (writerStart start running)).2.trace
      = encryptUnits cipher ci.ks ci.ks2
          (unitsOf c (start * ss / c.ENCRYPTION_DATA_UNIT_SIZE) sectors.flatten) := by
  have hss : 0 < ss := by
    rcases Nat.eq_zero_or_pos ss with h | h
    · subst h
      have := Nat.eq_zero_of_zero_dvd hB
      omega
    · exact h
  have hinv0 : writerInvariant c cipher ci ss start 0 [] 0 (writerStart start running) := by
    refine ⟨rfl, by simp, by simp [writerStart], by simp [writerStart], dvd_zero _, rfl, rfl,
      ?_, rfl⟩
    simp [writerStart, encryptedUnits, unitsOf]
  have hrange0 : (start + (0 + sectors.length)) * ss < 2 ^ 63 := by
    rw [Nat.zero_add]; exact hrange
  obtain ⟨l1, F, l2⟩ := writeSectors_inv c cipher env ss start ci hUss hB hB0 hw hp sectors 0 []
    0 (writerStart start running) hlen hrange0 hB0 hinv0
  obtain ⟨f1, f2, _⟩ := FlushFormatWriteBuffer_inv c cipher env ss start (0 + sectors.length)
    ([] ++ sectors.flatten) F ci _ hUss hss hrange0 hw l2
  obtain ⟨_, g2, _, _, _, _, _, g8, g9⟩ := f2
  have hfull : ([] ++ sectors.flatten).take ((0 + sectors.length) * ss) = sectors.flatten := by
    rw [List.nil_append] at g2 ⊢
    exact List.take_of_length_le (by omega)
  rw [hfull] at g8
  simp only [writeSectorsAndFlush, l1, Bool.not_true, Bool.false_eq_true, if_false]
  exact ⟨f1, g8, by rw [g9, g8]⟩

/-- Counterexample to C12: two sectors of 512 bytes written from the start sector
`2 ^ 54 - 1`, once with a buffer of 512 bytes and once with a buffer of 1024 bytes.  The
byte offset of the second sector is `2 ^ 63`, beyond the range of the `__int64` in which
line 1418 computes, and the product there is reduced modulo `2 ^ 64`.  With the buffer of 512
bytes the second flush starts at the unit number `2 ^ 64 - 2 ^ 54`; with the buffer of 1024
bytes the single flush starts at `2 ^ 54 - 1` and the second unit has the number `2 ^ 54`. -/
theorem flush_boundary_changes_unit_numbers :
    (encryptedUnits veraCryptConsts
        (writeSectorsAndFlush veraCryptConsts testCipher (bufferEnv 512) 512 testCryptoInfo
          [zeros 512, zeros 512] (writerStart (2 ^ 54 - 1) false)).2.trace).map Prod.fst
      = [2 ^ 54 - 1, 2 ^ 64 - 2 ^ 54]
    ∧ (encryptedUnits veraCryptConsts
        (writeSectorsAndFlush veraCryptConsts testCipher (bufferEnv 1024) 512 testCryptoInfo
          [zeros 512, zeros 512] (writerStart (2 ^ 54 - 1) false)).2.trace).map Prod.fst
      = [2 ^ 54 - 1, 2 ^ 54] := by
  decide

/-- C12 (amended): for a sector size that is a multiple of the data unit, every sequence of
plaintext sectors of that size, every start sector with
`(start_sector + n) * sector_size < 2 ^ 63` for the `n` sectors of the sequence, and every two
positive buffer sizes that are multiples of the sector size, in runs in which no write fails
and the progress never cancels, `WriteSector` over the sequence followed by the last
`FlushFormatWriteBuffer` succeeds with either buffer size, hands the same sequence of
(unit number, data unit) pairs to the cipher, namely the data units of the plaintext numbered
from `start_sector * sector_size / unit`, and hands the same bytes to the device, the
ciphertext of these units. -/
theorem flush_boundaries_do_not_matter (c : Consts) (cipher : Cipher) (env1 env2 : FillEnv)
    (FormatSectorSize startSector : Nat) (running1 running2 : Bool) (ci : CRYPTO_INFO)
    (sectors : List (List Nat))
    (hUss : c.ENCRYPTION_DATA_UNIT_SIZE ∣ FormatSectorSize)
    (hB1 : FormatSectorSize ∣ env1.FormatWriteBufferSize) (h1 : 0 < env1.FormatWriteBufferSize)
    (hB2 : FormatSectorSize ∣ env2.FormatWriteBufferSize) (h2 : 0 < env2.FormatWriteBufferSize)
    (hlen : ∀ sec ∈ sectors, sec.length = FormatSectorSize)
    (hrange : (startSector + sectors.length) * FormatSectorSize < 2 ^ 63)
    (hw1 : noWriteFails env1) (hp1 : neverCancels env1)
    (hw2 : noWriteFails env2) (hp2 : neverCancels env2) :
    (writeSectorsAndFlush c cipher env1 FormatSectorSize ci sectors
        (writerStart startSector running1)).1 = true
    ∧ (writeSectorsAndFlush c cipher env2 FormatSectorSize ci sectors
        (writerStart startSector running2)).1 = true
    ∧ encryptedUnits c (writeSectorsAndFlush c cipher env1 FormatSectorSize ci sectors
          (writerStart startSector running1)).2.trace
      = encryptedUnits c (writeSectorsAndFlush c cipher env2 FormatSectorSize ci sectors
          (writerStart startSector running2)).2.trace
    ∧ encryptedUnits c (writeSectorsAndFlush c cipher env1 FormatSectorSize ci sectors
          (writerStart startSector running1)).2.trace
      = unitsOf c (startSector * FormatSectorSize / c.ENCRYPTION_DATA_UNIT_SIZE) sectors.flatten
    ∧ deviceBytes (writeSectorsAndFlush c cipher env1 FormatSectorSize ci sectors
          (writerStart startSector running1)).2.trace
      = deviceBytes (writeSectorsAndFlush c cipher env2 FormatSectorSize ci sectors
          (writerStart startSector running2)).2.trace
    ∧ deviceBytes (writeSectorsAndFlush c cipher env1 FormatSectorSize ci sectors
          (writerStart startSector running1)).2.trace
      = encryptUnits cipher ci.ks ci.ks2
          (unitsOf c (startSector * FormatSectorSize / c.ENCRYPTION_DATA_UNIT_SIZE)
            sectors.flatten) := by
  obtain ⟨a1, a2, a3⟩ := writeSectorsAndFlush_spec c cipher env1 FormatSectorSize startSector
    running1 ci sectors hUss hB1 h1 hlen hrange hw1 hp1
  obtain ⟨b1, b2, b3⟩ := writeSectorsAndFlush_spec c cipher env2 FormatSectorSize startSector
    running2 ci sectors hUss hB2 h2 hlen hrange hw2 hp2
  exact ⟨a1, b1, by rw [a2, b2], a2, by rw [a3, b3], a3⟩

/-- Witness of C12: three sectors of 512 bytes from sector 256, with buffers of 512 and of
1024 bytes. -/
theorem flush_boundaries_do_not_matter_witness :
    deviceBytes (writeSectorsAndFlush veraCryptConsts testCipher (bufferEnv 512) 512
        testCryptoInfo [zeros 512, List.replicate 512 1, List.replicate 512 2]
        (writerStart 256 false)).2.trace
      = deviceBytes (writeSectorsAndFlush veraCryptConsts testCipher (bufferEnv 1024) 512
        testCryptoInfo [zeros 512, List.replicate 512 1, List.replicate 512 2]
        (writerStart 256 true)).2.trace :=
  (flush_boundaries_do_not_matter veraCryptConsts testCipher (bufferEnv 512) (bufferEnv 1024)
    512 256 false true testCryptoInfo [zeros 512, List.replicate 512 1, List.replicate 512 2]
    (by decide) (by decide) (by decide) (by decide) (by decide)
    (by
      intro sec h
      simp only [List.mem_cons, List.mem_singleton, List.not_mem_nil, or_false] at h
      rcases h with h | h | h <;> subst h <;> simp only [zeros, List.length_replicate])
    (by decide)
    ⟨fun _ => rfl, fun _ => rfl, fun _ => rfl, fun _ => rfl⟩ (fun _ _ => rfl)
    ⟨fun _ => rfl, fun _ => rfl, fun _ => rfl, fun _ => rfl⟩ (fun _ _ => rfl)).2.2.2.2.1

/-! ## The two passes of a run -/

theorem cleanup_tail (env : Env) (p : FORMAT_VOL_PARAMETERS) (pp : PassParams) :
    Frame (tailEvent p) (cleanup env p pp) := by
  intro st
  simp only [cleanup, FormatState.emit]
  split_ifs <;> refine ⟨fun h => by simpa using h, ?_⟩ <;>
  first
    | exact ⟨[], (List.append_nil _).symm, by simp⟩
    | (try simp only [List.append_assoc]
       exact ⟨_, rfl, by simp_all [tailEvent]⟩)

theorem fvEnd_tail (p : FORMAT_VOL_PARAMETERS) : Frame (tailEvent p) fvEnd := by
  intro st
  simp only [fvEnd, FormatState.emit]
  refine ⟨fun h => h, _, rfl, ?_⟩
  split_ifs <;> simp [tailEvent]

theorem externalFormatEvents_tail (env : Env) (p : FORMAT_VOL_PARAMETERS) (pp : PassParams) :
    ∀ e ∈ externalFormatEvents env pp, tailEvent p e := by
  simp only [externalFormatEvents, externalFormatCall, unmountEvents]
  split_ifs <;> simp [tailEvent]

/-- What the external format adds to the trace: events of the end of the function, followed
by the confirmation of the retry exactly when control jumps back to begin_format. -/
theorem externalFormat_tail (c : Consts) (env : Env) (p : FORMAT_VOL_PARAMETERS)
    (pp : PassParams) (st : FormatState) (q : FORMAT_VOL_PARAMETERS) :
    ((externalFormat c env p pp st).2 = PassOutcome.fv_end →
      ((st.quickFormat = true → (externalFormat c env p pp st).1.quickFormat = true) ∧
        ∃ evs, (externalFormat c env p pp st).1.trace = st.trace ++ evs ∧
          ∀ e ∈ evs, tailEvent q e)) ∧
    ((externalFormat c env p pp st).2 = PassOutcome.begin_format →
      ∃ evs, (externalFormat c env p pp st).1
          = { st with quickFormat := true, trace := st.trace ++ evs ++ [retryConfirmed] } ∧
        ∀ e ∈ evs, tailEvent q e) := by
  have hev := externalFormatEvents_tail env q pp
  have hev2 : ∀ x, tailEvent q x → ∀ e ∈ externalFormatEvents env pp ++ [x], tailEvent q e := by
    intro x hx e he
    rcases List.mem_append.1 he with he | he
    · exact hev e he
    · rw [List.mem_singleton.1 he]; exact hx
  unfold externalFormat
  by_cases h1 : pp.fileSystem.external = true
  · rw [if_pos h1]
    by_cases h2 : (env.GetLastAvailableDrive pp.pass == -1) = true
    · rw [if_pos h2]
      refine ⟨fun _ => ⟨fun h => h, _, rfl, ?_⟩, fun h => by simp at h⟩
      split_ifs <;> simp [tailEvent]
    · rw [if_neg h2]
      by_cases h3 : (!env.MountVolume pp.pass) = true
      · rw [if_pos h3]
        refine ⟨fun _ => ⟨fun h => h, _, rfl, ?_⟩, fun h => by simp at h⟩
        split_ifs <;> simp [tailEvent]
      · rw [if_neg h3]
        by_cases h4 : (externalFormatCall env pp).1 = true
        · rw [if_pos h4]
          exact ⟨fun _ => ⟨fun h => h, _, rfl, hev⟩, fun h => by simp at h⟩
        · rw [if_neg h4]
          unfold externalFormatFailed
          by_cases h5 : dataAreaSize c p ≤ mul64 c.TC_MAX_FAT_SECTOR_COUNT p.sectorSize
          · rw [if_pos h5]
            by_cases h6 : env.AskErrYesNo pp.pass = true
            · rw [if_pos h6]
              refine ⟨fun h => by simp at h, fun _ => ⟨externalFormatEvents env pp, ?_, hev⟩⟩
              simp [FormatState.emit, retryConfirmed]
            · rw [if_neg h6]
              refine ⟨fun _ => ⟨fun h => h,
                externalFormatEvents env pp ++ [Event.AskErrYesNo Msg.FORMAT_NTFS_FAILED_ASK_FAT false],
                by simp [FormatState.emit], hev2 _ (by simp [tailEvent])⟩, fun h => by simp at h⟩
          · rw [if_neg h5]
            refine ⟨fun _ => ⟨fun h => h,
                externalFormatEvents env pp ++ [Event.Error Msg.FORMAT_NTFS_FAILED],
                by simp [FormatState.emit], hev2 _ (by simp [tailEvent])⟩, fun h => by simp at h⟩
  · rw [if_neg h1]
    exact ⟨fun _ => ⟨fun h => h, [], (List.append_nil _).symm, by simp⟩, fun h => by simp at h⟩

/-- The pass after the jump back to begin_format is the last one. -/
theorem formatLoop_retry_eq (c : Consts) (cipher : Cipher) (env : Env)
    (p : FORMAT_VOL_PARAMETERS) (fuel : Nat) (pp : PassParams) (st : FormatState) :
    formatLoop c cipher env p (fuel + 1) (retryParams pp) st
      = some (lastPass c cipher env p (retryParams pp) st) := by
  rw [formatLoop]
  simp only [externalFormat_retryParams, lastPass]
  split_ifs <;> rfl

/-- The three ways through the loop over the passes: the first pass fails; the first pass
succeeds and the function ends at `fv_end`; the first pass succeeds, the external format fails
and a second, last pass runs with the parameters of the retry. -/
theorem formatLoop_passes (c : Consts) (cipher : Cipher) (env : Env)
    (p : FORMAT_VOL_PARAMETERS) (fuel : Nat) (pp : PassParams) (st : FormatState)
    (Q : FormatState → Prop)
    (hA : ((passBody c cipher env p pp st).2 ≠ Flow.next
        ∨ (passBody c cipher env p pp st).1.nStatus.failed = true) →
      Q (lastPass c cipher env p pp st))
    (hB : (passBody c cipher env p pp st).2 = Flow.next →
      (passBody c cipher env p pp st).1.nStatus.failed = false →
      (externalFormat c env p pp (cleanup env p pp (passBody c cipher env p pp st).1)).2
        = PassOutcome.fv_end →
      Q (fvEnd (externalFormat c env p pp
        (cleanup env p pp (passBody c cipher env p pp st).1)).1))
    (hC : (passBody c cipher env p pp st).2 = Flow.next →
      (passBody c cipher env p pp st).1.nStatus.failed = false →
      (externalFormat c env p pp (cleanup env p pp (passBody c cipher env p pp st).1)).2
        = PassOutcome.begin_format →
      Q (lastPass c cipher env p (retryParams pp) (externalFormat c env p pp
        (cleanup env p pp (passBody c cipher env p pp st).1)).1)) :
    ∃ r, formatLoop c cipher env p (fuel + 2) pp st = some r ∧ Q r := by
  rw [formatLoop]
  simp only []
  by_cases h1 : (passBody c cipher env p pp st).2 = Flow.ret
  · rw [if_pos h1]
    refine ⟨_, rfl, ?_⟩
    have := hA (Or.inl (by rw [h1]; decide))
    rwa [lastPass, if_pos h1] at this
  · rw [if_neg h1]
    by_cases h2 : (cleanup env p pp (passBody c cipher env p pp st).1).nStatus.failed = true
    · rw [if_pos h2]
      refine ⟨_, rfl, ?_⟩
      have := hA (Or.inr (by rwa [cleanup_nStatus] at h2))
      rwa [lastPass, if_neg h1] at this
    · rw [if_neg h2]
      have hnext : (passBody c cipher env p pp st).2 = Flow.next := by
        by_contra hne
        have := passBody_exitFails c cipher env p pp st hne
        rw [cleanup_nStatus] at h2
        exact h2 this
      have hok : (passBody c cipher env p pp st).1.nStatus.failed = false := by
        rw [cleanup_nStatus] at h2
        simpa using h2
      cases hb : (externalFormat c env p pp
          (cleanup env p pp (passBody c cipher env p pp st).1)).2 with
      | fv_end => exact ⟨_, rfl, hB hnext hok hb⟩
      | begin_format =>
        simp only []
        rw [formatLoop_retry_eq]
        exact ⟨_, rfl, hC hnext hok hb⟩

/-- A property of the result of `TCFormatVolume` follows from the property at the returns of
the prologue and on the three ways through the loop over the passes. -/
theorem TCFormatVolume_passes (c : Consts) (cipher : Cipher) (env : Env) (fuel : Nat)
    (p : FORMAT_VOL_PARAMETERS) (Q : FormatResult → Prop)
    (h1 : Q (FormatResult.mk Status.ERR_DONT_REPORT [Event.Error Msg.SECTOR_SIZE_UNSUPPORTED]))
    (h2 : Q (FormatResult.mk Status.ERR_VOL_SIZE_WRONG []))
    (h3 : ∀ s, s.failed = true → Q (FormatResult.mk s
      (buildPrimaryEvents env ++ [Event.burn Buf.header, Event.VirtualUnlock Buf.header])))
    (h4 : ∀ cryptoInfo st, sectorSizeUnsupported c p.sectorSize = false →
      (p.hiddenVol = false → c.TC_TOTAL_VOLUME_HEADERS_SIZE < p.size) →
      st = stateAtBeginFormat env p cryptoInfo →
      (((passBody c cipher env p (firstPass p) st).2 ≠ Flow.next
          ∨ (passBody c cipher env p (firstPass p) st).1.nStatus.failed = true) →
        Q (lastPass c cipher env p (firstPass p) st).result)
      ∧ ((passBody c cipher env p (firstPass p) st).2 = Flow.next →
        (passBody c cipher env p (firstPass p) st).1.nStatus.failed = false →
        (externalFormat c env p (firstPass p)
          (cleanup env p (firstPass p) (passBody c cipher env p (firstPass p) st).1)).2
          = PassOutcome.fv_end →
        Q (fvEnd (externalFormat c env p (firstPass p)
          (cleanup env p (firstPass p) (passBody c cipher env p (firstPass p) st).1)).1).result)
      ∧ ((passBody c cipher env p (firstPass p) st).2 = Flow.next →
        (passBody c cipher env p (firstPass p) st).1.nStatus.failed = false →
        (externalFormat c env p (firstPass p)
          (cleanup env p (firstPass p) (passBody c cipher env p (firstPass p) st).1)).2
          = PassOutcome.begin_format →
        Q (lastPass c cipher env p (retryParams (firstPass p)) (externalFormat c env p (firstPass p)
          (cleanup env p (firstPass p)
            (passBody c cipher env p (firstPass p) st).1)).1).result)) :
    ∃ r, TCFormatVolume c cipher env (fuel + 2) p = some r ∧ Q r := by
  unfold TCFormatVolume
  by_cases ha : sectorSizeUnsupported c p.sectorSize = true
  · rw [if_pos ha]; exact ⟨_, rfl, h1⟩
  rw [if_neg ha]
  by_cases hb : (!p.hiddenVol && decide (p.size ≤ c.TC_TOTAL_VOLUME_HEADERS_SIZE)) = true
  · rw [if_pos hb]; exact ⟨_, rfl, h2⟩
  rw [if_neg hb]
  cases hc : env.createPrimaryHeader.2 with
  | none =>
    refine ⟨_, rfl, h3 _ ?_⟩
    split_ifs with hd
    · exact hd
    · rfl
  | some cryptoInfo =>
    simp only []
    by_cases hd : env.createPrimaryHeader.1.failed = true
    · rw [if_pos hd]; exact ⟨_, rfl, h3 _ hd⟩
    · rw [if_neg hd]
      obtain ⟨hA, hB, hC⟩ := h4 cryptoInfo _ (by simpa using ha) (by
        intro hh
        simp only [hh, Bool.not_false, Bool.true_and, decide_eq_true_eq, not_le] at hb
        exact hb) rfl
      obtain ⟨r, hr, hq⟩ := formatLoop_passes c cipher env p fuel (firstPass p)
        (stateAtBeginFormat env p cryptoInfo) (fun s => Q s.result) hA hB hC
      exact ⟨r.result, by rw [hr]; rfl, hq⟩

/-- A pass that does not complete, or completes with a failure status, returns a failure
status. -/
theorem lastPass_failed (c : Consts) (cipher : Cipher) (env : Env)
    (p : FORMAT_VOL_PARAMETERS) (pp : PassParams) (st : FormatState)
    (h : (passBody c cipher env p pp st).2 ≠ Flow.next
      ∨ (passBody c cipher env p pp st).1.nStatus.failed = true) :
    (lastPass c cipher env p pp st).nStatus.failed = true := by
  have hb : (passBody c cipher env p pp st).1.nStatus.failed = true := by
    rcases h with h | h
    · exact passBody_exitFails c cipher env p pp st h
    · exact h
  unfold lastPass
  split_ifs
  · exact hb
  · simp only [fvEnd, FormatState.emit]
    rw [cleanup_nStatus]
    exact hb

/-- The trace of a last pass is the trace at its start followed by events of the pass and
events of the end of the function. -/
theorem lastPass_trace (c : Consts) (cipher : Cipher) (env : Env)
    (p : FORMAT_VOL_PARAMETERS) (pp : PassParams) (st : FormatState) :
    ∃ evs tl, (passBody c cipher env p pp st).1.trace = st.trace ++ evs
      ∧ (lastPass c cipher env p pp st).trace = st.trace ++ evs ++ tl
      ∧ (∀ e ∈ evs, passEvent c p pp e) ∧ ∀ e ∈ tl, tailEvent p e := by
  obtain ⟨_, evs, h1, h2⟩ := passBody_frame c cipher env p pp st
  simp only [] at h1
  unfold lastPass
  split_ifs
  · exact ⟨evs, [], h1, by simpa using h1, h2, by simp⟩
  · obtain ⟨_, tl, h3, h4⟩ := Frame.comp (cleanup_tail env p pp) (fvEnd_tail p)
      (passBody c cipher env p pp st).1
    simp only [] at h3
    exact ⟨evs, tl, h1, by rw [h3, h1], h2, h4⟩

theorem Frame.hoare_filter {P : Event → Prop} {f : FormatState → FormatState × Flow}
    (hf : Frame P (fun st => (f st).1)) (sel : Event → Bool) (hP : ∀ e, P e → sel e = false)
    (F : List Event) :
    Hoare (fun st => st.trace.filter sel = F) f (fun _ => True)
      (fun st => st.trace.filter sel = F) := by
  refine Frame.hoare hf ?_
  intro st st' evs hpre ht hev _
  refine ⟨trivial, ?_⟩
  rw [ht, List.filter_append, hpre]
  have : evs.filter sel = [] := by
    rw [List.filter_eq_nil_iff]
    intro e he
    rw [hP e (hev e he)]
    simp
  rw [this, List.append_nil]

theorem tailEvent_plain (p : FORMAT_VOL_PARAMETERS) (e : Event) (h : tailEvent p e) :
    e.isDecoy = false ∧ e.isBackupWrite = false ∧ e.isPrimaryWrite = false
      ∧ e ≠ retryConfirmed := by
  cases e <;> simp_all [tailEvent, Event.isDecoy, Event.isBackupWrite, Event.isPrimaryWrite,
    retryConfirmed]

theorem passEvent_not_retryConfirmed (c : Consts) (p : FORMAT_VOL_PARAMETERS) (pp : PassParams)
    (e : Event) (h : passEvent c p pp e) : e ≠ retryConfirmed := by
  intro he
  subst he
  simp [passEvent, retryConfirmed, acquireEvent, headerSeekEvent, primaryEvent, dataAreaEvent,
    fillEvent, backupEvent, decoyEvent] at h

theorem passEvent_retry_not_primary (c : Consts) (p : FORMAT_VOL_PARAMETERS) (pp : PassParams)
    (hr : pp.bInstantRetryOtherFilesys = true) (e : Event) (h : passEvent c p pp e) :
    e.isPrimaryWrite = false := by
  cases e <;> try rfl
  rename_i site off ok
  cases site <;> try rfl
  simp [passEvent, acquireEvent, headerSeekEvent, primaryEvent, dataAreaEvent,
    fillEvent, backupEvent, decoyEvent, hr] at h

/-- A pass that reaches the label `error:` by falling through has written the backup header
once. -/
theorem passBody_backupWrites (c : Consts) (cipher : Cipher) (env : Env)
    (p : FORMAT_VOL_PARAMETERS) (pp : PassParams) (F : List Event) :
    Hoare (fun st => st.trace.filter Event.isBackupWrite = F) (passBody c cipher env p pp)
      (fun _ => True) (fun st => st.trace.filter Event.isBackupWrite = F ++ [backupWritten c p]) := by
  unfold passBody
  refine Hoare.seq ((acquireTarget_frame c env p pp).hoare_filter _
    (fun e h => by cases e <;> simp_all [acquireEvent, Event.isBackupWrite]) F) ?_
  refine Hoare.seq ((headerSeek_frame c env p pp).hoare_filter _
    (fun e h => by cases e <;> simp_all [headerSeekEvent, Event.isBackupWrite]) F) ?_
  refine Hoare.seq ((writePrimaryHeader_frame c env p pp).hoare_filter _
    (fun e h => by cases e <;> simp_all [primaryEvent, Event.isBackupWrite]) F) ?_
  refine Hoare.seq ((hiddenSetup_frame c p).hoare_filter _
    (fun e h => by cases e <;> simp_all [headerSeekEvent, Event.isBackupWrite]) F) ?_
  refine Hoare.seq ((formatDataArea_frame c cipher env p pp).hoare_filter _
    (fun e h => by
      obtain ⟨q, h⟩ := h
      cases e <;> simp_all [dataAreaEvent, fillEvent, Event.isBackupWrite]) F) ?_
  refine @Hoare.seq _ (fun st => st.trace.filter Event.isBackupWrite = F ++ [backupWritten c p])
    _ _ _ _ ?_ ?_
  · intro st hpre
    simp only [writeBackupHeader, FormatState.fail, FormatState.emit, withTmpCI]
    split_ifs <;> refine ⟨fun _ => trivial, fun h => ?_⟩ <;>
      simp_all [List.filter_append, List.filter_cons, Event.isBackupWrite, backupWritten]
  refine Hoare.seq ((writeDecoyHeaders_frame c env p pp).hoare_filter _
    (fun e h => by
      cases e <;> try rfl
      rename_i site off ok
      obtain ⟨_, b, hb, _⟩ : ¬ p.hiddenVol ∧ ∃ b, site = HeaderSite.decoy b
        ∧ off = decoyHeaderOffset c p b := h
      subst hb
      rfl) _) ?_
  exact (quickFormatPause_frame pp).hoare_filter _
    (fun e h => by rw [h]; rfl) _

theorem retry_split (pre post : List Event) (h : retryConfirmed ∉ pre) :
    beforeRetry (pre ++ retryConfirmed :: post) = pre
      ∧ afterRetry (pre ++ retryConfirmed :: post) = post := by
  induction pre with
  | nil => simp [beforeRetry, afterRetry]
  | cons a l ih =>
    have ha : a ≠ retryConfirmed := fun h' => h (by rw [h']; exact List.mem_cons_self _ _)
    have hl : retryConfirmed ∉ l := fun h' => h (List.mem_cons_of_mem _ h')
    obtain ⟨h1, h2⟩ := ih hl
    simp only [beforeRetry, afterRetry] at h1 h2 ⊢
    simp only [List.cons_append, List.takeWhile_cons, List.dropWhile_cons, bne_iff_ne, ne_eq,
      ha, not_false_eq_true, if_true, h1, h2, and_self]

/-- The trace at the end of a first pass that is not followed by a retry: the events of the
pass and events of the end of the function, none of which is the confirmation of the retry. -/
theorem single_pass_trace (c : Consts) (cipher : Cipher) (env : Env)
    (p : FORMAT_VOL_PARAMETERS) (pp : PassParams) (st : FormatState)
    (hB : (externalFormat c env p pp (cleanup env p pp (passBody c cipher env p pp st).1)).2
        = PassOutcome.fv_end) :
    ∃ tl, (fvEnd (externalFormat c env p pp
        (cleanup env p pp (passBody c cipher env p pp st).1)).1).trace
        = (passBody c cipher env p pp st).1.trace ++ tl
      ∧ ∀ e ∈ tl, tailEvent p e := by
  obtain ⟨_, t1, h1, h1'⟩ := cleanup_tail env p pp (passBody c cipher env p pp st).1
  obtain ⟨_, t2, h2, h2'⟩ := (externalFormat_tail c env p pp
    (cleanup env p pp (passBody c cipher env p pp st).1) p).1 hB
  obtain ⟨_, t3, h3, h3'⟩ := fvEnd_tail p (externalFormat c env p pp
    (cleanup env p pp (passBody c cipher env p pp st).1)).1
  refine ⟨t1 ++ t2 ++ t3, by rw [h3, h2, h1]; simp only [List.append_assoc], ?_⟩
  intro e he
  rcases List.mem_append.1 he with he | he
  · rcases List.mem_append.1 he with he | he
    · exact h1' e he
    · exact h2' e he
  · exact h3' e he

/-- The state at the second arrival at `begin_format`: the handle has been closed, the
quick-format flag is set, and the trace is the one of the first pass, events of the end of
the function, and the confirmation of the retry. -/
theorem retry_state (c : Consts) (cipher : Cipher) (env : Env)
    (p : FORMAT_VOL_PARAMETERS) (pp : PassParams) (st : FormatState)
    (hC : (externalFormat c env p pp (cleanup env p pp (passBody c cipher env p pp st).1)).2
        = PassOutcome.begin_format) :
    ∃ tl, (externalFormat c env p pp (cleanup env p pp (passBody c cipher env p pp st).1)).1
        = { cleanup env p pp (passBody c cipher env p pp st).1 with
            quickFormat := true,
            trace := (passBody c cipher env p pp st).1.trace ++ tl ++ [retryConfirmed] }
      ∧ ∀ e ∈ tl, tailEvent p e := by
  obtain ⟨_, t1, h1, h1'⟩ := cleanup_tail env p pp (passBody c cipher env p pp st).1
  obtain ⟨t2, h2, h2'⟩ := (externalFormat_tail c env p pp
    (cleanup env p pp (passBody c cipher env p pp st).1) p).2 hC
  refine ⟨t1 ++ t2, by rw [h2, h1]; simp only [List.append_assoc], ?_⟩
  intro e he
  rcases List.mem_append.1 he with he | he
  · exact h1' e he
  · exact h2' e he

theorem not_retryConfirmed_of_pass (c : Consts) (p : FORMAT_VOL_PARAMETERS) (pp : PassParams)
    (t evs tl : List Event) (ht : retryConfirmed ∉ t)
    (h1 : ∀ e ∈ evs, passEvent c p pp e) (h2 : ∀ e ∈ tl, tailEvent p e) :
    retryConfirmed ∉ t ++ evs ++ tl := by
  intro h
  rcases List.mem_append.1 h with h | h
  · rcases List.mem_append.1 h with h | h
    · exact ht h
    · exact passEvent_not_retryConfirmed c p pp _ (h1 _ h) rfl
  · exact (tailEvent_plain p _ (h2 _ h)).2.2.2 rfl

theorem stateAtBeginFormat_trace (env : Env) (p : FORMAT_VOL_PARAMETERS)
    (cryptoInfo : CRYPTO_INFO) :
    retryConfirmed ∉ (stateAtBeginFormat env p cryptoInfo).trace
      ∧ (stateAtBeginFormat env p cryptoInfo).trace.filter Event.isBackupWrite = []
      ∧ (stateAtBeginFormat env p cryptoInfo).trace.filter Event.isDecoy = [] := by
  simp [stateAtBeginFormat, buildPrimaryEvents, retryConfirmed, Event.isBackupWrite,
    Event.isDecoy]

/-! ## The backup header on the retry edge -/

theorem filter_none_of_tail (p : FORMAT_VOL_PARAMETERS) (sel : Event → Bool)
    (hsel : ∀ e, tailEvent p e → sel e = false) (tl : List Event) (h : ∀ e ∈ tl, tailEvent p e) :
    tl.filter sel = [] := by
  rw [List.filter_eq_nil_iff]
  intro e he
  rw [hsel e (h e he)]
  simp

/-- Counterexample to C16: an NTFS request whose external format fails and whose retry is
confirmed returns success, and the events after the confirmation of the retry include a
successful write of the header buffer to the backup header slot, at the offset
dataAreaSize + TC_VOLUME_HEADER_GROUP_SIZE = 917504 of the first pass. -/
theorem retry_writes_backup_header_again :
    (TCFormatVolume veraCryptConsts testCipher retryEnv 2 ntfsParams).map
        (fun r => (r.nStatus, (beforeRetry r.trace).filter Event.isBackupWrite,
          (afterRetry r.trace).filter Event.isBackupWrite))
      = some (Status.ERR_SUCCESS,
          [Event.WriteEffectiveVolumeHeader HeaderSite.backup 917504 true],
          [Event.WriteEffectiveVolumeHeader HeaderSite.backup 917504 true]) := by
  decide

/-- C16 (amended): in every run in which the retry edge is taken, the first pass has written
the backup header once, at `backupHeaderOffset`; the events after the confirmation of the
retry contain no write of the primary header; and when the run returns success they contain
exactly one more write of the backup header, at the same offset: the second pass writes the
backup header again. -/
theorem retry_rewrites_backup_header (c : Consts) (cipher : Cipher) (env : Env) (fuel : Nat)
    (p : FORMAT_VOL_PARAMETERS) :
    ∃ r, TCFormatVolume c cipher env (fuel + 2) p = some r
      ∧ (retryConfirmed ∈ r.trace →
          (beforeRetry r.trace).filter Event.isBackupWrite = [backupWritten c p]
          ∧ (∀ e ∈ afterRetry r.trace, e.isPrimaryWrite = false)
          ∧ (r.nStatus = Status.ERR_SUCCESS →
              (afterRetry r.trace).filter Event.isBackupWrite = [backupWritten c p])) := by
  refine TCFormatVolume_passes c cipher env fuel p (fun r => retryConfirmed ∈ r.trace →
      (beforeRetry r.trace).filter Event.isBackupWrite = [backupWritten c p]
      ∧ (∀ e ∈ afterRetry r.trace, e.isPrimaryWrite = false)
      ∧ (r.nStatus = Status.ERR_SUCCESS →
          (afterRetry r.trace).filter Event.isBackupWrite = [backupWritten c p])) ?_ ?_ ?_ ?_
  · intro h; simp [retryConfirmed] at h
  · intro h; simp at h
  · intro s _ h; simp [retryConfirmed, buildPrimaryEvents] at h
  intro cryptoInfo st _ _ hst
  obtain ⟨hm0, hb0, _⟩ := stateAtBeginFormat_trace env p cryptoInfo
  rw [← hst] at hm0 hb0
  obtain ⟨_, evs, hevs, hevs'⟩ := passBody_frame c cipher env p (firstPass p) st
  simp only [] at hevs
  refine ⟨?_, ?_, ?_⟩
  · intro _ hm
    obtain ⟨evs, tl, _, h2, h3, h4⟩ := lastPass_trace c cipher env p (firstPass p) st
    simp only [FormatState.result] at hm
    rw [h2] at hm
    exact absurd hm (not_retryConfirmed_of_pass c p _ _ _ _ hm0 h3 h4)
  · intro _ _ hB hm
    obtain ⟨tl, h1, h2⟩ := single_pass_trace c cipher env p (firstPass p) st hB
    simp only [FormatState.result] at hm
    rw [h1, hevs] at hm
    exact absurd hm (not_retryConfirmed_of_pass c p _ _ _ _ hm0 hevs' h2)
  · intro hnext _ hC _
    obtain ⟨tl, h1, h2⟩ := retry_state c cipher env p (firstPass p) st hC
    rw [h1]
    generalize hst1 : ({ cleanup env p (firstPass p) (passBody c cipher env p (firstPass p) st).1 with
      quickFormat := true,
      trace := (passBody c cipher env p (firstPass p) st).1.trace ++ tl ++ [retryConfirmed] }
        : FormatState) = st1
    have ht1 : st1.trace
        = (passBody c cipher env p (firstPass p) st).1.trace ++ tl ++ [retryConfirmed] := by
      rw [← hst1]
    obtain ⟨evs2, tl2, hb2, h3, h4, h5⟩ :=
      lastPass_trace c cipher env p (retryParams (firstPass p)) st1
    have hpre : retryConfirmed ∉ (passBody c cipher env p (firstPass p) st).1.trace ++ tl := by
      rw [hevs]
      exact not_retryConfirmed_of_pass c p _ _ _ _ hm0 hevs' h2
    have htrace : (lastPass c cipher env p (retryParams (firstPass p)) st1).trace
        = ((passBody c cipher env p (firstPass p) st).1.trace ++ tl)
          ++ retryConfirmed :: (evs2 ++ tl2) := by
      rw [h3, ht1]; simp only [List.append_assoc, List.singleton_append, List.cons_append,
        List.nil_append]
    obtain ⟨hbef, haft⟩ := retry_split _ (evs2 ++ tl2) hpre
    simp only [FormatState.result]
    rw [htrace, hbef, haft]
    have hfirst : ((passBody c cipher env p (firstPass p) st).1.trace).filter Event.isBackupWrite
        = [backupWritten c p] := by
      have := (passBody_backupWrites c cipher env p (firstPass p) [] st hb0).2 hnext
      simpa using this
    have htl : tl.filter Event.isBackupWrite = [] :=
      filter_none_of_tail p _ (fun e h => (tailEvent_plain p e h).2.1) tl h2
    have htl2 : tl2.filter Event.isBackupWrite = [] :=
      filter_none_of_tail p _ (fun e h => (tailEvent_plain p e h).2.1) tl2 h5
    refine ⟨by rw [List.filter_append, hfirst, htl, List.append_nil], ?_, ?_⟩
    · intro e he
      rcases List.mem_append.1 he with he | he
      · exact passEvent_retry_not_primary c p _ rfl e (h4 e he)
      · exact (tailEvent_plain p e (h5 e he)).2.2.1
    · intro hok
      have hn2 : (passBody c cipher env p (retryParams (firstPass p)) st1).2 = Flow.next := by
        by_contra hne
        have := lastPass_failed c cipher env p (retryParams (firstPass p)) st1 (Or.inl hne)
        rw [hok] at this
        exact absurd this (by decide)
      have hf1 : st1.trace.filter Event.isBackupWrite = [backupWritten c p] := by
        rw [ht1, List.filter_append, List.filter_append, hfirst, htl]
        simp [Event.isBackupWrite, retryConfirmed]
      have := (passBody_backupWrites c cipher env p (retryParams (firstPass p)) _ st1 hf1).2 hn2
      simp only [] at this
      rw [hb2, List.filter_append, hf1] at this
      rw [List.filter_append, htl2, List.append_nil]
      exact List.append_cancel_left this

/-! ## The decoy hidden-volume headers -/

theorem status_of_not_failed (s : Status) (h : s.failed = false) : s = Status.ERR_SUCCESS := by
  cases s <;> simp_all [Status.failed]

theorem fillReservedAreas_decoys (env : Env) (pp : PassParams) (F : List Event) :
    Hoare (fun st => st.trace.filter Event.isDecoy = F) (fillReservedAreas env pp)
      (fun _ => True) (fun st => st.trace.filter Event.isDecoy = F) := by
  intro st hpre
  refine ⟨fun _ => trivial, fun _ => ?_⟩
  simp only [fillReservedAreas, withTmpCI]
  split_ifs <;> simp [List.filter_append, List.filter_cons, Event.isDecoy, hpre]

/-- An iteration of the loop of lines 675-721 that reaches line 717 has built a decoy header
with a null password and no preset master key, closed its crypto context, and written it at
the offset of line 680. -/
theorem decoyIter_decoys (c : Consts) (env : Env) (p : FORMAT_VOL_PARAMETERS)
    (pp : PassParams) (b : Bool) (F : List Event) :
    Hoare (fun st => st.trace.filter Event.isDecoy = F) (decoyIter c env p pp b)
      (fun _ => True) (fun st => st.trace.filter Event.isDecoy = F ++ decoyEvents c p b) := by
  intro st hpre
  refine ⟨fun _ => trivial, ?_⟩
  unfold decoyIter
  simp only []
  by_cases h1 : (env.createDecoyHeader pp.pass b).failed = true
  · rw [if_pos h1]; intro h; simp at h
  rw [if_neg h1]
  by_cases h2 : (!env.SetFilePointerEx pp.pass (decoyHeaderOffset c p b)) = true
  · rw [if_pos h2]; intro h; simp [FormatState.fail] at h
  rw [if_neg h2]
  by_cases h3 : (!env.WriteEffectiveVolumeHeader pp.pass (HeaderSite.decoy b)) = true
  · rw [if_pos h3]; intro h; simp [FormatState.fail] at h
  rw [if_neg h3]
  intro _
  have e1 := status_of_not_failed _ (by simpa using h1)
  simp [FormatState.emit, List.filter_append, List.filter_cons, Event.isDecoy, hpre,
    decoyEvents, e1]

/-- For a standard volume, the stage of the decoy headers that falls through has added the
decoy events of two iterations, the first with `bUpdateBackup` clear, the second with it
set. -/
theorem writeDecoyHeaders_decoys (c : Consts) (env : Env) (p : FORMAT_VOL_PARAMETERS)
    (pp : PassParams) (hh : p.hiddenVol = false) (F : List Event) :
    Hoare (fun st => st.trace.filter Event.isDecoy = F) (writeDecoyHeaders c env p pp)
      (fun _ => True) (fun st => st.trace.filter Event.isDecoy = F ++ decoyBlock c p) := by
  unfold writeDecoyHeaders
  rw [if_neg (by simp [hh])]
  refine Hoare.seq (fillReservedAreas_decoys env pp F) ?_
  refine Hoare.seq (decoyIter_decoys c env p pp false F) ?_
  have := decoyIter_decoys c env p pp true (F ++ decoyEvents c p false)
  simpa only [decoyBlock, List.append_assoc] using this

theorem passEvent_not_decoy (c : Consts) (p : FORMAT_VOL_PARAMETERS) (pp : PassParams)
    (e : Event) (h : acquireEvent c p pp e ∨ headerSeekEvent e ∨ primaryEvent c p pp e
      ∨ (∃ q, dataAreaEvent c p pp q e) ∨ backupEvent c p e ∨ e = Event.Sleep) :
    e.isDecoy = false := by
  cases e <;> try rfl
  case CreateVolumeHeaderInMemory site a b s =>
    cases site <;> first | rfl | simp [acquireEvent, headerSeekEvent, primaryEvent,
      dataAreaEvent, fillEvent, backupEvent] at h
  case crypto_close d =>
    cases d <;> first | rfl | simp [acquireEvent, headerSeekEvent, primaryEvent,
      dataAreaEvent, fillEvent, backupEvent] at h
  case WriteEffectiveVolumeHeader site a b =>
    cases site <;> first | rfl | simp [acquireEvent, headerSeekEvent, primaryEvent,
      dataAreaEvent, fillEvent, backupEvent] at h

/-- A pass that reaches the label `error:` by falling through has added the decoy events of
two iterations for a standard volume. -/
theorem passBody_decoys (c : Consts) (cipher : Cipher) (env : Env)
    (p : FORMAT_VOL_PARAMETERS) (pp : PassParams) (hh : p.hiddenVol = false) (F : List Event) :
    Hoare (fun st => st.trace.filter Event.isDecoy = F) (passBody c cipher env p pp)
      (fun _ => True) (fun st => st.trace.filter Event.isDecoy = F ++ decoyBlock c p) := by
  unfold passBody
  refine Hoare.seq ((acquireTarget_frame c env p pp).hoare_filter _
    (fun e h => passEvent_not_decoy c p pp e (Or.inl h)) F) ?_
  refine Hoare.seq ((headerSeek_frame c env p pp).hoare_filter _
    (fun e h => passEvent_not_decoy c p pp e (Or.inr (Or.inl h))) F) ?_
  refine Hoare.seq ((writePrimaryHeader_frame c env p pp).hoare_filter _
    (fun e h => passEvent_not_decoy c p pp e (Or.inr (Or.inr (Or.inl h)))) F) ?_
  refine Hoare.seq ((hiddenSetup_frame c p).hoare_filter _
    (fun e h => passEvent_not_decoy c p pp e (Or.inr (Or.inl h))) F) ?_
  refine Hoare.seq ((formatDataArea_frame c cipher env p pp).hoare_filter _
    (fun e h => passEvent_not_decoy c p pp e (Or.inr (Or.inr (Or.inr (Or.inl h))))) F) ?_
  refine Hoare.seq ((writeBackupHeader_frame c env p pp).hoare_filter _
    (fun e h => passEvent_not_decoy c p pp e (Or.inr (Or.inr (Or.inr (Or.inr (Or.inl h)))))) F) ?_
  refine Hoare.seq (writeDecoyHeaders_decoys c env p pp hh F) ?_
  exact (quickFormatPause_frame pp).hoare_filter _
    (fun e h => by rw [h]; rfl) _

theorem passEvent_hidden_not_decoy (c : Consts) (p : FORMAT_VOL_PARAMETERS) (pp : PassParams)
    (hh : p.hiddenVol = true) (e : Event) (h : passEvent c p pp e) : e.isDecoy = false := by
  rcases h with h | h | h | h | h | h | h
  · exact passEvent_not_decoy c p pp e (Or.inl h)
  · exact passEvent_not_decoy c p pp e (Or.inr (Or.inl h))
  · exact passEvent_not_decoy c p pp e (Or.inr (Or.inr (Or.inl h)))
  · exact passEvent_not_decoy c p pp e (Or.inr (Or.inr (Or.inr (Or.inl h))))
  · exact passEvent_not_decoy c p pp e (Or.inr (Or.inr (Or.inr (Or.inr (Or.inl h)))))
  · cases e <;> first | rfl | simp [decoyEvent, hh] at h
  · rw [h]; rfl

theorem filter_none_of_all (sel : Event → Bool) (l : List Event)
    (h : ∀ e ∈ l, sel e = false) : l.filter sel = [] := by
  rw [List.filter_eq_nil_iff]
  intro e he
  rw [h e he]
  simp

/-- Counterexample to C13: an NTFS request for a standard volume whose external format fails
and whose retry is confirmed returns success after four writes of a decoy header, two in
each pass. -/
theorem retry_writes_four_decoy_headers :
    (TCFormatVolume veraCryptConsts testCipher retryEnv 2 ntfsParams).map
        (fun r => (r.nStatus, r.trace.filter Event.isDecoyWrite))
      = some (Status.ERR_SUCCESS,
          [Event.WriteEffectiveVolumeHeader (HeaderSite.decoy false) 65536 true,
            Event.WriteEffectiveVolumeHeader (HeaderSite.decoy true) 983040 true,
            Event.WriteEffectiveVolumeHeader (HeaderSite.decoy false) 65536 true,
            Event.WriteEffectiveVolumeHeader (HeaderSite.decoy true) 983040 true]) := by
  decide

/-- C13 (amended): a format of a hidden volume builds and writes no decoy header.  A
successful format of a standard volume builds, closes and writes two decoy headers in each
pass: one pass when the retry edge is not taken, two passes when it is.  In each pass the
first decoy header is written at `TC_HIDDEN_VOLUME_HEADER_OFFSET` and the second at
`dataAreaSize + TC_VOLUME_HEADER_GROUP_SIZE + TC_HIDDEN_VOLUME_HEADER_OFFSET`, each is built
with a null password and no preset master key, and its crypto context is closed before the
write. -/
theorem decoy_headers_per_pass (c : Consts) (cipher : Cipher) (env : Env) (fuel : Nat)
    (p : FORMAT_VOL_PARAMETERS) :
    ∃ r, TCFormatVolume c cipher env (fuel + 2) p = some r
      ∧ (p.hiddenVol = true → r.trace.filter Event.isDecoy = [])
      ∧ (p.hiddenVol = false → r.nStatus = Status.ERR_SUCCESS →
          r.trace.filter Event.isDecoy
            = if retryConfirmed ∈ r.trace then decoyBlock c p ++ decoyBlock c p
              else decoyBlock c p)
      ∧ decoyBlock c p
          = [Event.CreateVolumeHeaderInMemory (HeaderSite.decoy false) false true
               Status.ERR_SUCCESS,
             Event.crypto_close true,
             Event.WriteEffectiveVolumeHeader (HeaderSite.decoy false)
               c.TC_HIDDEN_VOLUME_HEADER_OFFSET true,
             Event.CreateVolumeHeaderInMemory (HeaderSite.decoy true) false true
               Status.ERR_SUCCESS,
             Event.crypto_close true,
             Event.WriteEffectiveVolumeHeader (HeaderSite.decoy true)
               (add64 (add64 (dataAreaSize c p) c.TC_VOLUME_HEADER_GROUP_SIZE)
                 c.TC_HIDDEN_VOLUME_HEADER_OFFSET) true] := by
  have hblock : decoyBlock c p
      = [Event.CreateVolumeHeaderInMemory (HeaderSite.decoy false) false true
           Status.ERR_SUCCESS,
         Event.crypto_close true,
         Event.WriteEffectiveVolumeHeader (HeaderSite.decoy false)
           c.TC_HIDDEN_VOLUME_HEADER_OFFSET true,
         Event.CreateVolumeHeaderInMemory (HeaderSite.decoy true) false true
           Status.ERR_SUCCESS,
         Event.crypto_close true,
         Event.WriteEffectiveVolumeHeader (HeaderSite.decoy true)
           (add64 (add64 (dataAreaSize c p) c.TC_VOLUME_HEADER_GROUP_SIZE)
             c.TC_HIDDEN_VOLUME_HEADER_OFFSET) true] := by
    simp [decoyBlock, decoyEvents, decoyHeaderOffset]
  suffices hmain : ∃ r, TCFormatVolume c cipher env (fuel + 2) p = some r
      ∧ ((p.hiddenVol = true → r.trace.filter Event.isDecoy = [])
        ∧ (p.hiddenVol = false → r.nStatus = Status.ERR_SUCCESS →
          r.trace.filter Event.isDecoy
            = if retryConfirmed ∈ r.trace then decoyBlock c p ++ decoyBlock c p
              else decoyBlock c p)) by
    obtain ⟨r, h1, h2, h3⟩ := hmain
    exact ⟨r, h1, h2, h3, hblock⟩
  refine TCFormatVolume_passes c cipher env fuel p (fun r =>
      (p.hiddenVol = true → r.trace.filter Event.isDecoy = [])
      ∧ (p.hiddenVol = false → r.nStatus = Status.ERR_SUCCESS →
        r.trace.filter Event.isDecoy
          = if retryConfirmed ∈ r.trace then decoyBlock c p ++ decoyBlock c p
            else decoyBlock c p)) ?_ ?_ ?_ ?_
  · exact ⟨fun _ => by simp [Event.isDecoy], fun _ h => by simp at h⟩
  · exact ⟨fun _ => by simp, fun _ h => by simp at h⟩
  · intro s hs
    refine ⟨fun _ => by simp [buildPrimaryEvents, Event.isDecoy], fun _ h => ?_⟩
    simp only at h
    rw [h] at hs
    exact absurd hs (by decide)
  intro cryptoInfo st _ _ hst
  obtain ⟨hm0, _, hd0⟩ := stateAtBeginFormat_trace env p cryptoInfo
  rw [← hst] at hm0 hd0
  obtain ⟨_, evs, hevs, hevs'⟩ := passBody_frame c cipher env p (firstPass p) st
  simp only [] at hevs
  have htail : ∀ tl : List Event, (∀ e ∈ tl, tailEvent p e) → tl.filter Event.isDecoy = [] :=
    fun tl h => filter_none_of_tail p _ (fun e h => (tailEvent_plain p e h).1) tl h
  have hpass : ∀ pp (l : List Event), p.hiddenVol = true → (∀ e ∈ l, passEvent c p pp e) →
      l.filter Event.isDecoy = [] :=
    fun pp l hh h => filter_none_of_all _ l (fun e he => passEvent_hidden_not_decoy c p pp hh e (h e he))
  refine ⟨?_, ?_, ?_⟩
  · intro hfail
    obtain ⟨evs, tl, _, h2, h3, h4⟩ := lastPass_trace c cipher env p (firstPass p) st
    refine ⟨fun hh => ?_, fun _ hok => ?_⟩
    · simp only [FormatState.result]
      rw [h2, List.filter_append, List.filter_append, hd0, hpass _ evs hh h3, htail tl h4]
      rfl
    · have := lastPass_failed c cipher env p (firstPass p) st hfail
      simp only [FormatState.result] at hok
      rw [hok] at this
      exact absurd this (by decide)
  · intro hnext _ hB
    obtain ⟨tl, h1, h2⟩ := single_pass_trace c cipher env p (firstPass p) st hB
    have hm : retryConfirmed ∉ (fvEnd (externalFormat c env p (firstPass p)
        (cleanup env p (firstPass p) (passBody c cipher env p (firstPass p) st).1)).1).trace := by
      rw [h1, hevs]
      exact not_retryConfirmed_of_pass c p _ _ _ _ hm0 hevs' h2
    refine ⟨fun hh => ?_, fun hh _ => ?_⟩
    · simp only [FormatState.result]
      rw [h1, hevs, List.filter_append, List.filter_append, hd0, hpass _ evs hh hevs', htail tl h2]
      rfl
    · simp only [FormatState.result]
      rw [if_neg hm, h1, List.filter_append, htail tl h2, List.append_nil]
      have := (passBody_decoys c cipher env p (firstPass p) hh [] st hd0).2 hnext
      simpa using this
  · intro hnext _ hC
    obtain ⟨tl, h1, h2⟩ := retry_state c cipher env p (firstPass p) st hC
    rw [h1]
    generalize hst1 : ({ cleanup env p (firstPass p) (passBody c cipher env p (firstPass p) st).1 with
      quickFormat := true,
      trace := (passBody c cipher env p (firstPass p) st).1.trace ++ tl ++ [retryConfirmed] }
        : FormatState) = st1
    have ht1 : st1.trace
        = (passBody c cipher env p (firstPass p) st).1.trace ++ tl ++ [retryConfirmed] := by
      rw [← hst1]
    obtain ⟨evs2, tl2, hb2, h3, h4, h5⟩ :=
      lastPass_trace c cipher env p (retryParams (firstPass p)) st1
    have hm : retryConfirmed ∈ (lastPass c cipher env p (retryParams (firstPass p)) st1).trace := by
      rw [h3, ht1]; simp
    refine ⟨fun hh => ?_, fun hh hok => ?_⟩
    · simp only [FormatState.result]
      rw [h3, ht1, hevs]
      simp only [List.filter_append, hd0, hpass _ evs hh hevs', htail tl h2,
        hpass _ evs2 hh h4, htail tl2 h5]
      simp [Event.isDecoy, retryConfirmed]
    · simp only [FormatState.result] at hok ⊢
      rw [if_pos hm]
      have hn2 : (passBody c cipher env p (retryParams (firstPass p)) st1).2 = Flow.next := by
        by_contra hne
        have := lastPass_failed c cipher env p (retryParams (firstPass p)) st1 (Or.inl hne)
        rw [hok] at this
        exact absurd this (by decide)
      have hfirst : ((passBody c cipher env p (firstPass p) st).1.trace).filter Event.isDecoy
          = decoyBlock c p := by
        have := (passBody_decoys c cipher env p (firstPass p) hh [] st hd0).2 hnext
        simpa using this
      have hf1 : st1.trace.filter Event.isDecoy = decoyBlock c p := by
        rw [ht1, List.filter_append, List.filter_append, hfirst, htail tl h2]
        simp [Event.isDecoy, retryConfirmed]
      have := (passBody_decoys c cipher env p (retryParams (firstPass p)) hh _ st1 hf1).2 hn2
      simp only [] at this
      rw [h3, ← hb2, List.filter_append, this, htail tl2 h5, List.append_nil]

/-! ## The pass after the retry edge -/

theorem openExclusive_retry_frame (c : Consts) (env : Env) (p : FORMAT_VOL_PARAMETERS)
    (pp : PassParams) (hd : p.bDevice = true) (nPass : Nat) :
    Frame (retryAcquireEvent p) (openExclusive c env pp nPass) := by
  intro st
  have hx := exclusiveOpenLoop_events (env.exclusiveOpen pp.pass nPass)
    c.EXCL_ACCESS_MAX_AUTO_RETRIES 0
  simp only [openExclusive]
  split_ifs
  · exact ⟨fun h => h, [], (List.append_nil _).symm, by simp⟩
  · refine ⟨fun h => h, _, rfl, ?_⟩
    intro e he
    obtain ⟨ok, rfl⟩ := hx e he
    simp [retryAcquireEvent, hd]

theorem devicePrepare_retry_frame (env : Env) (p : FORMAT_VOL_PARAMETERS) (pp : PassParams)
    (hd : p.bDevice = true) :
    Frame (retryAcquireEvent p) (fun st => (devicePrepare env pp st).1) := by
  intro st
  simp only [devicePrepare, FormatState.fail, FormatState.emit]
  split_ifs <;> refine ⟨fun h => by simpa using h, ?_⟩ <;>
  first
    | exact ⟨[], (List.append_nil _).symm, by simp⟩
    | (try simp only [List.append_assoc]
       exact ⟨_, rfl, by simp_all [retryAcquireEvent]⟩)

theorem openShared_retry_frame (env : Env) (p : FORMAT_VOL_PARAMETERS) (pp : PassParams)
    (hd : p.bDevice = true) (nPass : Nat) :
    Frame (retryAcquireEvent p) (fun st => (openShared env p pp nPass st).1) := by
  intro st
  simp only [openShared, FormatState.fail, FormatState.emit]
  split_ifs <;> refine ⟨fun h => by simpa using h, ?_⟩ <;>
  first
    | exact ⟨[], (List.append_nil _).symm, by simp⟩
    | (try simp only [List.append_assoc]
       exact ⟨_, rfl, by simp_all [retryAcquireEvent]⟩)

theorem pseudoQuickFormat_retry_frame (c : Consts) (env : Env) (p : FORMAT_VOL_PARAMETERS)
    (pp : PassParams) (hr : pp.bInstantRetryOtherFilesys = true) (nPass : Nat) :
    Frame (retryAcquireEvent p) (fun st => (pseudoQuickFormat c env p pp nPass st).1) := by
  intro st
  simp only [pseudoQuickFormat, hr, Bool.or_true, if_true]
  exact ⟨fun h => h, [], (List.append_nil _).symm, by simp⟩

theorem deviceCheckMounted_retry_frame (env : Env) (p : FORMAT_VOL_PARAMETERS) (pp : PassParams)
    (hd : p.bDevice = true) :
    Frame (retryAcquireEvent p) (fun st => (deviceCheckMounted env pp st).1) := by
  intro st
  simp only [deviceCheckMounted, FormatState.fail, FormatState.emit]
  split_ifs <;> refine ⟨fun h => by simpa using h, ?_⟩ <;>
  first
    | exact ⟨[], (List.append_nil _).symm, by simp⟩
    | (try simp only [List.append_assoc]
       exact ⟨_, rfl, by simp_all [retryAcquireEvent]⟩)

theorem fileOpen_retry_frame (env : Env) (p : FORMAT_VOL_PARAMETERS) (pp : PassParams)
    (hd : p.bDevice = false) (hr : pp.bInstantRetryOtherFilesys = true) :
    Frame (retryAcquireEvent p) (fun st => (fileOpen env p pp st).1) := by
  intro st
  simp only [fileOpen, FormatState.fail, FormatState.emit]
  split_ifs <;> refine ⟨fun h => by simpa using h, ?_⟩ <;>
  first
    | exact ⟨[], (List.append_nil _).symm, by simp⟩
    | (try simp only [List.append_assoc]
       exact ⟨_, rfl, by simp_all [retryAcquireEvent]⟩)

theorem deviceOpenIter_retry_frame (c : Consts) (env : Env) (p : FORMAT_VOL_PARAMETERS)
    (pp : PassParams) (hd : p.bDevice = true) (hr : pp.bInstantRetryOtherFilesys = true)
    (nPass : Nat) :
    Frame (retryAcquireEvent p) (fun st => (deviceOpenIter c env p pp nPass st).1) := by
  have h1 := Frame.comp (openExclusive_retry_frame c env p pp hd nPass)
    (openShared_retry_frame env p pp hd nPass)
  have h2 := Frame.comp h1 (pseudoQuickFormat_retry_frame c env p pp hr nPass)
  intro st
  simp only [deviceOpenIter]
  split_ifs
  · exact h2 st
  · exact h1 st

theorem deviceOpenLast_retry_frame (c : Consts) (env : Env) (p : FORMAT_VOL_PARAMETERS)
    (pp : PassParams) (hd : p.bDevice = true) (hr : pp.bInstantRetryOtherFilesys = true) :
    Frame (retryAcquireEvent p) (fun st => (deviceOpenLast c env p pp st).1) := by
  intro st
  simp only [deviceOpenLast]
  split_ifs <;> exact deviceOpenIter_retry_frame c env p pp hd hr 1 st

theorem deviceOpenLoop_retry_frame (c : Consts) (env : Env) (p : FORMAT_VOL_PARAMETERS)
    (pp : PassParams) (hd : p.bDevice = true) (hr : pp.bInstantRetryOtherFilesys = true) :
    Frame (retryAcquireEvent p) (fun st => (deviceOpenLoop c env p pp st).1) := by
  have h0 := deviceOpenIter_retry_frame c env p pp hd hr 0
  have h1 := deviceOpenLast_retry_frame c env p pp hd hr
  have h01 := Frame.comp h0 h1
  intro st
  simp only [deviceOpenLoop]
  split_ifs
  · split
    · exact h01 st
    · exact h0 st
    · exact h0 st
  · exact h1 st

/-- On a retry the acquisition of the target opens the existing file or device and performs
neither the pseudo quick format nor the preallocation. -/
theorem acquireTarget_retry_frame (c : Consts) (env : Env) (p : FORMAT_VOL_PARAMETERS)
    (pp : PassParams) (hr : pp.bInstantRetryOtherFilesys = true) :
    Frame (retryAcquireEvent p) (fun st => (acquireTarget c env p pp st).1) := by
  unfold acquireTarget
  by_cases hd : p.bDevice = true
  · simp only [hd, if_true]
    unfold acquireDevice
    exact Frame.andThen (devicePrepare_retry_frame env p pp hd)
      (Frame.andThen (deviceOpenLoop_retry_frame c env p pp hd hr)
        (deviceCheckMounted_retry_frame env p pp hd))
  · have hf : p.bDevice = false := by simpa using hd
    simp only [hd]
    unfold acquireFile
    refine Frame.andThen (fileOpen_retry_frame env p pp hf hr) ?_
    rw [if_neg (by simp [hr])]
    exact Frame.skip _

theorem Frame.hoare_since {P G : Event → Prop} {f : FormatState → FormatState × Flow}
    (hf : Frame P (fun st => (f st).1)) (hP : ∀ e, P e → G e) (t0 : List Event) :
    Hoare (Since t0 G) f (Since t0 G) (Since t0 G) := by
  refine Frame.hoare hf ?_
  intro st st' evs hpre ht hev hq
  obtain ⟨h1, evs0, h2, h3⟩ := hpre
  have : Since t0 G st' := by
    refine ⟨hq h1, evs0 ++ evs, by rw [ht, h2, List.append_assoc], ?_⟩
    intro e he
    rcases List.mem_append.1 he with he | he
    · exact h3 e he
    · exact hP e (hev e he)
  exact ⟨this, this⟩

theorem Since.frame {P G : Event → Prop} {f : FormatState → FormatState}
    (hf : Frame P f) (hP : ∀ e, P e → G e) (t0 : List Event) (st : FormatState)
    (h : Since t0 G st) : Since t0 G (f st) := by
  obtain ⟨hq, evs, ht, hev⟩ := hf st
  obtain ⟨h1, evs0, h2, h3⟩ := h
  refine ⟨hq h1, evs0 ++ evs, by rw [ht, h2, List.append_assoc], ?_⟩
  intro e he
  rcases List.mem_append.1 he with he | he
  · exact h3 e he
  · exact hP e (hev e he)

theorem retryAcquireEvent_kept (p : FORMAT_VOL_PARAMETERS) (e : Event)
    (h : retryAcquireEvent p e) : e.isSkippedOnRetry = false := by
  cases e <;> simp_all [retryAcquireEvent, Event.isSkippedOnRetry]

theorem tailEvent_kept (p : FORMAT_VOL_PARAMETERS) (e : Event) (h : tailEvent p e) :
    e.isSkippedOnRetry = false := by
  cases e <;> simp_all [tailEvent, Event.isSkippedOnRetry]

theorem dataAreaEvent_retry_kept (c : Consts) (p : FORMAT_VOL_PARAMETERS) (pp : PassParams)
    (e : Event) (h : dataAreaEvent c p (retryParams pp) true e) :
    e.isSkippedOnRetry = false := by
  cases e <;> simp_all [dataAreaEvent, fillEvent, retryParams, Event.isSkippedOnRetry]

theorem backupEvent_kept (c : Consts) (p : FORMAT_VOL_PARAMETERS) (e : Event)
    (h : backupEvent c p e) : e.isSkippedOnRetry = false := by
  cases e <;> try rfl
  all_goals first | (simp [backupEvent] at h; done) | skip
  rename_i site off ok
  obtain ⟨hs, _⟩ : site = HeaderSite.backup ∧ off = backupHeaderOffset c p := h
  subst hs; rfl

theorem decoyEvent_kept (c : Consts) (p : FORMAT_VOL_PARAMETERS) (e : Event)
    (h : decoyEvent c p e) : e.isSkippedOnRetry = false := by
  cases e <;> try rfl
  all_goals first | (simp [decoyEvent] at h; done) | skip
  rename_i site off ok
  obtain ⟨_, b, hb, _⟩ : ¬ p.hiddenVol ∧ ∃ b, site = HeaderSite.decoy b
    ∧ off = decoyHeaderOffset c p b := h
  subst hb; rfl

theorem retryAcquireEvent_fat (c : Consts) (p : FORMAT_VOL_PARAMETERS) (e : Event)
    (h : retryAcquireEvent p e) : retryFatCall c p e := by
  cases e <;> simp_all [retryAcquireEvent, retryFatCall]

theorem tailEvent_fat (c : Consts) (p : FORMAT_VOL_PARAMETERS) (e : Event)
    (h : tailEvent p e) : retryFatCall c p e := by
  cases e <;> simp_all [tailEvent, retryFatCall]

theorem headerSeekEvent_fat (c : Consts) (p : FORMAT_VOL_PARAMETERS) (e : Event)
    (h : headerSeekEvent e) : retryFatCall c p e := by
  cases e <;> simp_all [headerSeekEvent, retryFatCall]

/-- On a retry the parameters handed to `GetFatParams` carry the cluster size 0 of line 822,
and `FormatFat` is called with the quick-format flag. -/
theorem dataAreaEvent_retry_fat (c : Consts) (p : FORMAT_VOL_PARAMETERS) (pp : PassParams)
    (e : Event) (h : dataAreaEvent c p (retryParams pp) true e) : retryFatCall c p e := by
  cases e <;> simp_all [dataAreaEvent, fillEvent, retryParams, retryFatCall]

theorem backupEvent_fat (c : Consts) (p : FORMAT_VOL_PARAMETERS) (e : Event)
    (h : backupEvent c p e) : retryFatCall c p e := by
  cases e <;> first | trivial | (simp [backupEvent] at h; done)

theorem decoyEvent_fat (c : Consts) (p : FORMAT_VOL_PARAMETERS) (e : Event)
    (h : decoyEvent c p e) : retryFatCall c p e := by
  cases e <;> first | trivial | (simp [decoyEvent] at h; done)

/-- From the second arrival at `begin_format` to the label `error:`, the pass with the
parameters of the retry adds none of the steps that a retry skips: the data area is formatted
by `FormatFat` with the quick-format flag. -/
theorem passBody_retry (c : Consts) (cipher : Cipher) (env : Env)
    (p : FORMAT_VOL_PARAMETERS) (pp : PassParams) (t0 : List Event) :
    Hoare (Since t0 (fun e => e.isSkippedOnRetry = false ∧ retryFatCall c p e))
      (passBody c cipher env p (retryParams pp))
      (Since t0 (fun e => e.isSkippedOnRetry = false ∧ retryFatCall c p e))
      (Since t0 (fun e => e.isSkippedOnRetry = false ∧ retryFatCall c p e)) := by
  unfold passBody
  refine Hoare.seq ((acquireTarget_retry_frame c env p (retryParams pp) rfl).hoare_since
    (fun e h => ⟨retryAcquireEvent_kept p e h, retryAcquireEvent_fat c p e h⟩) t0) ?_
  refine Hoare.seq ((headerSeek_frame c env p (retryParams pp)).hoare_since
    (fun e h => ⟨by cases e <;> simp_all [headerSeekEvent, Event.isSkippedOnRetry],
      headerSeekEvent_fat c p e h⟩) t0) ?_
  refine Hoare.seq ((writePrimaryHeader_frame c env p (retryParams pp)).hoare_since
    (fun e h => by cases e <;> simp_all [primaryEvent, retryParams]) t0) ?_
  refine Hoare.seq ((hiddenSetup_frame c p).hoare_since
    (fun e h => ⟨by cases e <;> simp_all [headerSeekEvent, Event.isSkippedOnRetry],
      headerSeekEvent_fat c p e h⟩) t0) ?_
  refine @Hoare.seq _ (Since t0 (fun e => e.isSkippedOnRetry = false ∧ retryFatCall c p e)) _ _ _ _ ?_ ?_
  · intro st hpre
    obtain ⟨hq, evs, ht, hev⟩ := formatDataArea_events c cipher env p (retryParams pp) st
    obtain ⟨h1, evs0, h2, h3⟩ := hpre
    have : Since t0 (fun e => e.isSkippedOnRetry = false ∧ retryFatCall c p e)
        (formatDataArea c cipher env p (retryParams pp) st).1 := by
      refine ⟨by rw [hq]; exact h1, evs0 ++ evs, by rw [ht, h2, List.append_assoc], ?_⟩
      intro e he
      rcases List.mem_append.1 he with he | he
      · exact h3 e he
      · have := hev e he
        rw [h1] at this
        exact ⟨dataAreaEvent_retry_kept c p pp e this, dataAreaEvent_retry_fat c p pp e this⟩
    exact ⟨fun _ => this, fun _ => this⟩
  refine Hoare.seq ((writeBackupHeader_frame c env p (retryParams pp)).hoare_since
    (fun e h => ⟨backupEvent_kept c p e h, backupEvent_fat c p e h⟩) t0) ?_
  refine Hoare.seq ((writeDecoyHeaders_frame c env p (retryParams pp)).hoare_since
    (fun e h => ⟨decoyEvent_kept c p e h, decoyEvent_fat c p e h⟩) t0) ?_
  exact (quickFormatPause_frame (retryParams pp)).hoare_since
    (fun e h => by rw [h]; exact ⟨rfl, trivial⟩) t0

/-- The last pass of a run that has taken the retry edge adds none of the steps that a retry
skips. -/
theorem lastPass_retry (c : Consts) (cipher : Cipher) (env : Env)
    (p : FORMAT_VOL_PARAMETERS) (pp : PassParams) (st : FormatState)
    (hq : st.quickFormat = true) :
    ∃ evs, (lastPass c cipher env p (retryParams pp) st).trace = st.trace ++ evs
      ∧ ∀ e ∈ evs, e.isSkippedOnRetry = false ∧ retryFatCall c p e := by
  have h0 : Since st.trace (fun e => e.isSkippedOnRetry = false ∧ retryFatCall c p e) st :=
    ⟨hq, [], (List.append_nil _).symm, by simp⟩
  have hb : Since st.trace (fun e => e.isSkippedOnRetry = false ∧ retryFatCall c p e)
      (passBody c cipher env p (retryParams pp) st).1 := by
    by_cases hn : (passBody c cipher env p (retryParams pp) st).2 = Flow.next
    · exact (passBody_retry c cipher env p pp st.trace st h0).2 hn
    · exact (passBody_retry c cipher env p pp st.trace st h0).1 hn
  unfold lastPass
  split_ifs
  · exact hb.2
  · exact (Since.frame (Frame.comp (cleanup_tail env p (retryParams pp)) (fvEnd_tail p))
      (fun e h => ⟨tailEvent_kept p e h, tailEvent_fat c p e h⟩) st.trace _ hb).2

/-- C15: in every run in which the retry edge is taken (the confirmation of the retry is in
the trace), the code after the confirmation is one last pass that starts with the
quick-format flag set and runs with `fileSystem = FILESYS_FAT`, `clusterSize = 0` and
`bInstantRetryOtherFilesys = TRUE`.  The events after the confirmation contain no write of
the primary header, no write of zeroes, no creation of the file, no preallocation step, no
`FormatNoFs` and no work of the sector writer of `Format.c`; every call of `GetFatParams`
among them carries the cluster size 0, and every call of `FormatFat` starts at
`startSector`, covers `num_sectors` sectors and carries `quickFormat = TRUE` (what
`FormatFat` then writes is decided in `Fat.c`). -/
theorem retry_skips_destructive_steps (c : Consts) (cipher : Cipher) (env : Env) (fuel : Nat)
    (p : FORMAT_VOL_PARAMETERS) :
    ∃ r, TCFormatVolume c cipher env (fuel + 2) p = some r
      ∧ (retryConfirmed ∈ r.trace →
          ∃ st1, st1.quickFormat = true
            ∧ st1.trace = beforeRetry r.trace ++ [retryConfirmed]
            ∧ r = (lastPass c cipher env p
                { pass := 1, fileSystem := FileSys.FILESYS_FAT, clusterSize := 0,
                  bInstantRetryOtherFilesys := true } st1).result
            ∧ ∀ e ∈ afterRetry r.trace, e.isSkippedOnRetry = false ∧ retryFatCall c p e) := by
  refine TCFormatVolume_passes c cipher env fuel p (fun r => retryConfirmed ∈ r.trace →
      ∃ st1, st1.quickFormat = true
        ∧ st1.trace = beforeRetry r.trace ++ [retryConfirmed]
        ∧ r = (lastPass c cipher env p
            { pass := 1, fileSystem := FileSys.FILESYS_FAT, clusterSize := 0,
              bInstantRetryOtherFilesys := true } st1).result
        ∧ ∀ e ∈ afterRetry r.trace, e.isSkippedOnRetry = false ∧ retryFatCall c p e) ?_ ?_ ?_ ?_
  · intro h; simp [retryConfirmed] at h
  · intro h; simp at h
  · intro s _ h; simp [retryConfirmed, buildPrimaryEvents] at h
  intro cryptoInfo st _ _ hst
  obtain ⟨hm0, _, _⟩ := stateAtBeginFormat_trace env p cryptoInfo
  rw [← hst] at hm0
  obtain ⟨_, evs, hevs, hevs'⟩ := passBody_frame c cipher env p (firstPass p) st
  simp only [] at hevs
  refine ⟨?_, ?_, ?_⟩
  · intro _ hm
    obtain ⟨evs, tl, _, h2, h3, h4⟩ := lastPass_trace c cipher env p (firstPass p) st
    simp only [FormatState.result] at hm
    rw [h2] at hm
    exact absurd hm (not_retryConfirmed_of_pass c p _ _ _ _ hm0 h3 h4)
  · intro _ _ hB hm
    obtain ⟨tl, h1, h2⟩ := single_pass_trace c cipher env p (firstPass p) st hB
    simp only [FormatState.result] at hm
    rw [h1, hevs] at hm
    exact absurd hm (not_retryConfirmed_of_pass c p _ _ _ _ hm0 hevs' h2)
  · intro _ _ hC _
    obtain ⟨tl, h1, h2⟩ := retry_state c cipher env p (firstPass p) st hC
    rw [h1]
    generalize hst1 : ({ cleanup env p (firstPass p) (passBody c cipher env p (firstPass p) st).1 with
      quickFormat := true,
      trace := (passBody c cipher env p (firstPass p) st).1.trace ++ tl ++ [retryConfirmed] }
        : FormatState) = st1
    have ht1 : st1.trace
        = (passBody c cipher env p (firstPass p) st).1.trace ++ tl ++ [retryConfirmed] := by
      rw [← hst1]
    have hq1 : st1.quickFormat = true := by rw [← hst1]
    obtain ⟨evs2, h3, h4⟩ := lastPass_retry c cipher env p (firstPass p) st1 hq1
    have hpre : retryConfirmed ∉ (passBody c cipher env p (firstPass p) st).1.trace ++ tl := by
      rw [hevs]
      exact not_retryConfirmed_of_pass c p _ _ _ _ hm0 hevs' h2
    have htrace : (lastPass c cipher env p (retryParams (firstPass p)) st1).trace
        = ((passBody c cipher env p (firstPass p) st).1.trace ++ tl)
          ++ retryConfirmed :: evs2 := by
      rw [h3, ht1]; simp only [List.append_assoc, List.singleton_append]
    obtain ⟨hbef, haft⟩ := retry_split _ evs2 hpre
    refine ⟨st1, hq1, ?_, rfl, ?_⟩
    · simp only [FormatState.result]
      rw [htrace, hbef, ht1]
    · simp only [FormatState.result]
      rw [htrace, haft]
      exact h4

/-- Witness for C15: the NTFS request with cluster size 8 whose external format fails and
whose retry is confirmed takes the retry edge; after the confirmation `GetFatParams` is
called with the cluster size 0 and `FormatFat` with the quick-format flag, and the events
after the confirmation contain none of the steps that a retry skips. -/
theorem retry_skips_destructive_steps_witness :
    ∃ r, TCFormatVolume veraCryptConsts testCipher retryEnv 2
          { ntfsParams with clusterSize := 8 } = some r
      ∧ retryConfirmed ∈ r.trace
      ∧ Event.GetFatParams 1536 512 0 ∈ afterRetry r.trace
      ∧ Event.FormatFat 256 1536 true Status.ERR_SUCCESS ∈ afterRetry r.trace
      ∧ ∀ e ∈ afterRetry r.trace, e.isSkippedOnRetry = false
          ∧ retryFatCall veraCryptConsts { ntfsParams with clusterSize := 8 } e := by
  obtain ⟨r, h1, h2⟩ :=
    retry_skips_destructive_steps veraCryptConsts testCipher retryEnv 0
      { ntfsParams with clusterSize := 8 }
  have hx : (TCFormatVolume veraCryptConsts testCipher retryEnv 2
        { ntfsParams with clusterSize := 8 }).map
      (fun r => (decide (retryConfirmed ∈ r.trace),
        decide (Event.GetFatParams 1536 512 0 ∈ afterRetry r.trace),
        decide (Event.FormatFat 256 1536 true Status.ERR_SUCCESS ∈ afterRetry r.trace)))
      = some (true, true, true) := by decide
  rw [h1] at hx
  simp only [Option.map_some', Option.some.injEq, Prod.mk.injEq, decide_eq_true_eq] at hx
  obtain ⟨_, _, _, _, h⟩ := h2 hx.1
  exact ⟨r, h1, hx.1, hx.2.1, hx.2.2, h⟩

/-! ## Truncation of a failed container file -/

theorem KeepsHandle.compose {f g : FormatState → FormatState × Flow}
    (hf : KeepsHandle f) (hg : KeepsHandle g) : KeepsHandle (VeraCrypt.andThen f g) := by
  intro st
  simp only [VeraCrypt.andThen]
  split_ifs
  · obtain ⟨a1, a2, a3, _⟩ := hf st
    obtain ⟨b1, b2, b3, b4⟩ := hg (f st).1
    exact ⟨b1.trans a1, b2.trans a2, b3.trans a3, b4⟩
  · exact hf st

theorem KeepsHandle.idle : KeepsHandle (fun st => (st, Flow.next)) :=
  fun _ => ⟨rfl, rfl, rfl, fun h => by cases h⟩

theorem fileSetSparse_keeps (env : Env) (p : FORMAT_VOL_PARAMETERS) (pp : PassParams) :
    KeepsHandle (fileSetSparse env p pp) := by
  intro st
  simp only [fileSetSparse, FormatState.fail, FormatState.emit]
  split_ifs <;> simp

theorem fileSetSize_keeps (c : Consts) (env : Env) (p : FORMAT_VOL_PARAMETERS)
    (pp : PassParams) : KeepsHandle (fileSetSize c env p pp) := by
  intro st
  simp only [fileSetSize, FormatState.fail, FormatState.emit]
  split_ifs <;> simp

theorem fileValidData_keeps (c : Consts) (env : Env) (p : FORMAT_VOL_PARAMETERS)
    (pp : PassParams) : KeepsHandle (fileValidData c env p pp) := by
  intro st
  simp only [fileValidData, FormatState.fail, FormatState.emit]
  split_ifs <;> simp

theorem fileRewind_keeps (env : Env) (pp : PassParams) : KeepsHandle (fileRewind env pp) := by
  intro st
  simp only [fileRewind, FormatState.fail, FormatState.emit]
  split_ifs <;> simp

theorem headerSeek_keeps (c : Consts) (env : Env) (p : FORMAT_VOL_PARAMETERS)
    (pp : PassParams) : KeepsHandle (headerSeek c env p pp) := by
  intro st
  simp only [headerSeek, FormatState.fail, FormatState.emit]
  split_ifs <;> simp

theorem writePrimaryHeader_keeps (c : Consts) (env : Env) (p : FORMAT_VOL_PARAMETERS)
    (pp : PassParams) : KeepsHandle (writePrimaryHeader c env p pp) := by
  intro st
  simp only [writePrimaryHeader, FormatState.fail, FormatState.emit]
  split_ifs <;> simp

theorem hiddenSetup_keeps (c : Consts) (p : FORMAT_VOL_PARAMETERS) :
    KeepsHandle (hiddenSetup c p) := by
  intro st
  simp only [hiddenSetup, FormatState.fail, FormatState.emit]
  split_ifs <;> simp

theorem formatDataArea_keeps (c : Consts) (cipher : Cipher) (env : Env)
    (p : FORMAT_VOL_PARAMETERS) (pp : PassParams) :
    KeepsHandle (formatDataArea c cipher env p pp) := by
  intro st
  unfold formatDataArea
  split <;>
    first
      | (simp only [dataAreaNoFs, FormatState.fail, FormatState.emit]
         split_ifs <;> simp)
      | (simp only [dataAreaFat, FormatState.fail, FormatState.emit]
         split_ifs <;> simp)
      | simp [FormatState.fail]

theorem writeBackupHeader_keeps (c : Consts) (env : Env) (p : FORMAT_VOL_PARAMETERS)
    (pp : PassParams) : KeepsHandle (writeBackupHeader c env p pp) := by
  intro st
  simp only [writeBackupHeader, FormatState.fail, FormatState.emit]
  split_ifs <;> simp

theorem fillReservedAreas_keeps (env : Env) (pp : PassParams) :
    KeepsHandle (fillReservedAreas env pp) := by
  intro st
  simp only [fillReservedAreas]
  split_ifs <;> simp

theorem decoyIter_keeps (c : Consts) (env : Env) (p : FORMAT_VOL_PARAMETERS)
    (pp : PassParams) (b : Bool) : KeepsHandle (decoyIter c env p pp b) := by
  intro st
  simp only [decoyIter, FormatState.fail, FormatState.emit]
  split_ifs <;> simp

theorem writeDecoyHeaders_keeps (c : Consts) (env : Env) (p : FORMAT_VOL_PARAMETERS)
    (pp : PassParams) : KeepsHandle (writeDecoyHeaders c env p pp) := by
  unfold writeDecoyHeaders
  split_ifs
  · exact KeepsHandle.idle
  · exact KeepsHandle.compose (fillReservedAreas_keeps env pp)
      (KeepsHandle.compose (decoyIter_keeps c env p pp false) (decoyIter_keeps c env p pp true))

theorem quickFormatPause_keeps (pp : PassParams) : KeepsHandle (quickFormatPause pp) := by
  intro st
  simp only [quickFormatPause, FormatState.emit]
  split_ifs <;> simp

/-- The stages of a pass after the file has been opened keep the handle. -/
theorem afterOpen_keeps (c : Consts) (cipher : Cipher) (env : Env)
    (p : FORMAT_VOL_PARAMETERS) (pp : PassParams) :
    KeepsHandle (andThen (if !p.hiddenVol && !pp.bInstantRetryOtherFilesys
        then filePreallocate c env p pp else fun st => (st, Flow.next))
      (andThen (headerSeek c env p pp)
        (andThen (writePrimaryHeader c env p pp)
          (andThen (hiddenSetup c p)
            (andThen (formatDataArea c cipher env p pp)
              (andThen (writeBackupHeader c env p pp)
                (andThen (writeDecoyHeaders c env p pp) (quickFormatPause pp)))))))) := by
  refine KeepsHandle.compose ?_ ?_
  · split_ifs
    · unfold filePreallocate
      exact KeepsHandle.compose (fileSetSparse_keeps env p pp)
        (KeepsHandle.compose (fileSetSize_keeps c env p pp)
          (KeepsHandle.compose (fileValidData_keeps c env p pp) (fileRewind_keeps env pp)))
    · exact KeepsHandle.idle
  · exact KeepsHandle.compose (headerSeek_keeps c env p pp)
      (KeepsHandle.compose (writePrimaryHeader_keeps c env p pp)
        (KeepsHandle.compose (hiddenSetup_keeps c p)
          (KeepsHandle.compose (formatDataArea_keeps c cipher env p pp)
            (KeepsHandle.compose (writeBackupHeader_keeps c env p pp)
              (KeepsHandle.compose (writeDecoyHeaders_keeps c env p pp)
                (quickFormatPause_keeps pp))))))

theorem andThen_assoc (f g h : FormatState → FormatState × Flow) (st : FormatState) :
    andThen (andThen f g) h st = andThen f (andThen g h) st := by
  simp only [andThen]
  split_ifs <;> simp_all

/-- A pass over the container file of a standard volume, entered without a handle: it does
not return from the function, and at the label `error:` either the handle is valid or the
last event is the failed attempt to open the file. -/
theorem passBody_file (c : Consts) (cipher : Cipher) (env : Env)
    (p : FORMAT_VOL_PARAMETERS) (pp : PassParams) (hd : p.bDevice = false)
    (hh : p.hiddenVol = false) (st : FormatState) (h1 : st.dev = false)
    (h2 : st.dosDev = false) (h3 : st.bTimeStampValid = false) :
    (passBody c cipher env p pp st).2 ≠ Flow.ret
      ∧ (passBody c cipher env p pp st).1.dosDev = false
      ∧ (passBody c cipher env p pp st).1.bTimeStampValid = false
      ∧ ((passBody c cipher env p pp st).1.dev = true
        ∨ ((passBody c cipher env p pp st).1.dev = false
          ∧ (passBody c cipher env p pp st).1.trace = st.trace
              ++ [Event.CreateFile pp.bInstantRetryOtherFilesys
                    (!pp.bInstantRetryOtherFilesys) false])) := by
  have hk := afterOpen_keeps c cipher env p pp
  have hpb : passBody c cipher env p pp st
      = andThen (fileOpen env p pp)
          (andThen (if !p.hiddenVol && !pp.bInstantRetryOtherFilesys
              then filePreallocate c env p pp else fun st => (st, Flow.next))
            (andThen (headerSeek c env p pp)
              (andThen (writePrimaryHeader c env p pp)
                (andThen (hiddenSetup c p)
                  (andThen (formatDataArea c cipher env p pp)
                    (andThen (writeBackupHeader c env p pp)
                      (andThen (writeDecoyHeaders c env p pp) (quickFormatPause pp)))))))) st := by
    unfold passBody acquireTarget
    rw [if_neg (by simp [hd])]
    unfold acquireFile
    rw [andThen_assoc]
  rw [hpb]
  by_cases hc : env.CreateFile pp.pass = true
  · have hf : fileOpen env p pp st
        = ({ st with dev := true,
                     trace := st.trace
                       ++ [Event.CreateFile (p.hiddenVol || pp.bInstantRetryOtherFilesys)
                            (!(p.hiddenVol || pp.bInstantRetryOtherFilesys)) true,
                          Event.DisableFileCompression] }, Flow.next) := by
      simp [fileOpen, hc, hh]
    rw [andThen, hf, if_pos rfl]
    obtain ⟨k1, k2, k3, k4⟩ := hk { st with dev := true,
                                            trace := st.trace
                       ++ [Event.CreateFile (p.hiddenVol || pp.bInstantRetryOtherFilesys)
                            (!(p.hiddenVol || pp.bInstantRetryOtherFilesys)) true,
                          Event.DisableFileCompression] }
    exact ⟨k4, by rw [k2]; exact h2, by rw [k3]; exact h3, Or.inl (by rw [k1])⟩
  · have hf : fileOpen env p pp st
        = st.fail Status.ERR_OS_ERROR
            [Event.CreateFile pp.bInstantRetryOtherFilesys
              (!pp.bInstantRetryOtherFilesys) false] := by
      simp [fileOpen, hc, hh]
    rw [andThen, hf]
    simp only [FormatState.fail]
    rw [if_neg (by decide)]
    exact ⟨(fun h => by cases h), h2, h3, Or.inr ⟨h1, rfl⟩⟩

/-- A last pass over the container file of a standard volume that returns a failure status
ends in one of three ways: the file is truncated and closed; the seek of line 738 fails and
the file is closed as it is; or the file could not be opened. -/
theorem lastPass_file (c : Consts) (cipher : Cipher) (env : Env)
    (p : FORMAT_VOL_PARAMETERS) (pp : PassParams) (hd : p.bDevice = false)
    (hh : p.hiddenVol = false) (st : FormatState) (h1 : st.dev = false)
    (h2 : st.dosDev = false) (h3 : st.bTimeStampValid = false)
    (hfail : (lastPass c cipher env p pp st).nStatus.failed = true) :
    (∃ pre, (lastPass c cipher env p pp st).trace = pre ++ truncatedAndClosed)
      ∨ (∃ pre, (lastPass c cipher env p pp st).trace = pre ++ closedAfterFailedSeek)
      ∨ (∃ pre, (lastPass c cipher env p pp st).trace
          = pre ++ notOpened pp.bInstantRetryOtherFilesys (!pp.bInstantRetryOtherFilesys)) := by
  obtain ⟨k1, k2, k3, k4⟩ := passBody_file c cipher env p pp hd hh st h1 h2 h3
  unfold lastPass at hfail ⊢
  rw [if_neg k1] at hfail ⊢
  have hf : (passBody c cipher env p pp st).1.nStatus.failed = true := by
    simp only [fvEnd, FormatState.emit] at hfail
    rwa [cleanup_nStatus] at hfail
  rcases k4 with k4 | ⟨k4, k5⟩
  · by_cases ht : env.truncateSeek pp.pass = true
    · left
      refine ⟨(passBody c cipher env p pp st).1.trace
        ++ [Event.burn Buf.header, Event.VirtualUnlock Buf.header], ?_⟩
      simp [fvEnd, cleanup, FormatState.emit, k2, k3, k4, hd, hh, hf, ht, truncatedAndClosed]
    · right; left
      refine ⟨(passBody c cipher env p pp st).1.trace
        ++ [Event.burn Buf.header, Event.VirtualUnlock Buf.header], ?_⟩
      simp [fvEnd, cleanup, FormatState.emit, k2, k3, k4, hd, hh, hf, ht, closedAfterFailedSeek]
  · right; right
    refine ⟨st.trace, ?_⟩
    simp [fvEnd, cleanup, FormatState.emit, k2, k3, k4, k5, notOpened]

/-- The external-format stage, entered with status 0, leaves at `fv_end` with status 0 or
with one of the statuses of lines 777, 795 and 829. -/
theorem externalFormat_status (c : Consts) (env : Env) (p : FORMAT_VOL_PARAMETERS)
    (pp : PassParams) (st : FormatState) (h0 : st.nStatus.failed = false)
    (hf : (externalFormat c env p pp st).1.nStatus.failed = true) :
    pp.fileSystem.external = true
      ∧ (externalFormat c env p pp st).1.nStatus.isExternalFormatFailure = true := by
  revert hf
  unfold externalFormat
  by_cases h1 : pp.fileSystem.external = true
  · refine fun hf => ⟨h1, ?_⟩
    revert hf
    rw [if_pos h1]
    unfold externalFormatFailed
    split_ifs <;> intro hf <;>
      first
        | rfl
        | (simp only [FormatState.emit] at hf; rw [h0] at hf; exact absurd hf (by decide))
  · rw [if_neg h1]
    intro hf
    rw [h0] at hf
    exact absurd hf (by decide)

theorem cleanup_closes (env : Env) (p : FORMAT_VOL_PARAMETERS) (pp : PassParams)
    (st : FormatState) :
    (cleanup env p pp st).dev = false ∧ (cleanup env p pp st).dosDev = st.dosDev
      ∧ (cleanup env p pp st).bTimeStampValid = st.bTimeStampValid := by
  simp only [cleanup, FormatState.emit]
  split_ifs <;> simp_all

/-- The cleanup of a pass that has not failed does not truncate the file. -/
theorem cleanup_no_truncation (env : Env) (p : FORMAT_VOL_PARAMETERS) (pp : PassParams)
    (st : FormatState) (h : st.nStatus.failed = false) :
    ∃ evs, (cleanup env p pp st).trace = st.trace ++ evs ∧ Event.SetEndOfFile ∉ evs := by
  simp only [cleanup, FormatState.emit, h, Bool.and_false, Bool.false_eq_true, if_false]
  split_ifs <;>
    first
      | exact ⟨_, rfl, by simp⟩
      | (simp only [List.append_assoc]
         exact ⟨_, rfl, by simp⟩)

theorem passEvent_not_setEndOfFile (c : Consts) (p : FORMAT_VOL_PARAMETERS) (pp : PassParams)
    (e : Event) (h : passEvent c p pp e) : e ≠ Event.SetEndOfFile := by
  intro he
  subst he
  simp [passEvent, acquireEvent, headerSeekEvent, primaryEvent, dataAreaEvent,
    fillEvent, backupEvent, decoyEvent] at h

/-- A run that ends at `fv_end` after a pass that has not failed has not truncated the
file. -/
theorem single_pass_not_truncated (c : Consts) (cipher : Cipher) (env : Env)
    (p : FORMAT_VOL_PARAMETERS) (pp : PassParams) (st : FormatState)
    (h0 : Event.SetEndOfFile ∉ st.trace)
    (hok : (passBody c cipher env p pp st).1.nStatus.failed = false)
    (hB : (externalFormat c env p pp (cleanup env p pp (passBody c cipher env p pp st).1)).2
        = PassOutcome.fv_end) :
    Event.SetEndOfFile ∉ (fvEnd (externalFormat c env p pp
      (cleanup env p pp (passBody c cipher env p pp st).1)).1).trace := by
  obtain ⟨_, evs, hevs, hevs'⟩ := passBody_frame c cipher env p pp st
  simp only [] at hevs
  obtain ⟨t1, h1, h1'⟩ := cleanup_no_truncation env p pp (passBody c cipher env p pp st).1 hok
  obtain ⟨_, t2, h2, h2'⟩ := (externalFormat_tail c env p pp
    (cleanup env p pp (passBody c cipher env p pp st).1) { p with bDevice := true }).1 hB
  obtain ⟨_, t3, h3, h3'⟩ := fvEnd_tail { p with bDevice := true } (externalFormat c env p pp
    (cleanup env p pp (passBody c cipher env p pp st).1)).1
  rw [h3, h2, h1, hevs]
  intro h
  simp only [List.mem_append] at h
  rcases h with (((h | h) | h) | h) | h
  · exact h0 h
  · exact passEvent_not_setEndOfFile c p pp _ (hevs' _ h) rfl
  · exact h1' h
  · have := h2' _ h
    simp [tailEvent] at this
  · have := h3' _ h
    simp [tailEvent] at this

/-- A property of events holds throughout the trace of `TCFormatVolume` when it holds for
the events of the prologue, of a pass, and of the end of the function. -/
theorem TCFormatVolume_events (c : Consts) (cipher : Cipher) (env : Env) (fuel : Nat)
    (p : FORMAT_VOL_PARAMETERS) (G : Event → Prop)
    (hE : G (Event.Error Msg.SECTOR_SIZE_UNSUPPORTED))
    (hB : ∀ e ∈ buildPrimaryEvents env ++ [Event.burn Buf.header, Event.VirtualUnlock Buf.header],
      G e)
    (hP : ∀ pp e, passEvent c p pp e → G e) (hT : ∀ e, tailEvent p e → G e)
    (hM : G retryConfirmed) :
    ∃ r, TCFormatVolume c cipher env (fuel + 2) p = some r ∧ ∀ e ∈ r.trace, G e := by
  have happ : ∀ (t evs tl : List Event) pp, (∀ e ∈ t, G e) → (∀ e ∈ evs, passEvent c p pp e) →
      (∀ e ∈ tl, tailEvent p e) → ∀ e ∈ t ++ evs ++ tl, G e := by
    intro t evs tl pp h1 h2 h3 e he
    rcases List.mem_append.1 he with he | he
    · rcases List.mem_append.1 he with he | he
      · exact h1 e he
      · exact hP pp e (h2 e he)
    · exact hT e (h3 e he)
  refine TCFormatVolume_passes c cipher env fuel p (fun r => ∀ e ∈ r.trace, G e) ?_ ?_ ?_ ?_
  · intro e he
    rw [List.mem_singleton.1 he]
    exact hE
  · intro e he
    simp at he
  · intro s _
    exact hB
  intro cryptoInfo st _ _ hst
  have h0 : ∀ e ∈ st.trace, G e := by
    intro e he
    rw [hst] at he
    exact hB e (List.mem_append_left _ he)
  obtain ⟨_, evs, hevs, hevs'⟩ := passBody_frame c cipher env p (firstPass p) st
  simp only [] at hevs
  refine ⟨?_, ?_, ?_⟩
  · intro _
    obtain ⟨evs, tl, _, h2, h3, h4⟩ := lastPass_trace c cipher env p (firstPass p) st
    simp only [FormatState.result]
    rw [h2]
    exact happ _ _ _ _ h0 h3 h4
  · intro _ _ hB
    obtain ⟨tl, h1, h2⟩ := single_pass_trace c cipher env p (firstPass p) st hB
    simp only [FormatState.result]
    rw [h1, hevs]
    exact happ _ _ _ _ h0 hevs' h2
  · intro _ _ hC
    obtain ⟨tl, h1, h2⟩ := retry_state c cipher env p (firstPass p) st hC
    rw [h1]
    obtain ⟨evs2, tl2, _, h3, h4, h5⟩ := lastPass_trace c cipher env p (retryParams (firstPass p))
      { cleanup env p (firstPass p) (passBody c cipher env p (firstPass p) st).1 with
        quickFormat := true,
        trace := (passBody c cipher env p (firstPass p) st).1.trace ++ tl ++ [retryConfirmed] }
    simp only [FormatState.result]
    rw [h3]
    refine happ _ _ _ _ ?_ h4 h5
    intro e he
    rcases List.mem_append.1 he with he | he
    · rw [hevs] at he
      exact happ _ _ _ _ h0 hevs' h2 e he
    · rw [List.mem_singleton.1 he]
      exact hM

/-- Counterexample to C14: an NTFS request for a new container file whose external format
fails and whose retry is declined returns `ERR_DONT_REPORT` after the file was created and
closed, without `SetEndOfFile`; and a hidden-volume request whose seek to the data area
fails returns `ERR_OS_ERROR` after the host file was opened and closed, without
`SetEndOfFile`. -/
theorem failed_file_not_truncated :
    (TCFormatVolume veraCryptConsts testCipher declinedRetryEnv 2 ntfsParams).map
        (fun r => (r.nStatus, decide (Event.CreateFile false true true ∈ r.trace),
          decide (Event.CloseHandle ∈ r.trace), decide (Event.SetEndOfFile ∈ r.trace)))
      = some (Status.ERR_DONT_REPORT, true, true, false)
    ∧ (TCFormatVolume veraCryptConsts testCipher seekFailsEnv 2 hiddenTestParams).map
        (fun r => (r.nStatus, decide (Event.CreateFile true false true ∈ r.trace),
          decide (Event.CloseHandle ∈ r.trace), decide (Event.SetEndOfFile ∈ r.trace)))
      = some (Status.ERR_OS_ERROR, true, true, false) := by
  constructor <;> decide

/-- C14 (amended): `SetEndOfFile` is called only on the container file of a standard volume,
never on a device and never on the host file of a hidden volume.  When a request for a
container file of a standard volume returns a failure status, the call ends in one of these
ways: the last pass truncated the file to length 0 and then flushed and closed it; the seek
of line 738 failed and the file was closed as it was; the last pass could not open the file;
the failure is one of the external-format stage (`ERR_NO_FREE_DRIVES`,
`ERR_VOL_MOUNT_FAILED`, `ERR_DONT_REPORT`), set after the file was closed, and the file was
not truncated; or the call returned before it created the file. -/
theorem failed_file_truncation (c : Consts) (cipher : Cipher) (env : Env) (fuel : Nat)
    (p : FORMAT_VOL_PARAMETERS) :
    ∃ r, TCFormatVolume c cipher env (fuel + 2) p = some r
      ∧ (Event.SetEndOfFile ∈ r.trace → p.bDevice = false ∧ p.hiddenVol = false)
      ∧ (p.bDevice = false → p.hiddenVol = false → r.nStatus.failed = true →
          (∃ pre, r.trace = pre ++ truncatedAndClosed)
          ∨ (∃ pre, r.trace = pre ++ closedAfterFailedSeek)
          ∨ (∃ pre shared createAlways, r.trace = pre ++ notOpened shared createAlways)
          ∨ (p.fileSystem.external = true ∧ r.nStatus.isExternalFormatFailure = true
              ∧ Event.SetEndOfFile ∉ r.trace)
          ∨ (∀ shared createAlways ok, Event.CreateFile shared createAlways ok ∉ r.trace)) := by
  obtain ⟨r1, hr1, ha⟩ := TCFormatVolume_events c cipher env fuel p
    (fun e => e = Event.SetEndOfFile → p.bDevice = false ∧ p.hiddenVol = false)
    (fun h => by cases h)
    (fun e he h => by subst h; simp [buildPrimaryEvents] at he)
    (fun pp e he h => absurd h (passEvent_not_setEndOfFile c p pp e he))
    (fun e he h => by subst h; simpa [tailEvent] using he)
    (fun h => by simp [retryConfirmed] at h)
  obtain ⟨r2, hr2, hb⟩ := TCFormatVolume_passes c cipher env fuel p (fun r =>
      p.bDevice = false → p.hiddenVol = false → r.nStatus.failed = true →
        (∃ pre, r.trace = pre ++ truncatedAndClosed)
        ∨ (∃ pre, r.trace = pre ++ closedAfterFailedSeek)
        ∨ (∃ pre shared createAlways, r.trace = pre ++ notOpened shared createAlways)
        ∨ (p.fileSystem.external = true ∧ r.nStatus.isExternalFormatFailure = true
            ∧ Event.SetEndOfFile ∉ r.trace)
        ∨ (∀ shared createAlways ok, Event.CreateFile shared createAlways ok ∉ r.trace))
    (fun _ _ _ => Or.inr (Or.inr (Or.inr (Or.inr (by simp)))))
    (fun _ _ _ => Or.inr (Or.inr (Or.inr (Or.inr (by simp)))))
    (fun s _ _ _ _ => Or.inr (Or.inr (Or.inr (Or.inr (by simp [buildPrimaryEvents])))))
    (by
      intro cryptoInfo st _ _ hst
      have d1 : st.dev = false := by rw [hst]; rfl
      have d2 : st.dosDev = false := by rw [hst]; rfl
      have d3 : st.bTimeStampValid = false := by rw [hst]; rfl
      have d4 : Event.SetEndOfFile ∉ st.trace := by
        rw [hst]; simp [stateAtBeginFormat, buildPrimaryEvents]
      refine ⟨?_, ?_, ?_⟩
      · intro _ hd hh hfail
        rcases lastPass_file c cipher env p (firstPass p) hd hh st d1 d2 d3 hfail with h | h | h
        · exact Or.inl h
        · exact Or.inr (Or.inl h)
        · obtain ⟨pre, h⟩ := h
          exact Or.inr (Or.inr (Or.inl ⟨pre, _, _, h⟩))
      · intro _ hok hB hd hh hfail
        have h0 : (cleanup env p (firstPass p)
            (passBody c cipher env p (firstPass p) st).1).nStatus.failed = false := by
          rw [cleanup_nStatus]; exact hok
        have hf : (externalFormat c env p (firstPass p) (cleanup env p (firstPass p)
            (passBody c cipher env p (firstPass p) st).1)).1.nStatus.failed = true := hfail
        obtain ⟨e1, e2⟩ := externalFormat_status c env p (firstPass p) _ h0 hf
        exact Or.inr (Or.inr (Or.inr (Or.inl ⟨e1, e2,
          single_pass_not_truncated c cipher env p (firstPass p) st d4 hok hB⟩)))
      · intro _ _ hC hd hh hfail
        obtain ⟨tl, h1, _⟩ := retry_state c cipher env p (firstPass p) st hC
        obtain ⟨_, k2, k3, _⟩ := passBody_file c cipher env p (firstPass p) hd hh st d1 d2 d3
        obtain ⟨c1, c2, c3⟩ := cleanup_closes env p (firstPass p)
          (passBody c cipher env p (firstPass p) st).1
        rw [h1] at hfail ⊢
        generalize hst1 : ({ cleanup env p (firstPass p)
            (passBody c cipher env p (firstPass p) st).1 with
          quickFormat := true,
          trace := (passBody c cipher env p (firstPass p) st).1.trace ++ tl ++ [retryConfirmed] }
            : FormatState) = st1 at hfail ⊢
        have e1 : st1.dev = false := by rw [← hst1]; exact c1
        have e2 : st1.dosDev = false := by rw [← hst1]; exact c2.trans k2
        have e3 : st1.bTimeStampValid = false := by rw [← hst1]; exact c3.trans k3
        rcases lastPass_file c cipher env p (retryParams (firstPass p)) hd hh st1 e1 e2 e3
          hfail with h | h | h
        · exact Or.inl h
        · exact Or.inr (Or.inl h)
        · obtain ⟨pre, h⟩ := h
          exact Or.inr (Or.inr (Or.inl ⟨pre, _, _, h⟩)))
  have hr : r1 = r2 := Option.some.inj (hr1.symm.trans hr2)
  subst hr
  exact ⟨r1, hr1, fun h => ha _ h rfl, hb⟩

/-- Witness for C14: a request for a new container file whose seek to the data area fails
returns a failure status, and the trace of the call ends with the truncation of the file,
the flush and the close. -/
theorem failed_file_truncation_witness :
    ∃ r, TCFormatVolume veraCryptConsts testCipher seekFailsEnv 2 testParams = some r
      ∧ r.nStatus.failed = true
      ∧ (Event.SetEndOfFile ∈ r.trace → testParams.bDevice = false ∧ testParams.hiddenVol = false)
      ∧ r.trace.drop (r.trace.length - 5) = truncatedAndClosed := by
  obtain ⟨r, h1, h2, _⟩ :=
    failed_file_truncation veraCryptConsts testCipher seekFailsEnv 0 testParams
  have hx : (TCFormatVolume veraCryptConsts testCipher seekFailsEnv 2 testParams).map
      (fun r => (r.nStatus.failed, r.trace.drop (r.trace.length - 5)))
      = some (true, truncatedAndClosed) := by decide
  rw [h1] at hx
  simp only [Option.map_some', Option.some.injEq, Prod.mk.injEq] at hx
  exact ⟨r, h1, hx.1, h2, hx.2⟩

/-! ## The retry edge is taken at most once -/

/-- Two passes are enough: more fuel does not change the result of the loop. -/
theorem formatLoop_fuel (c : Consts) (cipher : Cipher) (env : Env) (p : FORMAT_VOL_PARAMETERS)
    (fuel : Nat) (pp : PassParams) (st : FormatState) :
    formatLoop c cipher env p (fuel + 2) pp st = formatLoop c cipher env p 2 pp st := by
  rw [formatLoop, formatLoop]
  simp only []
  split_ifs
  · rfl
  · rfl
  · split
    · rfl
    · rw [formatLoop_retry_eq, formatLoop_retry_eq c cipher env p 0]

theorem TCFormatVolume_fuel (c : Consts) (cipher : Cipher) (env : Env) (fuel : Nat)
    (p : FORMAT_VOL_PARAMETERS) :
    TCFormatVolume c cipher env (fuel + 2) p = TCFormatVolume c cipher env 2 p := by
  simp only [TCFormatVolume, formatLoop_fuel]

theorem count_zero_of_pass (c : Consts) (p : FORMAT_VOL_PARAMETERS) (pp : PassParams)
    (t evs tl : List Event) (ht : retryConfirmed ∉ t)
    (h1 : ∀ e ∈ evs, passEvent c p pp e) (h2 : ∀ e ∈ tl, tailEvent p e) :
    (t ++ evs ++ tl).count retryConfirmed = 0 :=
  List.count_eq_zero.2 (not_retryConfirmed_of_pass c p pp t evs tl ht h1 h2)

/-- C21: in every run of `TCFormatVolume`, whatever the collaborators and the user answer,
the jump back to `begin_format` happens at most once: the confirmation of the retry, which
precedes every jump, occurs at most once in the trace.  After the jump the file system is
FAT, for which the external-format stage ends at `fv_end`.  Hence two passes are enough: the
call returns a result within two passes, and allowing more passes does not change it. -/
theorem retry_edge_at_most_once (c : Consts) (cipher : Cipher) (env : Env) (fuel : Nat)
    (p : FORMAT_VOL_PARAMETERS) :
    (∃ r, TCFormatVolume c cipher env 2 p = some r
        ∧ TCFormatVolume c cipher env (fuel + 2) p = some r
        ∧ r.trace.count retryConfirmed ≤ 1)
      ∧ (∀ pp st, (retryParams pp).fileSystem = FileSys.FILESYS_FAT
          ∧ externalFormat c env p (retryParams pp) st = (st, PassOutcome.fv_end)) := by
  refine ⟨?_, fun pp st => ⟨rfl, externalFormat_retryParams c env p pp st⟩⟩
  suffices h : ∃ r, TCFormatVolume c cipher env (0 + 2) p = some r
      ∧ r.trace.count retryConfirmed ≤ 1 by
    obtain ⟨r, h1, h2⟩ := h
    exact ⟨r, h1, by rw [TCFormatVolume_fuel]; exact h1, h2⟩
  refine TCFormatVolume_passes c cipher env 0 p
    (fun r => r.trace.count retryConfirmed ≤ 1) ?_ ?_ ?_ ?_
  · simp [retryConfirmed]
  · simp
  · intro s _
    simp [retryConfirmed, buildPrimaryEvents]
  intro cryptoInfo st _ _ hst
  obtain ⟨hm0, _, _⟩ := stateAtBeginFormat_trace env p cryptoInfo
  rw [← hst] at hm0
  obtain ⟨_, evs, hevs, hevs'⟩ := passBody_frame c cipher env p (firstPass p) st
  simp only [] at hevs
  refine ⟨?_, ?_, ?_⟩
  · intro _
    obtain ⟨evs, tl, _, h2, h3, h4⟩ := lastPass_trace c cipher env p (firstPass p) st
    simp only [FormatState.result]
    rw [h2, count_zero_of_pass c p _ _ _ _ hm0 h3 h4]
    exact Nat.zero_le _
  · intro _ _ hB
    obtain ⟨tl, h1, h2⟩ := single_pass_trace c cipher env p (firstPass p) st hB
    simp only [FormatState.result]
    rw [h1, hevs, count_zero_of_pass c p _ _ _ _ hm0 hevs' h2]
    exact Nat.zero_le _
  · intro _ _ hC
    obtain ⟨tl, h1, h2⟩ := retry_state c cipher env p (firstPass p) st hC
    rw [h1]
    generalize hst1 : ({ cleanup env p (firstPass p) (passBody c cipher env p (firstPass p) st).1 with
      quickFormat := true,
      trace := (passBody c cipher env p (firstPass p) st).1.trace ++ tl ++ [retryConfirmed] }
        : FormatState) = st1
    have ht1 : st1.trace
        = (passBody c cipher env p (firstPass p) st).1.trace ++ tl ++ [retryConfirmed] := by
      rw [← hst1]
    obtain ⟨evs2, tl2, _, h3, h4, h5⟩ :=
      lastPass_trace c cipher env p (retryParams (firstPass p)) st1
    have hpre : ((passBody c cipher env p (firstPass p) st).1.trace ++ tl).count retryConfirmed
        = 0 := by
      rw [hevs]
      exact count_zero_of_pass c p _ _ _ _ hm0 hevs' h2
    have hpost : ([] ++ evs2 ++ tl2).count retryConfirmed = 0 :=
      count_zero_of_pass c p _ _ _ _ (by simp) h4 h5
    simp only [FormatState.result]
    rw [h3, ht1]
    simp only [List.nil_append] at hpost
    simp only [List.append_assoc, List.count_append] at hpre hpost ⊢
    simp only [List.count_singleton_self]
    omega

/-- Witness for C21: the NTFS request whose external format fails and whose retry is
confirmed takes the retry edge exactly once; one pass is not enough for it, two passes are,
and more passes give the same result. -/
theorem retry_edge_at_most_once_witness :
    TCFormatVolume veraCryptConsts testCipher retryEnv 1 ntfsParams = none
      ∧ ∃ r, TCFormatVolume veraCryptConsts testCipher retryEnv 2 ntfsParams = some r
        ∧ TCFormatVolume veraCryptConsts testCipher retryEnv 7 ntfsParams = some r
        ∧ r.trace.count retryConfirmed = 1 := by
  obtain ⟨r, h1, h2, _⟩ :=
    (retry_edge_at_most_once veraCryptConsts testCipher retryEnv 5 ntfsParams).1
  have hx : (TCFormatVolume veraCryptConsts testCipher retryEnv 2 ntfsParams).map
      (fun r => r.trace.count retryConfirmed) = some 1 := by decide
  rw [h1] at hx
  simp only [Option.map_some', Option.some.injEq] at hx
  exact ⟨by decide, r, h1, h2, hx⟩

end VeraCrypt
